import Mathlib

/-!
The sheet assembly and processing pipeline of unpaper.

A shallow embedding of `main` of `src/unpaper.c` (the sheet loop, lines 1034-2033):
file-name resolution per sheet, sheet-size determination, layout defaults, the
ordered processing stages, the deskew compositing step and the output split.

Conventions of the embedding.

* C `int` values are `Int`; values are assumed to stay in the range of `int`
  (signed overflow is undefined in C and is not modelled).
* C integer division truncates toward zero and is written `Int.tdiv`.
* The fixed arrays `point`, `mask`, `wipe`, ... together with their counters are
  lists; the counter is the length of the list.
* Image primitives that live outside `unpaper.c` are fields of `Env`.
* The program prints what it does; the embedding keeps that as a log of events.
-/

namespace Unpaper

/-! ## Region types -/

/-- One pixel value; the representation of colours is not needed here. -/
abbrev Pixel := Nat

/-- An `AVFrame` as far as `main` looks at it: its size and its pixels. -/
structure Image where
  width : Int
  height : Int
  pix : Int → Int → Pixel

/-- An `int[EDGES_COUNT]` array, indexed by `LEFT`, `TOP`, `RIGHT`, `BOTTOM`. -/
structure Rect where
  left : Int
  top : Int
  right : Int
  bottom : Int
  deriving DecidableEq, Repr

/-- An `int[COORDINATES_COUNT]` array, indexed by `X`, `Y`. -/
structure Pt where
  x : Int
  y : Int
  deriving DecidableEq, Repr

/-- An `int[DIMENSIONS_COUNT]` array, indexed by `WIDTH`, `HEIGHT`. -/
structure Size2 where
  width : Int
  height : Int
  deriving DecidableEq, Repr

/-- The type `Layout` of `options.layout`. -/
inductive Layout where
  | LAYOUT_NONE
  | LAYOUT_SINGLE
  | LAYOUT_DOUBLE
  deriving DecidableEq, Repr

/-- Modelled from the spec: the type `struct MultiIndex` is declared in `parse.h`,
which is not part of the sources. It is a sparse explicit set of sheet numbers
(`indexes`, of which the first `count` are meaningful); `count = -1` is the
sentinel that stands for all sheets (`main` prints "DISABLED for all sheets" for
it, lines 1336-1362, and calls it "exclude all" at line 511). -/
structure MultiIndex where
  count : Int
  indexes : List Int
  deriving DecidableEq, Repr

/-- Modelled from the spec: `isInMultiIndex` is defined in `parse.c`, which is not
part of the sources. The sentinel `count = -1` contains every index, otherwise
the index has to be among the first `count` entries. -/
def isInMultiIndex (index : Int) (multiIndex : MultiIndex) : Bool :=
  if multiIndex.count = -1 then true
  else (multiIndex.indexes.take multiIndex.count.toNat).contains index

/-- Modelled from the spec: `isExcluded` is defined in `parse.c`, which is not part
of the sources. Section 4.4: true if the stage's own set is the "disabled for
all" sentinel or lists the sheet, or if the global ignore set lists the sheet. -/
def isExcluded (index : Int) (multiIndex : MultiIndex) (excludeIndex : MultiIndex) : Bool :=
  isInMultiIndex index excludeIndex || isInMultiIndex index multiIndex

/-- The empty index set (`count = 0`). -/
def MultiIndex.empty : MultiIndex := ⟨0, []⟩

/-- The index set that contains every sheet (`count = -1`). -/
def MultiIndex.all : MultiIndex := ⟨-1, []⟩

/-! ## Configuration -/

/-- The fields of `Options` that `main` reads. -/
structure Options where
  layout : Layout
  startSheet : Int
  endSheet : Int
  startInput : Int
  startOutput : Int
  sheetMultiIndex : MultiIndex
  excludeMultiIndex : MultiIndex
  ignoreMultiIndex : MultiIndex
  insertBlank : MultiIndex
  replaceBlank : MultiIndex
  noBlackfilterMultiIndex : MultiIndex
  noNoisefilterMultiIndex : MultiIndex
  noBlurfilterMultiIndex : MultiIndex
  noGrayfilterMultiIndex : MultiIndex
  noMaskScanMultiIndex : MultiIndex
  noMaskCenterMultiIndex : MultiIndex
  noDeskewMultiIndex : MultiIndex
  noWipeMultiIndex : MultiIndex
  noBorderMultiIndex : MultiIndex
  noBorderScanMultiIndex : MultiIndex
  noBorderAlignMultiIndex : MultiIndex
  deriving DecidableEq, Repr

/-- The global variables of `unpaper.c` (lines 66-142) that the sheet loop reads
or writes, with `options`. The two zoom factors are floats and are part of `Env`. -/
structure Globals where
  options : Options
  inputCount : Nat
  outputCount : Nat
  sheetSize : Size2
  preRotate : Int
  postRotate : Int
  preMirror : Int
  postMirror : Int
  preShift : Size2
  postShift : Size2
  size : Size2
  postSize : Size2
  stretchSize : Size2
  postStretchSize : Size2
  point : List Pt
  mask : List Rect
  wipe : List Rect
  middleWipe : Int × Int
  preWipe : List Rect
  postWipe : List Rect
  preBorder : Rect
  postBorder : Rect
  border : Rect
  preMask : List Rect
  blackfilterExclude : List Rect
  maskScanMinimum : Size2
  maskScanMaximum : Size2
  outsideBorderscanMask : List Rect
  writeoutput : Bool
  multisheets : Bool
  overwrite : Bool
  deriving DecidableEq, Repr

/-- The counter `pointCount`. -/
def Globals.pointCount (g : Globals) : Nat := g.point.length

/-- The counter `maskCount`. -/
def Globals.maskCount (g : Globals) : Nat := g.mask.length

/-- The counter `wipeCount`. -/
def Globals.wipeCount (g : Globals) : Nat := g.wipe.length

/-- The counter `blackfilterExcludeCount`. -/
def Globals.blackfilterExcludeCount (g : Globals) : Nat := g.blackfilterExclude.length

/-- The counter `outsideBorderscanMaskCount`. -/
def Globals.outsideBorderscanMaskCount (g : Globals) : Nat := g.outsideBorderscanMask.length

/-- The values `optionsInit` and the initialisers of lines 66-142 give: layout
single, start sheet 1, nothing else set. -/
def Options.default : Options :=
  { layout := Layout.LAYOUT_SINGLE, startSheet := 1, endSheet := -1, startInput := -1,
    startOutput := -1, sheetMultiIndex := MultiIndex.all,
    excludeMultiIndex := MultiIndex.empty, ignoreMultiIndex := MultiIndex.empty,
    insertBlank := MultiIndex.empty, replaceBlank := MultiIndex.empty,
    noBlackfilterMultiIndex := MultiIndex.empty, noNoisefilterMultiIndex := MultiIndex.empty,
    noBlurfilterMultiIndex := MultiIndex.empty, noGrayfilterMultiIndex := MultiIndex.empty,
    noMaskScanMultiIndex := MultiIndex.empty, noMaskCenterMultiIndex := MultiIndex.empty,
    noDeskewMultiIndex := MultiIndex.empty, noWipeMultiIndex := MultiIndex.empty,
    noBorderMultiIndex := MultiIndex.empty, noBorderScanMultiIndex := MultiIndex.empty,
    noBorderAlignMultiIndex := MultiIndex.empty }

/-- The initial values of the globals, lines 66-142. -/
def Globals.default : Globals :=
  { options := Options.default, inputCount := 1, outputCount := 1,
    sheetSize := ⟨-1, -1⟩, preRotate := 0, postRotate := 0, preMirror := 0, postMirror := 0,
    preShift := ⟨0, 0⟩, postShift := ⟨0, 0⟩, size := ⟨-1, -1⟩, postSize := ⟨-1, -1⟩,
    stretchSize := ⟨-1, -1⟩, postStretchSize := ⟨-1, -1⟩, point := [], mask := [],
    wipe := [], middleWipe := (0, 0), preWipe := [], postWipe := [],
    preBorder := ⟨0, 0, 0, 0⟩, postBorder := ⟨0, 0, 0, 0⟩, border := ⟨0, 0, 0, 0⟩,
    preMask := [], blackfilterExclude := [], maskScanMinimum := ⟨100, 100⟩,
    maskScanMaximum := ⟨-1, -1⟩, outsideBorderscanMask := [], writeoutput := true,
    multisheets := true, overwrite := false }

/-! ## Layout configuration (lines 1579-1681)

Each guarded assignment of the block is one function, in the order of the source. -/

/-- Lines 1584-1588: the middle of the sheet as the single scan point. -/
def singlePoint (g : Globals) (sheet : Image) : Globals :=
  if g.pointCount = 0 then
    { g with point := g.point ++ [⟨Int.tdiv sheet.width 2, Int.tdiv sheet.height 2⟩] }
  else g

/-- Lines 1589-1591 and 1628-1630: the default width of the mask-scan maximum. -/
def defaultMaskScanMaximumWidth (g : Globals) (width : Int) : Globals :=
  if g.maskScanMaximum.width = -1 then
    { g with maskScanMaximum := { g.maskScanMaximum with width := width } }
  else g

/-- Lines 1592-1594 and 1631-1633: the default height of the mask-scan maximum. -/
def defaultMaskScanMaximumHeight (g : Globals) (height : Int) : Globals :=
  if g.maskScanMaximum.height = -1 then
    { g with maskScanMaximum := { g.maskScanMaximum with height := height } }
  else g

/-- Lines 1595-1605: avoid inner half of the sheet to be blackfilter-detectable. -/
def singleBlackfilterExclude (g : Globals) (sheet : Image) : Globals :=
  if g.blackfilterExcludeCount = 0 then
    { g with blackfilterExclude := g.blackfilterExclude ++
        [⟨Int.tdiv sheet.width 4, Int.tdiv sheet.height 4,
          Int.tdiv sheet.width 2 + Int.tdiv sheet.width 4,
          Int.tdiv sheet.height 2 + Int.tdiv sheet.height 4⟩] }
  else g

/-- Lines 1606-1614: the single outside border to start the border scan from. -/
def singleOutsideBorderscanMask (g : Globals) (sheet : Image) : Globals :=
  if g.outsideBorderscanMaskCount = 0 then
    { g with outsideBorderscanMask := [⟨0, 0, sheet.width - 1, sheet.height - 1⟩] }
  else g

/-- The branch `options.layout == LAYOUT_SINGLE`, lines 1582-1614. -/
def layoutSingle (g : Globals) (sheet : Image) : Globals :=
  singleOutsideBorderscanMask
    (singleBlackfilterExclude
      (defaultMaskScanMaximumHeight
        (defaultMaskScanMaximumWidth (singlePoint g sheet) sheet.width) sheet.height)
      sheet)
    sheet

/-- Lines 1620-1627: the middles of the left and the right half as scan points. -/
def doublePoint (g : Globals) (sheet : Image) : Globals :=
  if g.pointCount = 0 then
    { g with point := (g.point ++ [⟨Int.tdiv sheet.width 4, Int.tdiv sheet.height 2⟩])
        ++ [⟨sheet.width - Int.tdiv sheet.width 4, Int.tdiv sheet.height 2⟩] }
  else g

/-- Lines 1634-1640: the wipe of the middle band. -/
def doubleMiddleWipe (g : Globals) (sheet : Image) : Globals :=
  if g.middleWipe.1 > 0 ∨ g.middleWipe.2 > 0 then
    { g with wipe := g.wipe ++
        [⟨Int.tdiv sheet.width 2 - g.middleWipe.1, 0,
          Int.tdiv sheet.width 2 + g.middleWipe.2, sheet.height - 1⟩] }
  else g

/-- Lines 1641-1659: avoid inner half of each page to be blackfilter-detectable. -/
def doubleBlackfilterExclude (g : Globals) (sheet : Image) : Globals :=
  if g.blackfilterExcludeCount = 0 then
    { g with blackfilterExclude := (g.blackfilterExclude ++
        [⟨Int.tdiv sheet.width 8, Int.tdiv sheet.height 4,
          Int.tdiv sheet.width 4 + Int.tdiv sheet.width 8,
          Int.tdiv sheet.height 2 + Int.tdiv sheet.height 4⟩]) ++
        [⟨Int.tdiv sheet.width 2 + Int.tdiv sheet.width 8, Int.tdiv sheet.height 4,
          Int.tdiv sheet.width 2 + Int.tdiv sheet.width 4 + Int.tdiv sheet.width 8,
          Int.tdiv sheet.height 2 + Int.tdiv sheet.height 4⟩] }
  else g

/-- Lines 1660-1672: the two outside borders to start the border scan from. -/
def doubleOutsideBorderscanMask (g : Globals) (sheet : Image) : Globals :=
  if g.outsideBorderscanMaskCount = 0 then
    { g with outsideBorderscanMask :=
        [⟨0, 0, Int.tdiv sheet.width 2, sheet.height - 1⟩,
         ⟨Int.tdiv sheet.width 2, 0, sheet.width - 1, sheet.height - 1⟩] }
  else g

/-- The branch `options.layout == LAYOUT_DOUBLE`, lines 1617-1673. -/
def layoutDouble (g : Globals) (sheet : Image) : Globals :=
  doubleOutsideBorderscanMask
    (doubleBlackfilterExclude
      (doubleMiddleWipe
        (defaultMaskScanMaximumHeight
          (defaultMaskScanMaximumWidth (doublePoint g sheet) (Int.tdiv sheet.width 2))
          sheet.height)
        sheet)
      sheet)
    sheet

/-- Lines 1676-1678: the fallback for the width of the mask-scan maximum; the test
reads `maskScanMinimum`. -/
def fallbackMaskScanMaximumWidth (g : Globals) (sheet : Image) : Globals :=
  if g.maskScanMinimum.width = -1 then
    { g with maskScanMaximum := { g.maskScanMaximum with width := sheet.width } }
  else g

/-- Lines 1679-1681: the fallback for the height of the mask-scan maximum; the test
reads `maskScanMinimum`. -/
def fallbackMaskScanMaximumHeight (g : Globals) (sheet : Image) : Globals :=
  if g.maskScanMinimum.height = -1 then
    { g with maskScanMaximum := { g.maskScanMaximum with height := sheet.height } }
  else g

/-- The layout branch of lines 1582-1673. -/
def layoutBranch (g : Globals) (sheet : Image) : Globals :=
  match g.options.layout with
  | Layout.LAYOUT_SINGLE => layoutSingle g sheet
  | Layout.LAYOUT_DOUBLE => layoutDouble g sheet
  | Layout.LAYOUT_NONE => g

/-- The whole block "handle sheet layout", lines 1579-1681: the layout branch,
then the fallback for the mask-scan maximum. -/
def layoutConfig (g : Globals) (sheet : Image) : Globals :=
  fallbackMaskScanMaximumHeight
    (fallbackMaskScanMaximumWidth (layoutBranch g sheet) sheet) sheet

/-! ## The environment: primitives defined outside `unpaper.c` -/

/-- The collaborators of `main`: the C library, the file system, the image codec and
the image primitives of `imageprocess.h`. In-place primitives (they receive an
`AVFrame *`) can only change pixels, so they are given as the new pixel content;
detectors are given as functions of the globals and the sheet. `Angle` is the
type of the detected rotation (`float` in C). -/
structure Env (Angle : Type) where
  /-- The call `sprintf(buffer, pattern, nr)` with one integer argument. -/
  sprintf : String → Int → String
  /-- The files that exist when the run starts: the test `stat(name, &statBuf) == 0`
  before `main` has written any file. -/
  fileExists : String → Bool
  /-- Width and height of the image in a file that exists when the run starts. -/
  pageSize : String → Nat × Nat
  /-- Pixels of the image in a file that exists when the run starts. -/
  pagePix : String → Int → Int → Pixel
  /-- The pixel `sheetBackgroundPixel`. -/
  background : Pixel
  /-- Content of a buffer that `initImage` allocates without filling it. -/
  unfilled : Int → Int → Pixel
  /-- The statement `w *= zoomFactor` on an `int`. -/
  zoom : Int → Int
  /-- The statement `w *= postZoomFactor` on an `int`. -/
  postZoom : Int → Int
  flipRotatePix : Int → Image → Int → Int → Pixel
  centerImagePix : Image → Int → Int → Int → Int → Image → Int → Int → Pixel
  mirrorPix : Int → Image → Int → Int → Pixel
  shiftPix : Int → Int → Image → Int → Int → Pixel
  applyMasksPix : List Rect → Image → Int → Int → Pixel
  applyWipesPix : List Rect → Image → Int → Int → Pixel
  applyBorderPix : Rect → Image → Int → Int → Pixel
  stretchPix : Int → Int → Image → Int → Int → Pixel
  resizePix : Int → Int → Image → Int → Int → Pixel
  blackfilterPix : Globals → Image → Int → Int → Pixel
  noisefilterPix : Globals → Image → Int → Int → Pixel
  blurfilterPix : Globals → Image → Int → Int → Pixel
  grayfilterPix : Globals → Image → Int → Int → Pixel
  /-- The mask list (`mask`, `maskCount`) that `detectMasks` leaves. -/
  detectMasks : Globals → Image → List Rect
  detectRotation : Globals → Image → Rect → Angle
  rotatePix : Angle → Image → Image → Int → Int → Pixel
  centerMaskPix : Image → Pt → Rect → Int → Int → Pixel
  detectBorder : Globals → Rect → Image → Rect
  borderToMask : Rect → Image → Rect
  alignMaskPix : Globals → Rect → Rect → Image → Int → Int → Pixel

/-- An in-place primitive: same frame, new pixels. -/
def Image.withPix (img : Image) (pix : Int → Int → Pixel) : Image :=
  { img with pix := pix }

section Primitives

variable {Angle : Type}

/-- Modelled from the spec: `initImage` is defined in `imageprocess.c`, which is not
part of the sources. It allocates a buffer of the given size, filled with the
background colour when `fill` is set. -/
def initImage (env : Env Angle) (width height : Int) (fill : Bool) : Image :=
  { width := width, height := height,
    pix := if fill then fun _ _ => env.background else env.unfilled }

/-- Modelled from the spec: `loadImage` is defined in `file.c`, which is not part of
the sources. It yields the page stored under the name: the page that `saveImage`
has written last under that name in this run (`written`, the last one first), or
else the content the file has when the run starts. A file holds a width and a
height that are not negative. -/
def loadImage (env : Env Angle) (written : List (String × Image)) (name : String) : Image :=
  match written.lookup name with
  | some page => { width := page.width.toNat, height := page.height.toNat, pix := page.pix }
  | none =>
    { width := (env.pageSize name).1, height := (env.pageSize name).2, pix := env.pagePix name }

/-- Modelled from the spec: `flipRotate` is defined in `imageprocess.c`, which is not
part of the sources. A quarter turn (the only calls are with `1` and `-1`)
exchanges width and height. -/
def flipRotate (env : Env Angle) (direction : Int) (img : Image) : Image :=
  { width := img.height, height := img.width, pix := env.flipRotatePix direction img }

/-- Modelled from the spec: `stretch` is defined in `imageprocess.c`, which is not
part of the sources. It resamples the image to the target dimensions. -/
def stretch (env : Env Angle) (w h : Int) (img : Image) : Image :=
  { width := w, height := h, pix := env.stretchPix w h img }

/-- Modelled from the spec: `resize` is defined in `imageprocess.c`, which is not
part of the sources. The result has the target dimensions. -/
def resize (env : Env Angle) (w h : Int) (img : Image) : Image :=
  { width := w, height := h, pix := env.resizePix w h img }

/-- Modelled from the spec: `shift` is defined in `imageprocess.c`, which is not part
of the sources. It moves the content inside a frame of the same size. -/
def shift (env : Env Angle) (shiftX shiftY : Int) (img : Image) : Image :=
  { width := img.width, height := img.height, pix := env.shiftPix shiftX shiftY img }

/-- The type `Rectangle` of `imageprocess/blit.h`: two vertices, both inclusive. -/
structure Rectangle where
  vertex0 : Pt
  vertex1 : Pt
  deriving DecidableEq, Repr

/-- The constant `POINT_ORIGIN`. -/
def POINT_ORIGIN : Pt := ⟨0, 0⟩

/-- The constant `POINT_INFINITY`, both coordinates `INT32_MAX`. -/
def POINT_INFINITY : Pt := ⟨2147483647, 2147483647⟩

/-- The constant `RECT_FULL_IMAGE`. -/
def RECT_FULL_IMAGE : Rectangle := ⟨POINT_ORIGIN, POINT_INFINITY⟩

/-- Modelled from the spec: `clip_rectangle` is defined in `imageprocess/blit.c`,
which is not part of the sources. It restricts an area to the image. -/
def clip_rectangle (img : Image) (area : Rectangle) : Rectangle :=
  ⟨⟨max area.vertex0.x 0, max area.vertex0.y 0⟩,
   ⟨min area.vertex1.x (img.width - 1), min area.vertex1.y (img.height - 1)⟩⟩

/-- Modelled from the spec: `copy_rectangle` is defined in `imageprocess/blit.c`,
which is not part of the sources. Section 6: "rectangle copy/composite with
background-threshold-based clipping". The source area is clipped to the source
image, its pixels are written to the target starting at `target_coords`, and
writes that fall outside the target are dropped. The threshold only selects how
a pixel value is stored and is left out. -/
def copy_rectangle (source target : Image) (source_area : Rectangle) (target_coords : Pt) :
    Image :=
  let area := clip_rectangle source source_area
  target.withPix fun x y =>
    let sX := area.vertex0.x + (x - target_coords.x)
    let sY := area.vertex0.y + (y - target_coords.y)
    if 0 ≤ x ∧ x < target.width ∧ 0 ≤ y ∧ y < target.height ∧
        area.vertex0.x ≤ sX ∧ sX ≤ area.vertex1.x ∧
        area.vertex0.y ≤ sY ∧ sY ≤ area.vertex1.y then
      source.pix sX sY
    else target.pix x y

/-! ## Deskew of one mask (lines 1794-1831) -/

variable [Zero Angle] [Neg Angle] [DecidableEq Angle]

/-- The buffer `rect` after line 1818: allocated with the size of the mask and
filled from the sheet, starting at the top left corner of the mask. -/
def deskewRect (env : Env Angle) (sheet : Image) (m : Rect) : Image :=
  copy_rectangle sheet
    (initImage env (m.right - m.left + 1) (m.bottom - m.top + 1) false)
    ⟨⟨m.left, m.top⟩, POINT_INFINITY⟩ POINT_ORIGIN

/-- The buffer `rectTarget` after line 1821: allocated with the size of `rect`,
background filled, then the target of `rotate(-rotation, rect, rectTarget)`. -/
def deskewRectTarget (env : Env Angle) (sheet : Image) (m : Rect) (rotation : Angle) : Image :=
  let rect := deskewRect env sheet m
  let rectTarget := initImage env rect.width rect.height true
  rectTarget.withPix (env.rotatePix (-rotation) rect rectTarget)

/-- The two temporary buffers of one pass of the deskew loop, if it allocates them. -/
def deskewBuffers (env : Env Angle) (g : Globals) (sheet : Image) (m : Rect) :
    Option (Image × Image) :=
  let rotation := env.detectRotation g sheet m
  if rotation ≠ 0 then some (deskewRect env sheet m, deskewRectTarget env sheet m rotation)
  else none

/-- One pass of the loop "auto-deskew each mask", lines 1795-1830: the sheet after it. -/
def deskewMask (env : Env Angle) (g : Globals) (sheet : Image) (m : Rect) : Image :=
  let rotation := env.detectRotation g sheet m
  if rotation ≠ 0 then
    copy_rectangle (deskewRectTarget env sheet m rotation) sheet RECT_FULL_IMAGE ⟨m.left, m.top⟩
  else sheet

/-- The loop `for (int i = 0; i < maskCount; i++)` of lines 1794-1831 on the sheet. -/
def deskewLoop (env : Env Angle) (g : Globals) (sheet : Image) : List Rect → Image
  | [] => sheet
  | m :: rest => deskewLoop env g (deskewMask env g sheet m) rest

end Primitives

/-! ## The log -/

/-- The processing steps of one sheet, named after the call that performs them.
The steps with an index are passes of a loop over masks. -/
inductive Stage where
  | preMirror
  | preShift
  | preMask
  | stretch
  | resize
  | preWipe
  | preBorder
  | blackfilter
  | noisefilter
  | blurfilter
  | detectMasks
  | applyMasks
  | grayfilter
  | deskew (i : Nat)
  | centerMask (i : Nat)
  | wipe
  | border
  | borderScan
  | alignMask (i : Nat)
  | postWipe
  | postBorder
  | postMirror
  | postShift
  | postRotate
  | postStretch
  | postSize
  deriving DecidableEq, Repr

/-- What the run does, in the order in which it does it. -/
inductive Event where
  /-- An input slot of sheet `nr` was resolved: a file name, or `none` for a blank page. -/
  | inputSlot (nr : Int) (i : Nat) (name : Option String)
  /-- An output slot of sheet `nr` was resolved. -/
  | outputSlot (nr : Int) (i : Nat) (name : String)
  /-- Sheet `nr` is selected and its processing starts (line 1146). -/
  | beginSheet (nr : Int)
  /-- The call `loadImage` for input slot `j`. -/
  | loaded (nr : Int) (j : Nat) (name : String)
  /-- The sheet buffer was allocated with `initImage(&sheet, w, h, ...)`. -/
  | sheetAlloc (nr : Int) (w : Int) (h : Int)
  | stage (nr : Int) (s : Stage)
  /-- The call `saveImage` for output slot `j`. -/
  | saved (nr : Int) (j : Nat) (name : String)
  deriving DecidableEq, Repr

/-! ## The stages of one sheet (lines 1244-2019) -/

/-- The variables the stages of one sheet work on: the globals, the sheet buffer,
the locals `w` and `h`, and the log. -/
structure Proc where
  g : Globals
  sheet : Image
  w : Int
  h : Int
  log : List Event

/-- Record a step of sheet `nr`. -/
def Proc.emit (p : Proc) (nr : Int) (s : Stage) : Proc :=
  { p with log := p.log ++ [Event.stage nr s] }

/-- Replace the pixels of the sheet, as an in-place primitive does. -/
def Proc.paint (p : Proc) (pix : Int → Int → Pixel) : Proc :=
  { p with sheet := p.sheet.withPix pix }

section Stages

variable {Angle : Type} [Zero Angle] [Neg Angle] [DecidableEq Angle]

/-- Pre-mirroring, lines 1247-1253. -/
def stagePreMirror (env : Env Angle) (nr : Int) (p : Proc) : Proc :=
  if p.g.preMirror ≠ 0 then
    (p.emit nr Stage.preMirror).paint (env.mirrorPix p.g.preMirror p.sheet)
  else p

/-- Pre-shifting, lines 1255-1261. -/
def stagePreShift (env : Env Angle) (nr : Int) (p : Proc) : Proc :=
  if p.g.preShift.width ≠ 0 ∨ p.g.preShift.height ≠ 0 then
    { p.emit nr Stage.preShift with
      sheet := shift env p.g.preShift.width p.g.preShift.height p.sheet }
  else p

/-- Pre-masking, lines 1263-1269. -/
def stagePreMask (env : Env Angle) (nr : Int) (p : Proc) : Proc :=
  if p.g.preMask.length > 0 then
    (p.emit nr Stage.preMask).paint (env.applyMasksPix p.g.preMask p.sheet)
  else p

/-- The block "stretch", lines 1543-1560. -/
def stageStretch (env : Env Angle) (nr : Int) (p : Proc) : Proc :=
  let w := if p.g.stretchSize.width ≠ -1 then p.g.stretchSize.width else p.sheet.width
  let h := if p.g.stretchSize.height ≠ -1 then p.g.stretchSize.height else p.sheet.height
  let w := env.zoom w
  let h := env.zoom h
  { p.emit nr Stage.stretch with w := w, h := h, sheet := stretch env w h p.sheet }

/-- The block "size", lines 1562-1577. -/
def stageSize (env : Env Angle) (nr : Int) (p : Proc) : Proc :=
  if p.g.size.width ≠ -1 ∨ p.g.size.height ≠ -1 then
    let w := if p.g.size.width ≠ -1 then p.g.size.width else p.sheet.width
    let h := if p.g.size.height ≠ -1 then p.g.size.height else p.sheet.height
    { p.emit nr Stage.resize with w := w, h := h, sheet := resize env w h p.sheet }
  else p

/-- The block "handle sheet layout", lines 1579-1681, on the working variables. -/
def stageLayout (p : Proc) : Proc :=
  { p with g := layoutConfig p.g p.sheet }

/-- Pre-wipe, lines 1683-1686. -/
def stagePreWipe (env : Env Angle) (nr : Int) (p : Proc) : Proc :=
  if !isExcluded nr p.g.options.noWipeMultiIndex p.g.options.ignoreMultiIndex then
    (p.emit nr Stage.preWipe).paint (env.applyWipesPix p.g.preWipe p.sheet)
  else p

/-- Pre-border, lines 1688-1692. -/
def stagePreBorder (env : Env Angle) (nr : Int) (p : Proc) : Proc :=
  if !isExcluded nr p.g.options.noBorderMultiIndex p.g.options.ignoreMultiIndex then
    (p.emit nr Stage.preBorder).paint (env.applyBorderPix p.g.preBorder p.sheet)
  else p

/-- Black area filter, lines 1694-1704. -/
def stageBlackfilter (env : Env Angle) (nr : Int) (p : Proc) : Proc :=
  if !isExcluded nr p.g.options.noBlackfilterMultiIndex p.g.options.ignoreMultiIndex then
    (p.emit nr Stage.blackfilter).paint (env.blackfilterPix p.g p.sheet)
  else p

/-- Noise filter, lines 1706-1722. -/
def stageNoisefilter (env : Env Angle) (nr : Int) (p : Proc) : Proc :=
  if !isExcluded nr p.g.options.noNoisefilterMultiIndex p.g.options.ignoreMultiIndex then
    (p.emit nr Stage.noisefilter).paint (env.noisefilterPix p.g p.sheet)
  else p

/-- Blur filter, lines 1724-1740. -/
def stageBlurfilter (env : Env Angle) (nr : Int) (p : Proc) : Proc :=
  if !isExcluded nr p.g.options.noBlurfilterMultiIndex p.g.options.ignoreMultiIndex then
    (p.emit nr Stage.blurfilter).paint (env.blurfilterPix p.g p.sheet)
  else p

/-- The guarded call `detectMasks(sheet)`, as it stands at lines 1743-1750,
1784-1791 and 1846-1853. -/
def stageDetectMasks (env : Env Angle) (nr : Int) (p : Proc) : Proc :=
  if !isExcluded nr p.g.options.noMaskScanMultiIndex p.g.options.ignoreMultiIndex then
    { p.emit nr Stage.detectMasks with g := { p.g with mask := env.detectMasks p.g p.sheet } }
  else p

/-- Permanently apply masks, lines 1752-1757. -/
def stageApplyMasks (env : Env Angle) (nr : Int) (p : Proc) : Proc :=
  if p.g.maskCount > 0 then
    (p.emit nr Stage.applyMasks).paint (env.applyMasksPix p.g.mask p.sheet)
  else p

/-- Gray filter, lines 1759-1775. -/
def stageGrayfilter (env : Env Angle) (nr : Int) (p : Proc) : Proc :=
  if !isExcluded nr p.g.options.noGrayfilterMultiIndex p.g.options.ignoreMultiIndex then
    (p.emit nr Stage.grayfilter).paint (env.grayfilterPix p.g p.sheet)
  else p

/-- The loop "auto-deskew each mask", lines 1794-1831, from mask index `i` on. -/
def deskewEach (env : Env Angle) (nr : Int) : Nat → List Rect → Proc → Proc
  | _, [], p => p
  | i, m :: rest, p =>
    deskewEach env nr (i + 1) rest
      { p.emit nr (Stage.deskew i) with sheet := deskewMask env p.g p.sheet m }

/-- Rotation detection, lines 1777-1838. -/
def stageDeskew (env : Env Angle) (nr : Int) (p : Proc) : Proc :=
  if !isExcluded nr p.g.options.noDeskewMultiIndex p.g.options.ignoreMultiIndex then
    -- detect masks again, we may get more precise results now
    let p := stageDetectMasks env nr p
    deskewEach env nr 0 p.g.mask p
  else p

/-- The loop that centers each mask, lines 1857-1859, from mask index `i` on. The
scan point is read from the array `point`, whose unused entries are zero. -/
def centerEach (env : Env Angle) (nr : Int) : Nat → List Rect → Proc → Proc
  | _, [], p => p
  | i, m :: rest, p =>
    centerEach env nr (i + 1) rest
      ((p.emit nr (Stage.centerMask i)).paint
        (env.centerMaskPix p.sheet (p.g.point.getD i ⟨0, 0⟩) m))

/-- Auto-centering of the masks, lines 1840-1865. -/
def stageCenter (env : Env Angle) (nr : Int) (p : Proc) : Proc :=
  if !isExcluded nr p.g.options.noMaskCenterMultiIndex p.g.options.ignoreMultiIndex then
    -- perform auto-masking again to get more precise masks after rotation
    let p := stageDetectMasks env nr p
    centerEach env nr 0 p.g.mask p
  else p

/-- Explicit wipe, lines 1867-1874. -/
def stageWipe (env : Env Angle) (nr : Int) (p : Proc) : Proc :=
  if !isExcluded nr p.g.options.noWipeMultiIndex p.g.options.ignoreMultiIndex then
    (p.emit nr Stage.wipe).paint (env.applyWipesPix p.g.wipe p.sheet)
  else p

/-- Explicit border, lines 1876-1884. -/
def stageBorder (env : Env Angle) (nr : Int) (p : Proc) : Proc :=
  if !isExcluded nr p.g.options.noBorderMultiIndex p.g.options.ignoreMultiIndex then
    (p.emit nr Stage.border).paint (env.applyBorderPix p.g.border p.sheet)
  else p

/-- The second loop of border detection, lines 1897-1907, from index `i` on, over
the pairs of `autoborderMask[i]` and `outsideBorderscanMask[i]`. -/
def alignEach (env : Env Angle) (nr : Int) : Nat → List (Rect × Rect) → Proc → Proc
  | _, [], p => p
  | i, (am, om) :: rest, p =>
    alignEach env nr (i + 1) rest
      (if !isExcluded nr p.g.options.noBorderAlignMultiIndex p.g.options.ignoreMultiIndex then
        (p.emit nr (Stage.alignMask i)).paint (env.alignMaskPix p.g am om p.sheet)
      else p)

/-- Border detection, lines 1886-1913. -/
def stageBorderScan (env : Env Angle) (nr : Int) (p : Proc) : Proc :=
  if !isExcluded nr p.g.options.noBorderScanMultiIndex p.g.options.ignoreMultiIndex then
    let autoborderMask := p.g.outsideBorderscanMask.map fun om =>
      env.borderToMask (env.detectBorder p.g om p.sheet) p.sheet
    let p := (p.emit nr Stage.borderScan).paint (env.applyMasksPix autoborderMask p.sheet)
    alignEach env nr 0 (autoborderMask.zip p.g.outsideBorderscanMask) p
  else p

/-- Post-wipe, lines 1915-1918. -/
def stagePostWipe (env : Env Angle) (nr : Int) (p : Proc) : Proc :=
  if !isExcluded nr p.g.options.noWipeMultiIndex p.g.options.ignoreMultiIndex then
    (p.emit nr Stage.postWipe).paint (env.applyWipesPix p.g.postWipe p.sheet)
  else p

/-- Post-border, lines 1920-1924. -/
def stagePostBorder (env : Env Angle) (nr : Int) (p : Proc) : Proc :=
  if !isExcluded nr p.g.options.noBorderMultiIndex p.g.options.ignoreMultiIndex then
    (p.emit nr Stage.postBorder).paint (env.applyBorderPix p.g.postBorder p.sheet)
  else p

/-- Post-mirroring, lines 1926-1932. -/
def stagePostMirror (env : Env Angle) (nr : Int) (p : Proc) : Proc :=
  if p.g.postMirror ≠ 0 then
    (p.emit nr Stage.postMirror).paint (env.mirrorPix p.g.postMirror p.sheet)
  else p

/-- Post-shifting, lines 1934-1941. -/
def stagePostShift (env : Env Angle) (nr : Int) (p : Proc) : Proc :=
  if p.g.postShift.width ≠ 0 ∨ p.g.postShift.height ≠ 0 then
    { p.emit nr Stage.postShift with
      sheet := shift env p.g.postShift.width p.g.postShift.height p.sheet }
  else p

/-- Post-rotating, lines 1943-1949. -/
def stagePostRotate (env : Env Angle) (nr : Int) (p : Proc) : Proc :=
  if p.g.postRotate ≠ 0 then
    { p.emit nr Stage.postRotate with
      sheet := flipRotate env (Int.tdiv p.g.postRotate 90) p.sheet }
  else p

/-- Post-stretch, lines 1951-1966. -/
def stagePostStretch (env : Env Angle) (nr : Int) (p : Proc) : Proc :=
  let w := if p.g.postStretchSize.width ≠ -1 then p.g.postStretchSize.width else p.sheet.width
  let h := if p.g.postStretchSize.height ≠ -1 then p.g.postStretchSize.height
    else p.sheet.height
  let w := env.postZoom w
  let h := env.postZoom h
  { p.emit nr Stage.postStretch with w := w, h := h, sheet := stretch env w h p.sheet }

/-- Post-size, lines 1968-1981. -/
def stagePostSize (env : Env Angle) (nr : Int) (p : Proc) : Proc :=
  if p.g.postSize.width ≠ -1 ∨ p.g.postSize.height ≠ -1 then
    let w := if p.g.postSize.width ≠ -1 then p.g.postSize.width else p.sheet.width
    let h := if p.g.postSize.height ≠ -1 then p.g.postSize.height else p.sheet.height
    { p.emit nr Stage.postSize with w := w, h := h, sheet := resize env w h p.sheet }
  else p

/-- Lines 1683-1750: pre-wipe, pre-border, the black area, noise and blur filters
and the first mask detection. -/
def stagesToMaskScan (env : Env Angle) (nr : Int) (p : Proc) : Proc :=
  stageDetectMasks env nr (stageBlurfilter env nr (stageNoisefilter env nr
    (stageBlackfilter env nr (stagePreBorder env nr (stagePreWipe env nr p)))))

/-- Lines 1683-1775: everything up to and including the gray filter. -/
def stagesToGrayfilter (env : Env Angle) (nr : Int) (p : Proc) : Proc :=
  stageGrayfilter env nr (stageApplyMasks env nr (stagesToMaskScan env nr p))

/-- Lines 1683-1838: everything up to and including the deskewing. -/
def stagesToDeskew (env : Env Angle) (nr : Int) (p : Proc) : Proc :=
  stageDeskew env nr (stagesToGrayfilter env nr p)

/-- Lines 1683-1981: all stages that follow the layout configuration, up to the
point where the output is written. -/
def runStages (env : Env Angle) (nr : Int) (p : Proc) : Proc :=
  stagePostSize env nr (stagePostStretch env nr (stagePostRotate env nr
    (stagePostShift env nr (stagePostMirror env nr (stagePostBorder env nr
      (stagePostWipe env nr (stageBorderScan env nr (stageBorder env nr
        (stageWipe env nr (stageCenter env nr (stagesToDeskew env nr p)))))))))))

/-- The slice of the sheet that becomes output page `j`, lines 2000-2006. -/
def outputPage (env : Env Angle) (g : Globals) (sheet : Image) (j : Nat) : Image :=
  let page := initImage env (Int.tdiv sheet.width g.outputCount) sheet.height false
  copy_rectangle sheet page
    ⟨⟨page.width * j, 0⟩, ⟨page.width * j + page.width, page.height⟩⟩ POINT_ORIGIN

/-- The loop that writes the output pages, lines 1998-2015, from slot `j` on: one
`saveImage` per output file name. -/
def saveEach (nr : Int) : Nat → List String → List Event → List Event
  | _, [], log => log
  | j, name :: rest, log => saveEach nr (j + 1) rest (log ++ [Event.saved nr j name])

/-- Modelled from the spec: `saveImage` is defined in `file.c`, which is not part of
the sources. It writes the page to the file of the given name. This is the loop
of lines 1998-2015 on the files written so far (the last one first), from slot
`j` on: slice `j` of the sheet is written under output file name `j`. -/
def saveFiles (env : Env Angle) (g : Globals) (sheet : Image) :
    Nat → List String → List (String × Image) → List (String × Image)
  | _, [], written => written
  | j, name :: rest, written =>
    saveFiles env g sheet (j + 1) rest ((name, outputPage env g sheet j) :: written)

end Stages

/-! ## The sheet loop (lines 1028-2033) -/

/-- The calls of `errOutput` in and before the sheet loop; each ends the process
with exit status 1. -/
inductive Fatal where
  /-- Line 1029: "no input or output files given." -/
  | noInputOrOutput
  /-- Line 1086: "not enough input files given." -/
  | notEnoughInput
  /-- Line 1106: "unable to open file %s." -/
  | unableToOpen (name : String)
  /-- Lines 1116 and 1124: "not enough output files given." -/
  | notEnoughOutput
  /-- Line 1135: "output file '%s' already present." -/
  | outputPresent (name : String)
  /-- Line 1237: "sheet size unknown, ..." -/
  | sheetSizeUnknown
  deriving DecidableEq, Repr

/-- The local variables of `main` that live across sheets, the globals, and the log.
The index `optind` counts from the first argument after the options, so that
`argc` is the number of file arguments. -/
structure RunState where
  g : Globals
  w : Int
  h : Int
  previousWidth : Int
  previousHeight : Int
  sheet : Option Image
  inputNr : Int
  outputNr : Int
  optind : Nat
  log : List Event
  /-- The files that `saveImage` has written in this run, with the page written, the
  last one first. The debug images of `saveDebug` (defined in `file.c`, which is not
  part of the sources) are not among them: the run is one without `--debug-save`,
  in which `saveDebug` is taken to write nothing. -/
  written : List (String × Image)

/-- How a part of the loop body ends. -/
inductive Step (α : Type) where
  /-- Control reaches the end of the part. -/
  | ok (a : α) (st : RunState)
  /-- The statement `goto sheet_end`. -/
  | sheetEnd (st : RunState)
  /-- A call of `errOutput`. -/
  | fatal (e : Fatal) (st : RunState)
  /-- A read of `argv` at or behind `argc`, or a use of the sheet buffer while it is `NULL`. -/
  | undefined

/-- The test `strchr(name, '%') != NULL`. -/
def hasPlaceholder (name : String) : Bool := name.toList.contains '%'

/-- Record an event. -/
def RunState.emit (st : RunState) (e : Event) : RunState :=
  { st with log := st.log ++ [e] }

/-- The statement `optind++`. -/
def RunState.nextArg (st : RunState) : RunState :=
  { st with optind := st.optind + 1 }

/-- The statement `optind -= 2`. -/
def RunState.rewindArgs (st : RunState) : RunState :=
  { st with optind := st.optind - 2 }

/-- The statement `inputNr++`. -/
def RunState.nextInput (st : RunState) : RunState :=
  { st with inputNr := st.inputNr + 1 }

/-- The statement `outputNr++`. -/
def RunState.nextOutput (st : RunState) : RunState :=
  { st with outputNr := st.outputNr + 1 }

/-- Assign `options.endSheet`. -/
def RunState.setEndSheet (st : RunState) (n : Int) : RunState :=
  { st with g := { st.g with options := { st.g.options with endSheet := n } } }

section Loop

variable {Angle : Type} [Zero Angle] [Neg Angle] [DecidableEq Angle]

/-- The test `stat(name, &statBuf) == 0` of lines 1101 and 1134, given the files
written so far: the file exists when the run starts, or `saveImage` has written it
in an earlier pass. -/
def stat (env : Env Angle) (written : List (String × Image)) (name : String) : Bool :=
  env.fileExists name || (written.map Prod.fst).contains name

/-- Lines 1099-1109: the name of an input slot was found; if the file does not exist,
the end sheet is fixed or the run fails. -/
def checkInputFile (env : Env Angle) (nr : Int) (name : Option String) (st : RunState) :
    Step (Option String) :=
  match name with
  | some n =>
    if !stat env st.written n then
      if st.g.options.endSheet = -1 then Step.sheetEnd (st.setEndSheet (nr - 1))
      else Step.fatal (Fatal.unableToOpen n) st
    else Step.ok name st
  | none => Step.ok name st

/-- One pass of the loop over the input slots, lines 1070-1109. -/
def resolveInputSlot (env : Env Angle) (argv : List String) (nr : Int) (inputWildcard : Bool)
    (i : Nat) (st : RunState) : Step (Option String) :=
  let ins := isInMultiIndex st.inputNr st.g.options.insertBlank
  let repl := isInMultiIndex st.inputNr st.g.options.replaceBlank
  if repl then
    -- replace
    checkInputFile env nr none
      (st.nextInput.emit (Event.inputSlot nr i none))
  else if ins then
    -- insert
    checkInputFile env nr none (st.emit (Event.inputSlot nr i none))
  else if inputWildcard then
    match argv[st.optind]? with
    | some pattern =>
      let name := env.sprintf pattern st.inputNr
      checkInputFile env nr (some name)
        (st.nextInput.emit (Event.inputSlot nr i (some name)))
    | none => Step.undefined
  else if st.optind ≥ argv.length then
    if st.g.options.endSheet = -1 then Step.sheetEnd (st.setEndSheet (nr - 1))
    else Step.fatal Fatal.notEnoughInput st
  else
    match argv[st.optind]? with
    | some name =>
      checkInputFile env nr (some name)
        (st.nextArg.emit (Event.inputSlot nr i (some name)))
    | none => Step.undefined

/-- The loop `for (int i = 0; i < inputCount; i++)` of lines 1069-1110, from slot
`i` on with `k` slots to go; `names` are the entries of `inputFileNames` so far. -/
def resolveInputs (env : Env Angle) (argv : List String) (nr : Int) (inputWildcard : Bool) :
    Nat → Nat → List (Option String) → RunState → Step (List (Option String))
  | 0, _, names, st => Step.ok names st
  | k + 1, i, names, st =>
    match resolveInputSlot env argv nr inputWildcard i st with
    | Step.ok name st1 => resolveInputs env argv nr inputWildcard k (i + 1) (names ++ [name]) st1
    | Step.sheetEnd st1 => Step.sheetEnd st1
    | Step.fatal e st1 => Step.fatal e st1
    | Step.undefined => Step.undefined

/-- Lines 1132-1137: an output file that is present is fatal unless `--overwrite`. -/
def checkOutputFile (env : Env Angle) (name : String) (st : RunState) : Step String :=
  if !st.g.overwrite then
    if stat env st.written name then Step.fatal (Fatal.outputPresent name) st
    else Step.ok name st
  else Step.ok name st

/-- One pass of the loop over the output slots, lines 1120-1137. -/
def resolveOutputSlot (env : Env Angle) (argv : List String) (nr : Int) (outputWildcard : Bool)
    (i : Nat) (st : RunState) : Step String :=
  if outputWildcard then
    match argv[st.optind]? with
    | some pattern =>
      let name := env.sprintf pattern st.outputNr
      checkOutputFile env name
        (st.nextOutput.emit (Event.outputSlot nr i name))
    | none => Step.undefined
  else if st.optind ≥ argv.length then
    Step.fatal Fatal.notEnoughOutput st
  else
    match argv[st.optind]? with
    | some name =>
      checkOutputFile env name
        (st.nextArg.emit (Event.outputSlot nr i name))
    | none => Step.undefined

/-- The loop `for (int i = 0; i < outputCount; i++)` of lines 1119-1138. -/
def resolveOutputs (env : Env Angle) (argv : List String) (nr : Int) (outputWildcard : Bool) :
    Nat → Nat → List String → RunState → Step (List String)
  | 0, _, names, st => Step.ok names st
  | k + 1, i, names, st =>
    match resolveOutputSlot env argv nr outputWildcard i st with
    | Step.ok name st1 =>
      resolveOutputs env argv nr outputWildcard k (i + 1) (names ++ [name]) st1
    | Step.sheetEnd st1 => Step.sheetEnd st1
    | Step.fatal e st1 => Step.fatal e st1
    | Step.undefined => Step.undefined

/-- Lines 1209-1213: allocate the sheet buffer if that has not been done and the
size is known. -/
def allocSheet (env : Env Angle) (nr : Int) (st : RunState) : RunState :=
  if st.sheet.isNone ∧ st.w ≠ -1 ∧ st.h ≠ -1 then
    { st.emit (Event.sheetAlloc nr st.w st.h) with sheet := some (initImage env st.w st.h true) }
  else st

/-- Lines 1191-1197: if the sheet width is not known yet, it is the forced width or
the width of the page just loaded times the number of input pages. -/
def sheetWidthFromPage (page : Image) (st : RunState) : RunState :=
  if st.w = -1 then
    (if st.g.sheetSize.width ≠ -1 then { st with w := st.g.sheetSize.width }
     else { st with w := page.width * st.g.inputCount })
  else st

/-- Lines 1198-1204: if the sheet height is not known yet, it is the forced height or
the height of the page just loaded. -/
def sheetHeightFromPage (page : Image) (st : RunState) : RunState :=
  if st.h = -1 then
    (if st.g.sheetSize.height ≠ -1 then { st with h := st.g.sheetSize.height }
     else { st with h := page.height })
  else st

/-- Lines 1189-1204: set the sheet size from the page if it is not known yet. -/
def sheetSizeFromPage (page : Image) (st : RunState) : RunState :=
  sheetHeightFromPage page (sheetWidthFromPage page st)

/-- Lines 1174-1187: load the page of an input file and pre-rotate it. -/
def loadPage (env : Env Angle) (g : Globals) (written : List (String × Image))
    (name : String) : Image :=
  let page := loadImage env written name
  if g.preRotate ≠ 0 then flipRotate env (Int.tdiv g.preRotate 90) page else page

/-- Lines 1214-1224: place the page into its slot of the sheet buffer. -/
def placePage (env : Env Angle) (j : Nat) (page : Image) (st : RunState) : Step Unit :=
  match st.sheet with
  | some sheet =>
    Step.ok () { st with sheet := some (sheet.withPix
      (env.centerImagePix page (Int.tdiv (st.w * j) st.g.inputCount) 0
        (Int.tdiv st.w st.g.inputCount) st.h sheet)) }
  | none => Step.undefined

/-- One pass of the loop "load input image(s)", lines 1168-1225, for slot `j`. -/
def loadSlot (env : Env Angle) (nr : Int) (j : Nat) (name : Option String) (st : RunState) :
    Step Unit :=
  match name with
  | some n =>
    let page := loadPage env st.g st.written n
    placePage env j page
      (allocSheet env nr (sheetSizeFromPage page (st.emit (Event.loaded nr j n))))
  | none => Step.ok () (allocSheet env nr st)

/-- The loop `for (int j = 0; j < inputCount; j++)` of lines 1168-1225, over the
entries of `inputFileNames` from slot `j` on. -/
def loadInputs (env : Env Angle) (nr : Int) : Nat → List (Option String) → RunState → Step Unit
  | _, [], st => Step.ok () st
  | j, name :: rest, st =>
    match loadSlot env nr j name st with
    | Step.ok _ st1 => loadInputs env nr (j + 1) rest st1
    | Step.sheetEnd st1 => Step.sheetEnd st1
    | Step.fatal e st1 => Step.fatal e st1
    | Step.undefined => Step.undefined

/-- Lines 1227-1245: if no buffer exists after loading, fall back to the size of
the previous sheet or fail; then remember the size. The result is the state and
the sheet buffer. -/
def ensureSheet (env : Env Angle) (nr : Int) (st : RunState) : Step Image :=
  match st.sheet with
  | some sheet =>
    Step.ok sheet { st with previousWidth := st.w, previousHeight := st.h }
  | none =>
    -- last chance: try to get previous (unstretched/not zoomed) sheet size
    let st := { st with w := st.previousWidth, h := st.previousHeight }
    if st.w = -1 ∨ st.h = -1 then Step.fatal Fatal.sheetSizeUnknown st
    else
      let sheet := initImage env st.w st.h true
      Step.ok sheet
        { st.emit (Event.sheetAlloc nr st.w st.h) with
          sheet := some sheet, previousWidth := st.w, previousHeight := st.h }

/-- Lines 1247-1981 on the working variables: the pre-transformations, stretch and
size, the layout configuration and the stages that follow it. -/
def processStages (env : Env Angle) (nr : Int) (p : Proc) : Proc :=
  runStages env nr (stageLayout (stageSize env nr (stageStretch env nr
    (stagePreMask env nr (stagePreShift env nr (stagePreMirror env nr p))))))

/-- Lines 1983-2019: write the output pages and release the sheet buffer, if
output is written at all. -/
def writeOutput (env : Env Angle) (nr : Int) (outputFileNames : List String) (p : Proc)
    (st : RunState) : RunState :=
  if p.g.writeoutput = true then
    { st with g := p.g, w := p.w, h := p.h, sheet := none,
              log := saveEach nr 0 outputFileNames p.log,
              written := saveFiles env p.g p.sheet 0 outputFileNames st.written }
  else
    { st with g := p.g, w := p.w, h := p.h, sheet := some p.sheet, log := p.log }

/-- The block "process single sheet", lines 1148-2019, for a selected sheet. -/
def processSheet (env : Env Angle) (nr : Int) (inputFileNames : List (Option String))
    (outputFileNames : List String) (st : RunState) : Step Unit :=
  match loadInputs env nr 0 inputFileNames (st.emit (Event.beginSheet nr)) with
  | Step.ok _ st1 =>
    match ensureSheet env nr st1 with
    | Step.ok sheet st2 =>
      let p := processStages env nr
        { g := st2.g, sheet := sheet, w := st2.w, h := st2.h, log := st2.log }
      Step.ok () (writeOutput env nr outputFileNames p st2)
    | Step.sheetEnd st2 => Step.sheetEnd st2
    | Step.fatal e st2 => Step.fatal e st2
    | Step.undefined => Step.undefined
  | Step.sheetEnd st1 => Step.sheetEnd st1
  | Step.fatal e st1 => Step.fatal e st1
  | Step.undefined => Step.undefined

/-- How one pass of the sheet loop ends. -/
inductive Iter where
  /-- The body is done and the loop goes on with `nr++`. -/
  | next (st : RunState)
  /-- The statement `break` at line 2027. -/
  | stop (st : RunState)
  | fatal (e : Fatal) (st : RunState)
  | undefined

/-- The code behind the label `sheet_end`, lines 2022-2029. -/
def sheetEnd (argv : List String) (inputWildcard outputWildcard : Bool) (st : RunState) : Iter :=
  if st.optind ≥ argv.length ∧ !inputWildcard then Iter.stop st
  else if inputWildcard ∧ outputWildcard then Iter.next st.rewindArgs
  else Iter.next st

/-- Lines 1114-1140 and 1146-2020, reached when all input slots are resolved: the
output names, then the processing of the sheet if it is selected. -/
def outputsAndProcess (env : Env Angle) (argv : List String) (nr : Int) (inputWildcard : Bool)
    (inputFileNames : List (Option String)) (st : RunState) : Iter :=
  if st.optind ≥ argv.length then Iter.fatal Fatal.notEnoughOutput st
  else
    match argv[st.optind]? with
    | none => Iter.undefined
    | some arg =>
      let outputWildcard := st.g.multisheets && hasPlaceholder arg
      match resolveOutputs env argv nr outputWildcard st.g.outputCount 0 [] st with
      | Step.ok outputFileNames st1 =>
        let st2 := if outputWildcard then st1.nextArg else st1
        if isInMultiIndex nr st2.g.options.sheetMultiIndex &&
            !isInMultiIndex nr st2.g.options.excludeMultiIndex then
          match processSheet env nr inputFileNames outputFileNames st2 with
          | Step.ok _ st3 => sheetEnd argv inputWildcard outputWildcard st3
          | Step.sheetEnd st3 => sheetEnd argv inputWildcard outputWildcard st3
          | Step.fatal e st3 => Iter.fatal e st3
          | Step.undefined => Iter.undefined
        else sheetEnd argv inputWildcard outputWildcard st2
      | Step.sheetEnd st1 => sheetEnd argv inputWildcard outputWildcard st1
      | Step.fatal e st1 => Iter.fatal e st1
      | Step.undefined => Iter.undefined

/-- The body of the sheet loop for sheet `nr`, lines 1057-2030, once
`inputWildcard` is known. -/
def sheetBody (env : Env Angle) (argv : List String) (nr : Int) (inputWildcard : Bool)
    (st : RunState) : Iter :=
  match resolveInputs env argv nr inputWildcard st.g.inputCount 0 [] st with
  | Step.ok inputFileNames st1 =>
    let st2 := if inputWildcard then st1.nextArg else st1
    outputsAndProcess env argv nr inputWildcard inputFileNames st2
  | Step.sheetEnd st1 =>
    -- `outputWildcard` still has its initial value `false` here
    sheetEnd argv inputWildcard false st1
  | Step.fatal e st1 => Iter.fatal e st1
  | Step.undefined => Iter.undefined

/-- One pass of the sheet loop, lines 1057-2030. Line 1066 reads `argv[optind]`
when `multisheets` is set. -/
def sheetIteration (env : Env Angle) (argv : List String) (nr : Int) (st : RunState) : Iter :=
  if st.g.multisheets then
    match argv[st.optind]? with
    | some arg => sheetBody env argv nr (hasPlaceholder arg) st
    | none => Iter.undefined
  else sheetBody env argv nr false st

/-- How the run ends. -/
inductive Exit where
  /-- The statement `return 0` at line 2032. -/
  | returned (status : Int)
  /-- A call of `errOutput`, which exits with status 1. -/
  | fatal (e : Fatal)
  | undefined
  /-- The bound on the number of passes was reached: the run is still going. -/
  | unfinished
  deriving DecidableEq, Repr

/-- The loop `for (int nr = options.startSheet; (options.endSheet == -1) ||
(nr <= options.endSheet); nr++)`, lines 1055-2030, for at most `fuel` passes. -/
def sheetLoop (env : Env Angle) (argv : List String) : Nat → Int → RunState → Exit × RunState
  | 0, _, st => (Exit.unfinished, st)
  | fuel + 1, nr, st =>
    if st.g.options.endSheet = -1 ∨ nr ≤ st.g.options.endSheet then
      match sheetIteration env argv nr st with
      | Iter.next st1 => sheetLoop env argv fuel (nr + 1) st1
      | Iter.stop st1 => (Exit.returned 0, st1)
      | Iter.fatal e st1 => (Exit.fatal e, st1)
      | Iter.undefined => (Exit.undefined, st)
    else (Exit.returned 0, st)

/-- Lines 1034-1035: the default of `options.startInput`. -/
def defaultStartInput (g : Globals) (o : Options) : Options :=
  if o.startInput = -1 then { o with startInput := (o.startSheet - 1) * g.inputCount + 1 }
  else o

/-- Lines 1036-1037: the default of `options.startOutput`. -/
def defaultStartOutput (g : Globals) (o : Options) : Options :=
  if o.startOutput = -1 then { o with startOutput := (o.startSheet - 1) * g.outputCount + 1 }
  else o

/-- Lines 1042-1043: without multiple sheets, the end sheet is the start sheet
unless it was given. -/
def singleSheetEnd (g : Globals) (o : Options) : Options :=
  if !g.multisheets ∧ o.endSheet = -1 then { o with endSheet := o.startSheet } else o

/-- The value of `options` when the sheet loop starts, lines 1034-1043. -/
def initialOptions (g : Globals) : Options :=
  singleSheetEnd g (defaultStartOutput g (defaultStartInput g g.options))

/-- The state in which the sheet loop starts, lines 257-271 and 1034-1043: the
counters start at `options.startInput` and `options.startOutput`, no sheet
size is known and no buffer exists. -/
def initialState (g : Globals) : RunState :=
  { g := { g with options := initialOptions g }, w := -1, h := -1, previousWidth := -1,
    previousHeight := -1, sheet := none, inputNr := (initialOptions g).startInput,
    outputNr := (initialOptions g).startOutput, optind := 0, log := [], written := [] }

/-- The program from line 1028 on, for the globals that option parsing leaves and
the file arguments `argv`, with at most `fuel` passes of the sheet loop. -/
def unpaperMain (env : Env Angle) (g : Globals) (argv : List String) (fuel : Nat) :
    Exit × RunState :=
  if 2 > argv.length then (Exit.fatal Fatal.noInputOrOutput, initialState g)
  else sheetLoop env argv fuel (initialState g).g.options.startSheet (initialState g)

end Loop

/-! ## Option parsing: the rotation and the region options (lines 518-759)

The macros `MAX_MASKS` and `MAX_POINTS` are defined in `unpaper.h`, which is not part
of the sources; they are parameters here. The values that `sscanf` reads from an
option argument are the content of the option. -/

/-- The counter `preMaskCount`. -/
def Globals.preMaskCount (g : Globals) : Nat := g.preMask.length

/-- The counter `preWipeCount`. -/
def Globals.preWipeCount (g : Globals) : Nat := g.preWipe.length

/-- The counter `postWipeCount`. -/
def Globals.postWipeCount (g : Globals) : Nat := g.postWipe.length

/-- The case `OPT_PRE_ROTATE`, lines 518-526, for the value `v` that `sscanf` stores
in `preRotate`; `abs` is the absolute value. -/
def parsePreRotate (v : Int) (g : Globals) : Globals :=
  if v ≠ 0 ∧ (v.natAbs : Int) ≠ 90 then { g with preRotate := 0 }
  else { g with preRotate := v }

/-- The case `OPT_POST_ROTATE`, lines 528-536, for the value `v` that `sscanf` stores
in `postRotate`. -/
def parsePostRotate (v : Int) (g : Globals) : Globals :=
  if v ≠ 0 ∧ (v.natAbs : Int) ≠ 90 then { g with postRotate := 0 }
  else { g with postRotate := v }

/-- The options that add an entry to a region array, each with the values that
`sscanf` reads from its argument: `--pre-mask`, `--mask-scan-point`, `--mask`,
`--wipe`, `--pre-wipe`, `--post-wipe` and `--blackfilter-scan-exclude`. -/
inductive RegionOption where
  | preMask (r : Rect)
  | point (p : Pt)
  | mask (r : Rect)
  | wipe (r : Rect)
  | preWipe (r : Rect)
  | postWipe (r : Rect)
  | blackfilterExclude (r : Rect)
  deriving DecidableEq, Repr

/-- The cases of the `switch` for the region options, lines 555-573, 599-695 and
740-759: the entry is stored behind the entries so far if the counter is below
the capacity, and is ignored with a message otherwise. -/
def parseRegionOption (MAX_MASKS MAX_POINTS : Nat) (g : Globals) : RegionOption → Globals
  | RegionOption.preMask r =>
    if g.preMaskCount < MAX_MASKS then { g with preMask := g.preMask ++ [r] } else g
  | RegionOption.point p =>
    if g.pointCount < MAX_POINTS then { g with point := g.point ++ [p] } else g
  | RegionOption.mask r =>
    if g.maskCount < MAX_MASKS then { g with mask := g.mask ++ [r] } else g
  | RegionOption.wipe r =>
    if g.wipeCount < MAX_MASKS then { g with wipe := g.wipe ++ [r] } else g
  | RegionOption.preWipe r =>
    if g.preWipeCount < MAX_MASKS then { g with preWipe := g.preWipe ++ [r] } else g
  | RegionOption.postWipe r =>
    if g.postWipeCount < MAX_MASKS then { g with postWipe := g.postWipe ++ [r] } else g
  | RegionOption.blackfilterExclude r =>
    if g.blackfilterExcludeCount < MAX_MASKS then
      { g with blackfilterExclude := g.blackfilterExclude ++ [r] }
    else g

/-- The option loop of lines 279-1011 on a sequence of region options. -/
def parseRegionOptions (MAX_MASKS MAX_POINTS : Nat) (g : Globals) (opts : List RegionOption) :
    Globals :=
  opts.foldl (parseRegionOption MAX_MASKS MAX_POINTS) g

/-- The rectangles of the `--mask` options of a sequence, in the order given. -/
def maskArgs (opts : List RegionOption) : List Rect :=
  opts.filterMap fun o => match o with | RegionOption.mask r => some r | _ => none

/-- The points of the `--mask-scan-point` options of a sequence. -/
def pointArgs (opts : List RegionOption) : List Pt :=
  opts.filterMap fun o => match o with | RegionOption.point p => some p | _ => none

/-- The rectangles of the `--wipe` options of a sequence. -/
def wipeArgs (opts : List RegionOption) : List Rect :=
  opts.filterMap fun o => match o with | RegionOption.wipe r => some r | _ => none

/-- The rectangles of the `--pre-wipe` options of a sequence. -/
def preWipeArgs (opts : List RegionOption) : List Rect :=
  opts.filterMap fun o => match o with | RegionOption.preWipe r => some r | _ => none

/-- The rectangles of the `--post-wipe` options of a sequence. -/
def postWipeArgs (opts : List RegionOption) : List Rect :=
  opts.filterMap fun o => match o with | RegionOption.postWipe r => some r | _ => none

/-- The rectangles of the `--pre-mask` options of a sequence. -/
def preMaskArgs (opts : List RegionOption) : List Rect :=
  opts.filterMap fun o => match o with | RegionOption.preMask r => some r | _ => none

/-- The rectangles of the `--blackfilter-scan-exclude` options of a sequence. -/
def blackfilterExcludeArgs (opts : List RegionOption) : List Rect :=
  opts.filterMap fun o =>
    match o with | RegionOption.blackfilterExclude r => some r | _ => none

section StagesToPostShift

variable {Angle : Type} [Zero Angle] [Neg Angle] [DecidableEq Angle]

/-- Lines 1683-1941: the stages that follow the layout configuration, up to and
including the post-shift. -/
def stagesToPostShift (env : Env Angle) (nr : Int) (p : Proc) : Proc :=
  stagePostShift env nr (stagePostMirror env nr (stagePostBorder env nr
    (stagePostWipe env nr (stageBorderScan env nr (stageBorder env nr
      (stageWipe env nr (stageCenter env nr (stagesToDeskew env nr p))))))))

end StagesToPostShift

/-! ## The stage order of the specification (section 4.5) -/

/-- The stages of section 4.5 in the words of the specification. -/
inductive StageKind where
  | preWipe
  | preBorder
  | blackAreaFilter
  | noiseFilter
  | blurFilter
  | maskDetection
  | maskApplication
  | grayFilter
  | deskewMaskDetection
  | deskewOfEachMask
  | centeringMaskDetection
  | centeringOfEachMask
  | explicitWipe
  | explicitBorder
  | borderDetection
  | postWipe
  | postBorder
  | postMirror
  | postShift
  | postRotate
  | postStretch
  | postSize
  | outputSplitAndSave
  deriving DecidableEq, Repr

/-- The fixed order of the stages that follow the layout configuration. -/
def fixedStageOrder : List StageKind :=
  [StageKind.preWipe, StageKind.preBorder, StageKind.blackAreaFilter, StageKind.noiseFilter,
   StageKind.blurFilter, StageKind.maskDetection, StageKind.maskApplication,
   StageKind.grayFilter, StageKind.deskewMaskDetection, StageKind.deskewOfEachMask,
   StageKind.centeringMaskDetection, StageKind.centeringOfEachMask, StageKind.explicitWipe,
   StageKind.explicitBorder, StageKind.borderDetection, StageKind.postWipe,
   StageKind.postBorder, StageKind.postMirror, StageKind.postShift, StageKind.postRotate,
   StageKind.postStretch, StageKind.postSize, StageKind.outputSplitAndSave]

/-- The stages of the fixed order that come before the output is written. -/
def processingStageOrder : List StageKind :=
  [StageKind.preWipe, StageKind.preBorder, StageKind.blackAreaFilter, StageKind.noiseFilter,
   StageKind.blurFilter, StageKind.maskDetection, StageKind.maskApplication,
   StageKind.grayFilter, StageKind.deskewMaskDetection, StageKind.deskewOfEachMask,
   StageKind.centeringMaskDetection, StageKind.centeringOfEachMask, StageKind.explicitWipe,
   StageKind.explicitBorder, StageKind.borderDetection, StageKind.postWipe,
   StageKind.postBorder, StageKind.postMirror, StageKind.postShift, StageKind.postRotate,
   StageKind.postStretch, StageKind.postSize]

/-- The gate of each stage for sheet `nr`: the exclusion test with the index set of
the stage, or the test of its parameter; `maskCount` is the number of masks
when the permanent mask application is reached. The mask detections inside
deskew and centering also need the stage that encloses them. -/
def stageGate (g : Globals) (nr : Int) (maskCount : Nat) : StageKind → Bool
  | StageKind.preWipe => !isExcluded nr g.options.noWipeMultiIndex g.options.ignoreMultiIndex
  | StageKind.preBorder => !isExcluded nr g.options.noBorderMultiIndex g.options.ignoreMultiIndex
  | StageKind.blackAreaFilter =>
    !isExcluded nr g.options.noBlackfilterMultiIndex g.options.ignoreMultiIndex
  | StageKind.noiseFilter =>
    !isExcluded nr g.options.noNoisefilterMultiIndex g.options.ignoreMultiIndex
  | StageKind.blurFilter =>
    !isExcluded nr g.options.noBlurfilterMultiIndex g.options.ignoreMultiIndex
  | StageKind.maskDetection =>
    !isExcluded nr g.options.noMaskScanMultiIndex g.options.ignoreMultiIndex
  | StageKind.maskApplication => decide (maskCount > 0)
  | StageKind.grayFilter =>
    !isExcluded nr g.options.noGrayfilterMultiIndex g.options.ignoreMultiIndex
  | StageKind.deskewMaskDetection =>
    !isExcluded nr g.options.noDeskewMultiIndex g.options.ignoreMultiIndex &&
      !isExcluded nr g.options.noMaskScanMultiIndex g.options.ignoreMultiIndex
  | StageKind.deskewOfEachMask =>
    !isExcluded nr g.options.noDeskewMultiIndex g.options.ignoreMultiIndex
  | StageKind.centeringMaskDetection =>
    !isExcluded nr g.options.noMaskCenterMultiIndex g.options.ignoreMultiIndex &&
      !isExcluded nr g.options.noMaskScanMultiIndex g.options.ignoreMultiIndex
  | StageKind.centeringOfEachMask =>
    !isExcluded nr g.options.noMaskCenterMultiIndex g.options.ignoreMultiIndex
  | StageKind.explicitWipe => !isExcluded nr g.options.noWipeMultiIndex g.options.ignoreMultiIndex
  | StageKind.explicitBorder =>
    !isExcluded nr g.options.noBorderMultiIndex g.options.ignoreMultiIndex
  | StageKind.borderDetection =>
    !isExcluded nr g.options.noBorderScanMultiIndex g.options.ignoreMultiIndex
  | StageKind.postWipe => !isExcluded nr g.options.noWipeMultiIndex g.options.ignoreMultiIndex
  | StageKind.postBorder => !isExcluded nr g.options.noBorderMultiIndex g.options.ignoreMultiIndex
  | StageKind.postMirror => decide (g.postMirror ≠ 0)
  | StageKind.postShift => decide (g.postShift.width ≠ 0 ∨ g.postShift.height ≠ 0)
  | StageKind.postRotate => decide (g.postRotate ≠ 0)
  | StageKind.postStretch => true
  | StageKind.postSize => decide (g.postSize.width ≠ -1 ∨ g.postSize.height ≠ -1)
  | StageKind.outputSplitAndSave => g.writeoutput

/-- The list `l` if the gate `b` holds, nothing otherwise. -/
def gate {α : Type} (b : Bool) (l : List α) : List α := if b then l else []

/-- The events `f i, f (i + 1), ...` of `n` passes of a loop that starts at index `i`. -/
def passes (f : Nat → Stage) (nr : Int) (i n : Nat) : List Event :=
  (List.range' i n).map fun k => Event.stage nr (f k)

/-- The events of saving the output pages from slot `j` on. -/
def savedEvents (nr : Int) : Nat → List String → List Event
  | _, [] => []
  | j, name :: rest => Event.saved nr j name :: savedEvents nr (j + 1) rest

/-- What a stage of the specification shows in the log of sheet `nr` when it runs:
one event, or one event per pass of its loop. `deskewMasks` and `centerMasks`
are the numbers of masks when the two loops start. -/
def stageEvents (g : Globals) (nr : Int) (deskewMasks centerMasks : Nat)
    (outputFileNames : List String) : StageKind → List Event
  | StageKind.preWipe => [Event.stage nr Stage.preWipe]
  | StageKind.preBorder => [Event.stage nr Stage.preBorder]
  | StageKind.blackAreaFilter => [Event.stage nr Stage.blackfilter]
  | StageKind.noiseFilter => [Event.stage nr Stage.noisefilter]
  | StageKind.blurFilter => [Event.stage nr Stage.blurfilter]
  | StageKind.maskDetection => [Event.stage nr Stage.detectMasks]
  | StageKind.maskApplication => [Event.stage nr Stage.applyMasks]
  | StageKind.grayFilter => [Event.stage nr Stage.grayfilter]
  | StageKind.deskewMaskDetection => [Event.stage nr Stage.detectMasks]
  | StageKind.deskewOfEachMask => passes Stage.deskew nr 0 deskewMasks
  | StageKind.centeringMaskDetection => [Event.stage nr Stage.detectMasks]
  | StageKind.centeringOfEachMask => passes Stage.centerMask nr 0 centerMasks
  | StageKind.explicitWipe => [Event.stage nr Stage.wipe]
  | StageKind.explicitBorder => [Event.stage nr Stage.border]
  | StageKind.borderDetection =>
    Event.stage nr Stage.borderScan ::
      gate (!isExcluded nr g.options.noBorderAlignMultiIndex g.options.ignoreMultiIndex)
        (passes Stage.alignMask nr 0 g.outsideBorderscanMaskCount)
  | StageKind.postWipe => [Event.stage nr Stage.postWipe]
  | StageKind.postBorder => [Event.stage nr Stage.postBorder]
  | StageKind.postMirror => [Event.stage nr Stage.postMirror]
  | StageKind.postShift => [Event.stage nr Stage.postShift]
  | StageKind.postRotate => [Event.stage nr Stage.postRotate]
  | StageKind.postStretch => [Event.stage nr Stage.postStretch]
  | StageKind.postSize => [Event.stage nr Stage.postSize]
  | StageKind.outputSplitAndSave => savedEvents nr 0 outputFileNames

/-- The globals without the mask list, the only global the stages write. -/
def Globals.withoutMask (g : Globals) : Globals := { g with mask := [] }

/-- The configuration part of the working variables. -/
def Proc.cfg (p : Proc) : Globals := p.g.withoutMask

/-- The log the specification expects of the stages `kinds` of sheet `nr`: the events
of those stages whose gate holds, in the order of the list. -/
def expectedLog (g : Globals) (nr : Int) (maskCount deskewMasks centerMasks : Nat)
    (outputFileNames : List String) (kinds : List StageKind) : List Event :=
  (kinds.filter (stageGate g nr maskCount)).flatMap
    (stageEvents g nr deskewMasks centerMasks outputFileNames)

/-! ## Reading the log and the globals -/

/-- The sheet an event belongs to. -/
def Event.sheet : Event → Int
  | Event.inputSlot nr _ _ => nr
  | Event.outputSlot nr _ _ => nr
  | Event.beginSheet nr => nr
  | Event.loaded nr _ _ => nr
  | Event.sheetAlloc nr _ _ => nr
  | Event.stage nr _ => nr
  | Event.saved nr _ _ => nr

/-- The event is the start of the processing of a sheet. -/
def Event.isBegin : Event → Bool
  | Event.beginSheet _ => true
  | _ => false

/-- The event is the resolution of a file name. -/
def Event.isSlot : Event → Bool
  | Event.inputSlot _ _ _ => true
  | Event.outputSlot _ _ _ => true
  | _ => false

/-- The sheets whose processing was started, in the order of the log. -/
def processedSheets (log : List Event) : List Int :=
  (log.filter Event.isBegin).map Event.sheet

/-- The allocations of the sheet buffer, in the order of the log. -/
def sheetAllocs (log : List Event) : List (Int × Int × Int) :=
  log.filterMap fun e =>
    match e with
    | Event.sheetAlloc nr w h => some (nr, w, h)
    | _ => none

/-- The input names that were resolved, with sheet and slot, in the order of the log. -/
def inputSlots (log : List Event) : List (Int × Nat × Option String) :=
  log.filterMap fun e =>
    match e with
    | Event.inputSlot nr i name => some (nr, i, name)
    | _ => none

/-- The globals without the lists and the mask-scan maximum that the layout
configuration and the mask detection write. What is left is not written
inside the sheet loop, except for `options.endSheet`. -/
def Globals.static (g : Globals) : Globals :=
  { g with point := [], mask := [], wipe := [], blackfilterExclude := [],
           maskScanMaximum := ⟨-1, -1⟩, outsideBorderscanMask := [] }

/-- The state `st1` comes from `st` by work on sheet `nr`: the counters, `optind` and
the static globals are the same and the log grew by events of sheet `nr` that
are neither name resolutions nor the start of a sheet. -/
def SheetWork (nr : Int) (st st1 : RunState) : Prop :=
  st1.inputNr = st.inputNr ∧ st1.outputNr = st.outputNr ∧ st1.optind = st.optind ∧
  st1.g.static = st.g.static ∧
  ∃ L : List Event, st1.log = st.log ++ L ∧
    ∀ e ∈ L, e.sheet = nr ∧ e.isBegin = false ∧ e.isSlot = false

/-- The events of resolving `k` input slots from slot `i` on with a wildcard pattern,
starting at input number `n`. -/
def inputSlotEvents {Angle : Type} (env : Env Angle) (nr : Int) (pattern : String) :
    Nat → Int → Nat → List Event
  | _, _, 0 => []
  | i, n, k + 1 =>
    Event.inputSlot nr i (some (env.sprintf pattern n)) ::
      inputSlotEvents env nr pattern (i + 1) (n + 1) k

/-- The names of `k` input slots with a wildcard pattern, starting at input number `n`. -/
def inputSlotNames {Angle : Type} (env : Env Angle) (pattern : String) :
    Int → Nat → List (Option String)
  | _, 0 => []
  | n, k + 1 => some (env.sprintf pattern n) :: inputSlotNames env pattern (n + 1) k

/-- The events of resolving `k` output slots from slot `i` on with a wildcard pattern,
starting at output number `n`. -/
def outputSlotEvents {Angle : Type} (env : Env Angle) (nr : Int) (pattern : String) :
    Nat → Int → Nat → List Event
  | _, _, 0 => []
  | i, n, k + 1 =>
    Event.outputSlot nr i (env.sprintf pattern n) ::
      outputSlotEvents env nr pattern (i + 1) (n + 1) k

/-- The names of `k` output slots with a wildcard pattern, starting at output number `n`. -/
def outputSlotNames {Angle : Type} (env : Env Angle) (pattern : String) :
    Int → Nat → List String
  | _, 0 => []
  | n, k + 1 => env.sprintf pattern n :: outputSlotNames env pattern (n + 1) k

/-- The state after input slots were resolved with a pattern: the input counter
has the value `inputNr` and `events` were logged. -/
def RunState.withInputs (st : RunState) (inputNr : Int) (events : List Event) : RunState :=
  { st with inputNr := inputNr, log := st.log ++ events }

/-- The state after output slots were resolved with a pattern: the output counter
has the value `outputNr` and `events` were logged. -/
def RunState.withOutputs (st : RunState) (outputNr : Int) (events : List Event) : RunState :=
  { st with outputNr := outputNr, log := st.log ++ events }

/-- A state at the start of a pass of the sheet loop in a run whose first file
argument is the input pattern and whose second is the output pattern, with
empty insert-blank and replace-blank sets. -/
structure WildcardState (argv : List String) (inPat outPat : String) (st : RunState) :
    Prop where
  optind : st.optind = 0
  arg0 : argv[0]? = some inPat
  arg1 : argv[1]? = some outPat
  inWild : hasPlaceholder inPat = true
  outWild : hasPlaceholder outPat = true
  multi : st.g.multisheets = true
  noInsert : ∀ n, isInMultiIndex n st.g.options.insertBlank = false
  noReplace : ∀ n, isInMultiIndex n st.g.options.replaceBlank = false

/-- Sheet `nr` is selected for processing (line 1146). -/
def sheetSelected (g : Globals) (nr : Int) : Bool :=
  isInMultiIndex nr g.options.sheetMultiIndex && !isInMultiIndex nr g.options.excludeMultiIndex

/-- The index set that gates a stage, for the stages that are gated by `isExcluded`. -/
def ownIndexSet (o : Options) : Stage → Option MultiIndex
  | Stage.preWipe => some o.noWipeMultiIndex
  | Stage.wipe => some o.noWipeMultiIndex
  | Stage.postWipe => some o.noWipeMultiIndex
  | Stage.preBorder => some o.noBorderMultiIndex
  | Stage.border => some o.noBorderMultiIndex
  | Stage.postBorder => some o.noBorderMultiIndex
  | Stage.blackfilter => some o.noBlackfilterMultiIndex
  | Stage.noisefilter => some o.noNoisefilterMultiIndex
  | Stage.blurfilter => some o.noBlurfilterMultiIndex
  | Stage.grayfilter => some o.noGrayfilterMultiIndex
  | Stage.detectMasks => some o.noMaskScanMultiIndex
  | Stage.deskew _ => some o.noDeskewMultiIndex
  | Stage.centerMask _ => some o.noMaskCenterMultiIndex
  | Stage.borderScan => some o.noBorderScanMultiIndex
  | Stage.alignMask _ => some o.noBorderAlignMultiIndex
  | _ => none

/-- The gated stages that run once per sheet and are not enclosed in another gated
stage: the wipes, the borders, the four filters, the first mask detection and
the border detection. -/
def plainGatedStages : List Stage :=
  [Stage.preWipe, Stage.preBorder, Stage.blackfilter, Stage.noisefilter, Stage.blurfilter,
   Stage.detectMasks, Stage.grayfilter, Stage.wipe, Stage.border, Stage.borderScan,
   Stage.postWipe, Stage.postBorder]

/-- The stages of sheet `nr` in the log, in the order of the log. -/
def loggedStages (nr : Int) (log : List Event) : List Stage :=
  log.filterMap fun e =>
    match e with
    | Event.stage n s => if n = nr then some s else none
    | _ => none

/-- The events of resolving `k` input slots from slot `i` on to blank pages. -/
def blankSlotEvents (nr : Int) : Nat → Nat → List Event
  | _, 0 => []
  | i, k + 1 => Event.inputSlot nr i none :: blankSlotEvents nr (i + 1) k

/-- The output names that were resolved, with sheet and slot, in the order of the log. -/
def outputSlots (log : List Event) : List (Int × Nat × Option String) :=
  log.filterMap fun e =>
    match e with
    | Event.outputSlot nr i name => some (nr, i, some name)
    | _ => none

/-- The state after slots were resolved with explicit names: the argument index has
the value `optind` and `events` were logged. -/
def RunState.withArgs (st : RunState) (optind : Nat) (events : List Event) : RunState :=
  { st with optind := optind, log := st.log ++ events }

/-- The events of resolving `k` input slots from slot `i` on with explicit names, the
arguments from index `a` on. -/
def explicitInputEvents (argv : List String) (nr : Int) : Nat → Nat → Nat → List Event
  | _, _, 0 => []
  | i, a, k + 1 => Event.inputSlot nr i argv[a]? :: explicitInputEvents argv nr (i + 1) (a + 1) k

/-- The names of `k` input slots with explicit names, the arguments from index `a` on. -/
def explicitInputNames (argv : List String) : Nat → Nat → List (Option String)
  | _, 0 => []
  | a, k + 1 => argv[a]? :: explicitInputNames argv (a + 1) k

/-- The events of resolving `k` output slots from slot `i` on with explicit names, the
arguments from index `a` on. -/
def explicitOutputEvents (argv : List String) (nr : Int) : Nat → Nat → Nat → List Event
  | _, _, 0 => []
  | i, a, k + 1 =>
    Event.outputSlot nr i (argv.getD a "") :: explicitOutputEvents argv nr (i + 1) (a + 1) k

/-- The names of `k` output slots with explicit names, the arguments from index `a` on. -/
def explicitOutputNames (argv : List String) : Nat → Nat → List String
  | _, 0 => []
  | a, k + 1 => argv.getD a "" :: explicitOutputNames argv (a + 1) k

/-- The input slots of `r` passes with explicit names, `c` inputs and `o` outputs per
sheet, from sheet `nr` and pass `k` on: pass `k` takes the arguments
`k * (c + o), ..., k * (c + o) + c - 1`. -/
def explicitInputSlots (argv : List String) (c o : Nat) :
    Int → Nat → Nat → List (Int × Nat × Option String)
  | _, _, 0 => []
  | nr, k, r + 1 =>
    (List.range c).map (fun i => (nr, i, argv[k * (c + o) + i]?)) ++
      explicitInputSlots argv c o (nr + 1) (k + 1) r

/-- The output slots of `r` passes with explicit names, from sheet `nr` and pass `k`
on: pass `k` takes the arguments `k * (c + o) + c, ..., k * (c + o) + c + o - 1`. -/
def explicitOutputSlots (argv : List String) (c o : Nat) :
    Int → Nat → Nat → List (Int × Nat × Option String)
  | _, _, 0 => []
  | nr, k, r + 1 =>
    (List.range o).map (fun i => (nr, i, argv[k * (c + o) + c + i]?)) ++
      explicitOutputSlots argv c o (nr + 1) (k + 1) r

/-- A state at the start of a pass of the sheet loop in a run with explicit file
names: no argument is taken as a pattern, the numbers of pages per sheet are at
least one, the insert-blank and replace-blank sets are empty and existing
output files may be overwritten. -/
structure ExplicitState (argv : List String) (st : RunState) : Prop where
  noWildcard : ∀ a ∈ argv, (st.g.multisheets && hasPlaceholder a) = false
  inputs : 1 ≤ st.g.inputCount
  outputs : 1 ≤ st.g.outputCount
  noInsert : ∀ n, isInMultiIndex n st.g.options.insertBlank = false
  noReplace : ∀ n, isInMultiIndex n st.g.options.replaceBlank = false
  overwrite : st.g.overwrite = true

/-- The left edge of the slot of input page `j`, the second argument of the call of
`centerImage` at line 1220: `w * j / inputCount`. -/
def slotLeft (st : RunState) (j : Nat) : Int := Int.tdiv (st.w * j) st.g.inputCount

/-- The width of the slot of an input page, the fourth argument of the call of
`centerImage` at line 1220: `w / inputCount`. -/
def slotWidth (st : RunState) : Int := Int.tdiv st.w st.g.inputCount

/-- Column `x` of the sheet lies in the slot of input page `j`. -/
def inSlot (st : RunState) (j : Nat) (x : Int) : Prop :=
  slotLeft st j ≤ x ∧ x < slotLeft st j + slotWidth st

instance (st : RunState) (j : Nat) (x : Int) : Decidable (inSlot st j x) := by
  unfold inSlot
  infer_instance

/-- The width of an output page, the size given to `initImage` at line 2000:
`sheet->width / outputCount`. -/
def sliceWidth (g : Globals) (sheet : Image) : Int := Int.tdiv sheet.width g.outputCount

/-- The first column of the source rectangle of output page `j`, line 2004:
`page->width * j`. -/
def sliceStart (g : Globals) (sheet : Image) (j : Nat) : Int := sliceWidth g sheet * j

/-- Column `x` of the sheet lies in slice `j`: it is one of the `page->width` columns
from `page->width * j` on, which are the columns that fit into the page buffer. -/
def inSlice (g : Globals) (sheet : Image) (j : Nat) (x : Int) : Prop :=
  sliceStart g sheet j ≤ x ∧ x < sliceStart g sheet j + sliceWidth g sheet

instance (g : Globals) (sheet : Image) (j : Nat) (x : Int) : Decidable (inSlice g sheet j x) := by
  unfold inSlice
  infer_instance

/-- Width and height of an image. -/
def Image.size (img : Image) : Int × Int := (img.width, img.height)

/-- The size that the stretch block (lines 1543-1560) and the post-stretch block
(lines 1951-1966) give the sheet: the stretch size, with the width or height of
the sheet where none is given, times the zoom factor. -/
def stretchedSize (zoom : Int → Int) (target : Size2) (s : Int × Int) : Int × Int :=
  (zoom (if target.width ≠ -1 then target.width else s.1),
   zoom (if target.height ≠ -1 then target.height else s.2))

/-- The size that the size block (lines 1562-1577) and the post-size block (lines
1968-1981) give the sheet: the given size, with the width or height of the sheet
where only the other one is given; the size of the sheet if none is given. -/
def resizedSize (target : Size2) (s : Int × Int) : Int × Int :=
  if target.width ≠ -1 ∨ target.height ≠ -1 then
    (if target.width ≠ -1 then target.width else s.1,
     if target.height ≠ -1 then target.height else s.2)
  else s

/-- The size that the post-rotate block (lines 1943-1949) gives the sheet: width and
height exchanged if a rotation is set. -/
def rotatedSize (rotate : Int) (s : Int × Int) : Int × Int :=
  if rotate ≠ 0 then (s.2, s.1) else s

/-- The size of the sheet at the output split, for the size `s` it is allocated
with: the five blocks that change the size, in the order of the source. -/
def finalSize {Angle : Type} (env : Env Angle) (g : Globals) (s : Int × Int) : Int × Int :=
  resizedSize g.postSize (stretchedSize env.postZoom g.postStretchSize
    (rotatedSize g.postRotate (resizedSize g.size (stretchedSize env.zoom g.stretchSize s))))

/-- The property `P` holds in the state in which a part of the loop body ends, if it
ends in a state. -/
def Step.All {α : Type} (P : RunState → Prop) : Step α → Prop
  | Step.ok _ s => P s
  | Step.sheetEnd s => P s
  | Step.fatal _ s => P s
  | Step.undefined => True

/-- The property `P` holds in the state in which a pass of the sheet loop ends, if it
ends in a state. -/
def Iter.All (P : RunState → Prop) : Iter → Prop
  | Iter.next s => P s
  | Iter.stop s => P s
  | Iter.fatal _ s => P s
  | Iter.undefined => True

/-- The names of the input files that were resolved, in the order of the log. -/
def inputNames (log : List Event) : List String :=
  log.filterMap fun e =>
    match e with
    | Event.inputSlot _ _ (some name) => some name
    | _ => none

/-- The names of the output files that were resolved, in the order of the log. -/
def outputNames (log : List Event) : List String :=
  log.filterMap fun e =>
    match e with
    | Event.outputSlot _ _ name => some name
    | _ => none

/-- The names of the files that `saveImage` has written. -/
def RunState.writtenNames (st : RunState) : List String := st.written.map Prod.fst

/-- Every file written so far has a name that was resolved as an output name. -/
def WrittenResolved (st : RunState) : Prop :=
  ∀ n ∈ st.writtenNames, n ∈ outputNames st.log

/-- The globals with the exclude set `ex`, as `--exclude` leaves it. -/
def Globals.withExclude (g : Globals) (ex : MultiIndex) : Globals :=
  { g with options := { g.options with excludeMultiIndex := ex } }

/-- Two states agree in everything name resolution reads and writes apart from the
files: the input and output counters, `optind`, the static globals apart from
the exclude set, and the input slots and output names in the log. -/
structure SameResolution (a b : RunState) : Prop where
  inputNr : a.inputNr = b.inputNr
  outputNr : a.outputNr = b.outputNr
  optind : a.optind = b.optind
  globals : a.g.static.withExclude MultiIndex.empty = b.g.static.withExclude MultiIndex.empty
  inputs : inputSlots a.log = inputSlots b.log
  outputs : outputSlots a.log = outputSlots b.log

/-- Two parts of the loop body end in the same way, with the same result and in
states that agree in what name resolution reads and writes. -/
def StepRel {α : Type} (x y : Step α) : Prop :=
  match x, y with
  | Step.ok a s, Step.ok b t => a = b ∧ SameResolution s t
  | Step.sheetEnd s, Step.sheetEnd t => SameResolution s t
  | Step.fatal e s, Step.fatal f t => e = f ∧ SameResolution s t
  | Step.undefined, Step.undefined => True
  | _, _ => False

/-- Two passes of the sheet loop end in the same way, in states that agree in what
name resolution reads and writes. -/
def IterRel (x y : Iter) : Prop :=
  match x, y with
  | Iter.next s, Iter.next t => SameResolution s t
  | Iter.stop s, Iter.stop t => SameResolution s t
  | Iter.fatal e s, Iter.fatal f t => e = f ∧ SameResolution s t
  | Iter.undefined, Iter.undefined => True
  | _, _ => False

/-- No name is resolved twice as an output name, and no name is resolved both as an
input name and as an output name: the `stat` calls of the run never meet a file
that the run itself has written. -/
def NoFeedback (log : List Event) : Prop :=
  (outputNames log).Nodup ∧ ∀ n ∈ inputNames log, n ∉ outputNames log

instance (log : List Event) : Decidable (NoFeedback log) := by
  unfold NoFeedback
  infer_instance

/-- From `st` to `s` names were resolved and nothing else was done: no file was
written, the sheet buffer is the same and the log grew by the name resolutions
`L`. -/
def Resolves (st s : RunState) (L : List Event) : Prop :=
  s.written = st.written ∧ s.sheet = st.sheet ∧ s.log = st.log ++ L ∧
  ∀ e ∈ L, e.isSlot = true

/-- From `st` to `s` the log has grown only, and every file written has a name that
was resolved as an output name if that was so in `st`. -/
def Ext (st s : RunState) : Prop :=
  (∃ L : List Event, s.log = st.log ++ L) ∧ (WrittenResolved st → WrittenResolved s)

/-- How a part of the loop body ends is one of the ends that the comparison of two
runs leaves aside: undefined behaviour, or a state in whose log a name was
resolved that the run has written. -/
def Step.Bad {α : Type} (x : Step α) : Prop := x.All fun s => ¬ NoFeedback s.log

/-- How a pass of the sheet loop ends is one of the ends that the comparison of two
runs leaves aside: "sheet size unknown", undefined behaviour, or a state in whose
log a name was resolved that the run has written. -/
def Iter.Bad (x : Iter) : Prop :=
  (∃ s, x = Iter.fatal Fatal.sheetSizeUnknown s) ∨ x.All fun s => ¬ NoFeedback s.log

/-- A pass for sheet `nr` from `st` that goes on to `sheet_end` in `s` did nothing but
resolve names; if one of the input names it resolved is not the name of a file,
no end sheet was set and the end sheet is `nr - 1` now; and if overwriting is not
permitted, none of the output names it resolved is the name of a file. -/
def PassGoesOn {Angle : Type} (env : Env Angle) (nr : Int) (st s : RunState) : Prop :=
  ∃ L, Resolves st s L ∧
    (∀ n ∈ inputNames L, stat env st.written n = false →
      st.g.options.endSheet = -1 ∧ s.g.options.endSheet = nr - 1) ∧
    (st.g.overwrite = false → ∀ n ∈ outputNames L, stat env st.written n = false)

/-- A pass from `st` that ends with the fatal error `e` in `s` did nothing but resolve
names; if one of the input names it resolved is not the name of a file, an end
sheet was set and the error is "unable to open file" for that name; and if
overwriting is not permitted and one of the output names it resolved is the name
of a file, the error is "already present" for that name. -/
def PassFails {Angle : Type} (env : Env Angle) (st : RunState) (e : Fatal) (s : RunState) :
    Prop :=
  ∃ L, Resolves st s L ∧
    (∀ n ∈ inputNames L, stat env st.written n = false →
      st.g.options.endSheet ≠ -1 ∧ e = Fatal.unableToOpen n) ∧
    (st.g.overwrite = false → ∀ n ∈ outputNames L, stat env st.written n = true →
      e = Fatal.outputPresent n)

/-- From `st` to `s` the log has grown by events that are not name resolutions. -/
def Grows (st s : RunState) : Prop :=
  ∃ L : List Event, s.log = st.log ++ L ∧ ∀ e ∈ L, e.isSlot = false

/-- A run ends in one of the ways that the comparison of two runs leaves aside:
undefined behaviour, "sheet size unknown", or a log in which a name was resolved
that the run has written. -/
def RunBad (r : Exit × RunState) : Prop :=
  r.1 = Exit.undefined ∨ r.1 = Exit.fatal Fatal.sheetSizeUnknown ∨ ¬ NoFeedback r.2.log

/-! ## Concrete inputs -/

/-- A stand-in for `sprintf` on patterns with one `%d`: the text before the first
`%`, the number, and the text behind the two characters of the placeholder. -/
def sampleSprintf (pattern : String) (n : Int) : String :=
  String.mk (pattern.toList.takeWhile (fun c => c != '%')) ++ toString n ++
    String.mk ((pattern.toList.dropWhile (fun c => c != '%')).drop 2)

/-- A small environment: the files are those of the table `pages`, which gives
their sizes; every detected rotation is `angle`; `rotate` transposes and the
other primitives leave the pixels as they are. -/
def sampleEnv (pages : List (String × (Nat × Nat))) (angle : Int) : Env Int :=
  { sprintf := sampleSprintf
    fileExists := fun name => (pages.map Prod.fst).contains name
    pageSize := fun name => ((pages.lookup name).getD (0, 0))
    pagePix := fun _ x y => (x + y).toNat
    background := 255
    unfilled := fun _ _ => 7
    zoom := fun w => w
    postZoom := fun w => w
    flipRotatePix := fun _ img x y => img.pix y x
    centerImagePix := fun _ _ _ _ _ sheet => sheet.pix
    mirrorPix := fun _ img => img.pix
    shiftPix := fun _ _ img => img.pix
    applyMasksPix := fun _ img => img.pix
    applyWipesPix := fun _ img => img.pix
    applyBorderPix := fun _ img => img.pix
    stretchPix := fun _ _ img => img.pix
    resizePix := fun _ _ img => img.pix
    blackfilterPix := fun _ img => img.pix
    noisefilterPix := fun _ img => img.pix
    blurfilterPix := fun _ img => img.pix
    grayfilterPix := fun _ img => img.pix
    detectMasks := fun g _ => g.point.map fun pt => ⟨pt.x - 10, pt.y - 10, pt.x + 10, pt.y + 10⟩
    detectRotation := fun _ _ _ => angle
    rotatePix := fun _ src _ x y => src.pix y x
    centerMaskPix := fun img _ _ => img.pix
    detectBorder := fun _ om _ => om
    borderToMask := fun b _ => b
    alignMaskPix := fun _ _ _ img => img.pix }

/-- A sheet of 100 x 80 pixels whose pixel at `(x, y)` has the value `x + y`. -/
def sampleSheet : Image := { width := 100, height := 80, pix := fun x y => (x + y).toNat }

/-- Working variables for `sampleSheet` and the globals `g`, with an empty log. -/
def sampleProc (g : Globals) : Proc := { g := g, sheet := sampleSheet, w := 100, h := 80, log := [] }

/-- The default globals with layout DOUBLE. -/
def doubleGlobals : Globals :=
  { Globals.default with options := { Options.default with layout := Layout.LAYOUT_DOUBLE } }

/-- The default globals with input 1 both in the insert-blank and in the
replace-blank set. -/
def blankGlobals : Globals :=
  { Globals.default with
    options := { Options.default with insertBlank := ⟨1, [1]⟩, replaceBlank := ⟨1, [1]⟩ } }

/-- Two input files of the same size. -/
def twoPages : List (String × (Nat × Nat)) := [("in1.pbm", (100, 200)), ("in2.pbm", (100, 200))]

/-- Ten input files `1p.pbm` to `10p.pbm` of the same size. -/
def tenPages : List (String × (Nat × Nat)) :=
  [("1p.pbm", (100, 200)), ("2p.pbm", (100, 200)), ("3p.pbm", (100, 200)),
   ("4p.pbm", (100, 200)), ("5p.pbm", (100, 200)), ("6p.pbm", (100, 200)),
   ("7p.pbm", (100, 200)), ("8p.pbm", (100, 200)), ("9p.pbm", (100, 200)),
   ("10p.pbm", (100, 200))]

/-- Two input files of different sizes. -/
def twoSizes : List (String × (Nat × Nat)) := [("in1.pbm", (100, 200)), ("in2.pbm", (300, 400))]

/-- The default globals with `--start-sheet 0`. -/
def sheetZeroGlobals : Globals :=
  { Globals.default with options := { Options.default with startSheet := 0 } }

/-- The default globals with `--start-sheet 0 --input-pages 2`. -/
def sheetZeroTwoPagesGlobals : Globals :=
  { Globals.default with options := { Options.default with startSheet := 0 }, inputCount := 2 }

/-- Input files for the numbers 0 and 1. -/
def pagesZeroOne : List (String × (Nat × Nat)) := [("in0.pbm", (100, 200)), ("in1.pbm", (100, 200))]

/-- One input file. -/
def onePage : List (String × (Nat × Nat)) := [("in1.pbm", (100, 200))]

/-- The default globals with `--sheet-size 100,200 --replace-blank 1`. -/
def forcedBlankGlobals : Globals :=
  { Globals.default with
    sheetSize := ⟨100, 200⟩,
    options := { Options.default with replaceBlank := ⟨1, [1]⟩ } }

/-- The default globals with `--post-rotate 90 --replace-blank 2`. -/
def postRotateBlankGlobals : Globals :=
  { Globals.default with
    postRotate := 90,
    options := { Options.default with replaceBlank := ⟨1, [2]⟩ } }

/-- The default globals with `--post-size 50,50`. -/
def postSizeGlobals : Globals := { Globals.default with postSize := ⟨50, 50⟩ }

/-- The default globals with `--layout none`. -/
def noneGlobals : Globals :=
  { Globals.default with options := { Options.default with layout := Layout.LAYOUT_NONE } }

/-- The default globals with `--mask-scan-minimum -1,-1 --mask-scan-maximum 50,60`. -/
def crossWiredGlobals : Globals :=
  { Globals.default with maskScanMinimum := ⟨-1, -1⟩, maskScanMaximum := ⟨50, 60⟩ }

/-- The default globals with `--no-border-scan=1`. -/
def noBorderScanGlobals : Globals :=
  { Globals.default with
    options := { Options.default with noBorderScanMultiIndex := ⟨1, [1]⟩ } }

/-- The default globals with `--overwrite`. -/
def overwriteGlobals : Globals := { Globals.default with overwrite := true }

/-- The default globals with `--overwrite --end-sheet 1`. -/
def endSheetOneGlobals : Globals :=
  { Globals.default with options := { Options.default with endSheet := 1 }, overwrite := true }

/-- The default globals with `--input-pages 2 --insert-blank 2`. -/
def insertBlankGlobals : Globals :=
  { Globals.default with
    options := { Options.default with insertBlank := ⟨1, [2]⟩ },
    inputCount := 2 }

/-- The default globals with `--input-pages 2 --replace-blank 1`. -/
def replaceBlankGlobals : Globals :=
  { Globals.default with
    options := { Options.default with replaceBlank := ⟨1, [1]⟩ },
    inputCount := 2 }

/-- The files `a.pbm` and `b.pbm`. -/
def pagesAB : List (String × (Nat × Nat)) := [("a.pbm", (100, 200)), ("b.pbm", (100, 200))]

/-- The default globals with `--layout double --middle-wipe 10,20`. -/
def doubleWipeGlobals : Globals :=
  { Globals.default with
    options := { Options.default with layout := Layout.LAYOUT_DOUBLE },
    middleWipe := (10, 20) }

/-- The globals of `doubleWipeGlobals` with two wipes from `--wipe` options. -/
def doubleWipeFullGlobals : Globals :=
  { doubleWipeGlobals with wipe := [⟨0, 0, 9, 9⟩, ⟨5, 5, 9, 9⟩] }

/-- The default globals with `--no-mask-scan=1 --mask 10,10,50,50 --mask 60,10,90,50`. -/
def twoMasksGlobals : Globals :=
  { Globals.default with
    options := { Options.default with noMaskScanMultiIndex := ⟨1, [1]⟩ },
    mask := [⟨10, 10, 50, 50⟩, ⟨60, 10, 90, 50⟩] }

/-- The default globals with `--test-only`. -/
def testOnlyGlobals : Globals := { Globals.default with writeoutput := false }

/-- The default globals with `--output-pages 2`. -/
def twoOutputsGlobals : Globals := { Globals.default with outputCount := 2 }

/-- A sheet of 101 x 80 pixels. -/
def oddSheet : Image := { width := 101, height := 80, pix := fun x y => (x + y).toNat }

/-- The state in which the second page of a sheet of 200 x 80 is placed, with
`--input-pages 2`. -/
def slotState : RunState :=
  { initialState { Globals.default with inputCount := 2 } with
    w := 200, h := 80, sheet := some sampleSheet }

/-- The default globals with `--size 50,60`. -/
def sizeGlobals : Globals := { Globals.default with size := ⟨50, 60⟩ }

/-- The default globals with `--post-rotate 90`. -/
def postRotateGlobals : Globals := { Globals.default with postRotate := 90 }

/-- The default globals with `--pre-shift 5,5 --post-shift 3,0`. -/
def shiftGlobals : Globals :=
  { Globals.default with preShift := ⟨5, 5⟩, postShift := ⟨3, 0⟩ }

/-- The default globals with `--stretch 60,40 --size 50,30 --post-rotate 90`. -/
def resampleGlobals : Globals :=
  { Globals.default with stretchSize := ⟨60, 40⟩, size := ⟨50, 30⟩, postRotate := 90 }

/-- The default globals with `--replace-blank 1`. -/
def replaceFirstGlobals : Globals :=
  { Globals.default with options := { Options.default with replaceBlank := ⟨1, [1]⟩ } }

/-- The files `in1.pbm` and `in2.pbm`, and an output file `out2.pbm` that is present
before the run. -/
def pagesWithOutput : List (String × (Nat × Nat)) :=
  [("in1.pbm", (100, 200)), ("in2.pbm", (100, 200)), ("out2.pbm", (100, 200))]

/-- The files `p1.pbm` and `p2.pbm`. -/
def pagesP : List (String × (Nat × Nat)) := [("p1.pbm", (100, 200)), ("p2.pbm", (100, 200))]

/-- The default globals with `--start-output 3 --end-sheet 3`. -/
def startOutputGlobals : Globals :=
  { Globals.default with
    options := { Options.default with startOutput := 3, endSheet := 3 } }

/-! ## Theorems -/

section Theorems

variable {Angle : Type}

/-! ### The test for a file -/

/-- A file that exists when the run starts exists in every state of the run. -/
theorem stat_of_fileExists (env : Env Angle) (written : List (String × Image)) (name : String)
    (h : env.fileExists name = true) : stat env written name = true := by
  simp [stat, h]

/-- A file does not exist if it did not exist when the run started and the run has
not written it. -/
theorem stat_eq_false (env : Env Angle) (written : List (String × Image)) (name : String)
    (h : env.fileExists name = false) (hw : name ∉ written.map Prod.fst) :
    stat env written name = false := by
  simp only [stat, h, Bool.false_or]
  simpa using hw

/-! ### Layout configuration: which step touches which global -/

theorem singlePoint_point_of_empty (g : Globals) (sheet : Image) (h : g.pointCount = 0) :
    (singlePoint g sheet).point = [⟨Int.tdiv sheet.width 2, Int.tdiv sheet.height 2⟩] := by
  have hnil : g.point = [] := List.length_eq_zero.mp h
  simp [singlePoint, h, hnil]

theorem doublePoint_point_of_empty (g : Globals) (sheet : Image) (h : g.pointCount = 0) :
    (doublePoint g sheet).point =
      [⟨Int.tdiv sheet.width 4, Int.tdiv sheet.height 2⟩,
       ⟨sheet.width - Int.tdiv sheet.width 4, Int.tdiv sheet.height 2⟩] := by
  have hnil : g.point = [] := List.length_eq_zero.mp h
  simp [doublePoint, h, hnil]

theorem defaultMaskScanMaximumWidth_point (g : Globals) (v : Int) :
    (defaultMaskScanMaximumWidth g v).point = g.point := by
  unfold defaultMaskScanMaximumWidth; split <;> rfl

theorem defaultMaskScanMaximumHeight_point (g : Globals) (v : Int) :
    (defaultMaskScanMaximumHeight g v).point = g.point := by
  unfold defaultMaskScanMaximumHeight; split <;> rfl

theorem singleBlackfilterExclude_point (g : Globals) (sheet : Image) :
    (singleBlackfilterExclude g sheet).point = g.point := by
  unfold singleBlackfilterExclude; split <;> rfl

theorem singleOutsideBorderscanMask_point (g : Globals) (sheet : Image) :
    (singleOutsideBorderscanMask g sheet).point = g.point := by
  unfold singleOutsideBorderscanMask; split <;> rfl

theorem doubleMiddleWipe_point (g : Globals) (sheet : Image) :
    (doubleMiddleWipe g sheet).point = g.point := by
  unfold doubleMiddleWipe; split <;> rfl

theorem doubleBlackfilterExclude_point (g : Globals) (sheet : Image) :
    (doubleBlackfilterExclude g sheet).point = g.point := by
  unfold doubleBlackfilterExclude; split <;> rfl

theorem doubleOutsideBorderscanMask_point (g : Globals) (sheet : Image) :
    (doubleOutsideBorderscanMask g sheet).point = g.point := by
  unfold doubleOutsideBorderscanMask; split <;> rfl

theorem fallbackMaskScanMaximumWidth_point (g : Globals) (sheet : Image) :
    (fallbackMaskScanMaximumWidth g sheet).point = g.point := by
  unfold fallbackMaskScanMaximumWidth; split <;> rfl

theorem fallbackMaskScanMaximumHeight_point (g : Globals) (sheet : Image) :
    (fallbackMaskScanMaximumHeight g sheet).point = g.point := by
  unfold fallbackMaskScanMaximumHeight; split <;> rfl

theorem layoutConfig_point (g : Globals) (sheet : Image) :
    (layoutConfig g sheet).point = (layoutBranch g sheet).point := by
  simp [layoutConfig, fallbackMaskScanMaximumHeight_point, fallbackMaskScanMaximumWidth_point]

theorem layoutSingle_point (g : Globals) (sheet : Image) :
    (layoutSingle g sheet).point = (singlePoint g sheet).point := by
  simp [layoutSingle, singleOutsideBorderscanMask_point, singleBlackfilterExclude_point,
    defaultMaskScanMaximumHeight_point, defaultMaskScanMaximumWidth_point]

theorem layoutDouble_point (g : Globals) (sheet : Image) :
    (layoutDouble g sheet).point = (doublePoint g sheet).point := by
  simp [layoutDouble, doubleOutsideBorderscanMask_point, doubleBlackfilterExclude_point,
    doubleMiddleWipe_point, defaultMaskScanMaximumHeight_point,
    defaultMaskScanMaximumWidth_point]

/-- C4: in layout SINGLE with no scan point configured when the layout block runs,
the block leaves exactly one scan point, the centre `(W/2, H/2)` of the sheet
as it is after the stretch and size stages, in C integer division. -/
theorem C4_single_default_scan_point (p : Proc) (W H : Int)
    (hlayout : p.g.options.layout = Layout.LAYOUT_SINGLE) (hcount : p.g.pointCount = 0)
    (hW : p.sheet.width = W) (hH : p.sheet.height = H) :
    (stageLayout p).g.point = [⟨Int.tdiv W 2, Int.tdiv H 2⟩] ∧
      (stageLayout p).g.pointCount = 1 := by
  subst hW hH
  have key : (stageLayout p).g.point
      = [⟨Int.tdiv p.sheet.width 2, Int.tdiv p.sheet.height 2⟩] := by
    simp only [stageLayout, layoutConfig_point, layoutBranch, hlayout, layoutSingle_point]
    exact singlePoint_point_of_empty p.g p.sheet hcount
  exact ⟨key, by simp [Globals.pointCount, key]⟩

/-- Witness of C4: a sheet of 100 x 80 with the default globals gets the scan point (50, 40). -/
theorem C4_single_default_scan_point_witness :
    (stageLayout (sampleProc Globals.default)).g.point = [⟨50, 40⟩] ∧
      (stageLayout (sampleProc Globals.default)).g.pointCount = 1 :=
  C4_single_default_scan_point (sampleProc Globals.default) 100 80 rfl rfl rfl rfl

/-- C5: in layout DOUBLE with no scan point configured when the layout block runs,
the block leaves exactly two scan points, `(W/4, H/2)` and then `(W - W/4, H/2)`,
in C integer division. -/
theorem C5_double_default_scan_points (p : Proc) (W H : Int)
    (hlayout : p.g.options.layout = Layout.LAYOUT_DOUBLE) (hcount : p.g.pointCount = 0)
    (hW : p.sheet.width = W) (hH : p.sheet.height = H) :
    (stageLayout p).g.point = [⟨Int.tdiv W 4, Int.tdiv H 2⟩, ⟨W - Int.tdiv W 4, Int.tdiv H 2⟩] ∧
      (stageLayout p).g.pointCount = 2 := by
  subst hW hH
  have key : (stageLayout p).g.point
      = [⟨Int.tdiv p.sheet.width 4, Int.tdiv p.sheet.height 2⟩,
         ⟨p.sheet.width - Int.tdiv p.sheet.width 4, Int.tdiv p.sheet.height 2⟩] := by
    simp only [stageLayout, layoutConfig_point, layoutBranch, hlayout, layoutDouble_point]
    exact doublePoint_point_of_empty p.g p.sheet hcount
  exact ⟨key, by simp [Globals.pointCount, key]⟩

/-- Witness of C5: a sheet of 100 x 80 in layout DOUBLE gets the scan points (25, 40)
and (75, 40). -/
theorem C5_double_default_scan_points_witness :
    (stageLayout (sampleProc doubleGlobals)).g.point = [⟨25, 40⟩, ⟨75, 40⟩] ∧
      (stageLayout (sampleProc doubleGlobals)).g.pointCount = 2 :=
  C5_double_default_scan_points (sampleProc doubleGlobals) 100 80 rfl rfl rfl rfl

/-! ### Deskew -/

theorem deskewRect_width (env : Env Angle) (sheet : Image) (m : Rect) :
    (deskewRect env sheet m).width = m.right - m.left + 1 := rfl

theorem deskewRect_height (env : Env Angle) (sheet : Image) (m : Rect) :
    (deskewRect env sheet m).height = m.bottom - m.top + 1 := rfl

theorem deskewRectTarget_width [Neg Angle] (env : Env Angle) (sheet : Image) (m : Rect) (a : Angle) :
    (deskewRectTarget env sheet m a).width = m.right - m.left + 1 := rfl

theorem deskewRectTarget_height [Neg Angle] (env : Env Angle) (sheet : Image) (m : Rect) (a : Angle) :
    (deskewRectTarget env sheet m a).height = m.bottom - m.top + 1 := rfl

/-- Copying a whole image to an offset changes the target only in the window that
starts at the offset and has the size of the source. -/
theorem copy_rectangle_full_outside (source target : Image) (c : Pt) (x y : Int)
    (h : ¬ (c.x ≤ x ∧ x ≤ c.x + source.width - 1 ∧ c.y ≤ y ∧ y ≤ c.y + source.height - 1)) :
    (copy_rectangle source target RECT_FULL_IMAGE c).pix x y = target.pix x y := by
  simp only [copy_rectangle, Image.withPix, clip_rectangle, RECT_FULL_IMAGE, POINT_ORIGIN,
    POINT_INFINITY]
  split
  · rename_i hc
    exfalso
    apply h
    obtain ⟨_, _, _, _, h1, h2, h3, h4⟩ := hc
    have e1 := le_trans h2 (min_le_right _ _)
    have e2 := le_trans h4 (min_le_right _ _)
    simp only [max_self] at h1 h3 e1 e2
    refine ⟨?_, ?_, ?_, ?_⟩ <;> omega
  · rfl

/-- C2: when the detected angle of a mask is not zero, deskewing the mask changes no
pixel of the sheet outside the rectangle of the mask and keeps the size of the
sheet, for every mask rectangle (whether it lies inside the sheet or not). Both
temporary buffers have the width `right - left + 1` and the height
`bottom - top + 1`, the second is the target of rotating the first by the
negative of the detected angle, and the sheet that results is the second buffer
copied back at the offset `(left, top)`. -/
theorem C2_deskew_changes_only_the_mask [Zero Angle] [Neg Angle] [DecidableEq Angle]
    (env : Env Angle) (g : Globals) (sheet : Image)
    (m : Rect) (hrot : env.detectRotation g sheet m ≠ 0) :
    (∀ x y : Int, ¬ (m.left ≤ x ∧ x ≤ m.right ∧ m.top ≤ y ∧ y ≤ m.bottom) →
        (deskewMask env g sheet m).pix x y = sheet.pix x y) ∧
    (deskewMask env g sheet m).width = sheet.width ∧
    (deskewMask env g sheet m).height = sheet.height ∧
    ∃ rect rectTarget : Image,
      deskewBuffers env g sheet m = some (rect, rectTarget) ∧
      rect.width = m.right - m.left + 1 ∧ rect.height = m.bottom - m.top + 1 ∧
      rectTarget.width = m.right - m.left + 1 ∧ rectTarget.height = m.bottom - m.top + 1 ∧
      rectTarget.pix = env.rotatePix (-(env.detectRotation g sheet m)) rect
        (initImage env rect.width rect.height true) ∧
      deskewMask env g sheet m
        = copy_rectangle rectTarget sheet RECT_FULL_IMAGE ⟨m.left, m.top⟩ := by
  have hm : deskewMask env g sheet m
      = copy_rectangle (deskewRectTarget env sheet m (env.detectRotation g sheet m)) sheet
          RECT_FULL_IMAGE ⟨m.left, m.top⟩ := by
    simp [deskewMask, hrot]
  refine ⟨?_, ?_, ?_, deskewRect env sheet m,
    deskewRectTarget env sheet m (env.detectRotation g sheet m), ?_, rfl, rfl, rfl, rfl, rfl, hm⟩
  · intro x y hxy
    rw [hm]
    apply copy_rectangle_full_outside
    intro hc
    apply hxy
    rw [deskewRectTarget_width, deskewRectTarget_height] at hc
    simp only at hc
    refine ⟨hc.1, ?_, hc.2.2.1, ?_⟩ <;> omega
  · rw [hm]; rfl
  · rw [hm]; rfl
  · simp [deskewBuffers, hrot]

/-- Witness of C2: deskewing the mask `[20..59] x [10..49]` of `sampleSheet` by a
non-zero angle leaves the pixel `(60, 49)` right of the mask as it is. -/
theorem C2_deskew_changes_only_the_mask_witness :
    (deskewMask (sampleEnv [] 3) Globals.default sampleSheet ⟨20, 10, 59, 49⟩).pix 60 49
      = sampleSheet.pix 60 49 :=
  (C2_deskew_changes_only_the_mask (sampleEnv [] 3) Globals.default sampleSheet ⟨20, 10, 59, 49⟩
    (by decide)).1 60 49 (by decide)

/-- One pass of the deskew loop with a detected angle of zero. -/
theorem deskewMask_of_zero [Zero Angle] [Neg Angle] [DecidableEq Angle]
    (env : Env Angle) (g : Globals) (sheet : Image) (m : Rect)
    (h : env.detectRotation g sheet m = 0) : deskewMask env g sheet m = sheet := by
  simp [deskewMask, h]

/-- The loop on the working variables changes the sheet as `deskewLoop` does. -/
theorem deskewEach_sheet [Zero Angle] [Neg Angle] [DecidableEq Angle]
    (env : Env Angle) (nr : Int) (masks : List Rect) :
    ∀ (i : Nat) (p : Proc),
      (deskewEach env nr i masks p).sheet = deskewLoop env p.g p.sheet masks := by
  induction masks with
  | nil => intro i p; rfl
  | cons m rest ih =>
    intro i p
    simp only [deskewEach, deskewLoop]
    rw [ih]
    rfl

theorem deskewLoop_of_zero [Zero Angle] [Neg Angle] [DecidableEq Angle]
    (env : Env Angle) (g : Globals) (sheet : Image) (masks : List Rect)
    (h : ∀ m ∈ masks, env.detectRotation g sheet m = 0) :
    deskewLoop env g sheet masks = sheet := by
  induction masks with
  | nil => rfl
  | cons m rest ih =>
    simp only [deskewLoop]
    rw [deskewMask_of_zero env g sheet m (h m (List.mem_cons_self _ _))]
    exact ih (fun m' hm' => h m' (List.mem_cons_of_mem _ hm'))

/-- C3: if the rotation detector returns 0 for a mask, the deskew step for that mask
allocates no buffer (so it copies, rotates and writes back nothing) and leaves
the sheet as it is; if it returns 0 for every mask of the list, the sheet after
the deskew loop is the sheet before it. -/
theorem C3_zero_angle_leaves_sheet [Zero Angle] [Neg Angle] [DecidableEq Angle]
    (env : Env Angle) (nr : Int) (p : Proc) :
    (∀ m : Rect, env.detectRotation p.g p.sheet m = 0 →
        deskewBuffers env p.g p.sheet m = none ∧ deskewMask env p.g p.sheet m = p.sheet) ∧
    (∀ masks : List Rect, (∀ m ∈ masks, env.detectRotation p.g p.sheet m = 0) →
        deskewLoop env p.g p.sheet masks = p.sheet ∧
        (deskewEach env nr 0 masks p).sheet = p.sheet) := by
  constructor
  · intro m h
    exact ⟨by simp [deskewBuffers, h], deskewMask_of_zero env p.g p.sheet m h⟩
  · intro masks h
    have h1 := deskewLoop_of_zero env p.g p.sheet masks h
    exact ⟨h1, by rw [deskewEach_sheet, h1]⟩

/-- Witness of C3: with a detector that always answers 0, two masks leave `sampleSheet`. -/
theorem C3_zero_angle_leaves_sheet_witness :
    deskewLoop (sampleEnv [] 0) Globals.default sampleSheet
        [⟨20, 10, 59, 49⟩, ⟨0, 0, 9, 9⟩] = sampleSheet ∧
      (deskewEach (sampleEnv [] 0) 1 0 [⟨20, 10, 59, 49⟩, ⟨0, 0, 9, 9⟩]
        (sampleProc Globals.default)).sheet = sampleSheet :=
  (C3_zero_angle_leaves_sheet (sampleEnv [] 0) 1 (sampleProc Globals.default)).2
    [⟨20, 10, 59, 49⟩, ⟨0, 0, 9, 9⟩] (fun _ _ => rfl)

/-! ### Resolution of one input slot -/

/-- C6: resolution of an input slot at input counter `n`. If `n` is in the
replace-blank set the slot is blank and the counter becomes `n + 1` (also when
`n` is in the insert-blank set as well); otherwise, if `n` is in the insert-blank
set the slot is blank and the counter stays `n`; otherwise the slot is never
blank: it is the file named by the pattern formatted with `n` (the counter
becomes `n + 1`) or by the next file argument (the counter stays `n`). -/
theorem C6_input_slot_resolution (env : Env Angle) (argv : List String) (nr : Int)
    (inputWildcard : Bool) (i : Nat) (st : RunState) :
    (isInMultiIndex st.inputNr st.g.options.replaceBlank = true →
      ∃ st1, resolveInputSlot env argv nr inputWildcard i st = Step.ok none st1 ∧
        st1.inputNr = st.inputNr + 1 ∧ st1.optind = st.optind) ∧
    (isInMultiIndex st.inputNr st.g.options.replaceBlank = false →
      isInMultiIndex st.inputNr st.g.options.insertBlank = true →
      ∃ st1, resolveInputSlot env argv nr inputWildcard i st = Step.ok none st1 ∧
        st1.inputNr = st.inputNr ∧ st1.optind = st.optind) ∧
    (isInMultiIndex st.inputNr st.g.options.replaceBlank = false →
      isInMultiIndex st.inputNr st.g.options.insertBlank = false →
      (∀ st1, resolveInputSlot env argv nr inputWildcard i st ≠ Step.ok none st1) ∧
      (inputWildcard = true → ∀ pattern, argv[st.optind]? = some pattern →
        env.fileExists (env.sprintf pattern st.inputNr) = true →
        ∃ st1, resolveInputSlot env argv nr inputWildcard i st
            = Step.ok (some (env.sprintf pattern st.inputNr)) st1 ∧
          st1.inputNr = st.inputNr + 1 ∧ st1.optind = st.optind) ∧
      (inputWildcard = false → ∀ name, argv[st.optind]? = some name →
        env.fileExists name = true →
        ∃ st1, resolveInputSlot env argv nr inputWildcard i st = Step.ok (some name) st1 ∧
          st1.inputNr = st.inputNr ∧ st1.optind = st.optind + 1)) := by
  refine ⟨?_, ?_, ?_⟩
  · intro hr
    refine ⟨st.nextInput.emit (Event.inputSlot nr i none),
      ?_, rfl, rfl⟩
    simp [resolveInputSlot, hr, checkInputFile]
  · intro hr hi
    refine ⟨st.emit (Event.inputSlot nr i none), ?_, rfl, rfl⟩
    simp [resolveInputSlot, hr, hi, checkInputFile]
  · intro hr hi
    refine ⟨?_, ?_, ?_⟩
    · intro st1
      simp only [resolveInputSlot, hr, hi, Bool.false_eq_true, if_false]
      split
      · split
        · simp only [checkInputFile]
          split <;> [split; skip] <;> simp
        · simp
      · split
        · split <;> simp
        · split
          · simp only [checkInputFile]
            split <;> [split; skip] <;> simp
          · simp
    · intro hw pattern hp hex
      refine ⟨st.nextInput.emit
        (Event.inputSlot nr i (some (env.sprintf pattern st.inputNr))), ?_, rfl, rfl⟩
      simp [resolveInputSlot, hr, hi, hw, hp, checkInputFile, stat_of_fileExists env _ _ hex]
    · intro hw name hn hex
      have hlt : st.optind < argv.length := by
        rcases Nat.lt_or_ge st.optind argv.length with h | h
        · exact h
        · rw [List.getElem?_eq_none h] at hn; cases hn
      refine ⟨st.nextArg.emit
        (Event.inputSlot nr i (some name)), ?_, rfl, rfl⟩
      simp [resolveInputSlot, hr, hi, hw, hn, checkInputFile, stat_of_fileExists env _ _ hex, hlt]

/-- Witness of C6: input 1 is in both sets, so the slot is blank and the counter
becomes 2; replace wins over insert. -/
theorem C6_input_slot_resolution_witness :
    ∃ st1, resolveInputSlot (sampleEnv [] 0) ["a.pbm", "b.pbm"] 1 false 0
        (initialState blankGlobals) = Step.ok none st1 ∧
      st1.inputNr = (initialState blankGlobals).inputNr + 1 ∧
      st1.optind = (initialState blankGlobals).optind :=
  (C6_input_slot_resolution (sampleEnv [] 0) ["a.pbm", "b.pbm"] 1 false 0
    (initialState blankGlobals)).1 (by decide)

/-! ### The log of the stages -/

theorem filter_flatMap_cons {α β : Type} (q : α → Bool) (f : α → List β) (a : α) (l : List α) :
    ((a :: l).filter q).flatMap f = gate (q a) (f a) ++ (l.filter q).flatMap f := by
  cases h : q a <;> simp [List.filter_cons, h, gate]

theorem stageGate_withoutMask (g : Globals) (nr : Int) (m : Nat) (k : StageKind) :
    stageGate g.withoutMask nr m k = stageGate g nr m k := by
  cases k <;> rfl

theorem stageEvents_withoutMask (g : Globals) (nr : Int) (m2 m3 : Nat) (names : List String)
    (k : StageKind) :
    stageEvents g.withoutMask nr m2 m3 names k = stageEvents g nr m2 m3 names k := by
  cases k <;> rfl

theorem stagePreWipe_log (env : Env Angle) (nr : Int) (p : Proc) :
    (stagePreWipe env nr p).log = p.log ++ gate (!isExcluded nr p.cfg.options.noWipeMultiIndex p.cfg.options.ignoreMultiIndex) [Event.stage nr Stage.preWipe] := by
  unfold stagePreWipe
  split <;> simp_all [gate, Proc.emit, Proc.paint, Proc.cfg, Globals.withoutMask]

theorem stagePreWipe_cfg (env : Env Angle) (nr : Int) (p : Proc) :
    (stagePreWipe env nr p).cfg = p.cfg := by
  unfold stagePreWipe
  split <;> rfl

theorem stagePreBorder_log (env : Env Angle) (nr : Int) (p : Proc) :
    (stagePreBorder env nr p).log = p.log ++ gate (!isExcluded nr p.cfg.options.noBorderMultiIndex p.cfg.options.ignoreMultiIndex) [Event.stage nr Stage.preBorder] := by
  unfold stagePreBorder
  split <;> simp_all [gate, Proc.emit, Proc.paint, Proc.cfg, Globals.withoutMask]

theorem stagePreBorder_cfg (env : Env Angle) (nr : Int) (p : Proc) :
    (stagePreBorder env nr p).cfg = p.cfg := by
  unfold stagePreBorder
  split <;> rfl

theorem stageBlackfilter_log (env : Env Angle) (nr : Int) (p : Proc) :
    (stageBlackfilter env nr p).log = p.log ++ gate (!isExcluded nr p.cfg.options.noBlackfilterMultiIndex p.cfg.options.ignoreMultiIndex) [Event.stage nr Stage.blackfilter] := by
  unfold stageBlackfilter
  split <;> simp_all [gate, Proc.emit, Proc.paint, Proc.cfg, Globals.withoutMask]

theorem stageBlackfilter_cfg (env : Env Angle) (nr : Int) (p : Proc) :
    (stageBlackfilter env nr p).cfg = p.cfg := by
  unfold stageBlackfilter
  split <;> rfl

theorem stageNoisefilter_log (env : Env Angle) (nr : Int) (p : Proc) :
    (stageNoisefilter env nr p).log = p.log ++ gate (!isExcluded nr p.cfg.options.noNoisefilterMultiIndex p.cfg.options.ignoreMultiIndex) [Event.stage nr Stage.noisefilter] := by
  unfold stageNoisefilter
  split <;> simp_all [gate, Proc.emit, Proc.paint, Proc.cfg, Globals.withoutMask]

theorem stageNoisefilter_cfg (env : Env Angle) (nr : Int) (p : Proc) :
    (stageNoisefilter env nr p).cfg = p.cfg := by
  unfold stageNoisefilter
  split <;> rfl

theorem stageBlurfilter_log (env : Env Angle) (nr : Int) (p : Proc) :
    (stageBlurfilter env nr p).log = p.log ++ gate (!isExcluded nr p.cfg.options.noBlurfilterMultiIndex p.cfg.options.ignoreMultiIndex) [Event.stage nr Stage.blurfilter] := by
  unfold stageBlurfilter
  split <;> simp_all [gate, Proc.emit, Proc.paint, Proc.cfg, Globals.withoutMask]

theorem stageBlurfilter_cfg (env : Env Angle) (nr : Int) (p : Proc) :
    (stageBlurfilter env nr p).cfg = p.cfg := by
  unfold stageBlurfilter
  split <;> rfl

theorem stageDetectMasks_log (env : Env Angle) (nr : Int) (p : Proc) :
    (stageDetectMasks env nr p).log = p.log ++ gate (!isExcluded nr p.cfg.options.noMaskScanMultiIndex p.cfg.options.ignoreMultiIndex) [Event.stage nr Stage.detectMasks] := by
  unfold stageDetectMasks
  split <;> simp_all [gate, Proc.emit, Proc.paint, Proc.cfg, Globals.withoutMask]

theorem stageDetectMasks_cfg (env : Env Angle) (nr : Int) (p : Proc) :
    (stageDetectMasks env nr p).cfg = p.cfg := by
  unfold stageDetectMasks
  split <;> rfl

theorem stageApplyMasks_log (env : Env Angle) (nr : Int) (p : Proc) :
    (stageApplyMasks env nr p).log = p.log ++ gate (decide (p.g.maskCount > 0)) [Event.stage nr Stage.applyMasks] := by
  unfold stageApplyMasks
  split <;> simp_all [gate, Proc.emit, Proc.paint, Proc.cfg, Globals.withoutMask]

theorem stageApplyMasks_cfg (env : Env Angle) (nr : Int) (p : Proc) :
    (stageApplyMasks env nr p).cfg = p.cfg := by
  unfold stageApplyMasks
  split <;> rfl

theorem stageGrayfilter_log (env : Env Angle) (nr : Int) (p : Proc) :
    (stageGrayfilter env nr p).log = p.log ++ gate (!isExcluded nr p.cfg.options.noGrayfilterMultiIndex p.cfg.options.ignoreMultiIndex) [Event.stage nr Stage.grayfilter] := by
  unfold stageGrayfilter
  split <;> simp_all [gate, Proc.emit, Proc.paint, Proc.cfg, Globals.withoutMask]

theorem stageGrayfilter_cfg (env : Env Angle) (nr : Int) (p : Proc) :
    (stageGrayfilter env nr p).cfg = p.cfg := by
  unfold stageGrayfilter
  split <;> rfl

theorem stageWipe_log (env : Env Angle) (nr : Int) (p : Proc) :
    (stageWipe env nr p).log = p.log ++ gate (!isExcluded nr p.cfg.options.noWipeMultiIndex p.cfg.options.ignoreMultiIndex) [Event.stage nr Stage.wipe] := by
  unfold stageWipe
  split <;> simp_all [gate, Proc.emit, Proc.paint, Proc.cfg, Globals.withoutMask]

theorem stageWipe_cfg (env : Env Angle) (nr : Int) (p : Proc) :
    (stageWipe env nr p).cfg = p.cfg := by
  unfold stageWipe
  split <;> rfl

theorem stageBorder_log (env : Env Angle) (nr : Int) (p : Proc) :
    (stageBorder env nr p).log = p.log ++ gate (!isExcluded nr p.cfg.options.noBorderMultiIndex p.cfg.options.ignoreMultiIndex) [Event.stage nr Stage.border] := by
  unfold stageBorder
  split <;> simp_all [gate, Proc.emit, Proc.paint, Proc.cfg, Globals.withoutMask]

theorem stageBorder_cfg (env : Env Angle) (nr : Int) (p : Proc) :
    (stageBorder env nr p).cfg = p.cfg := by
  unfold stageBorder
  split <;> rfl

theorem stagePostWipe_log (env : Env Angle) (nr : Int) (p : Proc) :
    (stagePostWipe env nr p).log = p.log ++ gate (!isExcluded nr p.cfg.options.noWipeMultiIndex p.cfg.options.ignoreMultiIndex) [Event.stage nr Stage.postWipe] := by
  unfold stagePostWipe
  split <;> simp_all [gate, Proc.emit, Proc.paint, Proc.cfg, Globals.withoutMask]

theorem stagePostWipe_cfg (env : Env Angle) (nr : Int) (p : Proc) :
    (stagePostWipe env nr p).cfg = p.cfg := by
  unfold stagePostWipe
  split <;> rfl

theorem stagePostBorder_log (env : Env Angle) (nr : Int) (p : Proc) :
    (stagePostBorder env nr p).log = p.log ++ gate (!isExcluded nr p.cfg.options.noBorderMultiIndex p.cfg.options.ignoreMultiIndex) [Event.stage nr Stage.postBorder] := by
  unfold stagePostBorder
  split <;> simp_all [gate, Proc.emit, Proc.paint, Proc.cfg, Globals.withoutMask]

theorem stagePostBorder_cfg (env : Env Angle) (nr : Int) (p : Proc) :
    (stagePostBorder env nr p).cfg = p.cfg := by
  unfold stagePostBorder
  split <;> rfl

theorem stagePostMirror_log (env : Env Angle) (nr : Int) (p : Proc) :
    (stagePostMirror env nr p).log = p.log ++ gate (decide (p.cfg.postMirror ≠ 0)) [Event.stage nr Stage.postMirror] := by
  unfold stagePostMirror
  split <;> simp_all [gate, Proc.emit, Proc.paint, Proc.cfg, Globals.withoutMask]

theorem stagePostMirror_cfg (env : Env Angle) (nr : Int) (p : Proc) :
    (stagePostMirror env nr p).cfg = p.cfg := by
  unfold stagePostMirror
  split <;> rfl

theorem stagePostShift_log (env : Env Angle) (nr : Int) (p : Proc) :
    (stagePostShift env nr p).log = p.log ++ gate (decide (p.cfg.postShift.width ≠ 0 ∨ p.cfg.postShift.height ≠ 0)) [Event.stage nr Stage.postShift] := by
  unfold stagePostShift
  split <;> simp_all [gate, Proc.emit, Proc.paint, Proc.cfg, Globals.withoutMask]

theorem stagePostShift_cfg (env : Env Angle) (nr : Int) (p : Proc) :
    (stagePostShift env nr p).cfg = p.cfg := by
  unfold stagePostShift
  split <;> rfl

theorem stagePostRotate_log (env : Env Angle) (nr : Int) (p : Proc) :
    (stagePostRotate env nr p).log = p.log ++ gate (decide (p.cfg.postRotate ≠ 0)) [Event.stage nr Stage.postRotate] := by
  unfold stagePostRotate
  split <;> simp_all [gate, Proc.emit, Proc.paint, Proc.cfg, Globals.withoutMask]

theorem stagePostRotate_cfg (env : Env Angle) (nr : Int) (p : Proc) :
    (stagePostRotate env nr p).cfg = p.cfg := by
  unfold stagePostRotate
  split <;> rfl

theorem stagePostSize_log (env : Env Angle) (nr : Int) (p : Proc) :
    (stagePostSize env nr p).log = p.log ++ gate (decide (p.cfg.postSize.width ≠ -1 ∨ p.cfg.postSize.height ≠ -1)) [Event.stage nr Stage.postSize] := by
  unfold stagePostSize
  split <;> simp_all [gate, Proc.emit, Proc.paint, Proc.cfg, Globals.withoutMask]

theorem stagePostSize_cfg (env : Env Angle) (nr : Int) (p : Proc) :
    (stagePostSize env nr p).cfg = p.cfg := by
  unfold stagePostSize
  split <;> rfl

theorem stagePostStretch_log (env : Env Angle) (nr : Int) (p : Proc) :
    (stagePostStretch env nr p).log = p.log ++ [Event.stage nr Stage.postStretch] := rfl

theorem stagePostStretch_cfg (env : Env Angle) (nr : Int) (p : Proc) :
    (stagePostStretch env nr p).cfg = p.cfg := rfl

theorem deskewEach_log [Zero Angle] [Neg Angle] [DecidableEq Angle]
    (env : Env Angle) (nr : Int) (masks : List Rect) :
    ∀ (i : Nat) (p : Proc),
      (deskewEach env nr i masks p).log = p.log ++ passes Stage.deskew nr i masks.length := by
  induction masks with
  | nil => intro i p; simp [deskewEach, passes]
  | cons m rest ih =>
    intro i p
    simp only [deskewEach, ih, Proc.emit, passes, List.length_cons, List.range'_succ,
      List.map_cons, List.append_assoc, List.singleton_append]

theorem deskewEach_g [Zero Angle] [Neg Angle] [DecidableEq Angle]
    (env : Env Angle) (nr : Int) (masks : List Rect) :
    ∀ (i : Nat) (p : Proc), (deskewEach env nr i masks p).g = p.g := by
  induction masks with
  | nil => intro i p; rfl
  | cons m rest ih => intro i p; simp only [deskewEach, ih, Proc.emit]

theorem centerEach_log (env : Env Angle) (nr : Int) (masks : List Rect) :
    ∀ (i : Nat) (p : Proc),
      (centerEach env nr i masks p).log = p.log ++ passes Stage.centerMask nr i masks.length := by
  induction masks with
  | nil => intro i p; simp [centerEach, passes]
  | cons m rest ih =>
    intro i p
    simp only [centerEach, ih, Proc.emit, Proc.paint, passes, List.length_cons,
      List.range'_succ, List.map_cons, List.append_assoc, List.singleton_append]

theorem centerEach_g (env : Env Angle) (nr : Int) (masks : List Rect) :
    ∀ (i : Nat) (p : Proc), (centerEach env nr i masks p).g = p.g := by
  induction masks with
  | nil => intro i p; rfl
  | cons m rest ih => intro i p; simp only [centerEach, ih, Proc.emit, Proc.paint]

theorem alignEach_g (env : Env Angle) (nr : Int) (pairs : List (Rect × Rect)) :
    ∀ (i : Nat) (p : Proc), (alignEach env nr i pairs p).g = p.g := by
  induction pairs with
  | nil => intro i p; rfl
  | cons m rest ih =>
    intro i p
    obtain ⟨am, om⟩ := m
    simp only [alignEach, ih]
    split <;> rfl

theorem alignEach_log (env : Env Angle) (nr : Int) (pairs : List (Rect × Rect)) :
    ∀ (i : Nat) (p : Proc),
      (alignEach env nr i pairs p).log = p.log ++
        gate (!isExcluded nr p.cfg.options.noBorderAlignMultiIndex p.cfg.options.ignoreMultiIndex)
          (passes Stage.alignMask nr i pairs.length) := by
  induction pairs with
  | nil => intro i p; simp [alignEach, passes, gate]
  | cons m rest ih =>
    intro i p
    obtain ⟨am, om⟩ := m
    simp only [alignEach, ih]
    split
    · rename_i h
      simp only [Proc.cfg, Globals.withoutMask, Proc.emit, Proc.paint] at h ⊢
      simp [gate, h, passes, List.range'_succ]
    · rename_i h
      simp only [Proc.cfg, Globals.withoutMask] at h ⊢
      simp [gate, h]

theorem expectedLog_nil (g : Globals) (nr : Int) (m1 m2 m3 : Nat) (names : List String) :
    expectedLog g nr m1 m2 m3 names [] = [] := rfl

theorem expectedLog_cons (g : Globals) (nr : Int) (m1 m2 m3 : Nat) (names : List String)
    (k : StageKind) (ks : List StageKind) :
    expectedLog g nr m1 m2 m3 names (k :: ks) =
      gate (stageGate g nr m1 k) (stageEvents g nr m2 m3 names k) ++
        expectedLog g nr m1 m2 m3 names ks := by
  simp only [expectedLog, filter_flatMap_cons]

theorem expectedLog_append (g : Globals) (nr : Int) (m1 m2 m3 : Nat) (names : List String)
    (ks1 ks2 : List StageKind) :
    expectedLog g nr m1 m2 m3 names (ks1 ++ ks2) =
      expectedLog g nr m1 m2 m3 names ks1 ++ expectedLog g nr m1 m2 m3 names ks2 := by
  simp only [expectedLog, List.filter_append, List.flatMap_append]

theorem expectedLog_withoutMask (g : Globals) (nr : Int) (m1 m2 m3 : Nat) (names : List String)
    (ks : List StageKind) :
    expectedLog g.withoutMask nr m1 m2 m3 names ks = expectedLog g nr m1 m2 m3 names ks := by
  have h1 : stageGate g.withoutMask nr m1 = stageGate g nr m1 :=
    funext (stageGate_withoutMask g nr m1)
  have h2 : stageEvents g.withoutMask nr m2 m3 names = stageEvents g nr m2 m3 names :=
    funext (stageEvents_withoutMask g nr m2 m3 names)
  unfold expectedLog
  rw [h1, h2]

theorem stageDeskew_log [Zero Angle] [Neg Angle] [DecidableEq Angle]
    (env : Env Angle) (nr : Int) (p : Proc) :
    (stageDeskew env nr p).log = p.log ++
      (gate (!isExcluded nr p.cfg.options.noDeskewMultiIndex p.cfg.options.ignoreMultiIndex &&
          !isExcluded nr p.cfg.options.noMaskScanMultiIndex p.cfg.options.ignoreMultiIndex)
        [Event.stage nr Stage.detectMasks] ++
       gate (!isExcluded nr p.cfg.options.noDeskewMultiIndex p.cfg.options.ignoreMultiIndex)
        (passes Stage.deskew nr 0 (stageDetectMasks env nr p).g.maskCount)) := by
  unfold stageDeskew
  split
  · rename_i h
    simp only [Proc.cfg, Globals.withoutMask] at h ⊢
    simp only [deskewEach_log, stageDetectMasks_log, Proc.cfg, Globals.withoutMask, h,
      Bool.true_and, gate, if_true, List.append_assoc, Globals.maskCount]
  · rename_i h
    simp only [Proc.cfg, Globals.withoutMask] at h ⊢
    simp [gate, h]

theorem stageDeskew_cfg [Zero Angle] [Neg Angle] [DecidableEq Angle]
    (env : Env Angle) (nr : Int) (p : Proc) : (stageDeskew env nr p).cfg = p.cfg := by
  unfold stageDeskew
  split
  · simp only [Proc.cfg, deskewEach_g]
    exact stageDetectMasks_cfg env nr p
  · rfl

theorem stageCenter_log (env : Env Angle) (nr : Int) (p : Proc) :
    (stageCenter env nr p).log = p.log ++
      (gate (!isExcluded nr p.cfg.options.noMaskCenterMultiIndex p.cfg.options.ignoreMultiIndex &&
          !isExcluded nr p.cfg.options.noMaskScanMultiIndex p.cfg.options.ignoreMultiIndex)
        [Event.stage nr Stage.detectMasks] ++
       gate (!isExcluded nr p.cfg.options.noMaskCenterMultiIndex p.cfg.options.ignoreMultiIndex)
        (passes Stage.centerMask nr 0 (stageDetectMasks env nr p).g.maskCount)) := by
  unfold stageCenter
  split
  · rename_i h
    simp only [Proc.cfg, Globals.withoutMask] at h ⊢
    simp only [centerEach_log, stageDetectMasks_log, Proc.cfg, Globals.withoutMask, h,
      Bool.true_and, gate, if_true, List.append_assoc, Globals.maskCount]
  · rename_i h
    simp only [Proc.cfg, Globals.withoutMask] at h ⊢
    simp [gate, h]

theorem stageCenter_cfg (env : Env Angle) (nr : Int) (p : Proc) :
    (stageCenter env nr p).cfg = p.cfg := by
  unfold stageCenter
  split
  · simp only [Proc.cfg, centerEach_g]
    exact stageDetectMasks_cfg env nr p
  · rfl

theorem stageBorderScan_log (env : Env Angle) (nr : Int) (p : Proc) :
    (stageBorderScan env nr p).log = p.log ++
      gate (!isExcluded nr p.cfg.options.noBorderScanMultiIndex p.cfg.options.ignoreMultiIndex)
        (Event.stage nr Stage.borderScan ::
          gate (!isExcluded nr p.cfg.options.noBorderAlignMultiIndex
              p.cfg.options.ignoreMultiIndex)
            (passes Stage.alignMask nr 0 p.cfg.outsideBorderscanMaskCount)) := by
  unfold stageBorderScan
  split
  · rename_i h
    simp only [Proc.cfg, Globals.withoutMask] at h ⊢
    simp [alignEach_log, Proc.cfg, Globals.withoutMask, h, gate, Proc.emit, Proc.paint,
      Globals.outsideBorderscanMaskCount]
  · rename_i h
    simp only [Proc.cfg, Globals.withoutMask] at h ⊢
    simp [gate, h]

theorem stageBorderScan_cfg (env : Env Angle) (nr : Int) (p : Proc) :
    (stageBorderScan env nr p).cfg = p.cfg := by
  unfold stageBorderScan
  split
  · simp only [Proc.cfg, alignEach_g]
    rfl
  · rfl

theorem stagesToMaskScan_cfg (env : Env Angle) (nr : Int) (p : Proc) :
    (stagesToMaskScan env nr p).cfg = p.cfg := by
  simp only [stagesToMaskScan, stageDetectMasks_cfg, stageBlurfilter_cfg, stageNoisefilter_cfg,
    stageBlackfilter_cfg, stagePreBorder_cfg, stagePreWipe_cfg]

theorem stagesToGrayfilter_cfg (env : Env Angle) (nr : Int) (p : Proc) :
    (stagesToGrayfilter env nr p).cfg = p.cfg := by
  simp only [stagesToGrayfilter, stageGrayfilter_cfg, stageApplyMasks_cfg, stagesToMaskScan_cfg]

theorem stagesToDeskew_cfg [Zero Angle] [Neg Angle] [DecidableEq Angle]
    (env : Env Angle) (nr : Int) (p : Proc) : (stagesToDeskew env nr p).cfg = p.cfg := by
  simp only [stagesToDeskew, stageDeskew_cfg, stagesToGrayfilter_cfg]

theorem stagesToMaskScan_log (env : Env Angle) (nr : Int) (p : Proc) (m1 m2 m3 : Nat)
    (names : List String) :
    (stagesToMaskScan env nr p).log = p.log ++ expectedLog p.cfg nr m1 m2 m3 names
      [StageKind.preWipe, StageKind.preBorder, StageKind.blackAreaFilter,
       StageKind.noiseFilter, StageKind.blurFilter, StageKind.maskDetection] := by
  simp only [stagesToMaskScan, stageDetectMasks_log, stageBlurfilter_log, stageNoisefilter_log,
    stageBlackfilter_log, stagePreBorder_log, stagePreWipe_log,
    stageBlurfilter_cfg, stageNoisefilter_cfg,
    stageBlackfilter_cfg, stagePreBorder_cfg, stagePreWipe_cfg,
    expectedLog_cons, expectedLog_nil, stageGate, stageEvents, List.append_assoc,
    List.append_nil]

theorem stagesToGrayfilter_log (env : Env Angle) (nr : Int) (p : Proc) (m2 m3 : Nat)
    (names : List String) :
    (stagesToGrayfilter env nr p).log = p.log ++
      expectedLog p.cfg nr (stagesToMaskScan env nr p).g.maskCount m2 m3 names
        [StageKind.preWipe, StageKind.preBorder, StageKind.blackAreaFilter,
         StageKind.noiseFilter, StageKind.blurFilter, StageKind.maskDetection,
         StageKind.maskApplication, StageKind.grayFilter] := by
  simp only [stagesToGrayfilter, stageGrayfilter_log, stageApplyMasks_log,
    stagesToMaskScan_log env nr p (stagesToMaskScan env nr p).g.maskCount m2 m3 names,
    stageApplyMasks_cfg, stagesToMaskScan_cfg,
    expectedLog_cons, expectedLog_nil, stageGate, stageEvents, List.append_assoc,
    List.append_nil]

theorem stagesToDeskew_log [Zero Angle] [Neg Angle] [DecidableEq Angle]
    (env : Env Angle) (nr : Int) (p : Proc) (m3 : Nat) (names : List String) :
    (stagesToDeskew env nr p).log = p.log ++
      expectedLog p.cfg nr (stagesToMaskScan env nr p).g.maskCount
        (stageDetectMasks env nr (stagesToGrayfilter env nr p)).g.maskCount m3 names
        [StageKind.preWipe, StageKind.preBorder, StageKind.blackAreaFilter,
         StageKind.noiseFilter, StageKind.blurFilter, StageKind.maskDetection,
         StageKind.maskApplication, StageKind.grayFilter, StageKind.deskewMaskDetection,
         StageKind.deskewOfEachMask] := by
  simp only [stagesToDeskew, stageDeskew_log,
    stagesToGrayfilter_log env nr p
      (stageDetectMasks env nr (stagesToGrayfilter env nr p)).g.maskCount m3 names,
    stagesToGrayfilter_cfg,
    expectedLog_cons, expectedLog_nil, stageGate, stageEvents, List.append_assoc,
    List.append_nil]

theorem runStages_cfg [Zero Angle] [Neg Angle] [DecidableEq Angle]
    (env : Env Angle) (nr : Int) (p : Proc) : (runStages env nr p).cfg = p.cfg := by
  simp only [runStages, stagePostSize_cfg, stagePostStretch_cfg, stagePostRotate_cfg,
    stagePostShift_cfg, stagePostMirror_cfg, stagePostBorder_cfg, stagePostWipe_cfg,
    stageBorderScan_cfg, stageBorder_cfg, stageWipe_cfg, stageCenter_cfg, stagesToDeskew_cfg]

theorem runStages_log [Zero Angle] [Neg Angle] [DecidableEq Angle]
    (env : Env Angle) (nr : Int) (p : Proc) (names : List String) :
    (runStages env nr p).log = p.log ++
      expectedLog p.cfg nr (stagesToMaskScan env nr p).g.maskCount
        (stageDetectMasks env nr (stagesToGrayfilter env nr p)).g.maskCount
        (stageDetectMasks env nr (stagesToDeskew env nr p)).g.maskCount names
        processingStageOrder := by
  simp only [processingStageOrder, runStages, stagePostSize_log, stagePostStretch_log, stagePostRotate_log,
    stagePostShift_log, stagePostMirror_log, stagePostBorder_log, stagePostWipe_log,
    stageBorderScan_log, stageBorder_log, stageWipe_log, stageCenter_log,
    stagesToDeskew_log env nr p
      (stageDetectMasks env nr (stagesToDeskew env nr p)).g.maskCount names,
    stagePostStretch_cfg, stagePostRotate_cfg,
    stagePostShift_cfg, stagePostMirror_cfg, stagePostBorder_cfg, stagePostWipe_cfg,
    stageBorderScan_cfg, stageBorder_cfg, stageWipe_cfg, stageCenter_cfg, stagesToDeskew_cfg,
    expectedLog_cons, expectedLog_nil, stageGate, stageEvents, List.append_assoc,
    List.append_nil, gate, if_true, List.singleton_append]

theorem saveEach_eq (nr : Int) (names : List String) :
    ∀ (j : Nat) (log : List Event), saveEach nr j names log = log ++ savedEvents nr j names := by
  induction names with
  | nil => intro j log; simp [saveEach, savedEvents]
  | cons name rest ih => intro j log; simp [saveEach, savedEvents, ih]

theorem writeOutput_log (env : Env Angle) (nr : Int) (names : List String) (p : Proc)
    (st : RunState) :
    (writeOutput env nr names p st).log = p.log ++ gate p.cfg.writeoutput (savedEvents nr 0 names) := by
  unfold writeOutput
  split
  · rename_i h
    simp only [Proc.cfg, Globals.withoutMask]
    simp [saveEach_eq, gate, h]
  · rename_i h
    simp only [Proc.cfg, Globals.withoutMask]
    simp [gate, h]

theorem count_gate {α : Type} [BEq α] (b : Bool) (l : List α) (t : α) :
    (gate b l).count t = if b then l.count t else 0 := by
  cases b <;> simp [gate]

theorem count_passes_eq_zero (f : Nat → Stage) (nr : Int) (s : Stage) (hf : ∀ k, f k ≠ s)
    (i n : Nat) : (passes f nr i n).count (Event.stage nr s) = 0 := by
  rw [List.count_eq_zero]
  intro hmem
  simp only [passes, List.mem_map] at hmem
  obtain ⟨k, _, hk⟩ := hmem
  injection hk with _ hk
  exact hf k hk

theorem count_savedEvents_eq_zero (nr : Int) (s : Stage) (names : List String) :
    ∀ j : Nat, (savedEvents nr j names).count (Event.stage nr s) = 0 := by
  induction names with
  | nil => intro j; rfl
  | cons name rest ih =>
    intro j
    simp only [savedEvents]
    rw [List.count_cons, ih]
    simp

theorem expectedLog_eq_stages (g : Globals) (nr : Int) (m1 m2 m3 : Nat) (names : List String)
    (ks : List StageKind) (hks : StageKind.outputSplitAndSave ∉ ks) :
    ∃ stages : List Stage, expectedLog g nr m1 m2 m3 names ks = stages.map (Event.stage nr) := by
  induction ks with
  | nil => exact ⟨[], rfl⟩
  | cons k ks ih =>
    obtain ⟨rest, hrest⟩ := ih (fun h => hks (List.mem_cons_of_mem _ h))
    have hk : StageKind.outputSplitAndSave ≠ k := fun h => hks (h ▸ List.mem_cons_self _ _)
    have hev : ∃ evs : List Stage,
        stageEvents g nr m2 m3 names k = evs.map (Event.stage nr) := by
      cases k
      case outputSplitAndSave => exact absurd rfl hk
      case deskewOfEachMask =>
        exact ⟨(List.range' 0 m2).map Stage.deskew, by simp [stageEvents, passes]⟩
      case centeringOfEachMask =>
        exact ⟨(List.range' 0 m3).map Stage.centerMask, by simp [stageEvents, passes]⟩
      case borderDetection =>
        refine ⟨Stage.borderScan :: gate
          (!isExcluded nr g.options.noBorderAlignMultiIndex g.options.ignoreMultiIndex)
          ((List.range' 0 g.outsideBorderscanMaskCount).map Stage.alignMask), ?_⟩
        cases hb : (!isExcluded nr g.options.noBorderAlignMultiIndex
          g.options.ignoreMultiIndex) <;> simp [stageEvents, passes, gate, hb]
      all_goals exact ⟨[_], rfl⟩
    obtain ⟨evs, hevs⟩ := hev
    refine ⟨gate (stageGate g nr m1 k) evs ++ rest, ?_⟩
    rw [expectedLog_cons, hrest, hevs]
    cases stageGate g nr m1 k <;> simp [gate]

/-- C1: for the sheet `nr`, the stages that run after the layout configuration and the
saving of the output show up in the log as the sublist of the fixed order
(pre-wipe, pre-border, black-area filter, noise filter, blur filter, mask
detection, permanent mask application, gray filter, mask detection, deskew of
each mask, mask detection, centering of each mask, explicit wipe, explicit
border, border detection, post-wipe, post-border, post-mirror, post-shift,
post-rotate, post-stretch, post-size, output split and save) whose gates hold,
each stage exactly when its gate holds. Mask detection runs
`1 + [deskew enabled] + [centering enabled]` times if mask-scan is enabled for
the sheet and never otherwise, and the output pages are saved behind all other
events of the sheet. -/
theorem C1_stage_order [Zero Angle] [Neg Angle] [DecidableEq Angle]
    (env : Env Angle) (nr : Int) (p : Proc) (outputFileNames : List String) (st : RunState) :
    (writeOutput env nr outputFileNames (runStages env nr p) st).log = p.log ++
      expectedLog p.g nr (stagesToMaskScan env nr p).g.maskCount
        (stageDetectMasks env nr (stagesToGrayfilter env nr p)).g.maskCount
        (stageDetectMasks env nr (stagesToDeskew env nr p)).g.maskCount
        outputFileNames fixedStageOrder ∧
    (∀ m1 m2 m3 : Nat,
      (expectedLog p.g nr m1 m2 m3 outputFileNames fixedStageOrder).count
          (Event.stage nr Stage.detectMasks) =
        if isExcluded nr p.g.options.noMaskScanMultiIndex p.g.options.ignoreMultiIndex then 0
        else 1 +
          (if isExcluded nr p.g.options.noDeskewMultiIndex p.g.options.ignoreMultiIndex
            then 0 else 1) +
          (if isExcluded nr p.g.options.noMaskCenterMultiIndex p.g.options.ignoreMultiIndex
            then 0 else 1)) ∧
    (∃ stages : List Stage,
      (runStages env nr p).log = p.log ++ stages.map (Event.stage nr) ∧
      (writeOutput env nr outputFileNames (runStages env nr p) st).log =
        (runStages env nr p).log ++ gate p.g.writeoutput (savedEvents nr 0 outputFileNames)) := by
  have hw := writeOutput_log env nr outputFileNames (runStages env nr p) st
  rw [runStages_cfg] at hw
  have hr := runStages_log env nr p outputFileNames
  rw [show p.cfg = p.g.withoutMask from rfl, expectedLog_withoutMask] at hr
  refine ⟨?_, ?_, ?_⟩
  · rw [hw, hr, List.append_assoc,
      show fixedStageOrder = processingStageOrder ++ [StageKind.outputSplitAndSave] from rfl,
      expectedLog_append, expectedLog_cons, expectedLog_nil, List.append_nil]
    rfl
  · intro m1 m2 m3
    simp only [fixedStageOrder, expectedLog_cons, expectedLog_nil, stageGate, stageEvents,
      List.count_append, List.count_nil, count_gate, List.count_cons,
      count_passes_eq_zero Stage.deskew nr Stage.detectMasks (fun k => by simp),
      count_passes_eq_zero Stage.centerMask nr Stage.detectMasks (fun k => by simp),
      count_passes_eq_zero Stage.alignMask nr Stage.detectMasks (fun k => by simp),
      count_savedEvents_eq_zero]
    cases isExcluded nr p.g.options.noMaskScanMultiIndex p.g.options.ignoreMultiIndex <;>
      cases isExcluded nr p.g.options.noDeskewMultiIndex p.g.options.ignoreMultiIndex <;>
      cases isExcluded nr p.g.options.noMaskCenterMultiIndex p.g.options.ignoreMultiIndex <;>
      simp
  · obtain ⟨stages, hst⟩ := expectedLog_eq_stages p.g nr
      (stagesToMaskScan env nr p).g.maskCount
      (stageDetectMasks env nr (stagesToGrayfilter env nr p)).g.maskCount
      (stageDetectMasks env nr (stagesToDeskew env nr p)).g.maskCount outputFileNames
      processingStageOrder (by decide)
    refine ⟨stages, ?_, ?_⟩
    · rw [hr, hst]
    · rw [hw]
      rfl

/-! ### What one sheet does to the globals and to the log -/

theorem layoutConfig_static (g : Globals) (sheet : Image) :
    (layoutConfig g sheet).static = g.static := by
  have e1 : ∀ g : Globals, (singlePoint g sheet).static = g.static := fun g => by
    unfold singlePoint; split <;> rfl
  have e2 : ∀ (g : Globals) (v : Int), (defaultMaskScanMaximumWidth g v).static = g.static :=
    fun g v => by unfold defaultMaskScanMaximumWidth; split <;> rfl
  have e3 : ∀ (g : Globals) (v : Int), (defaultMaskScanMaximumHeight g v).static = g.static :=
    fun g v => by unfold defaultMaskScanMaximumHeight; split <;> rfl
  have e4 : ∀ g : Globals, (singleBlackfilterExclude g sheet).static = g.static := fun g => by
    unfold singleBlackfilterExclude; split <;> rfl
  have e5 : ∀ g : Globals, (singleOutsideBorderscanMask g sheet).static = g.static := fun g => by
    unfold singleOutsideBorderscanMask; split <;> rfl
  have e6 : ∀ g : Globals, (doublePoint g sheet).static = g.static := fun g => by
    unfold doublePoint; split <;> rfl
  have e7 : ∀ g : Globals, (doubleMiddleWipe g sheet).static = g.static := fun g => by
    unfold doubleMiddleWipe; split <;> rfl
  have e8 : ∀ g : Globals, (doubleBlackfilterExclude g sheet).static = g.static := fun g => by
    unfold doubleBlackfilterExclude; split <;> rfl
  have e9 : ∀ g : Globals, (doubleOutsideBorderscanMask g sheet).static = g.static := fun g => by
    unfold doubleOutsideBorderscanMask; split <;> rfl
  have e10 : ∀ g : Globals, (fallbackMaskScanMaximumWidth g sheet).static = g.static :=
    fun g => by unfold fallbackMaskScanMaximumWidth; split <;> rfl
  have e11 : ∀ g : Globals, (fallbackMaskScanMaximumHeight g sheet).static = g.static :=
    fun g => by unfold fallbackMaskScanMaximumHeight; split <;> rfl
  have e12 : (layoutBranch g sheet).static = g.static := by
    unfold layoutBranch
    split
    · simp only [layoutSingle, e5, e4, e3, e2, e1]
    · simp only [layoutDouble, e9, e8, e7, e3, e2, e6]
    · rfl
  simp only [layoutConfig, e11, e10, e12]

theorem static_of_withoutMask {g g1 : Globals} (h : g1.withoutMask = g.withoutMask) :
    g1.static = g.static := by
  show g1.withoutMask.static = g.withoutMask.static
  rw [h]

theorem processStages_static [Zero Angle] [Neg Angle] [DecidableEq Angle]
    (env : Env Angle) (nr : Int) (p : Proc) : (processStages env nr p).g.static = p.g.static := by
  have h1 : (stagePreMirror env nr p).g = p.g := by unfold stagePreMirror; split <;> rfl
  have h2 : ∀ q : Proc, (stagePreShift env nr q).g = q.g := fun q => by
    unfold stagePreShift; split <;> rfl
  have h3 : ∀ q : Proc, (stagePreMask env nr q).g = q.g := fun q => by
    unfold stagePreMask; split <;> rfl
  have h4 : ∀ q : Proc, (stageStretch env nr q).g = q.g := fun q => rfl
  have h5 : ∀ q : Proc, (stageSize env nr q).g = q.g := fun q => by
    unfold stageSize; split <;> rfl
  have h6 : ∀ q : Proc, (stageLayout q).g.static = q.g.static := fun q =>
    layoutConfig_static q.g q.sheet
  unfold processStages
  rw [static_of_withoutMask (runStages_cfg env nr _), h6, h5, h4, h3, h2, h1]

theorem processStages_log [Zero Angle] [Neg Angle] [DecidableEq Angle]
    (env : Env Angle) (nr : Int) (p : Proc) :
    ∃ stages : List Stage, (processStages env nr p).log = p.log ++ stages.map (Event.stage nr) := by
  have h1 : ∀ q : Proc, ∃ l : List Stage,
      (stagePreMirror env nr q).log = q.log ++ l.map (Event.stage nr) := fun q => by
    unfold stagePreMirror; split
    · exact ⟨[Stage.preMirror], rfl⟩
    · exact ⟨[], by simp⟩
  have h2 : ∀ q : Proc, ∃ l : List Stage,
      (stagePreShift env nr q).log = q.log ++ l.map (Event.stage nr) := fun q => by
    unfold stagePreShift; split
    · exact ⟨[Stage.preShift], rfl⟩
    · exact ⟨[], by simp⟩
  have h3 : ∀ q : Proc, ∃ l : List Stage,
      (stagePreMask env nr q).log = q.log ++ l.map (Event.stage nr) := fun q => by
    unfold stagePreMask; split
    · exact ⟨[Stage.preMask], rfl⟩
    · exact ⟨[], by simp⟩
  have h4 : ∀ q : Proc, ∃ l : List Stage,
      (stageStretch env nr q).log = q.log ++ l.map (Event.stage nr) := fun q =>
    ⟨[Stage.stretch], rfl⟩
  have h5 : ∀ q : Proc, ∃ l : List Stage,
      (stageSize env nr q).log = q.log ++ l.map (Event.stage nr) := fun q => by
    unfold stageSize; split
    · exact ⟨[Stage.resize], rfl⟩
    · exact ⟨[], by simp⟩
  have h6 : ∀ q : Proc, ∃ l : List Stage,
      (runStages env nr q).log = q.log ++ l.map (Event.stage nr) := fun q => by
    obtain ⟨l, hl⟩ := expectedLog_eq_stages q.cfg nr (stagesToMaskScan env nr q).g.maskCount
      (stageDetectMasks env nr (stagesToGrayfilter env nr q)).g.maskCount
      (stageDetectMasks env nr (stagesToDeskew env nr q)).g.maskCount []
      processingStageOrder (by decide)
    exact ⟨l, by rw [runStages_log env nr q [], hl]⟩
  obtain ⟨l1, e1⟩ := h1 p
  obtain ⟨l2, e2⟩ := h2 (stagePreMirror env nr p)
  obtain ⟨l3, e3⟩ := h3 (stagePreShift env nr (stagePreMirror env nr p))
  obtain ⟨l4, e4⟩ := h4 (stagePreMask env nr (stagePreShift env nr (stagePreMirror env nr p)))
  obtain ⟨l5, e5⟩ := h5 (stageStretch env nr
    (stagePreMask env nr (stagePreShift env nr (stagePreMirror env nr p))))
  obtain ⟨l6, e6⟩ := h6 (stageLayout (stageSize env nr (stageStretch env nr
    (stagePreMask env nr (stagePreShift env nr (stagePreMirror env nr p))))))
  refine ⟨l1 ++ l2 ++ l3 ++ l4 ++ l5 ++ l6, ?_⟩
  unfold processStages
  rw [e6, show ∀ q : Proc, (stageLayout q).log = q.log from fun _ => rfl, e5, e4, e3, e2, e1]
  simp only [List.map_append, List.append_assoc]

theorem SheetWork.refl (nr : Int) (st : RunState) : SheetWork nr st st :=
  ⟨rfl, rfl, rfl, rfl, [], by simp, by simp⟩

theorem SheetWork.trans {nr : Int} {st st1 st2 : RunState} (h1 : SheetWork nr st st1)
    (h2 : SheetWork nr st1 st2) : SheetWork nr st st2 := by
  obtain ⟨a1, a2, a3, a4, L1, a5, a6⟩ := h1
  obtain ⟨b1, b2, b3, b4, L2, b5, b6⟩ := h2
  refine ⟨b1.trans a1, b2.trans a2, b3.trans a3, b4.trans a4, L1 ++ L2, ?_, ?_⟩
  · rw [b5, a5, List.append_assoc]
  · intro e he
    rcases List.mem_append.mp he with h | h
    · exact a6 e h
    · exact b6 e h

theorem SheetWork.emit (nr : Int) (st : RunState) (e : Event) (h1 : e.sheet = nr)
    (h2 : e.isBegin = false) (h3 : e.isSlot = false) : SheetWork nr st (st.emit e) :=
  ⟨rfl, rfl, rfl, rfl, [e], rfl, by
    intro e1 he1
    rw [List.mem_singleton.mp he1]
    exact ⟨h1, h2, h3⟩⟩

theorem sheetWidthFromPage_eq (page : Image) (st : RunState) :
    sheetWidthFromPage page st = { st with w := (sheetWidthFromPage page st).w } := by
  unfold sheetWidthFromPage
  split <;> [split; skip] <;> rfl

theorem sheetHeightFromPage_eq (page : Image) (st : RunState) :
    sheetHeightFromPage page st = { st with h := (sheetHeightFromPage page st).h } := by
  unfold sheetHeightFromPage
  split <;> [split; skip] <;> rfl

theorem sheetSizeFromPage_eq (page : Image) (st : RunState) :
    sheetSizeFromPage page st =
      { st with w := (sheetSizeFromPage page st).w, h := (sheetSizeFromPage page st).h } := by
  unfold sheetSizeFromPage
  rw [sheetHeightFromPage_eq, sheetWidthFromPage_eq]

theorem sheetSizeFromPage_work (nr : Int) (page : Image) (st : RunState) :
    SheetWork nr st (sheetSizeFromPage page st) ∧
      (sheetSizeFromPage page st).sheet = st.sheet := by
  rw [sheetSizeFromPage_eq]
  exact ⟨⟨rfl, rfl, rfl, rfl, [], by simp, by simp⟩, rfl⟩

theorem sheetSizeFromPage_known (page : Image) (st : RunState) (hw : 0 ≤ page.width)
    (hh : 0 ≤ page.height) :
    (sheetSizeFromPage page st).w ≠ -1 ∧ (sheetSizeFromPage page st).h ≠ -1 := by
  have hpos : (0 : Int) ≤ page.width * (st.g.inputCount : Int) :=
    Int.mul_nonneg hw (Int.ofNat_nonneg _)
  have h1 : (sheetWidthFromPage page st).w ≠ -1 := by
    unfold sheetWidthFromPage
    split <;> [split; skip]
    · assumption
    · show page.width * (st.g.inputCount : Int) ≠ -1
      omega
    · assumption
  have h2 : ∀ st1 : RunState, (sheetHeightFromPage page st1).h ≠ -1 := by
    intro st1
    unfold sheetHeightFromPage
    split <;> [split; skip]
    · assumption
    · show page.height ≠ -1
      omega
    · assumption
  have h3 : ∀ st1 : RunState, (sheetHeightFromPage page st1).w = st1.w := by
    intro st1
    rw [sheetHeightFromPage_eq]
  exact ⟨by unfold sheetSizeFromPage; rw [h3]; exact h1, h2 _⟩

theorem allocSheet_work (env : Env Angle) (nr : Int) (st : RunState) :
    SheetWork nr st (allocSheet env nr st) := by
  unfold allocSheet
  split
  · exact ⟨rfl, rfl, rfl, rfl, [Event.sheetAlloc nr st.w st.h], rfl, by
      intro e he
      rw [List.mem_singleton.mp he]
      exact ⟨rfl, rfl, rfl⟩⟩
  · exact SheetWork.refl nr st

theorem allocSheet_isSome (env : Env Angle) (nr : Int) (st : RunState)
    (h : st.sheet.isSome = true ∨ (st.w ≠ -1 ∧ st.h ≠ -1)) :
    (allocSheet env nr st).sheet.isSome = true := by
  unfold allocSheet
  split
  · rfl
  · rename_i hc
    rcases h with h | h
    · exact h
    · cases hs : st.sheet with
      | some _ => rfl
      | none => exact absurd ⟨by simp [hs], h.1, h.2⟩ hc

theorem loadPage_nonneg (env : Env Angle) (g : Globals) (written : List (String × Image))
    (name : String) :
    0 ≤ (loadPage env g written name).width ∧ 0 ≤ (loadPage env g written name).height := by
  have h : 0 ≤ (loadImage env written name).width ∧ 0 ≤ (loadImage env written name).height := by
    unfold loadImage
    split <;> simp
  unfold loadPage
  split
  · exact ⟨h.2, h.1⟩
  · exact h

theorem loadSlot_some (env : Env Angle) (nr : Int) (j : Nat) (n : String) (st : RunState) :
    ∃ st1, loadSlot env nr j (some n) st = Step.ok () st1 ∧ SheetWork nr st st1 ∧
      st1.sheet.isSome = true := by
  have hp := loadPage_nonneg env st.g st.written n
  have hk := sheetSizeFromPage_known (loadPage env st.g st.written n) (st.emit (Event.loaded nr j n))
    hp.1 hp.2
  have hs := allocSheet_isSome env nr
    (sheetSizeFromPage (loadPage env st.g st.written n) (st.emit (Event.loaded nr j n))) (Or.inr hk)
  have hw : SheetWork nr st (allocSheet env nr
      (sheetSizeFromPage (loadPage env st.g st.written n) (st.emit (Event.loaded nr j n)))) :=
    ((SheetWork.emit nr st (Event.loaded nr j n) rfl rfl rfl).trans
      (sheetSizeFromPage_work nr _ _).1).trans (allocSheet_work env nr _)
  simp only [loadSlot, placePage]
  split
  · rename_i sheet hsheet
    refine ⟨_, rfl, ?_, rfl⟩
    obtain ⟨a1, a2, a3, a4, L, a5, a6⟩ := hw
    exact ⟨a1, a2, a3, a4, L, a5, a6⟩
  · rename_i hnone
    rw [hnone] at hs
    cases hs

theorem loadSlot_none (env : Env Angle) (nr : Int) (j : Nat) (st : RunState) :
    ∃ st1, loadSlot env nr j none st = Step.ok () st1 ∧ SheetWork nr st st1 ∧
      (st.sheet.isSome = true → st1.sheet.isSome = true) :=
  ⟨_, rfl, allocSheet_work env nr st, fun h => allocSheet_isSome env nr st (Or.inl h)⟩

theorem loadInputs_ok (env : Env Angle) (nr : Int) (names : List (Option String)) :
    ∀ (j : Nat) (st : RunState),
      ∃ st1, loadInputs env nr j names st = Step.ok () st1 ∧ SheetWork nr st st1 ∧
        ((st.sheet.isSome = true ∨ ∃ n, some n ∈ names) → st1.sheet.isSome = true) := by
  induction names with
  | nil =>
    intro j st
    refine ⟨st, rfl, SheetWork.refl nr st, ?_⟩
    rintro (h | ⟨n, hn⟩)
    · exact h
    · cases hn
  | cons name rest ih =>
    intro j st
    cases name with
    | some n =>
      obtain ⟨st1, h1, w1, s1⟩ := loadSlot_some env nr j n st
      obtain ⟨st2, h2, w2, s2⟩ := ih (j + 1) st1
      refine ⟨st2, ?_, w1.trans w2, fun _ => s2 (Or.inl s1)⟩
      simp only [loadInputs, h1, h2]
    | none =>
      obtain ⟨st1, h1, w1, s1⟩ := loadSlot_none env nr j st
      obtain ⟨st2, h2, w2, s2⟩ := ih (j + 1) st1
      refine ⟨st2, ?_, w1.trans w2, ?_⟩
      · simp only [loadInputs, h1, h2]
      · rintro (h | ⟨n, hn⟩)
        · exact s2 (Or.inl (s1 h))
        · rcases List.mem_cons.mp hn with h | h
          · cases h
          · exact s2 (Or.inr ⟨n, h⟩)

theorem savedEvents_sheet (nr : Int) (names : List String) :
    ∀ (j : Nat), ∀ e ∈ savedEvents nr j names,
      e.sheet = nr ∧ e.isBegin = false ∧ e.isSlot = false := by
  induction names with
  | nil => intro j e he; cases he
  | cons name rest ih =>
    intro j e he
    simp only [savedEvents, List.mem_cons] at he
    rcases he with h | h
    · rw [h]; exact ⟨rfl, rfl, rfl⟩
    · exact ih (j + 1) e h

theorem writeOutput_fields (env : Env Angle) (nr : Int) (names : List String) (p : Proc)
    (st : RunState) :
    (writeOutput env nr names p st).g = p.g ∧ (writeOutput env nr names p st).inputNr = st.inputNr ∧
      (writeOutput env nr names p st).outputNr = st.outputNr ∧
      (writeOutput env nr names p st).optind = st.optind := by
  unfold writeOutput
  split <;> exact ⟨rfl, rfl, rfl, rfl⟩

/-- A selected sheet with a buffer at hand or at least one input file is processed
without a fatal error; this leaves the counters, `optind` and the static
globals as they are, and the log grows by the start of the sheet and then
events of that sheet only. -/
theorem processSheet_ok [Zero Angle] [Neg Angle] [DecidableEq Angle]
    (env : Env Angle) (nr : Int) (names : List (Option String)) (outs : List String)
    (st : RunState) (h : st.sheet.isSome = true ∨ ∃ n, some n ∈ names) :
    ∃ st1, processSheet env nr names outs st = Step.ok () st1 ∧
      st1.inputNr = st.inputNr ∧ st1.outputNr = st.outputNr ∧ st1.optind = st.optind ∧
      st1.g.static = st.g.static ∧
      ∃ L : List Event, st1.log = st.log ++ Event.beginSheet nr :: L ∧
        ∀ e ∈ L, e.sheet = nr ∧ e.isBegin = false ∧ e.isSlot = false := by
  obtain ⟨st1, h1, ⟨a1, a2, a3, a4, L1, a5, a6⟩, s1⟩ :=
    loadInputs_ok env nr names 0 (st.emit (Event.beginSheet nr))
  have hsome := s1 h
  obtain ⟨sheet, hsheet⟩ := Option.isSome_iff_exists.mp hsome
  obtain ⟨stages, hstages⟩ := processStages_log env nr
    { g := st1.g, sheet := sheet, w := st1.w, h := st1.h, log := st1.log }
  have hstatic := processStages_static env nr
    { g := st1.g, sheet := sheet, w := st1.w, h := st1.h, log := st1.log }
  have hlog := writeOutput_log env nr outs (processStages env nr
    { g := st1.g, sheet := sheet, w := st1.w, h := st1.h, log := st1.log })
    { st1 with previousWidth := st1.w, previousHeight := st1.h }
  refine ⟨writeOutput env nr outs (processStages env nr
    { g := st1.g, sheet := sheet, w := st1.w, h := st1.h, log := st1.log })
    { st1 with previousWidth := st1.w, previousHeight := st1.h }, ?_, ?_, ?_, ?_, ?_, ?_⟩
  · simp only [processSheet, h1, ensureSheet, hsheet]
  · rw [(writeOutput_fields env nr outs _ _).2.1]; exact a1
  · rw [(writeOutput_fields env nr outs _ _).2.2.1]; exact a2
  · rw [(writeOutput_fields env nr outs _ _).2.2.2]; exact a3
  · rw [(writeOutput_fields env nr outs _ _).1, hstatic]
    exact a4
  · refine ⟨L1 ++ stages.map (Event.stage nr) ++
      gate (processStages env nr
        { g := st1.g, sheet := sheet, w := st1.w, h := st1.h, log := st1.log }).cfg.writeoutput
        (savedEvents nr 0 outs), ?_, ?_⟩
    · rw [hlog, hstages]
      show st1.log ++ _ ++ _ = _
      rw [a5]
      simp [RunState.emit, List.append_assoc]
    · intro e he
      rcases List.mem_append.mp he with h1 | h1
      · rcases List.mem_append.mp h1 with h2 | h2
        · exact a6 e h2
        · obtain ⟨s0, _, hs0⟩ := List.mem_map.mp h2
          rw [← hs0]
          exact ⟨rfl, rfl, rfl⟩
      · unfold gate at h1
        split at h1
        · exact savedEvents_sheet nr outs 0 e h1
        · cases h1

/-! ### The files that a run writes -/

theorem stepAll_mono {α : Type} {P Q : RunState → Prop} (h : ∀ s, P s → Q s) :
    ∀ x : Step α, x.All P → x.All Q
  | Step.ok _ s, hx => h s hx
  | Step.sheetEnd s, hx => h s hx
  | Step.fatal _ s, hx => h s hx
  | Step.undefined, _ => trivial

theorem iterAll_mono {P Q : RunState → Prop} (h : ∀ s, P s → Q s) :
    ∀ x : Iter, x.All P → x.All Q
  | Iter.next s, hx => h s hx
  | Iter.stop s, hx => h s hx
  | Iter.fatal _ s, hx => h s hx
  | Iter.undefined, _ => trivial

theorem inputNames_append (l1 l2 : List Event) :
    inputNames (l1 ++ l2) = inputNames l1 ++ inputNames l2 := by
  simp [inputNames, List.filterMap_append]

theorem outputNames_append (l1 l2 : List Event) :
    outputNames (l1 ++ l2) = outputNames l1 ++ outputNames l2 := by
  simp [outputNames, List.filterMap_append]

theorem outputNames_of_not_slot (l : List Event) (h : ∀ e ∈ l, e.isSlot = false) :
    outputNames l = [] := by
  unfold outputNames
  rw [List.filterMap_eq_nil_iff]
  intro e he
  have := h e he
  cases e <;> simp_all [Event.isSlot]

theorem inputNames_of_not_slot (l : List Event) (h : ∀ e ∈ l, e.isSlot = false) :
    inputNames l = [] := by
  unfold inputNames
  rw [List.filterMap_eq_nil_iff]
  intro e he
  have := h e he
  cases e <;> simp_all [Event.isSlot]

/-- The output names of a log are the names of its output slots. -/
theorem outputNames_eq_outputSlots (l : List Event) :
    outputNames l = (outputSlots l).filterMap fun x => x.2.2 := by
  induction l with
  | nil => rfl
  | cons e l ih =>
    cases e <;> simp_all [outputNames, outputSlots, List.filterMap_cons]

/-- The input names of a log are the names of its input slots that are not blank. -/
theorem inputNames_eq_inputSlots (l : List Event) :
    inputNames l = (inputSlots l).filterMap fun x => x.2.2 := by
  induction l with
  | nil => rfl
  | cons e l ih =>
    cases e with
    | inputSlot nr i name =>
      cases name <;> simp_all [inputNames, inputSlots, List.filterMap_cons]
    | _ => simp_all [inputNames, inputSlots, List.filterMap_cons]

theorem saveFiles_names (env : Env Angle) (g : Globals) (sheet : Image) (names : List String) :
    ∀ (j : Nat) (written : List (String × Image)),
      (saveFiles env g sheet j names written).map Prod.fst =
        names.reverse ++ written.map Prod.fst := by
  induction names with
  | nil => intro j written; rfl
  | cons name rest ih =>
    intro j written
    simp only [saveFiles, ih, List.map_cons, List.reverse_cons, List.append_assoc,
      List.singleton_append]

/-- The files after the end of a processed sheet: the output files of the sheet were
written, if output is written at all. -/
theorem writeOutput_writtenNames (env : Env Angle) (nr : Int) (outs : List String) (p : Proc)
    (st : RunState) :
    (writeOutput env nr outs p st).writtenNames =
      (if p.g.writeoutput = true then outs.reverse else []) ++ st.writtenNames := by
  unfold writeOutput RunState.writtenNames
  by_cases h : p.g.writeoutput = true
  · rw [if_pos h, if_pos h]
    exact saveFiles_names env p.g p.sheet outs 0 st.written
  · rw [if_neg h, if_neg h]
    rfl

theorem allocSheet_written (env : Env Angle) (nr : Int) (st : RunState) :
    (allocSheet env nr st).written = st.written := by
  unfold allocSheet
  split <;> rfl

theorem sheetSizeFromPage_written (page : Image) (st : RunState) :
    (sheetSizeFromPage page st).written = st.written := by
  rw [sheetSizeFromPage_eq]

theorem loadSlot_written (env : Env Angle) (nr : Int) (j : Nat) (name : Option String)
    (st : RunState) : (loadSlot env nr j name st).All fun s => s.written = st.written := by
  cases name with
  | none => exact allocSheet_written env nr st
  | some n =>
    simp only [loadSlot, placePage]
    split
    · show (allocSheet env nr _).written = st.written
      rw [allocSheet_written, sheetSizeFromPage_written]
      rfl
    · trivial

theorem loadInputs_written (env : Env Angle) (nr : Int) (names : List (Option String)) :
    ∀ (j : Nat) (st : RunState),
      (loadInputs env nr j names st).All fun s => s.written = st.written := by
  induction names with
  | nil => intro j st; rfl
  | cons name rest ih =>
    intro j st
    have h := loadSlot_written env nr j name st
    simp only [loadInputs]
    revert h
    cases loadSlot env nr j name st with
    | ok u st1 =>
      intro h
      exact stepAll_mono (fun s hs => hs.trans h) _ (ih (j + 1) st1)
    | sheetEnd st1 => intro h; exact h
    | fatal e st1 => intro h; exact h
    | undefined => intro h; exact h

/-- The files after the processing of a sheet: at most the output files of the sheet
were written; if the processing fails, none was. -/
theorem processSheet_written [Zero Angle] [Neg Angle] [DecidableEq Angle]
    (env : Env Angle) (nr : Int) (names : List (Option String)) (outs : List String)
    (st : RunState) :
    match processSheet env nr names outs st with
    | Step.ok _ s => ∀ n ∈ s.writtenNames, n ∈ outs ∨ n ∈ st.writtenNames
    | Step.sheetEnd s => s.written = st.written
    | Step.fatal _ s => s.written = st.written
    | Step.undefined => True := by
  obtain ⟨st1, h1, -, -⟩ := loadInputs_ok env nr names 0 (st.emit (Event.beginSheet nr))
  have hw1 : st1.written = st.written := by
    have h := loadInputs_written env nr names 0 (st.emit (Event.beginSheet nr))
    rw [h1] at h
    exact h
  have key : ∀ (p : Proc) (st2 : RunState), st2.written = st.written →
      ∀ n ∈ (writeOutput env nr outs p st2).writtenNames, n ∈ outs ∨ n ∈ st.writtenNames := by
    intro p st2 h2 n hn
    rw [writeOutput_writtenNames] at hn
    rcases List.mem_append.mp hn with h | h
    · left
      split at h
      · exact List.mem_reverse.mp h
      · cases h
    · right
      unfold RunState.writtenNames at h ⊢
      rw [h2] at h
      exact h
  cases hs : st1.sheet with
  | some sheet =>
    simp only [processSheet, h1, ensureSheet, hs]
    exact key _ _ hw1
  | none =>
    by_cases hu : st1.previousWidth = -1 ∨ st1.previousHeight = -1
    · simp only [processSheet, h1, ensureSheet, hs, hu, if_true]
      exact hw1
    · simp only [processSheet, h1, ensureSheet, hs, hu, if_false]
      exact key _ _ hw1

/-! ### Name resolution with wildcard patterns -/

theorem processedSheets_append (l1 l2 : List Event) :
    processedSheets (l1 ++ l2) = processedSheets l1 ++ processedSheets l2 := by
  simp [processedSheets, List.filter_append]

theorem checkInputFile_cases (env : Env Angle) (nr : Int) (name : Option String)
    (st : RunState) :
    match checkInputFile env nr name st with
    | Step.ok name1 st1 => name1 = name ∧ st1 = st
    | Step.sheetEnd st1 => st.g.options.endSheet = -1 ∧ st1 = st.setEndSheet (nr - 1)
    | Step.fatal _ st1 => st.g.options.endSheet ≠ -1 ∧ st1 = st
    | Step.undefined => False := by
  cases name with
  | none => simp [checkInputFile]
  | some n =>
    by_cases h1 : stat env st.written n = true <;> by_cases h2 : st.g.options.endSheet = -1 <;>
      simp [checkInputFile, h1, h2]

theorem resolveInputSlot_cases (env : Env Angle) (argv : List String) (nr : Int)
    (iw : Bool) (i : Nat) (st : RunState) :
    match resolveInputSlot env argv nr iw i st with
    | Step.ok name st1 => st1.g = st.g ∧ st1.log = st.log ++ [Event.inputSlot nr i name]
    | Step.sheetEnd st1 => st.g.options.endSheet = -1 ∧ st1.g.options.endSheet = nr - 1 ∧
        processedSheets st1.log = processedSheets st.log
    | Step.fatal _ _ => st.g.options.endSheet ≠ -1
    | Step.undefined => True := by
  have key : ∀ (name : Option String) (st0 : RunState), st0.g = st.g →
      st0.log = st.log ++ [Event.inputSlot nr i name] →
      match checkInputFile env nr name st0 with
      | Step.ok name st1 => st1.g = st.g ∧ st1.log = st.log ++ [Event.inputSlot nr i name]
      | Step.sheetEnd st1 => st.g.options.endSheet = -1 ∧ st1.g.options.endSheet = nr - 1 ∧
          processedSheets st1.log = processedSheets st.log
      | Step.fatal _ _ => st.g.options.endSheet ≠ -1
      | Step.undefined => True := by
    intro name st0 hg hl
    have := checkInputFile_cases env nr name st0
    revert this
    cases checkInputFile env nr name st0 with
    | ok name1 st1 => rintro ⟨rfl, rfl⟩; exact ⟨hg, hl⟩
    | sheetEnd st1 =>
      rintro ⟨h1, rfl⟩
      refine ⟨by rw [← hg]; exact h1, rfl, ?_⟩
      show processedSheets st0.log = _
      rw [hl, processedSheets_append]
      simp [processedSheets, Event.isBegin]
    | fatal e st1 => rintro ⟨h1, rfl⟩; rw [← hg]; exact h1
    | undefined => intro h; exact h.elim
  by_cases hr : isInMultiIndex st.inputNr st.g.options.replaceBlank = true
  · simp only [resolveInputSlot, hr, if_true]
    exact key none _ rfl rfl
  by_cases hi : isInMultiIndex st.inputNr st.g.options.insertBlank = true
  · simp only [resolveInputSlot, hr, hi, if_true, if_false]
    exact key none _ rfl rfl
  by_cases hw : iw = true
  · cases ha : argv[st.optind]? with
    | none => simp [resolveInputSlot, hr, hi, hw, ha]
    | some pattern =>
      simp only [resolveInputSlot, hr, hi, hw, ha, if_true, if_false]
      exact key (some (env.sprintf pattern st.inputNr))
        (st.nextInput.emit (Event.inputSlot nr i (some (env.sprintf pattern st.inputNr))))
        rfl rfl
  by_cases hl : st.optind ≥ argv.length
  · by_cases he : st.g.options.endSheet = -1
    · simp only [resolveInputSlot, hr, hi, hw, hl, he, if_true, if_false]
      exact ⟨trivial, rfl, rfl⟩
    · simp only [resolveInputSlot, hr, hi, hw, hl, he, if_true, if_false]
      exact he
  · cases ha : argv[st.optind]? with
    | none => exact absurd (List.getElem?_eq_none_iff.mp ha) hl
    | some name =>
      simp only [resolveInputSlot, hr, hi, hw, hl, ha, if_true, if_false]
      exact key (some name) (st.nextArg.emit (Event.inputSlot nr i (some name))) rfl rfl

theorem resolveInputSlot_wildcard_ok (env : Env Angle) (argv : List String) (nr : Int)
    (pattern : String) (i : Nat) (st : RunState) (hp : argv[st.optind]? = some pattern)
    (hi : ∀ n, isInMultiIndex n st.g.options.insertBlank = false)
    (hr : ∀ n, isInMultiIndex n st.g.options.replaceBlank = false)
    (h0 : stat env st.written (env.sprintf pattern st.inputNr) = true) :
    resolveInputSlot env argv nr true i st =
      Step.ok (some (env.sprintf pattern st.inputNr))
        (st.withInputs (st.inputNr + 1)
          [Event.inputSlot nr i (some (env.sprintf pattern st.inputNr))]) := by
  simp [resolveInputSlot, hi, hr, hp, checkInputFile, h0, RunState.withInputs, RunState.emit,
    RunState.nextInput]

theorem resolveInputSlot_wildcard_missing (env : Env Angle) (argv : List String) (nr : Int)
    (pattern : String) (i : Nat) (st : RunState) (hp : argv[st.optind]? = some pattern)
    (hi : ∀ n, isInMultiIndex n st.g.options.insertBlank = false)
    (hr : ∀ n, isInMultiIndex n st.g.options.replaceBlank = false)
    (h0 : stat env st.written (env.sprintf pattern st.inputNr) = false) :
    resolveInputSlot env argv nr true i st =
      if st.g.options.endSheet = -1 then
        Step.sheetEnd ((st.withInputs (st.inputNr + 1)
          [Event.inputSlot nr i (some (env.sprintf pattern st.inputNr))]).setEndSheet (nr - 1))
      else
        Step.fatal (Fatal.unableToOpen (env.sprintf pattern st.inputNr))
          (st.withInputs (st.inputNr + 1)
            [Event.inputSlot nr i (some (env.sprintf pattern st.inputNr))]) := by
  simp [resolveInputSlot, hi, hr, hp, checkInputFile, h0, RunState.withInputs, RunState.emit,
    RunState.nextInput]

theorem withInputs_withInputs (st : RunState) (a b : Int) (l1 l2 : List Event) :
    (st.withInputs a l1).withInputs b l2 = st.withInputs b (l1 ++ l2) := by
  simp [RunState.withInputs, List.append_assoc]

theorem withOutputs_withOutputs (st : RunState) (a b : Int) (l1 l2 : List Event) :
    (st.withOutputs a l1).withOutputs b l2 = st.withOutputs b (l1 ++ l2) := by
  simp [RunState.withOutputs, List.append_assoc]

theorem resolveInputs_wildcard_ok (env : Env Angle) (argv : List String) (nr : Int)
    (pattern : String) (k : Nat) :
    ∀ (i : Nat) (names : List (Option String)) (st : RunState),
      argv[st.optind]? = some pattern →
      (∀ n, isInMultiIndex n st.g.options.insertBlank = false) →
      (∀ n, isInMultiIndex n st.g.options.replaceBlank = false) →
      (∀ j : Nat, j < k → stat env st.written (env.sprintf pattern (st.inputNr + j)) = true) →
      resolveInputs env argv nr true k i names st =
        Step.ok (names ++ inputSlotNames env pattern st.inputNr k)
          (st.withInputs (st.inputNr + k) (inputSlotEvents env nr pattern i st.inputNr k)) := by
  induction k with
  | zero =>
    intro i names st _ _ _ _
    simp [resolveInputs, inputSlotNames, inputSlotEvents, RunState.withInputs]
  | succ k ih =>
    intro i names st hp hi hr hex
    have h0 : stat env st.written (env.sprintf pattern st.inputNr) = true := by
      simpa using hex 0 (Nat.succ_pos k)
    have hrec := ih (i + 1) (names ++ [some (env.sprintf pattern st.inputNr)])
      (st.withInputs (st.inputNr + 1)
        [Event.inputSlot nr i (some (env.sprintf pattern st.inputNr))]) hp hi hr
      (by
        intro j hj
        have := hex (j + 1) (Nat.succ_lt_succ hj)
        show stat env st.written (env.sprintf pattern (st.inputNr + 1 + (j : Int))) = true
        rw [show st.inputNr + 1 + (j : Int) = st.inputNr + ((j + 1 : Nat) : Int) by
          push_cast; omega]
        exact this)
    simp only [resolveInputs, resolveInputSlot_wildcard_ok env argv nr pattern i st hp hi hr h0,
      hrec, withInputs_withInputs]
    have e1 : (st.withInputs (st.inputNr + 1)
        [Event.inputSlot nr i (some (env.sprintf pattern st.inputNr))]).inputNr
        = st.inputNr + 1 := rfl
    rw [e1]
    simp only [inputSlotNames, inputSlotEvents, List.append_assoc, List.singleton_append,
      Nat.cast_add, Nat.cast_one]
    rw [show st.inputNr + 1 + (k : Int) = st.inputNr + ((k : Int) + 1) by omega]

theorem resolveInputs_wildcard_missing (env : Env Angle) (argv : List String) (nr : Int)
    (pattern : String) (k : Nat) :
    ∀ (i : Nat) (names : List (Option String)) (st : RunState) (m : Nat),
      argv[st.optind]? = some pattern →
      (∀ n, isInMultiIndex n st.g.options.insertBlank = false) →
      (∀ n, isInMultiIndex n st.g.options.replaceBlank = false) →
      m < k →
      (∀ j : Nat, j < m → stat env st.written (env.sprintf pattern (st.inputNr + j)) = true) →
      stat env st.written (env.sprintf pattern (st.inputNr + m)) = false →
      resolveInputs env argv nr true k i names st =
        if st.g.options.endSheet = -1 then
          Step.sheetEnd ((st.withInputs (st.inputNr + (m + 1 : Nat))
            (inputSlotEvents env nr pattern i st.inputNr (m + 1))).setEndSheet (nr - 1))
        else
          Step.fatal (Fatal.unableToOpen (env.sprintf pattern (st.inputNr + m)))
            (st.withInputs (st.inputNr + (m + 1 : Nat))
              (inputSlotEvents env nr pattern i st.inputNr (m + 1))) := by
  induction k with
  | zero => intro i names st m _ _ _ hm; exact absurd hm (Nat.not_lt_zero m)
  | succ k ih =>
    intro i names st m hp hi hr hm hex hmiss
    cases m with
    | zero =>
      have h0 : stat env st.written (env.sprintf pattern st.inputNr) = false := by
        simpa using hmiss
      simp only [resolveInputs,
        resolveInputSlot_wildcard_missing env argv nr pattern i st hp hi hr h0]
      by_cases he : st.g.options.endSheet = -1 <;> simp [he, inputSlotEvents]
    | succ m =>
      have h0 : stat env st.written (env.sprintf pattern st.inputNr) = true := by
        simpa using hex 0 (Nat.succ_pos m)
      have hrec := ih (i + 1) (names ++ [some (env.sprintf pattern st.inputNr)])
        (st.withInputs (st.inputNr + 1)
          [Event.inputSlot nr i (some (env.sprintf pattern st.inputNr))]) m hp hi hr
        (Nat.lt_of_succ_lt_succ hm)
        (by
          intro j hj
          have := hex (j + 1) (Nat.succ_lt_succ hj)
          show stat env st.written (env.sprintf pattern (st.inputNr + 1 + (j : Int))) = true
          rw [show st.inputNr + 1 + (j : Int) = st.inputNr + ((j + 1 : Nat) : Int) by
            push_cast; omega]
          exact this)
        (by
          show stat env st.written (env.sprintf pattern (st.inputNr + 1 + (m : Int))) = false
          rw [show st.inputNr + 1 + (m : Int) = st.inputNr + ((m + 1 : Nat) : Int) by
            push_cast; omega]
          exact hmiss)
      simp only [resolveInputs,
        resolveInputSlot_wildcard_ok env argv nr pattern i st hp hi hr h0, hrec,
        withInputs_withInputs]
      have e1 : (st.withInputs (st.inputNr + 1)
          [Event.inputSlot nr i (some (env.sprintf pattern st.inputNr))]).inputNr
          = st.inputNr + 1 := rfl
      have e2 : (st.withInputs (st.inputNr + 1)
          [Event.inputSlot nr i (some (env.sprintf pattern st.inputNr))]).g = st.g := rfl
      rw [e1, e2]
      simp only [inputSlotEvents, List.append_assoc, List.singleton_append,
        Nat.cast_add, Nat.cast_one]
      rw [show st.inputNr + 1 + ((m : Int) + 1) = st.inputNr + ((m : Int) + 1 + 1) by omega,
        show st.inputNr + 1 + (m : Int) = st.inputNr + ((m : Int) + 1) by omega]

theorem resolveOutputSlot_wildcard_ok (env : Env Angle) (argv : List String) (nr : Int)
    (pattern : String) (i : Nat) (st : RunState) (hp : argv[st.optind]? = some pattern)
    (hex : st.g.overwrite = true ∨ stat env st.written (env.sprintf pattern st.outputNr) = false) :
    resolveOutputSlot env argv nr true i st =
      Step.ok (env.sprintf pattern st.outputNr)
        (st.withOutputs (st.outputNr + 1)
          [Event.outputSlot nr i (env.sprintf pattern st.outputNr)]) := by
  rcases hex with h | h <;>
    simp [resolveOutputSlot, hp, checkOutputFile, RunState.emit, h, RunState.withOutputs,
      RunState.nextOutput]

theorem resolveOutputs_wildcard_ok (env : Env Angle) (argv : List String) (nr : Int)
    (pattern : String) (k : Nat) :
    ∀ (i : Nat) (names : List String) (st : RunState),
      argv[st.optind]? = some pattern →
      (st.g.overwrite = true ∨
        ∀ j : Nat, j < k → stat env st.written (env.sprintf pattern (st.outputNr + j)) = false) →
      resolveOutputs env argv nr true k i names st =
        Step.ok (names ++ outputSlotNames env pattern st.outputNr k)
          (st.withOutputs (st.outputNr + k)
            (outputSlotEvents env nr pattern i st.outputNr k)) := by
  induction k with
  | zero =>
    intro i names st _ _
    simp [resolveOutputs, outputSlotNames, outputSlotEvents, RunState.withOutputs]
  | succ k ih =>
    intro i names st hp hex
    have h0 : st.g.overwrite = true ∨
        stat env st.written (env.sprintf pattern st.outputNr) = false := by
      rcases hex with h | h
      · exact Or.inl h
      · exact Or.inr (by simpa using h 0 (Nat.succ_pos k))
    have hrec := ih (i + 1) (names ++ [env.sprintf pattern st.outputNr])
      (st.withOutputs (st.outputNr + 1)
        [Event.outputSlot nr i (env.sprintf pattern st.outputNr)]) hp
      (by
        rcases hex with h | h
        · exact Or.inl h
        · right
          intro j hj
          have := h (j + 1) (Nat.succ_lt_succ hj)
          show stat env st.written (env.sprintf pattern (st.outputNr + 1 + (j : Int))) = false
          rw [show st.outputNr + 1 + (j : Int) = st.outputNr + ((j + 1 : Nat) : Int) by
            push_cast; omega]
          exact this)
    simp only [resolveOutputs, resolveOutputSlot_wildcard_ok env argv nr pattern i st hp h0,
      hrec, withOutputs_withOutputs]
    have e1 : (st.withOutputs (st.outputNr + 1)
        [Event.outputSlot nr i (env.sprintf pattern st.outputNr)]).outputNr
        = st.outputNr + 1 := rfl
    rw [e1]
    simp only [outputSlotNames, outputSlotEvents, List.append_assoc, List.singleton_append,
      Nat.cast_add, Nat.cast_one]
    rw [show st.outputNr + 1 + (k : Int) = st.outputNr + ((k : Int) + 1) by omega]

/-! ### One pass of the sheet loop with wildcard patterns -/

theorem static_options {g g1 : Globals} (h : g1.static = g.static) : g1.options = g.options :=
  (congrArg Globals.options h : g1.static.options = g.static.options)

theorem static_multisheets {g g1 : Globals} (h : g1.static = g.static) :
    g1.multisheets = g.multisheets :=
  (congrArg Globals.multisheets h : g1.static.multisheets = g.static.multisheets)

theorem static_inputCount {g g1 : Globals} (h : g1.static = g.static) :
    g1.inputCount = g.inputCount :=
  (congrArg Globals.inputCount h : g1.static.inputCount = g.static.inputCount)

theorem static_outputCount {g g1 : Globals} (h : g1.static = g.static) :
    g1.outputCount = g.outputCount :=
  (congrArg Globals.outputCount h : g1.static.outputCount = g.static.outputCount)

theorem static_overwrite {g g1 : Globals} (h : g1.static = g.static) :
    g1.overwrite = g.overwrite :=
  (congrArg Globals.overwrite h : g1.static.overwrite = g.static.overwrite)

theorem WildcardState.of_static {argv : List String} {inPat outPat : String}
    {st st1 : RunState} (h : WildcardState argv inPat outPat st) (ho : st1.optind = 0)
    (hs : st1.g.static = st.g.static) : WildcardState argv inPat outPat st1 :=
  ⟨ho, h.arg0, h.arg1, h.inWild, h.outWild, (static_multisheets hs).trans h.multi,
    by rw [static_options hs]; exact h.noInsert, by rw [static_options hs]; exact h.noReplace⟩

theorem WildcardState.argc {argv : List String} {inPat outPat : String} {st : RunState}
    (h : WildcardState argv inPat outPat st) : 1 < argv.length := by
  rcases Nat.lt_or_ge 1 argv.length with h1 | h1
  · exact h1
  · have := h.arg1
    rw [List.getElem?_eq_none h1] at this
    cases this

theorem sheetIteration_wildcard [Zero Angle] [Neg Angle] [DecidableEq Angle]
    (env : Env Angle) (argv : List String) (inPat outPat : String)
    (nr : Int) (st : RunState) (hws : WildcardState argv inPat outPat st) :
    sheetIteration env argv nr st = sheetBody env argv nr true st := by
  have hp0 : argv[st.optind]? = some inPat := by rw [hws.optind]; exact hws.arg0
  simp only [sheetIteration, hws.multi, if_true, hp0, hws.inWild]

/-- The part of a pass behind the input names, when the output pattern resolves
without a file in the way. -/
theorem outputsAndProcess_wildcard [Zero Angle] [Neg Angle] [DecidableEq Angle]
    (env : Env Angle) (argv : List String) (outPat : String) (nr : Int)
    (names : List (Option String)) (st : RunState)
    (ho : st.optind = 1) (harg : argv[1]? = some outPat) (hw : hasPlaceholder outPat = true)
    (hm : st.g.multisheets = true)
    (hout : st.g.overwrite = true ∨ ∀ j : Nat, j < st.g.outputCount →
      stat env st.written (env.sprintf outPat (st.outputNr + j)) = false) :
    outputsAndProcess env argv nr true names st =
      if sheetSelected st.g nr = true then
        match processSheet env nr names (outputSlotNames env outPat st.outputNr st.g.outputCount)
            (st.withOutputs (st.outputNr + st.g.outputCount)
              (outputSlotEvents env nr outPat 0 st.outputNr st.g.outputCount)).nextArg with
        | Step.ok _ st3 => Iter.next st3.rewindArgs
        | Step.sheetEnd st3 => Iter.next st3.rewindArgs
        | Step.fatal e st3 => Iter.fatal e st3
        | Step.undefined => Iter.undefined
      else
        Iter.next (st.withOutputs (st.outputNr + st.g.outputCount)
          (outputSlotEvents env nr outPat 0 st.outputNr st.g.outputCount)).nextArg.rewindArgs := by
  have hlen : ¬ (st.optind ≥ argv.length) := by
    rcases Nat.lt_or_ge 1 argv.length with h1 | h1
    · rw [ho]; omega
    · rw [List.getElem?_eq_none h1] at harg
      cases harg
  have hp : argv[st.optind]? = some outPat := by rw [ho]; exact harg
  have hO := resolveOutputs_wildcard_ok env argv nr outPat st.g.outputCount 0 [] st hp hout
  unfold outputsAndProcess
  rw [if_neg hlen]
  simp only [hp, hm, hw, Bool.and_self, hO, if_true, List.nil_append, sheetEnd,
    Bool.not_true, Bool.false_eq_true, and_false, if_false, and_self]
  rfl

/-- A pass of the sheet loop in which every input file exists and no output file is
in the way: the loop goes on, `optind` is back at the patterns, the counters
advanced by the numbers of pages per sheet, and the log grew by the resolved
names and, if the sheet is selected, by its processing. -/
theorem sheetIteration_wildcard_ok [Zero Angle] [Neg Angle] [DecidableEq Angle]
    (env : Env Angle) (argv : List String) (inPat outPat : String) (nr : Int) (st : RunState)
    (hws : WildcardState argv inPat outPat st) (hc : 1 ≤ st.g.inputCount)
    (hin : ∀ j : Nat, j < st.g.inputCount →
      stat env st.written (env.sprintf inPat (st.inputNr + j)) = true)
    (hout : st.g.overwrite = true ∨ ∀ j : Nat, j < st.g.outputCount →
      stat env st.written (env.sprintf outPat (st.outputNr + j)) = false) :
    ∃ st1, sheetIteration env argv nr st = Iter.next st1 ∧
      st1.optind = 0 ∧ st1.inputNr = st.inputNr + st.g.inputCount ∧
      st1.outputNr = st.outputNr + st.g.outputCount ∧ st1.g.static = st.g.static ∧
      ∃ L : List Event, st1.log = st.log ++
          (inputSlotEvents env nr inPat 0 st.inputNr st.g.inputCount ++
            (outputSlotEvents env nr outPat 0 st.outputNr st.g.outputCount ++ L)) ∧
        (∀ e ∈ L, e.sheet = nr ∧ e.isSlot = false) ∧
        L.filter Event.isBegin = gate (sheetSelected st.g nr) [Event.beginSheet nr] ∧
        ∀ n ∈ st1.writtenNames,
          n ∈ outputSlotNames env outPat st.outputNr st.g.outputCount ∨ n ∈ st.writtenNames := by
  have hp0 : argv[st.optind]? = some inPat := by rw [hws.optind]; exact hws.arg0
  have hI := resolveInputs_wildcard_ok env argv nr inPat st.g.inputCount 0 [] st hp0
    hws.noInsert hws.noReplace hin
  have hB : (st.withInputs (st.inputNr + st.g.inputCount)
      (inputSlotEvents env nr inPat 0 st.inputNr st.g.inputCount)).nextArg.optind = 1 := by
    show st.optind + 1 = 1
    rw [hws.optind]
  have hOP := outputsAndProcess_wildcard env argv outPat nr
    (inputSlotNames env inPat st.inputNr st.g.inputCount)
    (st.withInputs (st.inputNr + st.g.inputCount)
      (inputSlotEvents env nr inPat 0 st.inputNr st.g.inputCount)).nextArg
    hB hws.arg1 hws.outWild hws.multi hout
  rw [sheetIteration_wildcard env argv inPat outPat nr st hws]
  unfold sheetBody
  rw [hI]
  simp only [if_true, List.nil_append]
  rw [hOP]
  cases hsel : sheetSelected st.g nr
  · have hsel1 : sheetSelected (st.withInputs (st.inputNr + st.g.inputCount)
        (inputSlotEvents env nr inPat 0 st.inputNr st.g.inputCount)).nextArg.g nr = false := hsel
    rw [hsel1]
    simp only [Bool.false_eq_true, if_false]
    refine ⟨_, rfl, ?_, rfl, rfl, rfl, [], ?_, by simp, by simp [gate],
      fun n hn => Or.inr hn⟩
    · show st.optind + 1 + 1 - 2 = 0
      rw [hws.optind]
    · simp only [RunState.withInputs, RunState.nextArg, RunState.withOutputs,
        RunState.rewindArgs, List.append_assoc, List.append_nil]
  · have hsel1 : sheetSelected (st.withInputs (st.inputNr + st.g.inputCount)
        (inputSlotEvents env nr inPat 0 st.inputNr st.g.inputCount)).nextArg.g nr = true := hsel
    rw [hsel1]
    simp only [if_true]
    have hnames : ∃ n, some n ∈ inputSlotNames env inPat st.inputNr st.g.inputCount := by
      obtain ⟨k, hk⟩ := Nat.exists_eq_succ_of_ne_zero (Nat.one_le_iff_ne_zero.mp hc)
      rw [hk]
      exact ⟨env.sprintf inPat st.inputNr, by simp [inputSlotNames]⟩
    obtain ⟨st5, h5, b1, b2, b3, b4, L, b5, b6⟩ := processSheet_ok env nr
      (inputSlotNames env inPat st.inputNr st.g.inputCount)
      (outputSlotNames env outPat
        (st.withInputs (st.inputNr + st.g.inputCount)
          (inputSlotEvents env nr inPat 0 st.inputNr st.g.inputCount)).nextArg.outputNr
        (st.withInputs (st.inputNr + st.g.inputCount)
          (inputSlotEvents env nr inPat 0 st.inputNr st.g.inputCount)).nextArg.g.outputCount)
      ((st.withInputs (st.inputNr + st.g.inputCount)
          (inputSlotEvents env nr inPat 0 st.inputNr st.g.inputCount)).nextArg.withOutputs
        ((st.withInputs (st.inputNr + st.g.inputCount)
          (inputSlotEvents env nr inPat 0 st.inputNr st.g.inputCount)).nextArg.outputNr +
          (st.withInputs (st.inputNr + st.g.inputCount)
            (inputSlotEvents env nr inPat 0 st.inputNr st.g.inputCount)).nextArg.g.outputCount)
        (outputSlotEvents env nr outPat 0
          (st.withInputs (st.inputNr + st.g.inputCount)
            (inputSlotEvents env nr inPat 0 st.inputNr st.g.inputCount)).nextArg.outputNr
          (st.withInputs (st.inputNr + st.g.inputCount)
            (inputSlotEvents env nr inPat 0 st.inputNr st.g.inputCount)).nextArg.g.outputCount)
        ).nextArg
      (Or.inr hnames)
    have hwr := processSheet_written env nr
      (inputSlotNames env inPat st.inputNr st.g.inputCount)
      (outputSlotNames env outPat
        (st.withInputs (st.inputNr + st.g.inputCount)
          (inputSlotEvents env nr inPat 0 st.inputNr st.g.inputCount)).nextArg.outputNr
        (st.withInputs (st.inputNr + st.g.inputCount)
          (inputSlotEvents env nr inPat 0 st.inputNr st.g.inputCount)).nextArg.g.outputCount)
      ((st.withInputs (st.inputNr + st.g.inputCount)
          (inputSlotEvents env nr inPat 0 st.inputNr st.g.inputCount)).nextArg.withOutputs
        ((st.withInputs (st.inputNr + st.g.inputCount)
          (inputSlotEvents env nr inPat 0 st.inputNr st.g.inputCount)).nextArg.outputNr +
          (st.withInputs (st.inputNr + st.g.inputCount)
            (inputSlotEvents env nr inPat 0 st.inputNr st.g.inputCount)).nextArg.g.outputCount)
        (outputSlotEvents env nr outPat 0
          (st.withInputs (st.inputNr + st.g.inputCount)
            (inputSlotEvents env nr inPat 0 st.inputNr st.g.inputCount)).nextArg.outputNr
          (st.withInputs (st.inputNr + st.g.inputCount)
            (inputSlotEvents env nr inPat 0 st.inputNr st.g.inputCount)).nextArg.g.outputCount)
        ).nextArg
    rw [h5] at hwr
    rw [h5]
    refine ⟨_, rfl, ?_, b1, b2, b4, Event.beginSheet nr :: L, ?_, ?_, ?_, hwr⟩
    · show st5.optind - 2 = 0
      rw [b3]
      show st.optind + 1 + 1 - 2 = 0
      rw [hws.optind]
    · show st5.log = _
      rw [b5]
      simp only [RunState.withInputs, RunState.nextArg, RunState.withOutputs,
        RunState.rewindArgs, List.append_assoc, List.append_nil]
    · intro e he
      rcases List.mem_cons.mp he with h | h
      · rw [h]; exact ⟨rfl, rfl⟩
      · exact ⟨(b6 e h).1, (b6 e h).2.2⟩
    · have : L.filter Event.isBegin = [] := by
        rw [List.filter_eq_nil_iff]
        intro e he
        simp [(b6 e he).2.1]
      simp [List.filter_cons, Event.isBegin, this, gate]

/-- A pass of the sheet loop in which the input file of slot `m` is the first that
does not exist. -/
theorem sheetIteration_wildcard_missing [Zero Angle] [Neg Angle] [DecidableEq Angle]
    (env : Env Angle) (argv : List String) (inPat outPat : String) (nr : Int) (st : RunState)
    (hws : WildcardState argv inPat outPat st) (m : Nat) (hm : m < st.g.inputCount)
    (hin : ∀ j : Nat, j < m → stat env st.written (env.sprintf inPat (st.inputNr + j)) = true)
    (hmiss : stat env st.written (env.sprintf inPat (st.inputNr + m)) = false) :
    sheetIteration env argv nr st =
      if st.g.options.endSheet = -1 then
        Iter.next ((st.withInputs (st.inputNr + (m + 1 : Nat))
          (inputSlotEvents env nr inPat 0 st.inputNr (m + 1))).setEndSheet (nr - 1))
      else
        Iter.fatal (Fatal.unableToOpen (env.sprintf inPat (st.inputNr + m)))
          (st.withInputs (st.inputNr + (m + 1 : Nat))
            (inputSlotEvents env nr inPat 0 st.inputNr (m + 1))) := by
  have hp0 : argv[st.optind]? = some inPat := by rw [hws.optind]; exact hws.arg0
  have hI := resolveInputs_wildcard_missing env argv nr inPat st.g.inputCount 0 [] st m hp0
    hws.noInsert hws.noReplace hm hin hmiss
  have hlen := hws.argc
  rw [sheetIteration_wildcard env argv inPat outPat nr st hws]
  unfold sheetBody
  rw [hI]
  by_cases he : st.g.options.endSheet = -1
  · simp only [he, if_true, sheetEnd]
    have hno : ¬ (((st.withInputs (st.inputNr + (m + 1 : Nat))
        (inputSlotEvents env nr inPat 0 st.inputNr (m + 1))).setEndSheet (nr - 1)).optind
          ≥ argv.length ∧ (!true) = true) := by
      simp
    rw [if_neg hno]
    simp
  · simp only [he, if_false]

/-! ### The state in which the loop starts -/

theorem initialOptions_eq (g : Globals) :
    initialOptions g = { g.options with startInput := (initialOptions g).startInput,
                                         startOutput := (initialOptions g).startOutput,
                                         endSheet := (initialOptions g).endSheet } := by
  unfold initialOptions singleSheetEnd defaultStartOutput defaultStartInput
  split <;> split <;> split <;> rfl

theorem initialOptions_startInput (g : Globals) (h : g.options.startInput = -1) :
    (initialOptions g).startInput = (g.options.startSheet - 1) * g.inputCount + 1 := by
  unfold initialOptions singleSheetEnd defaultStartOutput defaultStartInput
  rw [if_pos h]
  split <;> split <;> rfl

theorem initialOptions_endSheet (g : Globals) (h : g.multisheets = true) :
    (initialOptions g).endSheet = g.options.endSheet := by
  unfold initialOptions singleSheetEnd defaultStartOutput defaultStartInput
  simp only [h, Bool.not_true, Bool.false_eq_true, false_and, if_false]
  split <;> split <;> rfl

theorem initialOptions_startSheet (g : Globals) :
    (initialOptions g).startSheet = g.options.startSheet := by
  rw [initialOptions_eq]

theorem initialOptions_insertBlank (g : Globals) :
    (initialOptions g).insertBlank = g.options.insertBlank := by
  rw [initialOptions_eq]

theorem initialOptions_replaceBlank (g : Globals) :
    (initialOptions g).replaceBlank = g.options.replaceBlank := by
  rw [initialOptions_eq]

theorem sheetSelected_initial (g : Globals) (nr : Int) :
    sheetSelected (initialState g).g nr = sheetSelected g nr := by
  show (isInMultiIndex nr (initialOptions g).sheetMultiIndex &&
    !isInMultiIndex nr (initialOptions g).excludeMultiIndex) = _
  rw [initialOptions_eq]
  rfl

theorem sheetSelected_of_static {g g1 : Globals} (h : g1.static = g.static) (nr : Int) :
    sheetSelected g1 nr = sheetSelected g nr := by
  unfold sheetSelected
  rw [static_options h]

/-! ### The loop -/

theorem sheetLoop_next [Zero Angle] [Neg Angle] [DecidableEq Angle]
    (env : Env Angle) (argv : List String) (fuel : Nat) (nr : Int) (st st1 : RunState)
    (hcond : st.g.options.endSheet = -1 ∨ nr ≤ st.g.options.endSheet)
    (hit : sheetIteration env argv nr st = Iter.next st1) :
    sheetLoop env argv (fuel + 1) nr st = sheetLoop env argv fuel (nr + 1) st1 := by
  simp only [sheetLoop, hcond, if_true, hit]

theorem sheetLoop_done [Zero Angle] [Neg Angle] [DecidableEq Angle]
    (env : Env Angle) (argv : List String) (fuel : Nat) (nr : Int) (st : RunState)
    (hcond : ¬ (st.g.options.endSheet = -1 ∨ nr ≤ st.g.options.endSheet)) :
    sheetLoop env argv (fuel + 1) nr st = (Exit.returned 0, st) := by
  simp only [sheetLoop, hcond, if_false]

theorem inputSlotEvents_props (env : Env Angle) (nr : Int) (pattern : String) (k : Nat) :
    ∀ (i : Nat) (n : Int), ∀ e ∈ inputSlotEvents env nr pattern i n k,
      e.sheet = nr ∧ e.isBegin = false := by
  induction k with
  | zero => intro i n e he; cases he
  | succ k ih =>
    intro i n e he
    simp only [inputSlotEvents, List.mem_cons] at he
    rcases he with h | h
    · rw [h]; exact ⟨rfl, rfl⟩
    · exact ih _ _ e h

theorem outputSlotEvents_props (env : Env Angle) (nr : Int) (pattern : String) (k : Nat) :
    ∀ (i : Nat) (n : Int), ∀ e ∈ outputSlotEvents env nr pattern i n k,
      e.sheet = nr ∧ e.isBegin = false := by
  induction k with
  | zero => intro i n e he; cases he
  | succ k ih =>
    intro i n e he
    simp only [outputSlotEvents, List.mem_cons] at he
    rcases he with h | h
    · rw [h]; exact ⟨rfl, rfl⟩
    · exact ih _ _ e h

theorem processedSheets_of_not_begin (l : List Event) (h : ∀ e ∈ l, e.isBegin = false) :
    processedSheets l = [] := by
  unfold processedSheets
  rw [List.map_eq_nil_iff, List.filter_eq_nil_iff]
  intro e he
  simp [h e he]

theorem mem_outputSlotNames (env : Env Angle) (pattern : String) (k : Nat) :
    ∀ (n : Int) (x : String), x ∈ outputSlotNames env pattern n k →
      ∃ j : Nat, j < k ∧ x = env.sprintf pattern (n + j) := by
  induction k with
  | zero => intro n x hx; cases hx
  | succ k ih =>
    intro n x hx
    simp only [outputSlotNames, List.mem_cons] at hx
    rcases hx with h | h
    · exact ⟨0, Nat.succ_pos k, by simpa using h⟩
    · obtain ⟨j, hj, hx⟩ := ih (n + 1) x h
      refine ⟨j + 1, Nat.succ_lt_succ hj, ?_⟩
      rw [hx]
      congr 1
      push_cast
      ring

/-- The sheet loop of a wildcard run with one input page per sheet, every sheet
selected and no output file present, from sheet `n` on, when the input files
exist up to `N - 1`, the file for `N` is missing and is not written by the run,
and the output names of the run differ from each other unless overwriting is
permitted. -/
theorem sheetLoop_wildcard_to_end [Zero Angle] [Neg Angle] [DecidableEq Angle]
    (env : Env Angle) (argv : List String) (inPat outPat : String) (N : Nat) (G : Globals)
    (o0 : Int)
    (hend : G.options.endSheet = -1) (hc : G.inputCount = 1)
    (hsel : ∀ nr, sheetSelected G nr = true)
    (hnoout : ∀ n, env.fileExists (env.sprintf outPat n) = false)
    (hfiles : ∀ n : Nat, 1 ≤ n → n < N → env.fileExists (env.sprintf inPat n) = true)
    (hmissing : env.fileExists (env.sprintf inPat N) = false)
    (hdist : ∀ k : Int, o0 ≤ k → k < o0 + ((N : Int) - 1) * G.outputCount →
      env.sprintf outPat k ≠ env.sprintf inPat N)
    (hinj : G.overwrite = false → ∀ k k' : Int, o0 ≤ k → k < k' →
      k' < o0 + ((N : Int) - 1) * G.outputCount →
      env.sprintf outPat k ≠ env.sprintf outPat k') :
    ∀ (d n : Nat) (st : RunState), 1 ≤ n → n + d = N →
      WildcardState argv inPat outPat st → st.g.static = G.static → st.inputNr = n →
      st.outputNr = o0 + ((n : Int) - 1) * G.outputCount →
      (∀ x ∈ st.writtenNames, ∃ k : Int, o0 ≤ k ∧ k < st.outputNr ∧ x = env.sprintf outPat k) →
      processedSheets st.log = (List.range' 1 (n - 1)).map Int.ofNat →
      (∀ e ∈ st.log, e.sheet < n) →
      ∀ fuel, d + 2 ≤ fuel →
        ∃ st1, sheetLoop env argv fuel n st = (Exit.returned 0, st1) ∧
          st1.g.options.endSheet = (N : Int) - 1 ∧
          processedSheets st1.log = (List.range' 1 (N - 1)).map Int.ofNat ∧
          ∀ e ∈ st1.log, e.sheet = N →
            e = Event.inputSlot N 0 (some (env.sprintf inPat N)) := by
  intro d
  induction d with
  | zero =>
    intro n st hn hnN hws hst hnr hout hwr hproc hlog fuel hfuel
    have hnN : n = N := by omega
    subst hnN
    have ho : st.g.options = G.options := static_options hst
    have hic : st.g.inputCount = 1 := (static_inputCount hst).trans hc
    have hmiss : stat env st.written (env.sprintf inPat (st.inputNr + ((0 : Nat) : Int))) =
        false := by
      rw [hnr]
      refine stat_eq_false env st.written _ (by simpa using hmissing) ?_
      intro hmem
      obtain ⟨k, hk1, hk2, hk3⟩ := hwr _ hmem
      rw [hout] at hk2
      refine hdist k hk1 hk2 ?_
      rw [← hk3]
      simp
    have hit := sheetIteration_wildcard_missing env argv inPat outPat (n : Int) st hws 0
      (by rw [hic]; exact Nat.one_pos) (fun j hj => absurd hj (Nat.not_lt_zero j)) hmiss
    rw [ho, hend] at hit
    simp only [if_true] at hit
    obtain ⟨f, rfl⟩ : ∃ f, fuel = f + 2 := ⟨fuel - 2, by omega⟩
    rw [sheetLoop_next env argv (f + 1) n st _ (Or.inl (by rw [ho]; exact hend)) hit]
    rw [sheetLoop_done]
    · refine ⟨_, rfl, rfl, ?_, ?_⟩
      · show processedSheets (st.log ++ _) = _
        rw [processedSheets_append, hproc,
          processedSheets_of_not_begin _
            (fun e he => (inputSlotEvents_props env n inPat 1 0 st.inputNr e he).2)]
        simp
      · intro e he hsheet
        have he1 : e ∈ st.log ++ inputSlotEvents env (n : Int) inPat 0 st.inputNr (0 + 1) := he
        rcases List.mem_append.mp he1 with h | h
        · have := hlog e h
          omega
        · simp only [inputSlotEvents, List.mem_singleton, Nat.zero_add] at h
          rw [h, hnr]
    · show ¬ ((n : Int) - 1 = -1 ∨ (n : Int) + 1 ≤ (n : Int) - 1)
      omega
  | succ d ih =>
    intro n st hn hnN hws hst hnr hout hwr hproc hlog fuel hfuel
    have ho : st.g.options = G.options := static_options hst
    have hic : st.g.inputCount = 1 := (static_inputCount hst).trans hc
    have hoc : st.g.outputCount = G.outputCount := static_outputCount hst
    have hbound : (n : Int) * G.outputCount ≤ ((N : Int) - 1) * G.outputCount :=
      mul_le_mul_of_nonneg_right (by omega) (Int.ofNat_nonneg _)
    have hnonneg : (0 : Int) ≤ ((n : Int) - 1) * G.outputCount :=
      mul_nonneg (by omega) (Int.ofNat_nonneg _)
    have hexists : ∀ j : Nat, j < st.g.inputCount →
        stat env st.written (env.sprintf inPat (st.inputNr + j)) = true := by
      intro j hj
      have hj0 : j = 0 := by omega
      subst hj0
      rw [hnr]
      exact stat_of_fileExists env _ _ (by simpa using hfiles n hn (by omega))
    have habsent : st.g.overwrite = true ∨ ∀ j : Nat, j < st.g.outputCount →
        stat env st.written (env.sprintf outPat (st.outputNr + j)) = false := by
      by_cases hov : st.g.overwrite = true
      · exact Or.inl hov
      right
      have hov1 : G.overwrite = false := by
        rw [← static_overwrite hst]
        simpa using hov
      intro j hj
      refine stat_eq_false env st.written _ (hnoout _) ?_
      intro hmem
      obtain ⟨k, hk1, hk2, hk3⟩ := hwr _ hmem
      rw [hoc] at hj
      have hj' : (j : Int) < G.outputCount := by exact_mod_cast hj
      refine hinj hov1 k (st.outputNr + j) hk1 (by omega) ?_ hk3.symm
      rw [hout]
      have e : ((n : Int) - 1) * G.outputCount = (n : Int) * G.outputCount - G.outputCount := by
        ring
      omega
    obtain ⟨st1, hit, a1, a2, a3, a4, L, a5, a6, a7, a8⟩ :=
      sheetIteration_wildcard_ok env argv inPat outPat (n : Int) st hws
        (by rw [hic]) hexists habsent
    obtain ⟨f, rfl⟩ : ∃ f, fuel = f + 1 := ⟨fuel - 1, by omega⟩
    rw [sheetLoop_next env argv f n st st1 (Or.inl (by rw [ho]; exact hend)) hit]
    have hcast : ((n : Int) + 1) = ((n + 1 : Nat) : Int) := by push_cast; rfl
    rw [hcast]
    have hselected : sheetSelected st.g (n : Int) = true := by
      rw [sheetSelected_of_static hst]; exact hsel _
    rw [hselected] at a7
    refine ih (n + 1) st1 (by omega) (by omega) (hws.of_static a1 (a4.trans rfl))
      (a4.trans hst) ?_ ?_ ?_ ?_ ?_ f (by omega)
    · rw [a2, hnr, hic]; push_cast; rfl
    · rw [a3, hout, hoc]
      push_cast
      ring
    · intro x hx
      rcases a8 x hx with h | h
      · obtain ⟨j, hj, rfl⟩ := mem_outputSlotNames env outPat _ _ x h
        refine ⟨st.outputNr + j, ?_, ?_, rfl⟩
        · rw [hout]
          omega
        · rw [a3]
          have hj' : (j : Int) < st.g.outputCount := by exact_mod_cast hj
          omega
      · obtain ⟨k, hk1, hk2, hk3⟩ := hwr x h
        refine ⟨k, hk1, ?_, hk3⟩
        rw [a3]
        have : (0 : Int) ≤ st.g.outputCount := Int.ofNat_nonneg _
        omega
    · rw [a5, processedSheets_append, processedSheets_append, processedSheets_append, hproc,
        processedSheets_of_not_begin _
          (fun e he => (inputSlotEvents_props env n inPat _ 0 st.inputNr e he).2),
        processedSheets_of_not_begin _
          (fun e he => (outputSlotEvents_props env n outPat _ 0 st.outputNr e he).2)]
      have hL : processedSheets L = [(n : Int)] := by
        unfold processedSheets
        rw [a7]
        rfl
      rw [hL]
      obtain ⟨k, rfl⟩ : ∃ k, n = k + 1 := ⟨n - 1, by omega⟩
      simp only [Nat.add_sub_cancel, List.nil_append, List.append_nil]
      rw [List.range'_1_concat, List.map_append]
      simp
      omega
    · intro e he
      rw [a5] at he
      rcases List.mem_append.mp he with h | h
      · have := hlog e h
        push_cast
        omega
      · have hs : e.sheet = (n : Int) := by
          rcases List.mem_append.mp h with h1 | h1
          · exact (inputSlotEvents_props env n inPat _ 0 st.inputNr e h1).1
          · rcases List.mem_append.mp h1 with h2 | h2
            · exact (outputSlotEvents_props env n outPat _ 0 st.outputNr e h2).1
            · exact (a6 e h2).1
        rw [hs]
        push_cast
        omega

theorem sample_no_output (n : Int) :
    (sampleEnv twoPages 0).fileExists ((sampleEnv twoPages 0).sprintf "out%d.pbm" n) = false := by
  have h : ∀ t : String, ("out" ++ t) ≠ "in1.pbm" ∧ ("out" ++ t) ≠ "in2.pbm" := by
    intro t
    constructor <;>
    · intro h
      have := congrArg String.data h
      simp [String.data_append] at this
  simp only [sampleEnv, sampleSprintf, twoPages]
  have e : String.mk (List.takeWhile (fun c => c != '%') "out%d.pbm".toList) = "out" := by
    decide
  rw [e, String.append_assoc]
  simp [h]

theorem toDigitsCore_length_ge (b : Nat) :
    ∀ (f n : Nat) (ds : List Char), ds.length ≤ (Nat.toDigitsCore b f n ds).length := by
  intro f
  induction f with
  | zero => intro n ds; simp [Nat.toDigitsCore]
  | succ f ih =>
    intro n ds
    simp only [Nat.toDigitsCore]
    by_cases h : n / b = 0
    · rw [if_pos h]; simp
    · rw [if_neg h]
      have := ih (n / b) (Nat.digitChar (n % b) :: ds)
      simp only [List.length_cons] at this
      omega

theorem nat_repr_ne_nil (n : Nat) : (Nat.repr n).data ≠ [] := by
  intro h
  have hl := toDigitsCore_length_ge 10 n (n / 10) [Nat.digitChar (n % 10)]
  have e : (Nat.repr n).data = Nat.toDigitsCore 10 (n + 1) n [] := rfl
  rw [e] at h
  simp only [Nat.toDigitsCore] at h
  by_cases h0 : n / 10 = 0
  · rw [if_pos h0] at h; cases h
  · rw [if_neg h0] at h
    rw [h] at hl
    simp at hl

theorem int_toString_ne_nil (k : Int) : (toString k).data ≠ [] := by
  cases k with
  | ofNat m => exact nat_repr_ne_nil m
  | negSucc m =>
    intro h
    have e : (toString (Int.negSucc m)).data = '-' :: (Nat.repr (m + 1)).data := rfl
    rw [e] at h
    cases h

theorem tenPages_no_output (k : Int) :
    (sampleEnv tenPages 0).fileExists ((sampleEnv tenPages 0).sprintf "%d1p.pbm" k) = false := by
  have hs := int_toString_ne_nil k
  have key : ∀ a b : List Char, b.length = 6 → (a = [] ∨ b ≠ "1p.pbm".data) →
      (toString k ++ "1p.pbm") ≠ String.mk (a ++ b) := by
    intro a b hb hab h
    have h1 := congrArg String.data h
    simp only [String.data_append] at h1
    obtain ⟨e1, e2⟩ := List.append_inj' h1 (by rw [hb]; rfl)
    rcases hab with h2 | h2
    · exact hs (e1.trans h2)
    · exact h2 e2.symm
  have e : (sampleEnv tenPages 0).sprintf "%d1p.pbm" k = toString k ++ "1p.pbm" := by
    show String.mk _ ++ toString k ++ String.mk _ = _
    have e1 : String.mk (List.takeWhile (fun c => c != '%') "%d1p.pbm".toList) = "" := by decide
    have e2 : String.mk ((List.dropWhile (fun c => c != '%') "%d1p.pbm".toList).drop 2)
        = "1p.pbm" := by decide
    rw [e1, e2, String.empty_append]
  rw [e]
  have n1 := key [] "1p.pbm".data rfl (Or.inl rfl)
  have n2 := key [] "2p.pbm".data rfl (Or.inr (by decide))
  have n3 := key [] "3p.pbm".data rfl (Or.inr (by decide))
  have n4 := key [] "4p.pbm".data rfl (Or.inr (by decide))
  have n5 := key [] "5p.pbm".data rfl (Or.inr (by decide))
  have n6 := key [] "6p.pbm".data rfl (Or.inr (by decide))
  have n7 := key [] "7p.pbm".data rfl (Or.inr (by decide))
  have n8 := key [] "8p.pbm".data rfl (Or.inr (by decide))
  have n9 := key [] "9p.pbm".data rfl (Or.inr (by decide))
  have n10 := key ['1'] "0p.pbm".data rfl (Or.inr (by decide))
  simp only [sampleEnv, tenPages, List.map, List.contains_cons, List.contains_nil,
    Bool.or_false, Bool.or_eq_false_iff, beq_eq_false_iff_ne, ne_eq]
  exact ⟨n1, n2, n3, n4, n5, n6, n7, n8, n9, n10⟩

set_option maxRecDepth 100000 in
/-- C7 at a failing input: `--start-sheet 0 --input-pages 2` with the patterns
`in%d.pbm` and `out%d.pbm`, where `in-1.pbm` does not exist and `in0.pbm` and
`in1.pbm` do. The missing file of sheet 0 sets the end sheet to `0 - 1`, the
value that means "not set", so the loop goes on; sheet 1 resolves its slots to
the numbers 0 and 1, not to `(1 - 1) * 2 + 0 + 1 = 1` and `2`. -/
theorem C7_start_sheet_zero_shifts_numbers :
    inputSlots (unpaperMain (sampleEnv pagesZeroOne 0) sheetZeroTwoPagesGlobals
        ["in%d.pbm", "out%d.pbm"] 4).2.log =
      [(0, 0, some "in-1.pbm"), (1, 0, some "in0.pbm"), (1, 1, some "in1.pbm"),
       (2, 0, some "in2.pbm")] ∧
    processedSheets (unpaperMain (sampleEnv pagesZeroOne 0) sheetZeroTwoPagesGlobals
        ["in%d.pbm", "out%d.pbm"] 4).2.log = [1] := by
  decide

set_option maxRecDepth 100000 in
/-- C9 at a failing input: `--start-sheet 0` with the patterns `in%d.pbm` and
`out%d.pbm`, where `in0.pbm` does not exist and `in1.pbm` does. No end sheet is
set when the input of sheet 0 is missing; the end sheet becomes `0 - 1 = -1`,
which still reads as "not set", so the later sheets 1 and 2 are resolved and
sheet 1 is processed. -/
theorem C9_missing_input_of_sheet_zero_goes_on :
    inputSlots (unpaperMain (sampleEnv twoPages 0) sheetZeroGlobals
        ["in%d.pbm", "out%d.pbm"] 5).2.log =
      [(0, 0, some "in0.pbm"), (1, 0, some "in1.pbm"), (2, 0, some "in2.pbm"),
       (3, 0, some "in3.pbm")] ∧
    processedSheets (unpaperMain (sampleEnv twoPages 0) sheetZeroGlobals
        ["in%d.pbm", "out%d.pbm"] 5).2.log = [1, 2] ∧
    (unpaperMain (sampleEnv twoPages 0) sheetZeroGlobals
        ["in%d.pbm", "out%d.pbm"] 5).1 = Exit.returned 0 := by
  decide

set_option maxRecDepth 100000 in
/-- C10 at a failing input: two sheets with the default options, the page of sheet 1
is 100 x 200 and the page of sheet 2 is 300 x 400. The locals `w` and `h` keep
their values from sheet 1, so the buffer of sheet 2 is allocated with 100 x 200
and not with 300 x 400. -/
theorem C10_second_sheet_keeps_first_size :
    (sampleEnv twoSizes 0).pageSize "in2.pbm" = (300, 400) ∧
    sheetAllocs (unpaperMain (sampleEnv twoSizes 0) Globals.default
        ["in%d.pbm", "out%d.pbm"] 4).2.log = [(1, 100, 200), (2, 100, 200)] := by
  decide

/-! ### A missing input in any mode -/

theorem resolveInputs_cases (env : Env Angle) (argv : List String) (nr : Int) (iw : Bool)
    (k : Nat) :
    ∀ (i : Nat) (names : List (Option String)) (st : RunState),
      match resolveInputs env argv nr iw k i names st with
      | Step.ok _ st1 => st1.g = st.g ∧ processedSheets st1.log = processedSheets st.log
      | Step.sheetEnd st1 => st.g.options.endSheet = -1 ∧ st1.g.options.endSheet = nr - 1 ∧
          processedSheets st1.log = processedSheets st.log
      | Step.fatal _ _ => st.g.options.endSheet ≠ -1
      | Step.undefined => True := by
  induction k with
  | zero => intro i names st; simp [resolveInputs]
  | succ k ih =>
    intro i names st
    have h := resolveInputSlot_cases env argv nr iw i st
    simp only [resolveInputs]
    revert h
    cases resolveInputSlot env argv nr iw i st with
    | ok name st1 =>
      rintro ⟨hg, hl⟩
      have h2 := ih (i + 1) (names ++ [name]) st1
      revert h2
      simp only []
      cases resolveInputs env argv nr iw k (i + 1) (names ++ [name]) st1 with
      | ok names2 st2 =>
        rintro ⟨hg2, hl2⟩
        refine ⟨hg2.trans hg, hl2.trans ?_⟩
        rw [hl, processedSheets_append]
        simp [processedSheets, Event.isBegin]
      | sheetEnd st2 =>
        rintro ⟨h1, h2, h3⟩
        refine ⟨by rw [← hg]; exact h1, h2, h3.trans ?_⟩
        rw [hl, processedSheets_append]
        simp [processedSheets, Event.isBegin]
      | fatal e st2 => intro h1; simp only []; rw [← hg]; exact h1
      | undefined => intro _; trivial
    | sheetEnd st1 => intro h; exact h
    | fatal e st1 => intro h; exact h
    | undefined => intro h; exact h

/-- The end-of-input rule for every sheet but sheet 0, in wildcard mode and with
explicit names: when an input slot of sheet `nr` cannot be resolved and no end
sheet is set, the sheet is not processed, the end sheet becomes `nr - 1`, and a
loop that goes on stops before it resolves anything for a later sheet. -/
theorem missing_input_ends_loop [Zero Angle] [Neg Angle] [DecidableEq Angle]
    (env : Env Angle) (argv : List String) (nr : Int) (iw : Bool) (st st1 : RunState)
    (hnr : nr ≠ 0)
    (h : resolveInputs env argv nr iw st.g.inputCount 0 [] st = Step.sheetEnd st1) :
    st.g.options.endSheet = -1 ∧ st1.g.options.endSheet = nr - 1 ∧
      processedSheets st1.log = processedSheets st.log ∧
      (sheetBody env argv nr iw st = Iter.stop st1 ∨ sheetBody env argv nr iw st = Iter.next st1) ∧
      ∀ fuel, sheetLoop env argv (fuel + 1) (nr + 1) st1 = (Exit.returned 0, st1) := by
  have hc := resolveInputs_cases env argv nr iw st.g.inputCount 0 [] st
  rw [h] at hc
  obtain ⟨h1, h2, h3⟩ := hc
  refine ⟨h1, h2, h3, ?_, ?_⟩
  · simp only [sheetBody, h, sheetEnd]
    split
    · exact Or.inl rfl
    · right
      simp
  · intro fuel
    apply sheetLoop_done
    rw [h2]
    intro hcases
    rcases hcases with h4 | h4 <;> omega

/-! ### The numbers of the input names in a wildcard run that starts at sheet 1 or later -/

theorem first_failure (P : Nat → Prop) (k : Nat) :
    (∀ j, j < k → P j) ∨ ∃ m, m < k ∧ (∀ j, j < m → P j) ∧ ¬ P m := by
  induction k with
  | zero => exact Or.inl (fun j hj => absurd hj (Nat.not_lt_zero j))
  | succ k ih =>
    rcases ih with h | ⟨m, hm, h1, h2⟩
    · by_cases hk : P k
      · left
        intro j hj
        rcases Nat.lt_succ_iff_lt_or_eq.mp hj with h3 | h3
        · exact h j h3
        · rw [h3]; exact hk
      · exact Or.inr ⟨k, Nat.lt_succ_self k, h, hk⟩
    · exact Or.inr ⟨m, Nat.lt_succ_of_lt hm, h1, h2⟩

theorem inputSlots_append (l1 l2 : List Event) :
    inputSlots (l1 ++ l2) = inputSlots l1 ++ inputSlots l2 := by
  simp [inputSlots, List.filterMap_append]

theorem inputSlots_of_not_slot (l : List Event) (h : ∀ e ∈ l, e.isSlot = false) :
    inputSlots l = [] := by
  unfold inputSlots
  rw [List.filterMap_eq_nil_iff]
  intro e he
  have := h e he
  cases e <;> simp_all [Event.isSlot]

theorem inputSlots_outputSlotEvents (env : Env Angle) (nr : Int) (pattern : String) (k : Nat) :
    ∀ (i : Nat) (n : Int), inputSlots (outputSlotEvents env nr pattern i n k) = [] := by
  induction k with
  | zero => intro i n; rfl
  | succ k ih =>
    intro i n
    simp only [outputSlotEvents, inputSlots, List.filterMap_cons]
    exact ih (i + 1) (n + 1)

theorem mem_inputSlots_inputSlotEvents (env : Env Angle) (nr : Int) (pattern : String)
    (k : Nat) :
    ∀ (i : Nat) (n : Int) (x : Int × Nat × Option String),
      x ∈ inputSlots (inputSlotEvents env nr pattern i n k) →
      ∃ j : Nat, j < k ∧ x = (nr, i + j, some (env.sprintf pattern (n + j))) := by
  induction k with
  | zero => intro i n x hx; cases hx
  | succ k ih =>
    intro i n x hx
    simp only [inputSlotEvents, inputSlots, List.filterMap_cons, List.mem_cons] at hx
    rcases hx with h | h
    · exact ⟨0, Nat.succ_pos k, by simp [h]⟩
    · obtain ⟨j, hj, hx⟩ := ih (i + 1) (n + 1) x h
      refine ⟨j + 1, Nat.succ_lt_succ hj, ?_⟩
      rw [hx]
      have e1 : i + 1 + j = i + (j + 1) := by omega
      have e2 : n + 1 + (j : Int) = n + ((j + 1 : Nat) : Int) := by push_cast; omega
      rw [e1, e2]

theorem resolveOutputs_wildcard_present (env : Env Angle) (argv : List String) (nr : Int)
    (pattern : String) (k : Nat) :
    ∀ (i : Nat) (names : List String) (st : RunState) (m : Nat),
      argv[st.optind]? = some pattern → st.g.overwrite = false → m < k →
      (∀ j : Nat, j < m → stat env st.written (env.sprintf pattern (st.outputNr + j)) = false) →
      stat env st.written (env.sprintf pattern (st.outputNr + m)) = true →
      resolveOutputs env argv nr true k i names st =
        Step.fatal (Fatal.outputPresent (env.sprintf pattern (st.outputNr + m)))
          (st.withOutputs (st.outputNr + (m + 1 : Nat))
            (outputSlotEvents env nr pattern i st.outputNr (m + 1))) := by
  induction k with
  | zero => intro i names st m _ _ hm; exact absurd hm (Nat.not_lt_zero m)
  | succ k ih =>
    intro i names st m hp hov hm hex hpres
    cases m with
    | zero =>
      have h0 : stat env st.written (env.sprintf pattern st.outputNr) = true := by
        simpa using hpres
      have hstep : resolveOutputSlot env argv nr true i st =
          Step.fatal (Fatal.outputPresent (env.sprintf pattern st.outputNr))
            (st.withOutputs (st.outputNr + 1)
              [Event.outputSlot nr i (env.sprintf pattern st.outputNr)]) := by
        simp [resolveOutputSlot, hp, checkOutputFile, RunState.emit, h0, hov,
          RunState.withOutputs, RunState.nextOutput]
      simp only [resolveOutputs, hstep]
      simp [outputSlotEvents]
    | succ m =>
      have h0 : stat env st.written (env.sprintf pattern st.outputNr) = false := by
        simpa using hex 0 (Nat.succ_pos m)
      have hrec := ih (i + 1) (names ++ [env.sprintf pattern st.outputNr])
        (st.withOutputs (st.outputNr + 1)
          [Event.outputSlot nr i (env.sprintf pattern st.outputNr)]) m hp hov
        (Nat.lt_of_succ_lt_succ hm)
        (by
          intro j hj
          have := hex (j + 1) (Nat.succ_lt_succ hj)
          show stat env st.written (env.sprintf pattern (st.outputNr + 1 + (j : Int))) = false
          rw [show st.outputNr + 1 + (j : Int) = st.outputNr + ((j + 1 : Nat) : Int) by
            push_cast; omega]
          exact this)
        (by
          show stat env st.written (env.sprintf pattern (st.outputNr + 1 + (m : Int))) = true
          rw [show st.outputNr + 1 + (m : Int) = st.outputNr + ((m + 1 : Nat) : Int) by
            push_cast; omega]
          exact hpres)
      simp only [resolveOutputs,
        resolveOutputSlot_wildcard_ok env argv nr pattern i st hp (Or.inr h0), hrec,
        withOutputs_withOutputs]
      have e1 : (st.withOutputs (st.outputNr + 1)
          [Event.outputSlot nr i (env.sprintf pattern st.outputNr)]).outputNr
          = st.outputNr + 1 := rfl
      rw [e1]
      simp only [outputSlotEvents, List.append_assoc, List.singleton_append,
        Nat.cast_add, Nat.cast_one]
      rw [show st.outputNr + 1 + ((m : Int) + 1) = st.outputNr + ((m : Int) + 1 + 1) by omega,
        show st.outputNr + 1 + (m : Int) = st.outputNr + ((m : Int) + 1) by omega]

theorem outputsAndProcess_wildcard_present [Zero Angle] [Neg Angle] [DecidableEq Angle]
    (env : Env Angle) (argv : List String) (outPat : String) (nr : Int)
    (names : List (Option String)) (st : RunState) (m : Nat)
    (ho : st.optind = 1) (harg : argv[1]? = some outPat) (hw : hasPlaceholder outPat = true)
    (hmulti : st.g.multisheets = true) (hov : st.g.overwrite = false)
    (hm : m < st.g.outputCount)
    (habsent : ∀ j : Nat, j < m →
      stat env st.written (env.sprintf outPat (st.outputNr + j)) = false)
    (hpres : stat env st.written (env.sprintf outPat (st.outputNr + m)) = true) :
    outputsAndProcess env argv nr true names st =
      Iter.fatal (Fatal.outputPresent (env.sprintf outPat (st.outputNr + m)))
        (st.withOutputs (st.outputNr + (m + 1 : Nat))
          (outputSlotEvents env nr outPat 0 st.outputNr (m + 1))) := by
  have hlen : ¬ (st.optind ≥ argv.length) := by
    rcases Nat.lt_or_ge 1 argv.length with h1 | h1
    · rw [ho]; omega
    · rw [List.getElem?_eq_none h1] at harg
      cases harg
  have hp : argv[st.optind]? = some outPat := by rw [ho]; exact harg
  have hO := resolveOutputs_wildcard_present env argv nr outPat st.g.outputCount 0 [] st m hp
    hov hm habsent hpres
  unfold outputsAndProcess
  rw [if_neg hlen]
  simp only [hp, hmulti, hw, Bool.and_self, hO]

/-- A pass of the sheet loop of a wildcard run in which every input file of the
sheet exists: the loop goes on behind the sheet or the run fails at an output
file; in both cases the input names that were resolved are those of the
pattern with the numbers from the input counter on. -/
theorem sheetIteration_wildcard_inputs_exist [Zero Angle] [Neg Angle] [DecidableEq Angle]
    (env : Env Angle) (argv : List String) (inPat outPat : String) (nr : Int) (st : RunState)
    (hws : WildcardState argv inPat outPat st) (hc : 1 ≤ st.g.inputCount)
    (hin : ∀ j : Nat, j < st.g.inputCount →
      stat env st.written (env.sprintf inPat (st.inputNr + j)) = true) :
    (∃ st1, sheetIteration env argv nr st = Iter.next st1 ∧ st1.optind = 0 ∧
        st1.inputNr = st.inputNr + st.g.inputCount ∧ st1.g.static = st.g.static ∧
        inputSlots st1.log = inputSlots st.log ++
          inputSlots (inputSlotEvents env nr inPat 0 st.inputNr st.g.inputCount)) ∨
    (∃ e st1, sheetIteration env argv nr st = Iter.fatal e st1 ∧
        inputSlots st1.log = inputSlots st.log ++
          inputSlots (inputSlotEvents env nr inPat 0 st.inputNr st.g.inputCount)) := by
  by_cases hov : st.g.overwrite = true
  · left
    obtain ⟨st1, h1, h2, h3, _, h5, L, h6, h7, _⟩ :=
      sheetIteration_wildcard_ok env argv inPat outPat nr st hws hc hin (Or.inl hov)
    refine ⟨st1, h1, h2, h3, h5, ?_⟩
    rw [h6, inputSlots_append, inputSlots_append, inputSlots_append,
      inputSlots_outputSlotEvents, inputSlots_of_not_slot L (fun e he => (h7 e he).2)]
    simp
  · rcases first_failure
      (fun j => stat env st.written (env.sprintf outPat (st.outputNr + (j : Int))) = false)
      st.g.outputCount with hall | ⟨m, hm, habsent, hpres⟩
    · left
      obtain ⟨st1, h1, h2, h3, _, h5, L, h6, h7, _⟩ :=
        sheetIteration_wildcard_ok env argv inPat outPat nr st hws hc hin (Or.inr hall)
      refine ⟨st1, h1, h2, h3, h5, ?_⟩
      rw [h6, inputSlots_append, inputSlots_append, inputSlots_append,
        inputSlots_outputSlotEvents, inputSlots_of_not_slot L (fun e he => (h7 e he).2)]
      simp
    · right
      have hp0 : argv[st.optind]? = some inPat := by rw [hws.optind]; exact hws.arg0
      have hI := resolveInputs_wildcard_ok env argv nr inPat st.g.inputCount 0 [] st hp0
        hws.noInsert hws.noReplace hin
      have hB : (st.withInputs (st.inputNr + st.g.inputCount)
          (inputSlotEvents env nr inPat 0 st.inputNr st.g.inputCount)).nextArg.optind = 1 := by
        show st.optind + 1 = 1
        rw [hws.optind]
      have hOP := outputsAndProcess_wildcard_present env argv outPat nr
        (inputSlotNames env inPat st.inputNr st.g.inputCount)
        (st.withInputs (st.inputNr + st.g.inputCount)
          (inputSlotEvents env nr inPat 0 st.inputNr st.g.inputCount)).nextArg m
        hB hws.arg1 hws.outWild hws.multi (by simpa using hov) hm habsent
        (by simpa using hpres)
      have hstep : sheetIteration env argv nr st =
          outputsAndProcess env argv nr true
            (inputSlotNames env inPat st.inputNr st.g.inputCount)
            (st.withInputs (st.inputNr + st.g.inputCount)
              (inputSlotEvents env nr inPat 0 st.inputNr st.g.inputCount)).nextArg := by
        rw [sheetIteration_wildcard env argv inPat outPat nr st hws]
        unfold sheetBody
        rw [hI]
        simp only [if_true, List.nil_append]
      refine ⟨_, _, hstep.trans hOP, ?_⟩
      show inputSlots (st.log ++ _ ++ _) = _
      rw [inputSlots_append, inputSlots_append, inputSlots_outputSlotEvents]
      simp

/-- The loop of a wildcard run from a sheet `nr >= 1` on: if the input counter is
`(nr - 1) * c + 1` and the names resolved so far carry the numbers of the
formula, then so do all names in the log of the state in which the loop ends
or stands after `fuel` passes. -/
theorem sheetLoop_wildcard_numbers [Zero Angle] [Neg Angle] [DecidableEq Angle]
    (env : Env Angle) (argv : List String) (inPat outPat : String) (c : Nat) (hc : 1 ≤ c) :
    ∀ (fuel : Nat) (nr : Int) (st : RunState), 1 ≤ nr →
      WildcardState argv inPat outPat st → st.g.inputCount = c →
      st.inputNr = (nr - 1) * c + 1 →
      (∀ x ∈ inputSlots st.log,
        x.2.2 = some (env.sprintf inPat ((x.1 - 1) * c + x.2.1 + 1)) ∧ x.2.1 < c) →
      ∀ x ∈ inputSlots (sheetLoop env argv fuel nr st).2.log,
        x.2.2 = some (env.sprintf inPat ((x.1 - 1) * c + x.2.1 + 1)) ∧ x.2.1 < c := by
  intro fuel
  induction fuel with
  | zero => intro nr st _ _ _ _ hlog; exact hlog
  | succ fuel ih =>
    intro nr st hnr hws hic hinr hlog
    have hnew : ∀ k : Nat, k ≤ c →
        ∀ x ∈ inputSlots st.log ++ inputSlots (inputSlotEvents env nr inPat 0 st.inputNr k),
          x.2.2 = some (env.sprintf inPat ((x.1 - 1) * c + x.2.1 + 1)) ∧ x.2.1 < c := by
      intro k hk x hx
      rcases List.mem_append.mp hx with h | h
      · exact hlog x h
      · obtain ⟨j, hj, rfl⟩ := mem_inputSlots_inputSlotEvents env nr inPat k 0 st.inputNr x h
        refine ⟨?_, by simp only [Nat.zero_add]; omega⟩
        simp only [Nat.zero_add]
        rw [hinr]
        congr 2
        omega
    by_cases hcond : st.g.options.endSheet = -1 ∨ nr ≤ st.g.options.endSheet
    · rcases first_failure
        (fun j => stat env st.written (env.sprintf inPat (st.inputNr + (j : Int))) = true)
        st.g.inputCount with hall | ⟨m, hm, hex, hmiss⟩
      · rcases sheetIteration_wildcard_inputs_exist env argv inPat outPat nr st hws
          (by rw [hic]; exact hc) hall with ⟨st1, h1, h2, h3, h4, h5⟩ | ⟨e, st1, h1, h5⟩
        · rw [sheetLoop_next env argv fuel nr st st1 hcond h1]
          refine ih (nr + 1) st1 (by omega) (hws.of_static h2 h4)
            ((static_inputCount h4).trans hic) ?_ ?_
          · rw [h3, hinr, hic]; ring
          · rw [h5, hic]
            exact hnew c (le_refl c)
        · simp only [sheetLoop, hcond, if_true, h1]
          rw [h5, hic]
          exact hnew c (le_refl c)
      · have hit := sheetIteration_wildcard_missing env argv inPat outPat nr st hws m hm hex
          (by simpa using hmiss)
        by_cases he : st.g.options.endSheet = -1
        · rw [if_pos he] at hit
          rw [sheetLoop_next env argv fuel nr st _ hcond hit]
          have hstop : ∀ f, (sheetLoop env argv f (nr + 1)
              ((st.withInputs (st.inputNr + (m + 1 : Nat))
                (inputSlotEvents env nr inPat 0 st.inputNr (m + 1))).setEndSheet
                  (nr - 1))).2 =
              (st.withInputs (st.inputNr + (m + 1 : Nat))
                (inputSlotEvents env nr inPat 0 st.inputNr (m + 1))).setEndSheet (nr - 1) := by
            intro f
            cases f with
            | zero => rfl
            | succ f =>
              rw [sheetLoop_done]
              show ¬ (nr - 1 = -1 ∨ nr + 1 ≤ nr - 1)
              omega
          rw [hstop]
          show ∀ x ∈ inputSlots (st.log ++ _), _
          rw [inputSlots_append]
          exact hnew (m + 1) (by omega)
        · rw [if_neg he] at hit
          simp only [sheetLoop, hcond, if_true, hit]
          show ∀ x ∈ inputSlots (st.log ++ _), _
          rw [inputSlots_append]
          exact hnew (m + 1) (by omega)
    · rw [sheetLoop_done env argv fuel nr st hcond]
      exact hlog

/-- The formula of the input numbers for start sheets from 1 on: in a run with a
wildcard input and a wildcard output pattern, `c >= 1` input pages per sheet,
start sheet `s >= 1`, default start input and empty insert-blank and
replace-blank sets, every input slot `i` of a sheet `nr` that the log shows
was resolved to the pattern with the number `(nr - 1) * c + i + 1`, for every
selection of sheets and however the run ends. -/
theorem wildcard_numbers_from_sheet_one [Zero Angle] [Neg Angle] [DecidableEq Angle]
    (env : Env Angle) (g : Globals) (argv : List String) (inPat outPat : String)
    (harg0 : argv[0]? = some inPat) (harg1 : argv[1]? = some outPat)
    (hinWild : hasPlaceholder inPat = true) (houtWild : hasPlaceholder outPat = true)
    (hmulti : g.multisheets = true) (hstart : 1 ≤ g.options.startSheet)
    (hstartInput : g.options.startInput = -1) (hc : 1 ≤ g.inputCount)
    (hins : ∀ n, isInMultiIndex n g.options.insertBlank = false)
    (hrep : ∀ n, isInMultiIndex n g.options.replaceBlank = false) (fuel : Nat) :
    ∀ x ∈ inputSlots (unpaperMain env g argv fuel).2.log,
      x.2.2 = some (env.sprintf inPat ((x.1 - 1) * g.inputCount + x.2.1 + 1)) ∧
        x.2.1 < g.inputCount := by
  have hws : WildcardState argv inPat outPat (initialState g) :=
    ⟨rfl, harg0, harg1, hinWild, houtWild, hmulti,
      by show ∀ n, isInMultiIndex n (initialOptions g).insertBlank = false
         rw [initialOptions_insertBlank]; exact hins,
      by show ∀ n, isInMultiIndex n (initialOptions g).replaceBlank = false
         rw [initialOptions_replaceBlank]; exact hrep⟩
  have hlen := hws.argc
  unfold unpaperMain
  rw [if_neg (by omega)]
  refine sheetLoop_wildcard_numbers env argv inPat outPat g.inputCount hc fuel _
    (initialState g) ?_ hws rfl ?_ (fun x hx => by cases hx)
  · show 1 ≤ (initialOptions g).startSheet
    rw [initialOptions_startSheet]; exact hstart
  · show (initialOptions g).startInput = ((initialOptions g).startSheet - 1) * _ + 1
    rw [initialOptions_startInput g hstartInput, initialOptions_startSheet]

/-! ### The size of the sheet buffer -/

theorem sheetWidthFromPage_unknown (page : Image) (st : RunState) (hw : st.w = -1)
    (hf : st.g.sheetSize.width = -1) :
    sheetWidthFromPage page st = { st with w := page.width * st.g.inputCount } := by
  simp [sheetWidthFromPage, hw, hf]

theorem sheetHeightFromPage_unknown (page : Image) (st : RunState) (hh : st.h = -1)
    (hf : st.g.sheetSize.height = -1) :
    sheetHeightFromPage page st = { st with h := page.height } := by
  simp [sheetHeightFromPage, hh, hf]

/-- The first page of a run fixes the sheet size: while no size is known, no size
is forced and no buffer exists, loading a page of `p_w x p_h` (after
pre-rotation) allocates the sheet buffer with `p_w * inputCount x p_h`. -/
theorem first_page_sets_sheet_size (env : Env Angle) (nr : Int) (j : Nat) (n : String)
    (st : RunState) (hw : st.w = -1) (hh : st.h = -1) (hs : st.sheet = none)
    (hfw : st.g.sheetSize.width = -1) (hfh : st.g.sheetSize.height = -1) :
    ∃ st1, loadSlot env nr j (some n) st = Step.ok () st1 ∧
      st1.w = (loadPage env st.g st.written n).width * st.g.inputCount ∧
      st1.h = (loadPage env st.g st.written n).height ∧
      sheetAllocs st1.log = sheetAllocs st.log ++
        [(nr, (loadPage env st.g st.written n).width * st.g.inputCount, (loadPage env st.g st.written n).height)] ∧
      ∃ sheet, st1.sheet = some sheet ∧
        sheet.width = (loadPage env st.g st.written n).width * st.g.inputCount ∧
        sheet.height = (loadPage env st.g st.written n).height := by
  have hp := loadPage_nonneg env st.g st.written n
  have hpos : (0 : Int) ≤ (loadPage env st.g st.written n).width * (st.g.inputCount : Int) :=
    Int.mul_nonneg hp.1 (Int.ofNat_nonneg _)
  have e1 : sheetSizeFromPage (loadPage env st.g st.written n) (st.emit (Event.loaded nr j n)) =
      { st.emit (Event.loaded nr j n) with
        w := (loadPage env st.g st.written n).width * st.g.inputCount,
        h := (loadPage env st.g st.written n).height } := by
    unfold sheetSizeFromPage
    rw [sheetWidthFromPage_unknown (loadPage env st.g st.written n) (st.emit (Event.loaded nr j n)) hw hfw]
    exact sheetHeightFromPage_unknown (loadPage env st.g st.written n)
      { st.emit (Event.loaded nr j n) with
        w := (loadPage env st.g st.written n).width * st.g.inputCount } hh hfh
  have e2 : allocSheet env nr { st.emit (Event.loaded nr j n) with
        w := (loadPage env st.g st.written n).width * st.g.inputCount,
        h := (loadPage env st.g st.written n).height } =
      { st with w := (loadPage env st.g st.written n).width * st.g.inputCount,
                h := (loadPage env st.g st.written n).height,
                sheet := some (initImage env
                  ((loadPage env st.g st.written n).width * st.g.inputCount)
                  (loadPage env st.g st.written n).height true),
                log := st.log ++ [Event.loaded nr j n,
                  Event.sheetAlloc nr ((loadPage env st.g st.written n).width * st.g.inputCount)
                    (loadPage env st.g st.written n).height] } := by
    have h1 : (loadPage env st.g st.written n).width * (st.g.inputCount : Int) ≠ -1 := by omega
    have h2 : (loadPage env st.g st.written n).height ≠ -1 := by omega
    simp [allocSheet, RunState.emit, hs, h1, h2]
  simp only [loadSlot, e1, e2, placePage]
  refine ⟨_, rfl, rfl, rfl, ?_, _, rfl, rfl, rfl⟩
  simp [sheetAllocs, List.filterMap_append]

/-! ### The mask-scan maximum and the frame of the layout configuration -/

theorem layoutBranch_maskScanMinimum (g : Globals) (sheet : Image) :
    (layoutBranch g sheet).maskScanMinimum = g.maskScanMinimum := by
  have e1 : ∀ g : Globals, (singlePoint g sheet).maskScanMinimum = g.maskScanMinimum :=
    fun g => by unfold singlePoint; split <;> rfl
  have e2 : ∀ (g : Globals) (v : Int),
      (defaultMaskScanMaximumWidth g v).maskScanMinimum = g.maskScanMinimum :=
    fun g v => by unfold defaultMaskScanMaximumWidth; split <;> rfl
  have e3 : ∀ (g : Globals) (v : Int),
      (defaultMaskScanMaximumHeight g v).maskScanMinimum = g.maskScanMinimum :=
    fun g v => by unfold defaultMaskScanMaximumHeight; split <;> rfl
  have e4 : ∀ g : Globals, (singleBlackfilterExclude g sheet).maskScanMinimum = g.maskScanMinimum :=
    fun g => by unfold singleBlackfilterExclude; split <;> rfl
  have e5 : ∀ g : Globals,
      (singleOutsideBorderscanMask g sheet).maskScanMinimum = g.maskScanMinimum :=
    fun g => by unfold singleOutsideBorderscanMask; split <;> rfl
  have e6 : ∀ g : Globals, (doublePoint g sheet).maskScanMinimum = g.maskScanMinimum :=
    fun g => by unfold doublePoint; split <;> rfl
  have e7 : ∀ g : Globals, (doubleMiddleWipe g sheet).maskScanMinimum = g.maskScanMinimum :=
    fun g => by unfold doubleMiddleWipe; split <;> rfl
  have e8 : ∀ g : Globals, (doubleBlackfilterExclude g sheet).maskScanMinimum = g.maskScanMinimum :=
    fun g => by unfold doubleBlackfilterExclude; split <;> rfl
  have e9 : ∀ g : Globals,
      (doubleOutsideBorderscanMask g sheet).maskScanMinimum = g.maskScanMinimum :=
    fun g => by unfold doubleOutsideBorderscanMask; split <;> rfl
  unfold layoutBranch
  split
  · simp only [layoutSingle, e5, e4, e3, e2, e1]
  · simp only [layoutDouble, e9, e8, e7, e3, e2, e6]
  · rfl

/-- The fallback of lines 1676-1681 as a function of the mask-scan minimum. -/
theorem layoutConfig_maskScanMaximum (g : Globals) (sheet : Image) :
    (layoutConfig g sheet).maskScanMaximum =
      ⟨if g.maskScanMinimum.width = -1 then sheet.width
        else (layoutBranch g sheet).maskScanMaximum.width,
       if g.maskScanMinimum.height = -1 then sheet.height
        else (layoutBranch g sheet).maskScanMaximum.height⟩ := by
  have hmin := layoutBranch_maskScanMinimum g sheet
  unfold layoutConfig fallbackMaskScanMaximumHeight fallbackMaskScanMaximumWidth
  by_cases hw : g.maskScanMinimum.width = -1 <;> by_cases hh : g.maskScanMinimum.height = -1 <;>
    simp [hmin, hw, hh]

/-- C13 on the code: in layout NONE with the mask-scan maximum not set and the default
mask-scan minimum (100, 100), the layout configuration of every sheet leaves the
mask-scan maximum at (-1, -1), not at the size of the sheet: the fallback of lines
1676-1681 tests `maskScanMinimum`, which is not -1 here, where the comment above
it speaks of `maskScanMaximum`. -/
theorem C13_layout_none_leaves_maximum_unset (p : Proc)
    (hlayout : p.g.options.layout = Layout.LAYOUT_NONE)
    (hmax : p.g.maskScanMaximum = ⟨-1, -1⟩) (hmin : p.g.maskScanMinimum = ⟨100, 100⟩) :
    (stageLayout p).g.maskScanMaximum = ⟨-1, -1⟩ := by
  simp [stageLayout, layoutConfig_maskScanMaximum, hmin, layoutBranch, hlayout, hmax]

/-- C13 at a failing input: `--layout none` and a sheet of 100 x 80; the mask-scan
maximum is (-1, -1) after the layout configuration, not (100, 80). -/
theorem C13_layout_none_leaves_maximum_unset_witness :
    (sampleProc noneGlobals).sheet.width = 100 ∧ (sampleProc noneGlobals).sheet.height = 80 ∧
      (stageLayout (sampleProc noneGlobals)).g.maskScanMaximum = ⟨-1, -1⟩ :=
  ⟨rfl, rfl, C13_layout_none_leaves_maximum_unset (sampleProc noneGlobals) rfl rfl rfl⟩

theorem layoutBranch_maskScanMaximum (g : Globals) (sheet : Image) :
    ((layoutBranch g sheet).maskScanMaximum.width = g.maskScanMaximum.width ∨
      g.maskScanMaximum.width = -1) ∧
    ((layoutBranch g sheet).maskScanMaximum.height = g.maskScanMaximum.height ∨
      g.maskScanMaximum.height = -1) := by
  have e1 : ∀ g : Globals, (singlePoint g sheet).maskScanMaximum = g.maskScanMaximum :=
    fun g => by unfold singlePoint; split <;> rfl
  have e4 : ∀ g : Globals, (singleBlackfilterExclude g sheet).maskScanMaximum = g.maskScanMaximum :=
    fun g => by unfold singleBlackfilterExclude; split <;> rfl
  have e5 : ∀ g : Globals,
      (singleOutsideBorderscanMask g sheet).maskScanMaximum = g.maskScanMaximum :=
    fun g => by unfold singleOutsideBorderscanMask; split <;> rfl
  have e6 : ∀ g : Globals, (doublePoint g sheet).maskScanMaximum = g.maskScanMaximum :=
    fun g => by unfold doublePoint; split <;> rfl
  have e7 : ∀ g : Globals, (doubleMiddleWipe g sheet).maskScanMaximum = g.maskScanMaximum :=
    fun g => by unfold doubleMiddleWipe; split <;> rfl
  have e8 : ∀ g : Globals, (doubleBlackfilterExclude g sheet).maskScanMaximum = g.maskScanMaximum :=
    fun g => by unfold doubleBlackfilterExclude; split <;> rfl
  have e9 : ∀ g : Globals,
      (doubleOutsideBorderscanMask g sheet).maskScanMaximum = g.maskScanMaximum :=
    fun g => by unfold doubleOutsideBorderscanMask; split <;> rfl
  have d : ∀ (g : Globals) (v u : Int),
      (defaultMaskScanMaximumHeight (defaultMaskScanMaximumWidth g v) u).maskScanMaximum =
        ⟨if g.maskScanMaximum.width = -1 then v else g.maskScanMaximum.width,
         if g.maskScanMaximum.height = -1 then u else g.maskScanMaximum.height⟩ :=
    fun g v u => by
      unfold defaultMaskScanMaximumHeight defaultMaskScanMaximumWidth
      by_cases hw : g.maskScanMaximum.width = -1 <;>
        by_cases hh : g.maskScanMaximum.height = -1 <;> simp [hw, hh]
  unfold layoutBranch
  split
  · simp only [layoutSingle, e5, e4, d, e1]
    by_cases hw : g.maskScanMaximum.width = -1 <;>
      by_cases hh : g.maskScanMaximum.height = -1 <;> simp [hw, hh]
  · simp only [layoutDouble, e9, e8, e7, d, e6]
    by_cases hw : g.maskScanMaximum.width = -1 <;>
      by_cases hh : g.maskScanMaximum.height = -1 <;> simp [hw, hh]
  · exact ⟨Or.inl rfl, Or.inl rfl⟩

theorem layoutConfig_blackfilterExclude_eq (g : Globals) (sheet : Image) :
    (layoutConfig g sheet).blackfilterExclude =
      match g.options.layout with
      | Layout.LAYOUT_SINGLE => (singleBlackfilterExclude g sheet).blackfilterExclude
      | Layout.LAYOUT_DOUBLE => (doubleBlackfilterExclude g sheet).blackfilterExclude
      | Layout.LAYOUT_NONE => g.blackfilterExclude := by
  have e1 : ∀ g : Globals, (singlePoint g sheet).blackfilterExclude = g.blackfilterExclude :=
    fun g => by unfold singlePoint; split <;> rfl
  have e2 : ∀ (g : Globals) (v : Int),
      (defaultMaskScanMaximumWidth g v).blackfilterExclude = g.blackfilterExclude :=
    fun g v => by unfold defaultMaskScanMaximumWidth; split <;> rfl
  have e3 : ∀ (g : Globals) (v : Int),
      (defaultMaskScanMaximumHeight g v).blackfilterExclude = g.blackfilterExclude :=
    fun g v => by unfold defaultMaskScanMaximumHeight; split <;> rfl
  have e4 : ∀ g1 g : Globals, g1.blackfilterExclude = g.blackfilterExclude →
      (singleBlackfilterExclude g1 sheet).blackfilterExclude =
        (singleBlackfilterExclude g sheet).blackfilterExclude :=
    fun g1 g h1 => by
      simp only [singleBlackfilterExclude, Globals.blackfilterExcludeCount, h1]
      split
      · rfl
      · exact h1
  have e5 : ∀ g : Globals,
      (singleOutsideBorderscanMask g sheet).blackfilterExclude = g.blackfilterExclude :=
    fun g => by unfold singleOutsideBorderscanMask; split <;> rfl
  have e6 : ∀ g : Globals, (doublePoint g sheet).blackfilterExclude = g.blackfilterExclude :=
    fun g => by unfold doublePoint; split <;> rfl
  have e7 : ∀ g : Globals, (doubleMiddleWipe g sheet).blackfilterExclude = g.blackfilterExclude :=
    fun g => by unfold doubleMiddleWipe; split <;> rfl
  have e8 : ∀ g1 g : Globals, g1.blackfilterExclude = g.blackfilterExclude →
      (doubleBlackfilterExclude g1 sheet).blackfilterExclude =
        (doubleBlackfilterExclude g sheet).blackfilterExclude :=
    fun g1 g h1 => by
      simp only [doubleBlackfilterExclude, Globals.blackfilterExcludeCount, h1]
      split
      · rfl
      · exact h1
  have e9 : ∀ g : Globals,
      (doubleOutsideBorderscanMask g sheet).blackfilterExclude = g.blackfilterExclude :=
    fun g => by unfold doubleOutsideBorderscanMask; split <;> rfl
  have e10 : ∀ g : Globals,
      (fallbackMaskScanMaximumWidth g sheet).blackfilterExclude = g.blackfilterExclude :=
    fun g => by unfold fallbackMaskScanMaximumWidth; split <;> rfl
  have e11 : ∀ g : Globals,
      (fallbackMaskScanMaximumHeight g sheet).blackfilterExclude = g.blackfilterExclude :=
    fun g => by unfold fallbackMaskScanMaximumHeight; split <;> rfl
  simp only [layoutConfig, e11, e10, layoutBranch]
  cases g.options.layout with
  | LAYOUT_NONE => rfl
  | LAYOUT_SINGLE =>
    simp only [layoutSingle, e5]
    exact e4 _ g (by simp only [e3, e2, e1])
  | LAYOUT_DOUBLE =>
    simp only [layoutDouble, e9]
    exact e8 _ g (by simp only [e7, e3, e2, e6])

theorem layoutConfig_blackfilterExclude (g : Globals) (sheet : Image)
    (h : g.blackfilterExclude ≠ []) :
    (layoutConfig g sheet).blackfilterExclude = g.blackfilterExclude := by
  have hc : g.blackfilterExcludeCount ≠ 0 := by simpa [Globals.blackfilterExcludeCount] using h
  rw [layoutConfig_blackfilterExclude_eq]
  split
  · simp [singleBlackfilterExclude, hc]
  · simp [doubleBlackfilterExclude, hc]
  · rfl

theorem layoutConfig_blackfilterExclude_ne_nil (g : Globals) (sheet : Image)
    (hlayout : g.options.layout ≠ Layout.LAYOUT_NONE) :
    (layoutConfig g sheet).blackfilterExclude ≠ [] := by
  rw [layoutConfig_blackfilterExclude_eq]
  split
  · unfold singleBlackfilterExclude; split
    · simp
    · rename_i h; simpa [Globals.blackfilterExcludeCount] using h
  · unfold doubleBlackfilterExclude; split
    · simp
    · rename_i h; simpa [Globals.blackfilterExcludeCount] using h
  · rename_i h; exact absurd h hlayout

theorem layoutConfig_outsideBorderscanMask_eq (g : Globals) (sheet : Image) :
    (layoutConfig g sheet).outsideBorderscanMask =
      match g.options.layout with
      | Layout.LAYOUT_SINGLE => (singleOutsideBorderscanMask g sheet).outsideBorderscanMask
      | Layout.LAYOUT_DOUBLE => (doubleOutsideBorderscanMask g sheet).outsideBorderscanMask
      | Layout.LAYOUT_NONE => g.outsideBorderscanMask := by
  have e1 : ∀ g : Globals, (singlePoint g sheet).outsideBorderscanMask = g.outsideBorderscanMask :=
    fun g => by unfold singlePoint; split <;> rfl
  have e2 : ∀ (g : Globals) (v : Int),
      (defaultMaskScanMaximumWidth g v).outsideBorderscanMask = g.outsideBorderscanMask :=
    fun g v => by unfold defaultMaskScanMaximumWidth; split <;> rfl
  have e3 : ∀ (g : Globals) (v : Int),
      (defaultMaskScanMaximumHeight g v).outsideBorderscanMask = g.outsideBorderscanMask :=
    fun g v => by unfold defaultMaskScanMaximumHeight; split <;> rfl
  have e4 : ∀ g : Globals,
      (singleBlackfilterExclude g sheet).outsideBorderscanMask = g.outsideBorderscanMask :=
    fun g => by unfold singleBlackfilterExclude; split <;> rfl
  have e5 : ∀ g1 g : Globals, g1.outsideBorderscanMask = g.outsideBorderscanMask →
      (singleOutsideBorderscanMask g1 sheet).outsideBorderscanMask =
        (singleOutsideBorderscanMask g sheet).outsideBorderscanMask :=
    fun g1 g h1 => by
      simp only [singleOutsideBorderscanMask, Globals.outsideBorderscanMaskCount, h1]
      split
      · rfl
      · exact h1
  have e6 : ∀ g : Globals, (doublePoint g sheet).outsideBorderscanMask = g.outsideBorderscanMask :=
    fun g => by unfold doublePoint; split <;> rfl
  have e7 : ∀ g : Globals,
      (doubleMiddleWipe g sheet).outsideBorderscanMask = g.outsideBorderscanMask :=
    fun g => by unfold doubleMiddleWipe; split <;> rfl
  have e8 : ∀ g : Globals,
      (doubleBlackfilterExclude g sheet).outsideBorderscanMask = g.outsideBorderscanMask :=
    fun g => by unfold doubleBlackfilterExclude; split <;> rfl
  have e9 : ∀ g1 g : Globals, g1.outsideBorderscanMask = g.outsideBorderscanMask →
      (doubleOutsideBorderscanMask g1 sheet).outsideBorderscanMask =
        (doubleOutsideBorderscanMask g sheet).outsideBorderscanMask :=
    fun g1 g h1 => by
      simp only [doubleOutsideBorderscanMask, Globals.outsideBorderscanMaskCount, h1]
      split
      · rfl
      · exact h1
  have e10 : ∀ g : Globals,
      (fallbackMaskScanMaximumWidth g sheet).outsideBorderscanMask = g.outsideBorderscanMask :=
    fun g => by unfold fallbackMaskScanMaximumWidth; split <;> rfl
  have e11 : ∀ g : Globals,
      (fallbackMaskScanMaximumHeight g sheet).outsideBorderscanMask = g.outsideBorderscanMask :=
    fun g => by unfold fallbackMaskScanMaximumHeight; split <;> rfl
  simp only [layoutConfig, e11, e10, layoutBranch]
  cases g.options.layout with
  | LAYOUT_NONE => rfl
  | LAYOUT_SINGLE =>
    simp only [layoutSingle]
    exact e5 _ g (by simp only [e4, e3, e2, e1])
  | LAYOUT_DOUBLE =>
    simp only [layoutDouble]
    exact e9 _ g (by simp only [e8, e7, e3, e2, e6])

theorem layoutConfig_outsideBorderscanMask (g : Globals) (sheet : Image)
    (h : g.outsideBorderscanMask ≠ []) :
    (layoutConfig g sheet).outsideBorderscanMask = g.outsideBorderscanMask := by
  have hc : g.outsideBorderscanMaskCount ≠ 0 := by
    simpa [Globals.outsideBorderscanMaskCount] using h
  rw [layoutConfig_outsideBorderscanMask_eq]
  split
  · simp [singleOutsideBorderscanMask, hc]
  · simp [doubleOutsideBorderscanMask, hc]
  · rfl

theorem layoutConfig_outsideBorderscanMask_ne_nil (g : Globals) (sheet : Image)
    (hlayout : g.options.layout ≠ Layout.LAYOUT_NONE) :
    (layoutConfig g sheet).outsideBorderscanMask ≠ [] := by
  rw [layoutConfig_outsideBorderscanMask_eq]
  split
  · unfold singleOutsideBorderscanMask; split
    · simp
    · rename_i h; simpa [Globals.outsideBorderscanMaskCount] using h
  · unfold doubleOutsideBorderscanMask; split
    · simp
    · rename_i h; simpa [Globals.outsideBorderscanMaskCount] using h
  · rename_i h; exact absurd h hlayout

theorem layoutConfig_point_of_nonempty (g : Globals) (sheet : Image) (h : g.point ≠ []) :
    (layoutConfig g sheet).point = g.point := by
  have hc : g.pointCount ≠ 0 := by simpa [Globals.pointCount] using h
  rw [layoutConfig_point]
  unfold layoutBranch
  split
  · rw [layoutSingle_point]; simp [singlePoint, hc]
  · rw [layoutDouble_point]; simp [doublePoint, hc]
  · rfl

/-- C14 on the code. The layout configuration keeps a non-empty list of scan points,
of black-filter exclusion zones and of outside-border-scan masks, and it keeps a
mask-scan maximum width or height that is set, as long as the mask-scan minimum
of that dimension is not -1. When the mask-scan minimum of a dimension is -1,
the fallback of lines 1676-1681 overwrites the mask-scan maximum of that
dimension with the size of the sheet, also when the user has set it. -/
theorem C14_layout_frame (p : Proc) :
    (p.g.point ≠ [] → (stageLayout p).g.point = p.g.point) ∧
    (p.g.blackfilterExclude ≠ [] →
      (stageLayout p).g.blackfilterExclude = p.g.blackfilterExclude) ∧
    (p.g.outsideBorderscanMask ≠ [] →
      (stageLayout p).g.outsideBorderscanMask = p.g.outsideBorderscanMask) ∧
    (p.g.maskScanMaximum.width ≠ -1 → p.g.maskScanMinimum.width ≠ -1 →
      (stageLayout p).g.maskScanMaximum.width = p.g.maskScanMaximum.width) ∧
    (p.g.maskScanMaximum.height ≠ -1 → p.g.maskScanMinimum.height ≠ -1 →
      (stageLayout p).g.maskScanMaximum.height = p.g.maskScanMaximum.height) ∧
    (p.g.maskScanMinimum.width = -1 →
      (stageLayout p).g.maskScanMaximum.width = p.sheet.width) ∧
    (p.g.maskScanMinimum.height = -1 →
      (stageLayout p).g.maskScanMaximum.height = p.sheet.height) := by
  have hb := layoutBranch_maskScanMaximum p.g p.sheet
  refine ⟨layoutConfig_point_of_nonempty p.g p.sheet,
    layoutConfig_blackfilterExclude p.g p.sheet,
    layoutConfig_outsideBorderscanMask p.g p.sheet, ?_, ?_, ?_, ?_⟩
  · intro hmax hmin
    simp only [stageLayout, layoutConfig_maskScanMaximum, hmin, if_false]
    exact hb.1.resolve_right hmax
  · intro hmax hmin
    simp only [stageLayout, layoutConfig_maskScanMaximum, hmin, if_false]
    exact hb.2.resolve_right hmax
  · intro hmin
    simp only [stageLayout, layoutConfig_maskScanMaximum, hmin, if_true]
  · intro hmin
    simp only [stageLayout, layoutConfig_maskScanMaximum, hmin, if_true]

/-- C14 at a failing input: `--mask-scan-minimum -1,-1 --mask-scan-maximum 50,60` and a
sheet of 100 x 80; the mask-scan maximum the user gave is replaced by (100, 80). -/
theorem C14_layout_frame_witness :
    (sampleProc crossWiredGlobals).g.maskScanMaximum = ⟨50, 60⟩ ∧
      (stageLayout (sampleProc crossWiredGlobals)).g.maskScanMaximum.width = 100 ∧
      (stageLayout (sampleProc crossWiredGlobals)).g.maskScanMaximum.height = 80 :=
  ⟨rfl, (C14_layout_frame (sampleProc crossWiredGlobals)).2.2.2.2.2.1 rfl,
    (C14_layout_frame (sampleProc crossWiredGlobals)).2.2.2.2.2.2 rfl⟩

/-- After the layout configuration of one sheet in layout SINGLE or DOUBLE the lists
of scan points, exclusion zones and outside-border-scan masks are not empty, so
the configuration of every later sheet takes them for values the user has set
and keeps them, whatever the size of that sheet is. -/
theorem layoutConfig_keeps_first_defaults (g : Globals) (first later : Image)
    (hlayout : g.options.layout ≠ Layout.LAYOUT_NONE) :
    (layoutConfig (layoutConfig g first) later).point = (layoutConfig g first).point ∧
    (layoutConfig (layoutConfig g first) later).blackfilterExclude =
      (layoutConfig g first).blackfilterExclude ∧
    (layoutConfig (layoutConfig g first) later).outsideBorderscanMask =
      (layoutConfig g first).outsideBorderscanMask := by
  have hp : (layoutConfig g first).point ≠ [] := by
    rw [layoutConfig_point]
    unfold layoutBranch
    split
    · rw [layoutSingle_point]; unfold singlePoint; split
      · simp
      · rename_i h; simpa [Globals.pointCount] using h
    · rw [layoutDouble_point]; unfold doublePoint; split
      · simp
      · rename_i h; simpa [Globals.pointCount] using h
    · rename_i h; exact absurd h hlayout
  have hb := layoutConfig_blackfilterExclude_ne_nil g first hlayout
  have ho := layoutConfig_outsideBorderscanMask_ne_nil g first hlayout
  exact ⟨layoutConfig_point_of_nonempty _ later hp, layoutConfig_blackfilterExclude _ later hb,
    layoutConfig_outsideBorderscanMask _ later ho⟩


/-! ### Runs in which the sheet size or the layout defaults are stale -/

set_option maxRecDepth 100000 in
/-- C11 at a failing input: `--sheet-size 100,200 --replace-blank 1` with the patterns
`in%d.pbm` and `out%d.pbm`. The only input slot of sheet 1 is blank; the forced
size is read only when a page is loaded (lines 1191-1204), so no buffer is
allocated and the run ends with the fatal error "sheet size unknown", the
message of which names `--sheet-size` as the remedy. -/
theorem C11_forced_size_does_not_help_blank_sheet :
    forcedBlankGlobals.sheetSize = ⟨100, 200⟩ ∧
    inputSlots (unpaperMain (sampleEnv onePage 0) forcedBlankGlobals
        ["in%d.pbm", "out%d.pbm"] 3).2.log = [(1, 0, none)] ∧
    sheetAllocs (unpaperMain (sampleEnv onePage 0) forcedBlankGlobals
        ["in%d.pbm", "out%d.pbm"] 3).2.log = [] ∧
    (unpaperMain (sampleEnv onePage 0) forcedBlankGlobals
        ["in%d.pbm", "out%d.pbm"] 3).1 = Exit.fatal Fatal.sheetSizeUnknown := by
  decide

set_option maxRecDepth 100000 in
/-- C12 at a failing input: `--post-rotate 90 --replace-blank 2` with the patterns
`in%d.pbm` and `out%d.pbm` and a page `in1.pbm` of 100 x 200. Sheet 1 is
composited at 100 x 200, which is recorded as `previousWidth x previousHeight`;
the post-rotation and the post-stretch block leave `w = 200` and `h = 100`.
Sheet 2 has a blank slot only; its buffer is allocated at line 1212 with the
stale `w x h = 200 x 100`, not with the recorded 100 x 200. -/
theorem C12_blank_sheet_takes_final_size :
    (unpaperMain (sampleEnv onePage 0) postRotateBlankGlobals
        ["in%d.pbm", "out%d.pbm"] 1).2.previousWidth = 100 ∧
    (unpaperMain (sampleEnv onePage 0) postRotateBlankGlobals
        ["in%d.pbm", "out%d.pbm"] 1).2.previousHeight = 200 ∧
    inputSlots (unpaperMain (sampleEnv onePage 0) postRotateBlankGlobals
        ["in%d.pbm", "out%d.pbm"] 4).2.log =
      [(1, 0, some "in1.pbm"), (2, 0, none), (3, 0, some "in3.pbm")] ∧
    sheetAllocs (unpaperMain (sampleEnv onePage 0) postRotateBlankGlobals
        ["in%d.pbm", "out%d.pbm"] 4).2.log = [(1, 100, 200), (2, 200, 100)] := by
  decide

set_option maxRecDepth 100000 in
/-- C15 at a failing input: layout SINGLE, `--post-size 50,50`, the patterns `in%d.pbm`
and `out%d.pbm`, a page of 100 x 200 for sheet 1 and one of 300 x 400 for sheet 2.
Sheet 2 is allocated with 50 x 50 and keeps that size up to the layout block, yet
the scan point, the mask-scan maximum, the exclusion zone and the
outside-border-scan mask that are in effect when its stages have run are the
defaults of the 100 x 200 sheet 1: the counters that the guards test are not
reset between sheets. -/
theorem C15_second_sheet_keeps_first_defaults :
    sheetAllocs (unpaperMain (sampleEnv twoSizes 0) postSizeGlobals
        ["in%d.pbm", "out%d.pbm"] 4).2.log = [(1, 100, 200), (2, 50, 50)] ∧
    processedSheets (unpaperMain (sampleEnv twoSizes 0) postSizeGlobals
        ["in%d.pbm", "out%d.pbm"] 4).2.log = [1, 2] ∧
    (unpaperMain (sampleEnv twoSizes 0) postSizeGlobals
        ["in%d.pbm", "out%d.pbm"] 4).2.g.point = [⟨50, 100⟩] ∧
    (unpaperMain (sampleEnv twoSizes 0) postSizeGlobals
        ["in%d.pbm", "out%d.pbm"] 4).2.g.maskScanMaximum = ⟨100, 200⟩ ∧
    (unpaperMain (sampleEnv twoSizes 0) postSizeGlobals
        ["in%d.pbm", "out%d.pbm"] 4).2.g.blackfilterExclude = [⟨25, 50, 75, 150⟩] ∧
    (unpaperMain (sampleEnv twoSizes 0) postSizeGlobals
        ["in%d.pbm", "out%d.pbm"] 4).2.g.outsideBorderscanMask = [⟨0, 0, 99, 199⟩] := by
  decide

set_option maxRecDepth 100000 in
/-- C19 at a failing input: the input pattern `in%d.pbm` with the explicit output name
`out.pbm`. After sheet 1 the index `optind` is 2, the number of arguments, and is
not set back; the second pass reads `argv[2]`, which is behind the last
argument. With a third argument `out2.pbm` the second pass takes that name as
its input: the input pattern is not the argument every pass resolves its inputs
from. -/
theorem C19_explicit_output_leaves_the_pattern :
    (unpaperMain (sampleEnv twoPages 0) Globals.default ["in%d.pbm", "out.pbm"] 4).1 =
      Exit.undefined ∧
    processedSheets (unpaperMain (sampleEnv twoPages 0) Globals.default
        ["in%d.pbm", "out.pbm"] 4).2.log = [1] ∧
    (unpaperMain (sampleEnv twoPages 0) Globals.default
        ["in%d.pbm", "out.pbm"] 4).2.optind = 2 ∧
    inputSlots (unpaperMain (sampleEnv twoPages 0) Globals.default
        ["in%d.pbm", "out.pbm", "out2.pbm"] 4).2.log =
      [(1, 0, some "in1.pbm"), (2, 0, some "out2.pbm")] := by
  decide

/-! ### Blank input slots -/

theorem resolveInputSlot_insert (env : Env Angle) (argv : List String) (nr : Int) (iw : Bool)
    (i : Nat) (st : RunState)
    (hins : isInMultiIndex st.inputNr st.g.options.insertBlank = true)
    (hrepl : isInMultiIndex st.inputNr st.g.options.replaceBlank = false) :
    resolveInputSlot env argv nr iw i st = Step.ok none (st.emit (Event.inputSlot nr i none)) := by
  simp [resolveInputSlot, hins, hrepl, checkInputFile]

/-- C17 on the code: when the input counter equals an insert-blank index that is not a
replace-blank index, every remaining input slot of the sheet is blank, in
wildcard mode and with explicit names, and the counter, the argument index and
the globals are what they were, so that the same holds for every later sheet:
the blank page is inserted again and again and input `k` is never resolved. -/
theorem C17_insert_blank_repeats (env : Env Angle) (argv : List String) (nr : Int) (iw : Bool)
    (k : Nat) (i : Nat) (names : List (Option String)) (st : RunState)
    (hins : isInMultiIndex st.inputNr st.g.options.insertBlank = true)
    (hrepl : isInMultiIndex st.inputNr st.g.options.replaceBlank = false) :
    resolveInputs env argv nr iw k i names st =
      Step.ok (names ++ List.replicate k none)
        (st.withInputs st.inputNr (blankSlotEvents nr i k)) := by
  induction k generalizing i names st with
  | zero => simp [resolveInputs, blankSlotEvents, RunState.withInputs]
  | succ k ih =>
    have hrec := ih (i + 1) (names ++ [none]) (st.emit (Event.inputSlot nr i none)) hins hrepl
    simp only [resolveInputs, resolveInputSlot_insert env argv nr iw i st hins hrepl, hrec]
    simp [RunState.withInputs, RunState.emit, blankSlotEvents, List.replicate_succ]

set_option maxRecDepth 100000 in
/-- C17 at a failing input: `--input-pages 2 --insert-blank 2` with the patterns
`in%d.pbm` and `out%d.pbm`. After sheet 1 (`in1.pbm` and the inserted blank page)
the input counter is 2; both slots of sheet 2 are blank and the counter is still
2, where the claim has slot 0 of sheet 2 resolve to `in2.pbm`. -/
theorem C17_insert_blank_repeats_witness :
    (unpaperMain (sampleEnv twoPages 0) insertBlankGlobals
        ["in%d.pbm", "out%d.pbm"] 1).2.inputNr = 2 ∧
    resolveInputs (sampleEnv twoPages 0) ["in%d.pbm", "out%d.pbm"] 2 true 2 0 []
        (unpaperMain (sampleEnv twoPages 0) insertBlankGlobals ["in%d.pbm", "out%d.pbm"] 1).2 =
      Step.ok ([] ++ List.replicate 2 none)
        ((unpaperMain (sampleEnv twoPages 0) insertBlankGlobals
            ["in%d.pbm", "out%d.pbm"] 1).2.withInputs
          (unpaperMain (sampleEnv twoPages 0) insertBlankGlobals
            ["in%d.pbm", "out%d.pbm"] 1).2.inputNr (blankSlotEvents 2 0 2)) :=
  ⟨by decide, C17_insert_blank_repeats (sampleEnv twoPages 0) ["in%d.pbm", "out%d.pbm"] 2 true
    2 0 [] _ (by decide) (by decide)⟩

set_option maxRecDepth 100000 in
/-- The run of the failing input of C17 for three passes: `in2.pbm` is never resolved
and the loop is still going. -/
theorem insert_blank_run :
    inputSlots (unpaperMain (sampleEnv twoPages 0) insertBlankGlobals
        ["in%d.pbm", "out%d.pbm"] 3).2.log =
      [(1, 0, some "in1.pbm"), (1, 1, none), (2, 0, none), (2, 1, none), (3, 0, none),
       (3, 1, none)] ∧
    (unpaperMain (sampleEnv twoPages 0) insertBlankGlobals
        ["in%d.pbm", "out%d.pbm"] 3).1 = Exit.unfinished := by
  decide

/-- C18 on the code: with explicit input names, a slot whose input counter is a
replace-blank index is blank and advances the counter, but it leaves the
argument index alone; the next slot, a file slot, takes the argument at that
index, the one the claim has skipped, and not the one behind it. -/
theorem C18_replace_blank_keeps_the_argument (env : Env Angle) (argv : List String) (nr : Int)
    (i : Nat) (names : List (Option String)) (st : RunState) (name : String)
    (hrepl : isInMultiIndex st.inputNr st.g.options.replaceBlank = true)
    (hrepl1 : isInMultiIndex (st.inputNr + 1) st.g.options.replaceBlank = false)
    (hins1 : isInMultiIndex (st.inputNr + 1) st.g.options.insertBlank = false)
    (harg : argv[st.optind]? = some name) (hfile : env.fileExists name = true) :
    resolveInputs env argv nr false 2 i names st =
      Step.ok (names ++ [none, some name])
        ((st.withInputs (st.inputNr + 1)
          [Event.inputSlot nr i none, Event.inputSlot nr (i + 1) (some name)]).nextArg) := by
  have hlt : st.optind < argv.length := by
    by_contra hge
    rw [List.getElem?_eq_none (Nat.le_of_not_lt hge)] at harg
    exact absurd harg (by simp)
  have h1 : resolveInputSlot env argv nr false i st =
      Step.ok none (st.nextInput.emit (Event.inputSlot nr i none)) := by
    simp [resolveInputSlot, hrepl, checkInputFile]
  have h2 : resolveInputSlot env argv nr false (i + 1)
        (st.nextInput.emit (Event.inputSlot nr i none)) =
      Step.ok (some name) ((st.nextInput.emit (Event.inputSlot nr i none)).nextArg.emit
        (Event.inputSlot nr (i + 1) (some name))) := by
    simp [resolveInputSlot, RunState.nextInput, RunState.emit, RunState.nextArg, hrepl1, hins1,
      harg, stat_of_fileExists env _ _ hfile, checkInputFile, Nat.not_le.mpr hlt]
  simp only [resolveInputs, h1, h2]
  simp [RunState.withInputs, RunState.nextInput, RunState.emit, RunState.nextArg]

set_option maxRecDepth 100000 in
/-- C18 at a failing input: `--input-pages 2 --replace-blank 1 a.pbm b.pbm out.pbm`. The
blank slot 0 of sheet 1 does not skip `a.pbm`, the first input argument: slot 1
takes `a.pbm`, not `b.pbm`. -/
theorem C18_replace_blank_keeps_the_argument_witness :
    resolveInputs (sampleEnv pagesAB 0) ["a.pbm", "b.pbm", "out.pbm"] 1 false 2 0 []
        (initialState replaceBlankGlobals) =
      Step.ok ([] ++ [none, some "a.pbm"])
        (((initialState replaceBlankGlobals).withInputs
          ((initialState replaceBlankGlobals).inputNr + 1)
          [Event.inputSlot 1 0 none, Event.inputSlot 1 (0 + 1) (some "a.pbm")]).nextArg) :=
  C18_replace_blank_keeps_the_argument (sampleEnv pagesAB 0) ["a.pbm", "b.pbm", "out.pbm"] 1
    0 [] (initialState replaceBlankGlobals) "a.pbm" (by decide) (by decide) (by decide)
    (by decide) (by decide)

set_option maxRecDepth 100000 in
/-- The run of the failing input of C18: `b.pbm`, meant as the second input, is taken
as the output name and the run fails because that file exists. -/
theorem replace_blank_run :
    inputSlots (unpaperMain (sampleEnv pagesAB 0) replaceBlankGlobals
        ["a.pbm", "b.pbm", "out.pbm"] 3).2.log = [(1, 0, none), (1, 1, some "a.pbm")] ∧
    (unpaperMain (sampleEnv pagesAB 0) replaceBlankGlobals
        ["a.pbm", "b.pbm", "out.pbm"] 3).1 = Exit.fatal (Fatal.outputPresent "b.pbm") := by
  decide

/-! ### The gates of the stages -/

theorem mem_gate {α : Type} (b : Bool) (l : List α) (a : α) :
    a ∈ gate b l ↔ b = true ∧ a ∈ l := by
  cases b <;> simp [gate]

theorem mem_passes (f : Nat → Stage) (nr : Int) (n : Nat) (e : Event) :
    e ∈ passes f nr 0 n ↔ ∃ k, k < n ∧ e = Event.stage nr (f k) := by
  simp only [passes, List.mem_map, List.mem_range'_1]
  constructor
  · rintro ⟨k, ⟨_, hk⟩, rfl⟩
    exact ⟨k, by omega, rfl⟩
  · rintro ⟨k, hk, rfl⟩
    exact ⟨k, ⟨by omega, by omega⟩, rfl⟩

theorem mem_expectedLog (g : Globals) (nr : Int) (m1 m2 m3 : Nat) (names : List String)
    (kinds : List StageKind) (e : Event) :
    e ∈ expectedLog g nr m1 m2 m3 names kinds ↔
      ∃ k ∈ kinds, stageGate g nr m1 k = true ∧ e ∈ stageEvents g nr m2 m3 names k := by
  simp only [expectedLog, List.mem_flatMap, List.mem_filter]
  constructor
  · rintro ⟨k, ⟨h1, h2⟩, h3⟩; exact ⟨k, h1, h2, h3⟩
  · rintro ⟨k, h1, h2, h3⟩; exact ⟨k, ⟨h1, h2⟩, h3⟩


theorem isExcluded_of_ignored (nr : Int) (set ignore : MultiIndex)
    (h : isInMultiIndex nr ignore = true) : isExcluded nr set ignore = true := by
  simp [isExcluded, h]

theorem gated_stage_of_kind (g : Globals) (nr : Int) (m1 m2 m3 : Nat) (k : StageKind)
    (s : Stage) (set : MultiIndex) (hs : ownIndexSet g.options s = some set)
    (hg : stageGate g nr m1 k = true)
    (hmem : Event.stage nr s ∈ stageEvents g nr m2 m3 [] k) :
    isExcluded nr set g.options.ignoreMultiIndex = false := by
  cases k <;>
    simp only [stageEvents, mem_passes, mem_gate, savedEvents, List.mem_singleton,
      List.mem_cons, List.not_mem_nil, Event.stage.injEq, true_and, or_false] at hmem
  case deskewOfEachMask =>
    obtain ⟨i, _, rfl⟩ := hmem
    simp only [ownIndexSet, Option.some.injEq] at hs
    subst hs
    simpa [stageGate] using hg
  case centeringOfEachMask =>
    obtain ⟨i, _, rfl⟩ := hmem
    simp only [ownIndexSet, Option.some.injEq] at hs
    subst hs
    simpa [stageGate] using hg
  case borderDetection =>
    rcases hmem with rfl | ⟨h1, i, _, rfl⟩
    · simp only [ownIndexSet, Option.some.injEq] at hs
      subst hs
      simpa [stageGate] using hg
    · simp only [ownIndexSet, Option.some.injEq] at hs
      subst hs
      simpa using h1
  all_goals
    subst hmem
    simp only [ownIndexSet, Option.some.injEq, reduceCtorEq] at hs
  all_goals
    subst hs
    simp [stageGate] at hg
    tauto

theorem gated_stage_in_log (g : Globals) (nr : Int) (m1 m2 m3 : Nat) (s : Stage)
    (set : MultiIndex) (hs : ownIndexSet g.options s = some set)
    (hmem : Event.stage nr s ∈ expectedLog g nr m1 m2 m3 [] processingStageOrder) :
    isExcluded nr set g.options.ignoreMultiIndex = false := by
  obtain ⟨k, _, hg, hk⟩ := (mem_expectedLog g nr m1 m2 m3 [] processingStageOrder _).mp hmem
  exact gated_stage_of_kind g nr m1 m2 m3 k s set hs hg hk

theorem plain_stage_in_log (g : Globals) (nr : Int) (m1 m2 m3 : Nat) (s : Stage)
    (hp : s ∈ plainGatedStages) (set : MultiIndex) (hs : ownIndexSet g.options s = some set)
    (hex : isExcluded nr set g.options.ignoreMultiIndex = false) :
    Event.stage nr s ∈ expectedLog g nr m1 m2 m3 [] processingStageOrder := by
  simp only [plainGatedStages, List.mem_cons, List.mem_singleton, List.not_mem_nil,
    or_false] at hp
  rcases hp with rfl | rfl | rfl | rfl | rfl | rfl | rfl | rfl | rfl | rfl | rfl | rfl <;>
    simp only [ownIndexSet, Option.some.injEq] at hs <;> subst hs <;>
    simp [mem_expectedLog, processingStageOrder, stageGate, stageEvents, mem_gate,
      mem_passes, hex]

/-- C16, amended: on the log `L` that the stages after the layout configuration add for
sheet `nr`. A gated stage is in `L` only if `isExcluded` is false for the sheet
with the index set of the stage; if the sheet is in the global ignore set, no
gated stage is in `L`. A gated stage that runs once and is not enclosed in
another one is in `L` exactly if `isExcluded` is false with its own index set.
Pass `i` of the deskew and of the centering loop runs exactly if the stage is
not excluded and `i` is below the number of masks; pass `i` of the border
alignment runs exactly if neither the border detection, which encloses it, nor
the alignment is excluded and `i` is below the number of outside-border-scan
masks. Mask detection runs `1 + [deskew enabled] + [centering enabled]` times if
it is not excluded, and never otherwise. -/
theorem C16_gated_stages [Zero Angle] [Neg Angle] [DecidableEq Angle]
    (env : Env Angle) (nr : Int) (p : Proc) :
    ∃ L : List Event, (runStages env nr p).log = p.log ++ L ∧
      (∀ s set, ownIndexSet p.g.options s = some set → Event.stage nr s ∈ L →
        isExcluded nr set p.g.options.ignoreMultiIndex = false) ∧
      (isInMultiIndex nr p.g.options.ignoreMultiIndex = true →
        ∀ s, Event.stage nr s ∈ L → ownIndexSet p.g.options s = none) ∧
      (∀ s ∈ plainGatedStages, ∀ set, ownIndexSet p.g.options s = some set →
        (Event.stage nr s ∈ L ↔ isExcluded nr set p.g.options.ignoreMultiIndex = false)) ∧
      (∀ i : Nat, Event.stage nr (Stage.deskew i) ∈ L ↔
        isExcluded nr p.g.options.noDeskewMultiIndex p.g.options.ignoreMultiIndex = false ∧
          i < (stageDetectMasks env nr (stagesToGrayfilter env nr p)).g.maskCount) ∧
      (∀ i : Nat, Event.stage nr (Stage.centerMask i) ∈ L ↔
        isExcluded nr p.g.options.noMaskCenterMultiIndex p.g.options.ignoreMultiIndex = false ∧
          i < (stageDetectMasks env nr (stagesToDeskew env nr p)).g.maskCount) ∧
      (∀ i : Nat, Event.stage nr (Stage.alignMask i) ∈ L ↔
        isExcluded nr p.g.options.noBorderScanMultiIndex p.g.options.ignoreMultiIndex = false ∧
          isExcluded nr p.g.options.noBorderAlignMultiIndex p.g.options.ignoreMultiIndex = false ∧
          i < p.g.outsideBorderscanMaskCount) ∧
      L.count (Event.stage nr Stage.detectMasks) =
        if isExcluded nr p.g.options.noMaskScanMultiIndex p.g.options.ignoreMultiIndex then 0
        else 1 +
          (if isExcluded nr p.g.options.noDeskewMultiIndex p.g.options.ignoreMultiIndex
            then 0 else 1) +
          (if isExcluded nr p.g.options.noMaskCenterMultiIndex p.g.options.ignoreMultiIndex
            then 0 else 1) := by
  have hr := runStages_log env nr p []
  rw [show p.cfg = p.g.withoutMask from rfl, expectedLog_withoutMask] at hr
  refine ⟨_, hr, ?_, ?_, ?_, ?_, ?_, ?_, ?_⟩
  · intro s set hs hmem
    exact gated_stage_in_log p.g nr _ _ _ s set hs hmem
  · intro hign s hmem
    cases hs : ownIndexSet p.g.options s with
    | none => rfl
    | some set =>
      have h1 := gated_stage_in_log p.g nr _ _ _ s set hs hmem
      rw [isExcluded_of_ignored nr set _ hign] at h1
      cases h1
  · intro s hp set hs
    exact ⟨gated_stage_in_log p.g nr _ _ _ s set hs,
      plain_stage_in_log p.g nr _ _ _ s hp set hs⟩
  · intro i
    simp [mem_expectedLog, processingStageOrder, stageGate, stageEvents, mem_gate, mem_passes]
  · intro i
    simp [mem_expectedLog, processingStageOrder, stageGate, stageEvents, mem_gate, mem_passes]
  · intro i
    simp [mem_expectedLog, processingStageOrder, stageGate, stageEvents, mem_gate, mem_passes]
  · simp only [processingStageOrder, expectedLog_cons, expectedLog_nil, stageGate, stageEvents,
      List.count_append, List.count_nil, count_gate, List.count_cons,
      count_passes_eq_zero Stage.deskew nr Stage.detectMasks (fun k => by simp),
      count_passes_eq_zero Stage.centerMask nr Stage.detectMasks (fun k => by simp),
      count_passes_eq_zero Stage.alignMask nr Stage.detectMasks (fun k => by simp)]
    cases isExcluded nr p.g.options.noMaskScanMultiIndex p.g.options.ignoreMultiIndex <;>
      cases isExcluded nr p.g.options.noDeskewMultiIndex p.g.options.ignoreMultiIndex <;>
      cases isExcluded nr p.g.options.noMaskCenterMultiIndex p.g.options.ignoreMultiIndex <;>
      simp

set_option maxRecDepth 100000 in
/-- C16 as stated fails for the border alignment: with `--no-border-scan=1`, on sheet 1
of 100 x 80 in layout SINGLE, `isExcluded` is false for the sheet with the index
set of the border alignment and there is an outside-border-scan mask, but no
alignment runs, because the border detection that encloses it is excluded. -/
theorem C16_alignment_needs_border_detection :
    isExcluded 1 noBorderScanGlobals.options.noBorderAlignMultiIndex
      noBorderScanGlobals.options.ignoreMultiIndex = false ∧
    (stageLayout (sampleProc noBorderScanGlobals)).g.outsideBorderscanMask = [⟨0, 0, 99, 79⟩] ∧
    loggedStages 1
        (runStages (sampleEnv [] 0) 1 (stageLayout (sampleProc noBorderScanGlobals))).log =
      [Stage.preWipe, Stage.preBorder, Stage.blackfilter, Stage.noisefilter, Stage.blurfilter,
       Stage.detectMasks, Stage.applyMasks, Stage.grayfilter, Stage.detectMasks,
       Stage.deskew 0, Stage.detectMasks, Stage.centerMask 0, Stage.wipe, Stage.border,
       Stage.postWipe, Stage.postBorder, Stage.postStretch] := by
  decide

/-! ### Runs with explicit file names -/

theorem withArgs_withArgs (st : RunState) (a b : Nat) (l1 l2 : List Event) :
    (st.withArgs a l1).withArgs b l2 = st.withArgs b (l1 ++ l2) := by
  simp [RunState.withArgs, List.append_assoc]

theorem resolveInputSlot_explicit (env : Env Angle) (argv : List String) (nr : Int)
    (name : String) (i : Nat) (st : RunState) (harg : argv[st.optind]? = some name)
    (hi : ∀ n, isInMultiIndex n st.g.options.insertBlank = false)
    (hr : ∀ n, isInMultiIndex n st.g.options.replaceBlank = false)
    (h0 : env.fileExists name = true) :
    resolveInputSlot env argv nr false i st =
      Step.ok (some name) (st.withArgs (st.optind + 1) [Event.inputSlot nr i (some name)]) := by
  have hlt : st.optind < argv.length := by
    by_contra hge
    rw [List.getElem?_eq_none (Nat.le_of_not_lt hge)] at harg
    cases harg
  simp [resolveInputSlot, hi, hr, harg, checkInputFile, stat_of_fileExists env _ _ h0,
    RunState.withArgs, RunState.emit, RunState.nextArg, Nat.not_le.mpr hlt]

theorem resolveInputs_explicit (env : Env Angle) (argv : List String) (nr : Int) (k : Nat) :
    ∀ (i : Nat) (names : List (Option String)) (st : RunState),
      st.optind + k ≤ argv.length →
      (∀ n, isInMultiIndex n st.g.options.insertBlank = false) →
      (∀ n, isInMultiIndex n st.g.options.replaceBlank = false) →
      (∀ j : Nat, j < k → ∀ name, argv[st.optind + j]? = some name →
        env.fileExists name = true) →
      resolveInputs env argv nr false k i names st =
        Step.ok (names ++ explicitInputNames argv st.optind k)
          (st.withArgs (st.optind + k) (explicitInputEvents argv nr i st.optind k)) := by
  induction k with
  | zero =>
    intro i names st _ _ _ _
    simp [resolveInputs, explicitInputNames, explicitInputEvents, RunState.withArgs]
  | succ k ih =>
    intro i names st hlen hi hr hex
    have hlt : st.optind < argv.length := by omega
    have harg : argv[st.optind]? = some (argv[st.optind]) := List.getElem?_eq_getElem hlt
    have h0 : env.fileExists argv[st.optind] = true := hex 0 (Nat.succ_pos k) _ harg
    have hrec := ih (i + 1) (names ++ [some argv[st.optind]])
      (st.withArgs (st.optind + 1) [Event.inputSlot nr i (some argv[st.optind])])
      (by show st.optind + 1 + k ≤ argv.length; omega) hi hr
      (by
        intro j hj name hname
        refine hex (j + 1) (Nat.succ_lt_succ hj) name ?_
        rw [← hname]
        show argv[st.optind + (j + 1)]? = argv[st.optind + 1 + j]?
        rw [show st.optind + (j + 1) = st.optind + 1 + j by omega])
    simp only [resolveInputs,
      resolveInputSlot_explicit env argv nr argv[st.optind] i st harg hi hr h0, hrec,
      withArgs_withArgs]
    have e1 : (st.withArgs (st.optind + 1)
        [Event.inputSlot nr i (some argv[st.optind])]).optind = st.optind + 1 := rfl
    rw [e1]
    simp only [explicitInputNames, explicitInputEvents, harg, List.append_assoc,
      List.singleton_append]
    rw [show st.optind + 1 + k = st.optind + (k + 1) by omega]

theorem resolveOutputSlot_explicit (env : Env Angle) (argv : List String) (nr : Int)
    (i : Nat) (st : RunState) (hlt : st.optind < argv.length)
    (hover : st.g.overwrite = true) :
    resolveOutputSlot env argv nr false i st =
      Step.ok (argv.getD st.optind "")
        (st.withArgs (st.optind + 1) [Event.outputSlot nr i (argv.getD st.optind "")]) := by
  have harg : argv[st.optind]? = some (argv[st.optind]) := List.getElem?_eq_getElem hlt
  have hd : argv.getD st.optind "" = argv[st.optind] := by
    simp [List.getD, harg]
  simp [resolveOutputSlot, harg, hd, checkOutputFile, hover, RunState.withArgs, RunState.emit,
    RunState.nextArg, Nat.not_le.mpr hlt]

theorem resolveOutputs_explicit (env : Env Angle) (argv : List String) (nr : Int) (k : Nat) :
    ∀ (i : Nat) (names : List String) (st : RunState),
      st.optind + k ≤ argv.length → st.g.overwrite = true →
      resolveOutputs env argv nr false k i names st =
        Step.ok (names ++ explicitOutputNames argv st.optind k)
          (st.withArgs (st.optind + k) (explicitOutputEvents argv nr i st.optind k)) := by
  induction k with
  | zero =>
    intro i names st _ _
    simp [resolveOutputs, explicitOutputNames, explicitOutputEvents, RunState.withArgs]
  | succ k ih =>
    intro i names st hlen hover
    have hlt : st.optind < argv.length := by omega
    have hrec := ih (i + 1) (names ++ [argv.getD st.optind ""])
      (st.withArgs (st.optind + 1) [Event.outputSlot nr i (argv.getD st.optind "")])
      (by show st.optind + 1 + k ≤ argv.length; omega) hover
    simp only [resolveOutputs, resolveOutputSlot_explicit env argv nr i st hlt hover, hrec,
      withArgs_withArgs]
    have e1 : (st.withArgs (st.optind + 1)
        [Event.outputSlot nr i (argv.getD st.optind "")]).optind = st.optind + 1 := rfl
    rw [e1]
    simp only [explicitOutputNames, explicitOutputEvents, List.append_assoc,
      List.singleton_append]
    rw [show st.optind + 1 + k = st.optind + (k + 1) by omega]


theorem ExplicitState.carry {argv : List String} {st st1 : RunState}
    (h : ExplicitState argv st) (hs : st1.g.static = st.g.static) : ExplicitState argv st1 :=
  ⟨by rw [static_multisheets hs]; exact h.noWildcard,
    by rw [static_inputCount hs]; exact h.inputs,
    by rw [static_outputCount hs]; exact h.outputs,
    by rw [static_options hs]; exact h.noInsert,
    by rw [static_options hs]; exact h.noReplace,
    (static_overwrite hs).trans h.overwrite⟩

theorem sheetIteration_explicit_body [Zero Angle] [Neg Angle] [DecidableEq Angle]
    (env : Env Angle) (argv : List String) (nr : Int) (st : RunState)
    (hes : ExplicitState argv st) (hlt : st.optind < argv.length) :
    sheetIteration env argv nr st = sheetBody env argv nr false st := by
  have harg : argv[st.optind]? = some (argv[st.optind]) := List.getElem?_eq_getElem hlt
  have hw := hes.noWildcard argv[st.optind] (List.getElem_mem hlt)
  unfold sheetIteration
  cases hm : st.g.multisheets
  · simp
  · rw [hm] at hw
    simp only [Bool.true_and] at hw
    simp only [if_true, harg, hw]

/-- The part of a pass behind the input names, with explicit output names. -/
theorem outputsAndProcess_explicit [Zero Angle] [Neg Angle] [DecidableEq Angle]
    (env : Env Angle) (argv : List String) (nr : Int)
    (names : List (Option String)) (st : RunState) (hes : ExplicitState argv st)
    (hargs : st.optind + st.g.outputCount ≤ argv.length) :
    outputsAndProcess env argv nr false names st =
      if sheetSelected st.g nr = true then
        match processSheet env nr names (explicitOutputNames argv st.optind st.g.outputCount)
            (st.withArgs (st.optind + st.g.outputCount)
              (explicitOutputEvents argv nr 0 st.optind st.g.outputCount)) with
        | Step.ok _ st3 => sheetEnd argv false false st3
        | Step.sheetEnd st3 => sheetEnd argv false false st3
        | Step.fatal e st3 => Iter.fatal e st3
        | Step.undefined => Iter.undefined
      else
        sheetEnd argv false false (st.withArgs (st.optind + st.g.outputCount)
          (explicitOutputEvents argv nr 0 st.optind st.g.outputCount)) := by
  have hlt : st.optind < argv.length := by have := hes.outputs; omega
  have harg : argv[st.optind]? = some (argv[st.optind]) := List.getElem?_eq_getElem hlt
  have hw := hes.noWildcard argv[st.optind] (List.getElem_mem hlt)
  have hO := resolveOutputs_explicit env argv nr st.g.outputCount 0 [] st hargs hes.overwrite
  unfold outputsAndProcess
  rw [if_neg (Nat.not_le.mpr hlt)]
  simp only [harg, hw, hO, List.nil_append, Bool.false_eq_true, if_false]
  rfl

theorem sheetEnd_explicit (argv : List String) (st : RunState) :
    sheetEnd argv false false st =
      if st.optind ≥ argv.length then Iter.stop st else Iter.next st := by
  simp [sheetEnd]


/-- A pass of the sheet loop with explicit names in which the arguments suffice and
every input file exists: the pass takes the next `inputCount` arguments as its
inputs and the `outputCount` arguments behind them as its outputs, and the loop
stops behind this pass exactly if no argument is left. -/
theorem sheetIteration_explicit [Zero Angle] [Neg Angle] [DecidableEq Angle]
    (env : Env Angle) (argv : List String) (nr : Int) (st : RunState)
    (hes : ExplicitState argv st)
    (hargs : st.optind + st.g.inputCount + st.g.outputCount ≤ argv.length)
    (hex : ∀ j : Nat, j < st.g.inputCount → ∀ name, argv[st.optind + j]? = some name →
      env.fileExists name = true) :
    ∃ st1, sheetIteration env argv nr st =
        (if st.optind + st.g.inputCount + st.g.outputCount ≥ argv.length then Iter.stop st1
          else Iter.next st1) ∧
      st1.optind = st.optind + st.g.inputCount + st.g.outputCount ∧
      st1.g.static = st.g.static ∧
      ∃ L : List Event, st1.log = st.log ++
          (explicitInputEvents argv nr 0 st.optind st.g.inputCount ++
            (explicitOutputEvents argv nr 0 (st.optind + st.g.inputCount) st.g.outputCount ++
              L)) ∧
        ∀ e ∈ L, e.isSlot = false := by
  have hc := hes.inputs
  have ho := hes.outputs
  have hlt : st.optind < argv.length := by omega
  obtain ⟨stI, hI1⟩ : ∃ x, x = st.withArgs (st.optind + st.g.inputCount)
      (explicitInputEvents argv nr 0 st.optind st.g.inputCount) := ⟨_, rfl⟩
  have hg : stI.g = st.g := by rw [hI1]; rfl
  have hopt : stI.optind = st.optind + st.g.inputCount := by rw [hI1]; rfl
  have hlog : stI.log = st.log ++ explicitInputEvents argv nr 0 st.optind st.g.inputCount := by
    rw [hI1]; rfl
  have hI := resolveInputs_explicit env argv nr st.g.inputCount 0 [] st (by omega)
    hes.noInsert hes.noReplace hex
  rw [← hI1] at hI
  have hesI : ExplicitState argv stI := hes.carry (by rw [hg])
  have hOP := outputsAndProcess_explicit env argv nr
    (explicitInputNames argv st.optind st.g.inputCount) stI hesI (by rw [hopt, hg]; omega)
  obtain ⟨stO, hO1⟩ : ∃ x, x = stI.withArgs (stI.optind + stI.g.outputCount)
      (explicitOutputEvents argv nr 0 stI.optind stI.g.outputCount) := ⟨_, rfl⟩
  rw [← hO1] at hOP
  have hgO : stO.g = st.g := by rw [hO1]; exact hg
  have hoptO : stO.optind = st.optind + st.g.inputCount + st.g.outputCount := by
    rw [hO1]
    show stI.optind + stI.g.outputCount = _
    rw [hopt, hg]
  have hlogO : stO.log = st.log ++
      (explicitInputEvents argv nr 0 st.optind st.g.inputCount ++
        explicitOutputEvents argv nr 0 (st.optind + st.g.inputCount) st.g.outputCount) := by
    rw [hO1]
    show stI.log ++ explicitOutputEvents argv nr 0 stI.optind stI.g.outputCount = _
    rw [hlog, hopt, hg, List.append_assoc]
  rw [sheetIteration_explicit_body env argv nr st hes hlt]
  unfold sheetBody
  rw [hI]
  simp only [Bool.false_eq_true, if_false, List.nil_append]
  rw [hOP]
  cases hsel : sheetSelected stI.g nr
  · simp only [Bool.false_eq_true, if_false]
    rw [sheetEnd_explicit, hoptO]
    exact ⟨stO, rfl, hoptO, by rw [hgO], [], by rw [hlogO]; simp, by simp⟩
  · simp only [if_true]
    have hnames : ∃ n, some n ∈ explicitInputNames argv st.optind st.g.inputCount := by
      obtain ⟨k, hk⟩ := Nat.exists_eq_succ_of_ne_zero (Nat.one_le_iff_ne_zero.mp hc)
      rw [hk]
      exact ⟨argv[st.optind], by
        simp [explicitInputNames, List.getElem?_eq_getElem hlt]⟩
    obtain ⟨st5, h5, _, _, b3, b4, L, b5, b6⟩ := processSheet_ok env nr
      (explicitInputNames argv st.optind st.g.inputCount)
      (explicitOutputNames argv stI.optind stI.g.outputCount) stO (Or.inr hnames)
    rw [h5]
    simp only []
    rw [sheetEnd_explicit, b3, hoptO]
    refine ⟨st5, rfl, b3.trans hoptO, by rw [b4, hgO], Event.beginSheet nr :: L, ?_, ?_⟩
    · rw [b5, hlogO]
      simp only [List.append_assoc]
    · intro e he
      rcases List.mem_cons.mp he with rfl | he
      · rfl
      · exact (b6 e he).2.2


theorem outputSlots_append (l1 l2 : List Event) :
    outputSlots (l1 ++ l2) = outputSlots l1 ++ outputSlots l2 := by
  simp [outputSlots, List.filterMap_append]

theorem outputSlots_of_not_slot (l : List Event) (h : ∀ e ∈ l, e.isSlot = false) :
    outputSlots l = [] := by
  unfold outputSlots
  rw [List.filterMap_eq_nil_iff]
  intro e he
  have := h e he
  cases e <;> simp_all [Event.isSlot]

theorem inputSlots_explicitInputEvents (argv : List String) (nr : Int) (k : Nat) :
    ∀ i a : Nat, inputSlots (explicitInputEvents argv nr i a k) =
      (List.range k).map (fun j => (nr, i + j, argv[a + j]?)) := by
  induction k with
  | zero => intro i a; rfl
  | succ k ih =>
    intro i a
    have h1 : inputSlots (explicitInputEvents argv nr i a (k + 1)) =
        (nr, i, argv[a]?) :: inputSlots (explicitInputEvents argv nr (i + 1) (a + 1) k) := rfl
    rw [h1, ih, List.range_succ_eq_map]
    simp only [List.map_cons, List.map_map, Nat.add_zero]
    congr 1
    apply List.map_congr_left
    intro j _
    simp only [Function.comp, Nat.succ_eq_add_one]
    rw [show i + 1 + j = i + (j + 1) by omega, show a + 1 + j = a + (j + 1) by omega]

theorem outputSlots_explicitInputEvents (argv : List String) (nr : Int) (k : Nat) :
    ∀ i a : Nat, outputSlots (explicitInputEvents argv nr i a k) = [] := by
  induction k with
  | zero => intro i a; rfl
  | succ k ih => intro i a; exact ih (i + 1) (a + 1)

theorem inputSlots_explicitOutputEvents (argv : List String) (nr : Int) (k : Nat) :
    ∀ i a : Nat, inputSlots (explicitOutputEvents argv nr i a k) = [] := by
  induction k with
  | zero => intro i a; rfl
  | succ k ih => intro i a; exact ih (i + 1) (a + 1)

theorem outputSlots_explicitOutputEvents (argv : List String) (nr : Int) (k : Nat) :
    ∀ i a : Nat, a + k ≤ argv.length → outputSlots (explicitOutputEvents argv nr i a k) =
      (List.range k).map (fun j => (nr, i + j, argv[a + j]?)) := by
  induction k with
  | zero => intro i a _; rfl
  | succ k ih =>
    intro i a hlen
    have hlt : a < argv.length := by omega
    have h1 : outputSlots (explicitOutputEvents argv nr i a (k + 1)) =
        (nr, i, some (argv.getD a "")) ::
          outputSlots (explicitOutputEvents argv nr (i + 1) (a + 1) k) := rfl
    have h2 : some (argv.getD a "") = argv[a]? := by
      simp [List.getD, List.getElem?_eq_getElem hlt]
    rw [h1, ih (i + 1) (a + 1) (by omega), List.range_succ_eq_map, h2]
    simp only [List.map_cons, List.map_map, Nat.add_zero]
    congr 1
    apply List.map_congr_left
    intro j _
    simp only [Function.comp, Nat.succ_eq_add_one]
    rw [show i + 1 + j = i + (j + 1) by omega, show a + 1 + j = a + (j + 1) by omega]


/-- The slots that one pass with explicit names adds to the log. -/
theorem slots_of_explicit_pass (argv : List String) (nr : Int) (a c o : Nat)
    (log L : List Event) (hL : ∀ e ∈ L, e.isSlot = false) (hlen : a + c + o ≤ argv.length) :
    inputSlots (log ++ (explicitInputEvents argv nr 0 a c ++
        (explicitOutputEvents argv nr 0 (a + c) o ++ L))) =
      inputSlots log ++ (List.range c).map (fun i => (nr, i, argv[a + i]?)) ∧
    outputSlots (log ++ (explicitInputEvents argv nr 0 a c ++
        (explicitOutputEvents argv nr 0 (a + c) o ++ L))) =
      outputSlots log ++ (List.range o).map (fun i => (nr, i, argv[a + c + i]?)) := by
  constructor
  · rw [inputSlots_append, inputSlots_append, inputSlots_append,
      inputSlots_explicitInputEvents, inputSlots_explicitOutputEvents,
      inputSlots_of_not_slot L hL]
    simp
  · rw [outputSlots_append, outputSlots_append, outputSlots_append,
      outputSlots_explicitInputEvents, outputSlots_explicitOutputEvents argv nr o 0 (a + c) hlen,
      outputSlots_of_not_slot L hL]
    simp

/-- The sheet loop with explicit names from pass `k` on, when `r + 1` passes are left:
it does not end within `r` passes, and it ends with `return 0` in pass `r + 1`. -/
theorem sheetLoop_explicit [Zero Angle] [Neg Angle] [DecidableEq Angle]
    (env : Env Angle) (argv : List String) (c o : Nat) (r : Nat) :
    ∀ (k : Nat) (nr : Int) (st : RunState), ExplicitState argv st →
      st.g.inputCount = c → st.g.outputCount = o → st.optind = k * (c + o) →
      argv.length = (k + r + 1) * (c + o) →
      (st.g.options.endSheet = -1 ∨ nr + r ≤ st.g.options.endSheet) →
      (∀ k' i : Nat, k' < k + r + 1 → i < c → ∀ name, argv[k' * (c + o) + i]? = some name →
        env.fileExists name = true) →
      (∀ fuel, fuel ≤ r → (sheetLoop env argv fuel nr st).1 = Exit.unfinished) ∧
      ∀ fuel, r + 1 ≤ fuel → ∃ st1, sheetLoop env argv fuel nr st = (Exit.returned 0, st1) ∧
        inputSlots st1.log = inputSlots st.log ++ explicitInputSlots argv c o nr k (r + 1) ∧
        outputSlots st1.log = outputSlots st.log ++ explicitOutputSlots argv c o nr k (r + 1) := by
  induction r with
  | zero =>
    intro k nr st hes hc ho hopt hlen hend hex
    have hw : (k + 0 + 1) * (c + o) = k * (c + o) + (c + o) := by
      rw [Nat.add_zero, Nat.succ_mul]
    have hargs : st.optind + st.g.inputCount + st.g.outputCount ≤ argv.length := by
      rw [hc, ho, hopt, hlen, hw]; omega
    obtain ⟨st1, h1, _, _, L, h4, h5⟩ := sheetIteration_explicit env argv nr st hes hargs
      (by
        intro j hj name hname
        rw [hopt] at hname
        exact hex k j (by omega) (by rw [← hc]; exact hj) name hname)
    rw [if_pos (by rw [hc, ho, hopt, hlen, hw]; omega)] at h1
    have hcond : st.g.options.endSheet = -1 ∨ nr ≤ st.g.options.endSheet := by
      rcases hend with h | h
      · exact Or.inl h
      · exact Or.inr (by omega)
    have hs := slots_of_explicit_pass argv nr st.optind c o st.log L h5
      (by rw [← hc, ← ho]; exact hargs)
    refine ⟨?_, ?_⟩
    · intro fuel hf
      have h0 : fuel = 0 := by omega
      subst h0
      rfl
    · intro fuel hf
      obtain ⟨f, rfl⟩ : ∃ f, fuel = f + 1 := ⟨fuel - 1, by omega⟩
      refine ⟨st1, ?_, ?_, ?_⟩
      · simp only [sheetLoop, hcond, if_true, h1]
      · rw [h4, hc, ho, hs.1, hopt]
        simp [explicitInputSlots]
      · rw [h4, hc, ho, hs.2, hopt]
        simp [explicitOutputSlots]
  | succ r ih =>
    intro k nr st hes hc ho hopt hlen hend hex
    have hpos : 2 ≤ c + o := by
      have := hes.inputs
      have := hes.outputs
      omega
    have hw : (k + (r + 1) + 1) * (c + o) = k * (c + o) + (c + o) + (r + 1) * (c + o) := by
      rw [show k + (r + 1) + 1 = k + 1 + (r + 1) by omega, Nat.add_mul, Nat.succ_mul]
    have hmore : c + o ≤ (r + 1) * (c + o) := Nat.le_mul_of_pos_left _ (Nat.succ_pos r)
    have hargs : st.optind + st.g.inputCount + st.g.outputCount ≤ argv.length := by
      rw [hc, ho, hopt, hlen, hw]; omega
    obtain ⟨st1, h1, h2, h3, L, h4, h5⟩ := sheetIteration_explicit env argv nr st hes hargs
      (by
        intro j hj name hname
        rw [hopt] at hname
        exact hex k j (by omega) (by rw [← hc]; exact hj) name hname)
    rw [if_neg (by rw [hc, ho, hopt, hlen, hw]; omega)] at h1
    have hcond : st.g.options.endSheet = -1 ∨ nr ≤ st.g.options.endSheet := by
      rcases hend with h | h
      · exact Or.inl h
      · exact Or.inr (by omega)
    have hs := slots_of_explicit_pass argv nr st.optind c o st.log L h5
      (by rw [← hc, ← ho]; exact hargs)
    have hrec := ih (k + 1) (nr + 1) st1 (hes.carry h3)
      ((static_inputCount h3).trans hc) ((static_outputCount h3).trans ho)
      (by rw [h2, hc, ho, hopt, Nat.succ_mul]; omega)
      (by rw [hlen, show k + (r + 1) + 1 = k + 1 + r + 1 by omega])
      (by
        rw [static_options h3]
        rcases hend with h | h
        · exact Or.inl h
        · exact Or.inr (by push_cast at h; omega))
      (by
        intro k' i hk' hi name hname
        exact hex k' i (by omega) hi name hname)
    refine ⟨?_, ?_⟩
    · intro fuel hf
      cases fuel with
      | zero => rfl
      | succ f =>
        rw [sheetLoop_next env argv f nr st st1 hcond h1]
        exact hrec.1 f (by omega)
    · intro fuel hf
      obtain ⟨f, rfl⟩ : ∃ f, fuel = f + 1 := ⟨fuel - 1, by omega⟩
      obtain ⟨st2, e1, e2, e3⟩ := hrec.2 f (by omega)
      refine ⟨st2, ?_, ?_, ?_⟩
      · rw [sheetLoop_next env argv f nr st st1 hcond h1]
        exact e1
      · rw [e2, h4, hc, ho, hs.1, hopt, List.append_assoc]
        rfl
      · rw [e3, h4, hc, ho, hs.2, hopt, List.append_assoc]
        rfl


theorem loadInputs_blank (env : Env Angle) (nr : Int) (names : List (Option String)) :
    ∀ (j : Nat) (st : RunState), (∀ x ∈ names, x = none) → st.w = -1 →
      loadInputs env nr j names st = Step.ok () st := by
  induction names with
  | nil => intro j st _ _; rfl
  | cons x rest ih =>
    intro j st hn hw
    have hx : x = none := hn x (List.mem_cons_self _ _)
    subst hx
    have ha : allocSheet env nr st = st := by simp [allocSheet, hw]
    simp only [loadInputs, loadSlot, ha]
    exact ih (j + 1) st (fun y hy => hn y (List.mem_cons_of_mem _ hy)) hw

/-- A sheet whose input slots are all blank, while no sheet size is known from an
earlier sheet and no buffer exists, ends the run with the fatal error of line
1237, whatever the forced sheet size `sheetSize` is: the blank path never reads
it. -/
theorem blank_sheet_ignores_forced_size [Zero Angle] [Neg Angle] [DecidableEq Angle]
    (env : Env Angle) (nr : Int) (names : List (Option String)) (outs : List String)
    (st : RunState) (hn : ∀ x ∈ names, x = none) (hs : st.sheet = none) (hw : st.w = -1)
    (hp : st.previousWidth = -1) :
    ∃ st1, processSheet env nr names outs st = Step.fatal Fatal.sheetSizeUnknown st1 ∧
      st1.g.sheetSize = st.g.sheetSize := by
  have hl := loadInputs_blank env nr names 0 (st.emit (Event.beginSheet nr)) hn hw
  have hs1 : (st.emit (Event.beginSheet nr)).sheet = none := hs
  have hp1 : (st.emit (Event.beginSheet nr)).previousWidth = -1 := hp
  refine ⟨{ st.emit (Event.beginSheet nr) with
    w := st.previousWidth, h := st.previousHeight }, ?_, rfl⟩
  simp only [processSheet, hl, ensureSheet, hs1]
  rw [if_pos (Or.inl hp1)]
  rfl

/-! ### The argument index in passes that start at two patterns -/

theorem resolveInputSlot_wildcard_optind (env : Env Angle) (argv : List String) (nr : Int)
    (i : Nat) (st : RunState) :
    match resolveInputSlot env argv nr true i st with
    | Step.ok _ st1 => st1.optind = st.optind ∧ st1.g.static = st.g.static
    | Step.sheetEnd st1 => st1.optind = st.optind ∧ st1.g.multisheets = st.g.multisheets
    | Step.fatal _ _ => True
    | Step.undefined => True := by
  have key : ∀ (name : Option String) (st0 : RunState), st0.optind = st.optind →
      st0.g = st.g →
      match checkInputFile env nr name st0 with
      | Step.ok _ st1 => st1.optind = st.optind ∧ st1.g.static = st.g.static
      | Step.sheetEnd st1 => st1.optind = st.optind ∧ st1.g.multisheets = st.g.multisheets
      | Step.fatal _ _ => True
      | Step.undefined => True := by
    intro name st0 ho hg
    have := checkInputFile_cases env nr name st0
    revert this
    cases checkInputFile env nr name st0 with
    | ok name1 st1 => rintro ⟨_, rfl⟩; exact ⟨ho, by rw [hg]⟩
    | sheetEnd st1 => rintro ⟨_, rfl⟩; exact ⟨ho, by rw [← hg]; rfl⟩
    | fatal e st1 => intro _; trivial
    | undefined => intro _; trivial
  by_cases hr : isInMultiIndex st.inputNr st.g.options.replaceBlank = true
  · simp only [resolveInputSlot, hr, if_true]
    exact key none _ rfl rfl
  by_cases hi : isInMultiIndex st.inputNr st.g.options.insertBlank = true
  · simp only [resolveInputSlot, hr, hi, if_true, if_false]
    exact key none _ rfl rfl
  cases ha : argv[st.optind]? with
  | none => simp [resolveInputSlot, hr, hi, ha]
  | some pattern =>
    simp only [resolveInputSlot, hr, hi, ha, if_true, if_false]
    exact key (some (env.sprintf pattern st.inputNr))
      (st.nextInput.emit (Event.inputSlot nr i (some (env.sprintf pattern st.inputNr))))
      rfl rfl

theorem resolveInputs_wildcard_optind (env : Env Angle) (argv : List String) (nr : Int)
    (k : Nat) :
    ∀ (i : Nat) (names : List (Option String)) (st : RunState),
      match resolveInputs env argv nr true k i names st with
      | Step.ok _ st1 => st1.optind = st.optind ∧ st1.g.static = st.g.static
      | Step.sheetEnd st1 => st1.optind = st.optind ∧ st1.g.multisheets = st.g.multisheets
      | Step.fatal _ _ => True
      | Step.undefined => True := by
  induction k with
  | zero => intro i names st; simp [resolveInputs]
  | succ k ih =>
    intro i names st
    have h := resolveInputSlot_wildcard_optind env argv nr i st
    simp only [resolveInputs]
    revert h
    cases resolveInputSlot env argv nr true i st with
    | ok name st1 =>
      rintro ⟨ho, hg⟩
      have h2 := ih (i + 1) (names ++ [name]) st1
      revert h2
      simp only []
      cases resolveInputs env argv nr true k (i + 1) (names ++ [name]) st1 with
      | ok names2 st2 => rintro ⟨ho2, hg2⟩; exact ⟨ho2.trans ho, hg2.trans hg⟩
      | sheetEnd st2 =>
        rintro ⟨ho2, hm2⟩
        exact ⟨ho2.trans ho, hm2.trans (static_multisheets hg)⟩
      | fatal e st2 => intro _; trivial
      | undefined => intro _; trivial
    | sheetEnd st1 => intro h; exact h
    | fatal e st1 => intro h; exact h
    | undefined => intro h; exact h

theorem resolveOutputs_wildcard_optind (env : Env Angle) (argv : List String) (nr : Int)
    (k : Nat) :
    ∀ (i : Nat) (names : List String) (st : RunState),
      match resolveOutputs env argv nr true k i names st with
      | Step.ok _ st1 => st1.optind = st.optind ∧ st1.g.static = st.g.static
      | Step.sheetEnd _ => False
      | Step.fatal _ _ => True
      | Step.undefined => True := by
  induction k with
  | zero => intro i names st; simp [resolveOutputs]
  | succ k ih =>
    intro i names st
    have h : match resolveOutputSlot env argv nr true i st with
        | Step.ok _ st1 => st1.optind = st.optind ∧ st1.g.static = st.g.static
        | Step.sheetEnd _ => False
        | Step.fatal _ _ => True
        | Step.undefined => True := by
      cases ha : argv[st.optind]? with
      | none => simp [resolveOutputSlot, ha]
      | some pattern =>
        by_cases hov : st.g.overwrite = true <;>
          by_cases hf : stat env st.written (env.sprintf pattern st.outputNr) = true <;>
          simp [resolveOutputSlot, ha, checkOutputFile, RunState.emit, RunState.nextOutput,
            hov, hf]
    simp only [resolveOutputs]
    revert h
    cases resolveOutputSlot env argv nr true i st with
    | ok name st1 =>
      rintro ⟨ho, hg⟩
      have h2 := ih (i + 1) (names ++ [name]) st1
      revert h2
      simp only []
      cases resolveOutputs env argv nr true k (i + 1) (names ++ [name]) st1 with
      | ok names2 st2 => rintro ⟨ho2, hg2⟩; exact ⟨ho2.trans ho, hg2.trans hg⟩
      | sheetEnd st2 => intro h; exact h
      | fatal e st2 => intro _; trivial
      | undefined => intro _; trivial
    | sheetEnd st1 => intro h; exact h
    | fatal e st1 => intro h; exact h
    | undefined => intro h; exact h

theorem processSheet_optind [Zero Angle] [Neg Angle] [DecidableEq Angle]
    (env : Env Angle) (nr : Int) (names : List (Option String)) (outs : List String)
    (st : RunState) :
    match processSheet env nr names outs st with
    | Step.ok _ st1 => st1.optind = st.optind ∧ st1.g.static = st.g.static
    | Step.sheetEnd _ => False
    | Step.fatal _ _ => True
    | Step.undefined => False := by
  obtain ⟨st1, h1, ⟨_, _, a3, a4, _⟩, _⟩ :=
    loadInputs_ok env nr names 0 (st.emit (Event.beginSheet nr))
  simp only [processSheet, h1]
  cases hsheet : st1.sheet with
  | some sheet =>
    simp only [ensureSheet, hsheet]
    refine ⟨?_, ?_⟩
    · rw [(writeOutput_fields env nr outs _ _).2.2.2]; exact a3
    · rw [(writeOutput_fields env nr outs _ _).1, processStages_static]; exact a4
  | none =>
    by_cases hp : st1.previousWidth = -1 ∨ st1.previousHeight = -1
    · simp only [ensureSheet, hsheet, hp, if_true]
    · simp only [ensureSheet, hsheet, hp, if_false]
      refine ⟨?_, ?_⟩
      · rw [(writeOutput_fields env nr outs _ _).2.2.2]; exact a3
      · rw [(writeOutput_fields env nr outs _ _).1, processStages_static]; exact a4


theorem sheetEnd_wildcard (argv : List String) (ow : Bool) (st : RunState) :
    sheetEnd argv true ow st = Iter.next (if ow then st.rewindArgs else st) := by
  cases ow <;> simp [sheetEnd]

theorem outputsAndProcess_wildcard_optind [Zero Angle] [Neg Angle] [DecidableEq Angle]
    (env : Env Angle) (argv : List String) (nr : Int) (names : List (Option String))
    (st : RunState) (outPat : String) (hm : st.g.multisheets = true)
    (h1 : argv[st.optind]? = some outPat) (hout : hasPlaceholder outPat = true) :
    match outputsAndProcess env argv nr true names st with
    | Iter.next st1 => st1.optind = st.optind - 1 ∧ st1.g.multisheets = true
    | Iter.stop _ => False
    | Iter.fatal _ _ => True
    | Iter.undefined => True := by
  have hlt : ¬ (st.optind ≥ argv.length) := by
    intro hge
    rw [List.getElem?_eq_none hge] at h1
    cases h1
  have hO := resolveOutputs_wildcard_optind env argv nr st.g.outputCount 0 [] st
  unfold outputsAndProcess
  rw [if_neg hlt]
  simp only [h1, hm, hout, Bool.and_self]
  revert hO
  cases resolveOutputs env argv nr true st.g.outputCount 0 [] st with
  | ok outs st1 =>
    rintro ⟨ho, hg⟩
    simp only [if_true]
    by_cases hsel : (isInMultiIndex nr st1.nextArg.g.options.sheetMultiIndex &&
        !isInMultiIndex nr st1.nextArg.g.options.excludeMultiIndex) = true
    · rw [if_pos hsel]
      have hP := processSheet_optind env nr names outs st1.nextArg
      revert hP
      cases processSheet env nr names outs st1.nextArg with
      | ok u st2 =>
        rintro ⟨ho2, hg2⟩
        simp only [sheetEnd_wildcard, if_true]
        refine ⟨?_, ?_⟩
        · show st2.optind - 2 = st.optind - 1
          rw [ho2]
          show st1.optind + 1 - 2 = st.optind - 1
          rw [ho]
          omega
        · show st2.g.multisheets = true
          rw [static_multisheets hg2]
          show st1.g.multisheets = true
          rw [static_multisheets hg]
          exact hm
      | sheetEnd st2 => intro h; exact h.elim
      | fatal e st2 => intro _; trivial
      | undefined => intro h; exact h.elim
    · rw [if_neg hsel]
      simp only [sheetEnd_wildcard, if_true]
      refine ⟨?_, ?_⟩
      · show st1.optind + 1 - 2 = st.optind - 1
        rw [ho]
        omega
      · show st1.g.multisheets = true
        rw [static_multisheets hg]
        exact hm
  | sheetEnd st1 => intro h; exact h.elim
  | fatal e st1 => intro _; trivial
  | undefined => intro _; trivial

/-- The second half of C19, on the code: in a pass that starts at an input pattern
which is followed by an output pattern, whatever the blank sets, the files and
the selection of the sheet are, the loop does not stop and, unless the pass is
fatal, the next pass starts with the same argument index, at the same pattern. -/
theorem wildcard_pass_keeps_optind [Zero Angle] [Neg Angle] [DecidableEq Angle]
    (env : Env Angle) (argv : List String) (nr : Int) (st : RunState) (inPat outPat : String)
    (hm : st.g.multisheets = true)
    (h0 : argv[st.optind]? = some inPat) (hin : hasPlaceholder inPat = true)
    (h1 : argv[st.optind + 1]? = some outPat) (hout : hasPlaceholder outPat = true) :
    match sheetIteration env argv nr st with
    | Iter.next st1 => st1.optind = st.optind ∧ st1.g.multisheets = true
    | Iter.stop _ => False
    | Iter.fatal _ _ => True
    | Iter.undefined => True := by
  have hI := resolveInputs_wildcard_optind env argv nr st.g.inputCount 0 [] st
  simp only [sheetIteration, hm, if_true, h0, hin, sheetBody]
  revert hI
  cases resolveInputs env argv nr true st.g.inputCount 0 [] st with
  | ok names st1 =>
    rintro ⟨ho, hg⟩
    simp only [if_true]
    have hOP := outputsAndProcess_wildcard_optind env argv nr names st1.nextArg outPat
      (by show st1.g.multisheets = true; rw [static_multisheets hg]; exact hm)
      (by show argv[st1.optind + 1]? = some outPat; rw [ho]; exact h1) hout
    revert hOP
    cases outputsAndProcess env argv nr true names st1.nextArg with
    | next st2 =>
      rintro ⟨ho2, hm2⟩
      refine ⟨?_, hm2⟩
      rw [ho2]
      show st1.optind + 1 - 1 = st.optind
      rw [ho]
      omega
    | stop st2 => intro h; exact h
    | fatal e st2 => intro h; exact h
    | undefined => intro h; exact h
  | sheetEnd st1 =>
    rintro ⟨ho, hm1⟩
    simp only [sheetEnd_wildcard]
    exact ⟨ho, hm1.trans hm⟩
  | fatal e st1 => intro _; trivial
  | undefined => intro _; trivial

/-! ### Option parsing: region options and rotations -/

/-- A fold that appends the arguments of some options to a list while the list is
shorter than a capacity keeps the first arguments up to the capacity. -/
theorem foldl_capped {σ ω α : Type} (get : σ → List α) (step : σ → ω → σ) (arg : ω → Option α)
    (cap : Nat)
    (hsome : ∀ s o a, arg o = some a →
      get (step s o) = if (get s).length < cap then get s ++ [a] else get s)
    (hnone : ∀ s o, arg o = none → get (step s o) = get s) :
    ∀ (opts : List ω) (s : σ), get (opts.foldl step s) =
      get s ++ (opts.filterMap arg).take (cap - (get s).length) := by
  intro opts
  induction opts with
  | nil => intro s; simp
  | cons o opts ih =>
    intro s
    rw [List.foldl_cons, ih]
    cases ha : arg o with
    | none =>
      rw [hnone s o ha, List.filterMap_cons_none ha]
    | some a =>
      rw [hsome s o a ha, List.filterMap_cons_some ha]
      by_cases hlt : (get s).length < cap
      · rw [if_pos hlt, List.length_append, List.length_singleton, List.append_assoc]
        congr 1
        obtain ⟨d, hd⟩ : ∃ d, cap - (get s).length = d + 1 :=
          ⟨cap - (get s).length - 1, by omega⟩
        rw [hd, List.take_succ_cons, show cap - ((get s).length + 1) = d by omega]
        rfl
      · rw [if_neg hlt, show cap - (get s).length = 0 by omega]
        simp


theorem parseRegionOptions_mask (MAX_MASKS MAX_POINTS : Nat) (opts : List RegionOption)
    (g : Globals) :
    (parseRegionOptions MAX_MASKS MAX_POINTS g opts).mask =
      g.mask ++ (maskArgs opts).take (MAX_MASKS - g.mask.length) := by
  unfold parseRegionOptions maskArgs
  refine foldl_capped Globals.mask (parseRegionOption MAX_MASKS MAX_POINTS) _ MAX_MASKS
    ?_ ?_ opts g
  · intro s o a ha
    cases o <;> simp only [Option.some.injEq, reduceCtorEq] at ha
    subst ha
    simp only [parseRegionOption, Globals.maskCount]
    split <;> rfl
  · intro s o ha
    cases o <;> simp only [reduceCtorEq] at ha <;>
      simp only [parseRegionOption] <;> split <;> rfl

theorem parseRegionOptions_point (MAX_MASKS MAX_POINTS : Nat) (opts : List RegionOption)
    (g : Globals) :
    (parseRegionOptions MAX_MASKS MAX_POINTS g opts).point =
      g.point ++ (pointArgs opts).take (MAX_POINTS - g.point.length) := by
  unfold parseRegionOptions pointArgs
  refine foldl_capped Globals.point (parseRegionOption MAX_MASKS MAX_POINTS) _ MAX_POINTS
    ?_ ?_ opts g
  · intro s o a ha
    cases o <;> simp only [Option.some.injEq, reduceCtorEq] at ha
    subst ha
    simp only [parseRegionOption, Globals.pointCount]
    split <;> rfl
  · intro s o ha
    cases o <;> simp only [reduceCtorEq] at ha <;>
      simp only [parseRegionOption] <;> split <;> rfl

theorem parseRegionOptions_wipe (MAX_MASKS MAX_POINTS : Nat) (opts : List RegionOption)
    (g : Globals) :
    (parseRegionOptions MAX_MASKS MAX_POINTS g opts).wipe =
      g.wipe ++ (wipeArgs opts).take (MAX_MASKS - g.wipe.length) := by
  unfold parseRegionOptions wipeArgs
  refine foldl_capped Globals.wipe (parseRegionOption MAX_MASKS MAX_POINTS) _ MAX_MASKS
    ?_ ?_ opts g
  · intro s o a ha
    cases o <;> simp only [Option.some.injEq, reduceCtorEq] at ha
    subst ha
    simp only [parseRegionOption, Globals.wipeCount]
    split <;> rfl
  · intro s o ha
    cases o <;> simp only [reduceCtorEq] at ha <;>
      simp only [parseRegionOption] <;> split <;> rfl

theorem parseRegionOptions_preWipe (MAX_MASKS MAX_POINTS : Nat) (opts : List RegionOption)
    (g : Globals) :
    (parseRegionOptions MAX_MASKS MAX_POINTS g opts).preWipe =
      g.preWipe ++ (preWipeArgs opts).take (MAX_MASKS - g.preWipe.length) := by
  unfold parseRegionOptions preWipeArgs
  refine foldl_capped Globals.preWipe (parseRegionOption MAX_MASKS MAX_POINTS) _ MAX_MASKS
    ?_ ?_ opts g
  · intro s o a ha
    cases o <;> simp only [Option.some.injEq, reduceCtorEq] at ha
    subst ha
    simp only [parseRegionOption, Globals.preWipeCount]
    split <;> rfl
  · intro s o ha
    cases o <;> simp only [reduceCtorEq] at ha <;>
      simp only [parseRegionOption] <;> split <;> rfl

theorem parseRegionOptions_postWipe (MAX_MASKS MAX_POINTS : Nat) (opts : List RegionOption)
    (g : Globals) :
    (parseRegionOptions MAX_MASKS MAX_POINTS g opts).postWipe =
      g.postWipe ++ (postWipeArgs opts).take (MAX_MASKS - g.postWipe.length) := by
  unfold parseRegionOptions postWipeArgs
  refine foldl_capped Globals.postWipe (parseRegionOption MAX_MASKS MAX_POINTS) _ MAX_MASKS
    ?_ ?_ opts g
  · intro s o a ha
    cases o <;> simp only [Option.some.injEq, reduceCtorEq] at ha
    subst ha
    simp only [parseRegionOption, Globals.postWipeCount]
    split <;> rfl
  · intro s o ha
    cases o <;> simp only [reduceCtorEq] at ha <;>
      simp only [parseRegionOption] <;> split <;> rfl

theorem parseRegionOptions_preMask (MAX_MASKS MAX_POINTS : Nat) (opts : List RegionOption)
    (g : Globals) :
    (parseRegionOptions MAX_MASKS MAX_POINTS g opts).preMask =
      g.preMask ++ (preMaskArgs opts).take (MAX_MASKS - g.preMask.length) := by
  unfold parseRegionOptions preMaskArgs
  refine foldl_capped Globals.preMask (parseRegionOption MAX_MASKS MAX_POINTS) _ MAX_MASKS
    ?_ ?_ opts g
  · intro s o a ha
    cases o <;> simp only [Option.some.injEq, reduceCtorEq] at ha
    subst ha
    simp only [parseRegionOption, Globals.preMaskCount]
    split <;> rfl
  · intro s o ha
    cases o <;> simp only [reduceCtorEq] at ha <;>
      simp only [parseRegionOption] <;> split <;> rfl

theorem parseRegionOptions_blackfilterExclude (MAX_MASKS MAX_POINTS : Nat) (opts : List RegionOption)
    (g : Globals) :
    (parseRegionOptions MAX_MASKS MAX_POINTS g opts).blackfilterExclude =
      g.blackfilterExclude ++ (blackfilterExcludeArgs opts).take (MAX_MASKS - g.blackfilterExclude.length) := by
  unfold parseRegionOptions blackfilterExcludeArgs
  refine foldl_capped Globals.blackfilterExclude (parseRegionOption MAX_MASKS MAX_POINTS) _ MAX_MASKS
    ?_ ?_ opts g
  · intro s o a ha
    cases o <;> simp only [Option.some.injEq, reduceCtorEq] at ha
    subst ha
    simp only [parseRegionOption, Globals.blackfilterExcludeCount]
    split <;> rfl
  · intro s o ha
    cases o <;> simp only [reduceCtorEq] at ha <;>
      simp only [parseRegionOption] <;> split <;> rfl


theorem take_of_nil_start {α : Type} (l args : List α) (cap : Nat) (h : l = []) :
    l ++ args.take (cap - l.length) = args.take cap ∧
      (l ++ args.take (cap - l.length)).length = min args.length cap := by
  subst h
  simp [Nat.min_comm]

/-- C21: option parsing that starts with empty region arrays, on any sequence of
region options, for every capacity `MAX_MASKS` and `MAX_POINTS`. Each array
holds the arguments of its own options in the order given, cut off at the
capacity, and its counter is the minimum of the number of such options and the
capacity; parsing never fails (the result is a value for every sequence). -/
theorem C21_region_options_are_capped (MAX_MASKS MAX_POINTS : Nat) (g : Globals)
    (opts : List RegionOption)
    (hstart : g.mask = [] ∧ g.point = [] ∧ g.wipe = [] ∧ g.preWipe = [] ∧ g.postWipe = [] ∧
      g.preMask = [] ∧ g.blackfilterExclude = []) :
    ((parseRegionOptions MAX_MASKS MAX_POINTS g opts).mask = (maskArgs opts).take MAX_MASKS ∧
      (parseRegionOptions MAX_MASKS MAX_POINTS g opts).maskCount =
        min (maskArgs opts).length MAX_MASKS) ∧
    ((parseRegionOptions MAX_MASKS MAX_POINTS g opts).point =
        (pointArgs opts).take MAX_POINTS ∧
      (parseRegionOptions MAX_MASKS MAX_POINTS g opts).pointCount =
        min (pointArgs opts).length MAX_POINTS) ∧
    ((parseRegionOptions MAX_MASKS MAX_POINTS g opts).wipe = (wipeArgs opts).take MAX_MASKS ∧
      (parseRegionOptions MAX_MASKS MAX_POINTS g opts).wipeCount =
        min (wipeArgs opts).length MAX_MASKS) ∧
    ((parseRegionOptions MAX_MASKS MAX_POINTS g opts).preWipe =
        (preWipeArgs opts).take MAX_MASKS ∧
      (parseRegionOptions MAX_MASKS MAX_POINTS g opts).preWipeCount =
        min (preWipeArgs opts).length MAX_MASKS) ∧
    ((parseRegionOptions MAX_MASKS MAX_POINTS g opts).postWipe =
        (postWipeArgs opts).take MAX_MASKS ∧
      (parseRegionOptions MAX_MASKS MAX_POINTS g opts).postWipeCount =
        min (postWipeArgs opts).length MAX_MASKS) ∧
    ((parseRegionOptions MAX_MASKS MAX_POINTS g opts).preMask =
        (preMaskArgs opts).take MAX_MASKS ∧
      (parseRegionOptions MAX_MASKS MAX_POINTS g opts).preMaskCount =
        min (preMaskArgs opts).length MAX_MASKS) ∧
    ((parseRegionOptions MAX_MASKS MAX_POINTS g opts).blackfilterExclude =
        (blackfilterExcludeArgs opts).take MAX_MASKS ∧
      (parseRegionOptions MAX_MASKS MAX_POINTS g opts).blackfilterExcludeCount =
        min (blackfilterExcludeArgs opts).length MAX_MASKS) := by
  obtain ⟨h1, h2, h3, h4, h5, h6, h7⟩ := hstart
  refine ⟨?_, ?_, ?_, ?_, ?_, ?_, ?_⟩
  · rw [Globals.maskCount, parseRegionOptions_mask]
    exact take_of_nil_start _ _ _ h1
  · rw [Globals.pointCount, parseRegionOptions_point]
    exact take_of_nil_start _ _ _ h2
  · rw [Globals.wipeCount, parseRegionOptions_wipe]
    exact take_of_nil_start _ _ _ h3
  · rw [Globals.preWipeCount, parseRegionOptions_preWipe]
    exact take_of_nil_start _ _ _ h4
  · rw [Globals.postWipeCount, parseRegionOptions_postWipe]
    exact take_of_nil_start _ _ _ h5
  · rw [Globals.preMaskCount, parseRegionOptions_preMask]
    exact take_of_nil_start _ _ _ h6
  · rw [Globals.blackfilterExcludeCount, parseRegionOptions_blackfilterExclude]
    exact take_of_nil_start _ _ _ h7

/-- Witness of C21: with a capacity of two masks, three `--mask` options between other
options leave the first two masks, in the order given. -/
theorem C21_region_options_are_capped_witness :
    (parseRegionOptions 2 2 Globals.default
        [RegionOption.mask ⟨1, 1, 2, 2⟩, RegionOption.wipe ⟨0, 0, 9, 9⟩,
         RegionOption.mask ⟨3, 3, 4, 4⟩, RegionOption.mask ⟨5, 5, 6, 6⟩]).mask =
      [⟨1, 1, 2, 2⟩, ⟨3, 3, 4, 4⟩] ∧
    (parseRegionOptions 2 2 Globals.default
        [RegionOption.mask ⟨1, 1, 2, 2⟩, RegionOption.wipe ⟨0, 0, 9, 9⟩,
         RegionOption.mask ⟨3, 3, 4, 4⟩, RegionOption.mask ⟨5, 5, 6, 6⟩]).maskCount = 2 :=
  (C21_region_options_are_capped 2 2 Globals.default
    [RegionOption.mask ⟨1, 1, 2, 2⟩, RegionOption.wipe ⟨0, 0, 9, 9⟩,
     RegionOption.mask ⟨3, 3, 4, 4⟩, RegionOption.mask ⟨5, 5, 6, 6⟩]
    ⟨rfl, rfl, rfl, rfl, rfl, rfl, rfl⟩).1

/-- C24: for every value that `--pre-rotate` or `--post-rotate` is given, the stored
rotation is -90, 0 or 90: it is the value itself if that is -90, 0 or 90, and 0
otherwise. Parsing goes on in both cases, and the quarter-turn count
`rotation / 90` that `flipRotate` receives is -1, 0 or 1. -/
theorem C24_rotation_is_a_quarter_turn (v : Int) (g : Globals) :
    ((parsePreRotate v g).preRotate = if v = -90 ∨ v = 0 ∨ v = 90 then v else 0) ∧
    ((parsePostRotate v g).postRotate = if v = -90 ∨ v = 0 ∨ v = 90 then v else 0) ∧
    ((parsePreRotate v g).preRotate = -90 ∨ (parsePreRotate v g).preRotate = 0 ∨
      (parsePreRotate v g).preRotate = 90) ∧
    ((parsePostRotate v g).postRotate = -90 ∨ (parsePostRotate v g).postRotate = 0 ∨
      (parsePostRotate v g).postRotate = 90) ∧
    (Int.tdiv (parsePreRotate v g).preRotate 90 = -1 ∨
      Int.tdiv (parsePreRotate v g).preRotate 90 = 0 ∨
      Int.tdiv (parsePreRotate v g).preRotate 90 = 1) ∧
    (Int.tdiv (parsePostRotate v g).postRotate 90 = -1 ∨
      Int.tdiv (parsePostRotate v g).postRotate 90 = 0 ∨
      Int.tdiv (parsePostRotate v g).postRotate 90 = 1) := by
  have hcond : (v ≠ 0 ∧ (v.natAbs : Int) ≠ 90) ↔ ¬ (v = -90 ∨ v = 0 ∨ v = 90) := by
    constructor
    · rintro ⟨h0, h90⟩ (h | h | h)
      · exact h90 (by subst h; rfl)
      · exact h0 h
      · exact h90 (by subst h; rfl)
    · intro h
      refine ⟨fun h0 => h (Or.inr (Or.inl h0)), fun h90 => h ?_⟩
      omega
  have hpre : (parsePreRotate v g).preRotate = if v = -90 ∨ v = 0 ∨ v = 90 then v else 0 := by
    unfold parsePreRotate
    by_cases h : v = -90 ∨ v = 0 ∨ v = 90
    · rw [if_neg (fun hc => (hcond.mp hc) h), if_pos h]
    · rw [if_pos (hcond.mpr h), if_neg h]
  have hpost : (parsePostRotate v g).postRotate =
      if v = -90 ∨ v = 0 ∨ v = 90 then v else 0 := by
    unfold parsePostRotate
    by_cases h : v = -90 ∨ v = 0 ∨ v = 90
    · rw [if_neg (fun hc => (hcond.mp hc) h), if_pos h]
    · rw [if_pos (hcond.mpr h), if_neg h]
  have hval : ∀ x : Int, (x = if v = -90 ∨ v = 0 ∨ v = 90 then v else 0) →
      (x = -90 ∨ x = 0 ∨ x = 90) ∧ (Int.tdiv x 90 = -1 ∨ Int.tdiv x 90 = 0 ∨
        Int.tdiv x 90 = 1) := by
    intro x hx
    by_cases h : v = -90 ∨ v = 0 ∨ v = 90
    · rw [if_pos h] at hx
      subst hx
      rcases h with h | h | h <;> subst h <;> decide
    · rw [if_neg h] at hx
      subst hx
      decide
  exact ⟨hpre, hpost, (hval _ hpre).1, (hval _ hpost).1, (hval _ hpre).2, (hval _ hpost).2⟩

/-! ### The wipe of the middle band -/

/-- The wipe list after the layout configuration, lines 1634-1640: in layout DOUBLE
with a middle wipe the band around the middle is put behind the wipes so far. -/
theorem layoutConfig_wipe (g : Globals) (sheet : Image) :
    (layoutConfig g sheet).wipe =
      if g.options.layout = Layout.LAYOUT_DOUBLE ∧ (g.middleWipe.1 > 0 ∨ g.middleWipe.2 > 0) then
        g.wipe ++ [⟨Int.tdiv sheet.width 2 - g.middleWipe.1, 0,
          Int.tdiv sheet.width 2 + g.middleWipe.2, sheet.height - 1⟩]
      else g.wipe := by
  have e1 : ∀ g : Globals, (singlePoint g sheet).wipe = g.wipe :=
    fun g => by unfold singlePoint; split <;> rfl
  have e2 : ∀ (g : Globals) (v : Int), (defaultMaskScanMaximumWidth g v).wipe = g.wipe ∧
      (defaultMaskScanMaximumWidth g v).middleWipe = g.middleWipe :=
    fun g v => by unfold defaultMaskScanMaximumWidth; split <;> exact ⟨rfl, rfl⟩
  have e3 : ∀ (g : Globals) (v : Int), (defaultMaskScanMaximumHeight g v).wipe = g.wipe ∧
      (defaultMaskScanMaximumHeight g v).middleWipe = g.middleWipe :=
    fun g v => by unfold defaultMaskScanMaximumHeight; split <;> exact ⟨rfl, rfl⟩
  have e4 : ∀ g : Globals, (singleBlackfilterExclude g sheet).wipe = g.wipe :=
    fun g => by unfold singleBlackfilterExclude; split <;> rfl
  have e5 : ∀ g : Globals, (singleOutsideBorderscanMask g sheet).wipe = g.wipe :=
    fun g => by unfold singleOutsideBorderscanMask; split <;> rfl
  have e6 : ∀ g : Globals, (doublePoint g sheet).wipe = g.wipe ∧
      (doublePoint g sheet).middleWipe = g.middleWipe :=
    fun g => by unfold doublePoint; split <;> exact ⟨rfl, rfl⟩
  have e7 : ∀ g1 : Globals, g1.wipe = g.wipe → g1.middleWipe = g.middleWipe →
      (doubleMiddleWipe g1 sheet).wipe =
        if g.middleWipe.1 > 0 ∨ g.middleWipe.2 > 0 then
          g.wipe ++ [⟨Int.tdiv sheet.width 2 - g.middleWipe.1, 0,
            Int.tdiv sheet.width 2 + g.middleWipe.2, sheet.height - 1⟩]
        else g.wipe := fun g1 h1 h2 => by
    unfold doubleMiddleWipe
    rw [h2]
    by_cases hc : g.middleWipe.1 > 0 ∨ g.middleWipe.2 > 0
    · rw [if_pos hc, if_pos hc]
      show g1.wipe ++ _ = _
      rw [h1]
    · rw [if_neg hc, if_neg hc]
      exact h1
  have e8 : ∀ g : Globals, (doubleBlackfilterExclude g sheet).wipe = g.wipe :=
    fun g => by unfold doubleBlackfilterExclude; split <;> rfl
  have e9 : ∀ g : Globals, (doubleOutsideBorderscanMask g sheet).wipe = g.wipe :=
    fun g => by unfold doubleOutsideBorderscanMask; split <;> rfl
  have e10 : ∀ g : Globals, (fallbackMaskScanMaximumWidth g sheet).wipe = g.wipe :=
    fun g => by unfold fallbackMaskScanMaximumWidth; split <;> rfl
  have e11 : ∀ g : Globals, (fallbackMaskScanMaximumHeight g sheet).wipe = g.wipe :=
    fun g => by unfold fallbackMaskScanMaximumHeight; split <;> rfl
  simp only [layoutConfig, e11, e10, layoutBranch]
  cases hl : g.options.layout with
  | LAYOUT_NONE => simp
  | LAYOUT_SINGLE => simp [layoutSingle, e5, e4, (e3 _ _).1, (e2 _ _).1, e1]
  | LAYOUT_DOUBLE =>
    simp only [layoutDouble, e9, e8, true_and]
    exact e7 _ (by rw [(e3 _ _).1, (e2 _ _).1, (e6 _).1])
      (by rw [(e3 _ _).2, (e2 _ _).2, (e6 _).2])

/-- The globals that the stages of a sheet see and leave, apart from the mask list,
are those of the layout configuration of that sheet. -/
theorem processStages_cfg [Zero Angle] [Neg Angle] [DecidableEq Angle]
    (env : Env Angle) (nr : Int) (p : Proc) :
    ∃ sheet : Image, (processStages env nr p).g.withoutMask =
      (layoutConfig p.g sheet).withoutMask := by
  have h1 : (stagePreMirror env nr p).g = p.g := by unfold stagePreMirror; split <;> rfl
  have h2 : ∀ q : Proc, (stagePreShift env nr q).g = q.g := fun q => by
    unfold stagePreShift; split <;> rfl
  have h3 : ∀ q : Proc, (stagePreMask env nr q).g = q.g := fun q => by
    unfold stagePreMask; split <;> rfl
  have h4 : ∀ q : Proc, (stageStretch env nr q).g = q.g := fun q => rfl
  have h5 : ∀ q : Proc, (stageSize env nr q).g = q.g := fun q => by
    unfold stageSize; split <;> rfl
  refine ⟨(stageSize env nr (stageStretch env nr (stagePreMask env nr
    (stagePreShift env nr (stagePreMirror env nr p))))).sheet, ?_⟩
  unfold processStages
  have h6 := runStages_cfg env nr (stageLayout (stageSize env nr (stageStretch env nr
    (stagePreMask env nr (stagePreShift env nr (stagePreMirror env nr p))))))
  simp only [Proc.cfg] at h6
  rw [h6]
  simp only [stageLayout, h5, h4, h3, h2, h1]


/-- C25 on the code: in layout DOUBLE with a middle wipe, the processing of a sheet puts
one more entry into the wipe array, whatever the counter is: lines 1634-1640
write `wipe[wipeCount]` and raise the counter without the test against
`MAX_MASKS` that option parsing makes (line 637). With the array full, as
`MAX_MASKS` options `--wipe` or `MAX_MASKS` earlier sheets leave it, the write
goes to index `MAX_MASKS` and the counter exceeds the capacity. -/
theorem C25_middle_wipe_write_is_unchecked [Zero Angle] [Neg Angle] [DecidableEq Angle]
    (env : Env Angle) (nr : Int) (p : Proc) (MAX_MASKS : Nat)
    (hlayout : p.g.options.layout = Layout.LAYOUT_DOUBLE)
    (hmw : p.g.middleWipe.1 > 0 ∨ p.g.middleWipe.2 > 0) :
    (processStages env nr p).g.wipeCount = p.g.wipeCount + 1 ∧
    (processStages env nr p).g.options.layout = Layout.LAYOUT_DOUBLE ∧
    (processStages env nr p).g.middleWipe = p.g.middleWipe ∧
    (p.g.wipeCount = MAX_MASKS → MAX_MASKS < (processStages env nr p).g.wipeCount) := by
  obtain ⟨sheet, hs⟩ := processStages_cfg env nr p
  have hw : (processStages env nr p).g.wipe = (layoutConfig p.g sheet).wipe := by
    have h := congrArg Globals.wipe hs
    simpa only [Globals.withoutMask] using h
  have hst := processStages_static env nr p
  have hcount : (processStages env nr p).g.wipeCount = p.g.wipeCount + 1 := by
    rw [Globals.wipeCount, hw, layoutConfig_wipe, if_pos ⟨hlayout, hmw⟩]
    simp [Globals.wipeCount]
  refine ⟨hcount, ?_, ?_, ?_⟩
  · rw [static_options hst]; exact hlayout
  · have h := congrArg Globals.middleWipe hst
    simpa only [Globals.static] using h
  · intro hfull
    rw [hcount, hfull]
    exact Nat.lt_succ_self _

/-- C25 at a failing input, with two for the capacity `MAX_MASKS`: layout DOUBLE,
`--middle-wipe 10,20` and two `--wipe` options; the processing of the first sheet
leaves three wipes. -/
theorem C25_middle_wipe_write_is_unchecked_witness :
    (sampleProc doubleWipeFullGlobals).g.wipeCount = 2 ∧
    (processStages (sampleEnv [] 0) 1 (sampleProc doubleWipeFullGlobals)).g.wipeCount = 2 + 1 ∧
    2 < (processStages (sampleEnv [] 0) 1 (sampleProc doubleWipeFullGlobals)).g.wipeCount :=
  ⟨rfl,
    (C25_middle_wipe_write_is_unchecked (sampleEnv [] 0) 1 (sampleProc doubleWipeFullGlobals) 2
      rfl (Or.inl (show (10 : Int) > 0 by decide))).1,
    (C25_middle_wipe_write_is_unchecked (sampleEnv [] 0) 1 (sampleProc doubleWipeFullGlobals) 2
      rfl (Or.inl (show (10 : Int) > 0 by decide))).2.2.2 rfl⟩

set_option maxRecDepth 100000 in
/-- C26 at a failing input: layout DOUBLE with `--middle-wipe 10,20`, the patterns
`in%d.pbm` and `out%d.pbm` and two pages of 100 x 200. After the first sheet the
wipe list is the one band (40, 0, 70, 199); after the second sheet it holds the
band twice, because the band of sheet 1 is still in the list when the layout
block of sheet 2 adds its own. -/
theorem C26_second_sheet_has_two_bands :
    (unpaperMain (sampleEnv twoPages 0) doubleWipeGlobals
        ["in%d.pbm", "out%d.pbm"] 1).2.g.wipe = [⟨40, 0, 70, 199⟩] ∧
    processedSheets (unpaperMain (sampleEnv twoPages 0) doubleWipeGlobals
        ["in%d.pbm", "out%d.pbm"] 4).2.log = [1, 2] ∧
    (unpaperMain (sampleEnv twoPages 0) doubleWipeGlobals
        ["in%d.pbm", "out%d.pbm"] 4).2.g.wipe = [⟨40, 0, 70, 199⟩, ⟨40, 0, 70, 199⟩] := by
  decide

/-! ### The scan points of the centering loop and the buffer in test-only runs -/

/-- The centering loop of lines 1857-1859 makes one pass for every entry of the mask
list it is given and leaves the scan points as they are. -/
theorem centerEach_passes (env : Env Angle) (nr : Int) (masks : List Rect) :
    ∀ (i : Nat) (p : Proc), (centerEach env nr i masks p).g = p.g ∧
      ∀ k : Nat, k < masks.length →
        Event.stage nr (Stage.centerMask (i + k)) ∈ (centerEach env nr i masks p).log := by
  intro i p
  refine ⟨centerEach_g env nr masks i p, fun k hk => ?_⟩
  rw [centerEach_log]
  refine List.mem_append_right _ ?_
  simp only [passes, List.mem_map, List.mem_range']
  exact ⟨i + k, ⟨k, hk, by ring⟩, rfl⟩

/-- The centering of a sheet that is excluded from the mask scan: there is one pass
for every mask, also for a mask whose index is not below `pointCount`; the scan
points and the masks are the same before and after. -/
theorem stageCenter_without_scan (env : Env Angle) (nr : Int) (p : Proc)
    (hscan : isExcluded nr p.g.options.noMaskScanMultiIndex p.g.options.ignoreMultiIndex = true)
    (hcenter :
      isExcluded nr p.g.options.noMaskCenterMultiIndex p.g.options.ignoreMultiIndex = false) :
    (stageCenter env nr p).g = p.g ∧
    ∀ i : Nat, i < p.g.maskCount →
      Event.stage nr (Stage.centerMask i) ∈ (stageCenter env nr p).log := by
  have hd : stageDetectMasks env nr p = p := by
    unfold stageDetectMasks
    simp [hscan]
  unfold stageCenter
  simp only [hcenter, Bool.not_false, if_true, hd]
  refine ⟨(centerEach_passes env nr p.g.mask 0 p).1, fun i hi => ?_⟩
  have h := (centerEach_passes env nr p.g.mask 0 p).2 i hi
  simpa using h

set_option maxRecDepth 100000 in
/-- C27 at a failing input: layout SINGLE, `--no-mask-scan=1` and two masks from
`--mask`, one input page. The layout block derives one scan point, the mask list
keeps the two masks of the command line, and the centering loop makes a pass
for mask 1, for which no scan point exists: `point[1]` is read though
`pointCount` is 1. -/
theorem C27_centering_reads_a_missing_point :
    (unpaperMain (sampleEnv onePage 0) twoMasksGlobals ["in%d.pbm", "out%d.pbm"] 4).1 =
      Exit.returned 0 ∧
    (unpaperMain (sampleEnv onePage 0) twoMasksGlobals ["in%d.pbm", "out%d.pbm"] 4).2.g.point =
      [⟨50, 100⟩] ∧
    (unpaperMain (sampleEnv onePage 0) twoMasksGlobals ["in%d.pbm", "out%d.pbm"] 4).2.g.mask =
      [⟨10, 10, 50, 50⟩, ⟨60, 10, 90, 50⟩] ∧
    loggedStages 1
      (unpaperMain (sampleEnv onePage 0) twoMasksGlobals ["in%d.pbm", "out%d.pbm"] 4).2.log =
      [Stage.stretch, Stage.preWipe, Stage.preBorder, Stage.blackfilter, Stage.noisefilter,
       Stage.blurfilter, Stage.applyMasks, Stage.grayfilter, Stage.deskew 0, Stage.deskew 1,
       Stage.centerMask 0, Stage.centerMask 1, Stage.wipe, Stage.border, Stage.borderScan,
       Stage.alignMask 0, Stage.postWipe, Stage.postBorder, Stage.postStretch] := by
  decide

/-- The end of a processed sheet, lines 1987-2019: the buffer is released where
output is written, and is kept where it is not (`--test-only`). -/
theorem writeOutput_sheet (env : Env Angle) (nr : Int) (names : List String) (p : Proc)
    (st : RunState) :
    (writeOutput env nr names p st).sheet = if p.g.writeoutput = true then none else some p.sheet := by
  unfold writeOutput
  split <;> rfl

set_option maxRecDepth 100000 in
/-- C29 at a failing input: `--test-only` with the patterns `in%d.pbm` and `out%d.pbm`
and two pages of different size. Sheets 1 and 2 are processed, one buffer is
allocated, for sheet 1; it still exists when the pass of sheet 1 is over, and
sheet 2 is composited onto it. -/
theorem C29_test_only_keeps_the_buffer :
    (unpaperMain (sampleEnv twoSizes 0) testOnlyGlobals
        ["in%d.pbm", "out%d.pbm"] 1).2.sheet.isSome = true ∧
    processedSheets (unpaperMain (sampleEnv twoSizes 0) testOnlyGlobals
        ["in%d.pbm", "out%d.pbm"] 4).2.log = [1, 2] ∧
    sheetAllocs (unpaperMain (sampleEnv twoSizes 0) testOnlyGlobals
        ["in%d.pbm", "out%d.pbm"] 4).2.log = [(1, 100, 200)] ∧
    (unpaperMain (sampleEnv twoSizes 0) testOnlyGlobals
        ["in%d.pbm", "out%d.pbm"] 4).1 = Exit.returned 0 := by
  decide

/-! ### The slots of the input pages and the slices of the output pages -/

/-- C28: input page `j` is handed to `centerImage` with the slot of left edge
`w * j / inputCount`, width `w / inputCount` and height `h`. For a width that is
not negative and one or two input pages, the slot lies inside the columns
`0 .. w - 1`, the slots of different pages have no column in common, and for
`w = p * inputCount` the slot of page `j` is the columns `j * p .. (j + 1) * p - 1`. -/
theorem C28_input_slots (env : Env Angle) (page sheet : Image) (st : RunState) (j : Nat)
    (hsheet : st.sheet = some sheet) (hw : 0 ≤ st.w)
    (hc : st.g.inputCount = 1 ∨ st.g.inputCount = 2) (hj : j < st.g.inputCount) :
    placePage env j page st = Step.ok () { st with sheet := some (sheet.withPix
      (env.centerImagePix page (slotLeft st j) 0 (slotWidth st) st.h sheet)) } ∧
    slotLeft st j = Int.tdiv (st.w * j) st.g.inputCount ∧
    slotWidth st = Int.tdiv st.w st.g.inputCount ∧
    (∀ x : Int, inSlot st j x → 0 ≤ x ∧ x ≤ st.w - 1) ∧
    (∀ (k : Nat) (x : Int), k < st.g.inputCount → k ≠ j → inSlot st j x → ¬ inSlot st k x) ∧
    (∀ p : Int, st.w = p * st.g.inputCount →
      ∀ x : Int, inSlot st j x ↔ j * p ≤ x ∧ x ≤ (j + 1) * p - 1) := by
  refine ⟨?_, rfl, rfl, ?_, ?_, ?_⟩
  · unfold placePage
    rw [hsheet]
    rfl
  · intro x hx
    unfold inSlot slotLeft slotWidth at hx
    rcases hc with hc | hc
    · have hj0 : j = 0 := by omega
      subst hj0
      rw [hc] at hx
      simp only [Nat.cast_zero, mul_zero, Nat.cast_one, Int.tdiv_one, Int.zero_tdiv] at hx
      omega
    · rw [hc] at hx
      have hj01 : j = 0 ∨ j = 1 := by omega
      rcases hj01 with h0 | h1
      · subst h0
        rw [Int.tdiv_eq_ediv hw (by norm_num)] at hx
        simp only [Nat.cast_zero, mul_zero, Int.zero_tdiv] at hx
        push_cast at hx
        omega
      · subst h1
        rw [Int.tdiv_eq_ediv hw (by norm_num),
          Int.tdiv_eq_ediv (by push_cast; omega) (by norm_num)] at hx
        push_cast at hx
        omega
  · intro k x hk hkj hx hx2
    unfold inSlot slotLeft slotWidth at hx hx2
    rcases hc with hc | hc
    · omega
    · rw [hc] at hx hx2
      have hj01 : j = 0 ∨ j = 1 := by omega
      have hk01 : k = 0 ∨ k = 1 := by omega
      rcases hj01 with h0 | h1 <;> rcases hk01 with k0 | k1
      · omega
      · subst h0; subst k1
        rw [Int.tdiv_eq_ediv hw (by norm_num)] at hx hx2
        rw [Int.tdiv_eq_ediv (by push_cast; omega) (by norm_num)] at hx2
        simp only [Nat.cast_zero, mul_zero, Int.zero_tdiv] at hx
        push_cast at hx hx2
        omega
      · subst h1; subst k0
        rw [Int.tdiv_eq_ediv hw (by norm_num)] at hx hx2
        rw [Int.tdiv_eq_ediv (by push_cast; omega) (by norm_num)] at hx
        simp only [Nat.cast_zero, mul_zero, Int.zero_tdiv] at hx2
        push_cast at hx hx2
        omega
      · omega
  · intro p hp x
    unfold inSlot slotLeft slotWidth
    rcases hc with hc | hc
    · have hj0 : j = 0 := by omega
      subst hj0
      rw [hc] at hp ⊢
      simp only [Nat.cast_zero, mul_zero, Nat.cast_one, Int.tdiv_one, Int.zero_tdiv, mul_one,
        zero_mul, zero_add, one_mul] at hp ⊢
      omega
    · rw [hc] at hp ⊢
      have hj01 : j = 0 ∨ j = 1 := by omega
      push_cast at hp
      rcases hj01 with h0 | h1
      · subst h0
        rw [Int.tdiv_eq_ediv hw (by norm_num)]
        simp only [Nat.cast_zero, mul_zero, Int.zero_tdiv, zero_mul, zero_add, one_mul]
        push_cast
        omega
      · subst h1
        rw [Int.tdiv_eq_ediv hw (by norm_num),
          Int.tdiv_eq_ediv (by push_cast; omega) (by norm_num)]
        push_cast
        omega

/-- C28 at the second page of a sheet of 200 columns with two input pages: the slot
is the columns 100 to 199. -/
theorem C28_input_slots_witness :
    slotState.sheet = some sampleSheet ∧ (0 : Int) ≤ slotState.w ∧
    slotState.g.inputCount = 2 ∧
    slotLeft slotState 1 = 100 ∧ slotWidth slotState = 100 ∧
    (∀ x : Int, inSlot slotState 1 x ↔ ((1 : Nat) : Int) * 100 ≤ x ∧
      x ≤ (((1 : Nat) : Int) + 1) * 100 - 1) :=
  ⟨rfl, by decide, rfl, by decide, by decide,
    (C28_input_slots (sampleEnv [] 0) sampleSheet sampleSheet slotState 1 rfl (by decide)
      (Or.inr rfl) (by decide)).2.2.2.2.2 100 (by decide)⟩

/-- The page buffer of output page `j` has the width `sheet->width / outputCount`
and the height of the sheet. -/
theorem outputPage_size (env : Env Angle) (g : Globals) (sheet : Image) (j : Nat) :
    (outputPage env g sheet j).width = sliceWidth g sheet ∧
    (outputPage env g sheet j).height = sheet.height :=
  ⟨rfl, rfl⟩

/-- The content of output page `j`: its pixel `(x, y)` is the pixel of the sheet in
column `page->width * j + x` and row `y`. -/
theorem outputPage_pix (env : Env Angle) (g : Globals) (sheet : Image) (j : Nat)
    (hW : 0 ≤ sheet.width) (hc : g.outputCount = 1 ∨ g.outputCount = 2)
    (hj : j < g.outputCount) (x y : Int) (hx0 : 0 ≤ x) (hx : x < sliceWidth g sheet)
    (hy0 : 0 ≤ y) (hy : y < sheet.height) :
    (outputPage env g sheet j).pix x y = sheet.pix (sliceStart g sheet j + x) y := by
  have hpw : 0 ≤ sliceWidth g sheet := le_trans hx0 (le_of_lt hx)
  have hle : sliceStart g sheet j + sliceWidth g sheet ≤ sheet.width := by
    unfold sliceStart
    unfold sliceWidth at hx hpw ⊢
    rcases hc with hc | hc
    · have hj0 : j = 0 := by omega
      subst hj0
      rw [hc]
      simp
    · rw [hc] at hx hpw ⊢
      rw [Int.tdiv_eq_ediv hW (by norm_num)] at hx hpw ⊢
      have hj01 : j = 0 ∨ j = 1 := by omega
      push_cast at hx hpw ⊢
      rcases hj01 with h0 | h1
      · subst h0
        simp only [Nat.cast_zero, mul_zero, zero_add]
        omega
      · subst h1
        simp only [Nat.cast_one, mul_one]
        omega
  have hs0 : 0 ≤ sliceStart g sheet j := by
    unfold sliceStart
    exact mul_nonneg hpw (Int.ofNat_nonneg j)
  simp only [outputPage, copy_rectangle, clip_rectangle, Image.withPix, initImage, POINT_ORIGIN,
    sub_zero]
  have e : Int.tdiv sheet.width g.outputCount = sliceWidth g sheet := rfl
  have e2 : sliceWidth g sheet * j = sliceStart g sheet j := rfl
  simp only [e, e2]
  rw [max_eq_left hs0, max_eq_left (le_refl 0), zero_add]
  rw [if_pos]
  refine ⟨hx0, hx, hy0, hy, by omega, ?_, hy0, ?_⟩
  · rw [le_min_iff]; constructor <;> omega
  · rw [le_min_iff]; constructor <;> omega

/-- C22 as the code has it: for a sheet of width `W` that is not negative and one or
two output pages, page `j` has width `W / outputCount` and the height of the
sheet and holds the sheet from column `j * (W / outputCount)` on; the slices have
no column in common; every column below `outputCount * (W / outputCount)` lies in
exactly one slice and the columns from there on lie in none. That bound is `W`
for one output page and for an even width, and `W - 1` for two output pages and
an odd width. -/
theorem C22_output_slices (env : Env Angle) (g : Globals) (sheet : Image)
    (hW : 0 ≤ sheet.width) (hc : g.outputCount = 1 ∨ g.outputCount = 2) :
    (∀ j : Nat, j < g.outputCount →
      (outputPage env g sheet j).width = Int.tdiv sheet.width g.outputCount ∧
      (outputPage env g sheet j).height = sheet.height ∧
      sliceStart g sheet j = j * Int.tdiv sheet.width g.outputCount ∧
      (∀ x y : Int, 0 ≤ x → x < Int.tdiv sheet.width g.outputCount → 0 ≤ y → y < sheet.height →
        (outputPage env g sheet j).pix x y = sheet.pix (sliceStart g sheet j + x) y ∧
        inSlice g sheet j (sliceStart g sheet j + x))) ∧
    (∀ (j k : Nat) (x : Int), j < g.outputCount → k < g.outputCount → j ≠ k →
      inSlice g sheet j x → ¬ inSlice g sheet k x) ∧
    (∀ x : Int, 0 ≤ x → x < g.outputCount * Int.tdiv sheet.width g.outputCount →
      ∃ j : Nat, j < g.outputCount ∧ inSlice g sheet j x ∧
        ∀ k : Nat, k < g.outputCount → inSlice g sheet k x → k = j) ∧
    (∀ x : Int, g.outputCount * Int.tdiv sheet.width g.outputCount ≤ x →
      ∀ j : Nat, j < g.outputCount → ¬ inSlice g sheet j x) ∧
    (g.outputCount * Int.tdiv sheet.width g.outputCount =
      if g.outputCount = 2 ∧ sheet.width % 2 = 1 then sheet.width - 1 else sheet.width) := by
  have hdiv : Int.tdiv sheet.width 2 = sheet.width / 2 := Int.tdiv_eq_ediv hW (by norm_num)
  refine ⟨?_, ?_, ?_, ?_, ?_⟩
  · intro j hj
    refine ⟨rfl, rfl, ?_, ?_⟩
    · unfold sliceStart sliceWidth
      ring
    · intro x y hx0 hx hy0 hy
      refine ⟨outputPage_pix env g sheet j hW hc hj x y hx0 hx hy0 hy, ?_⟩
      unfold inSlice
      have e : sliceWidth g sheet = Int.tdiv sheet.width g.outputCount := rfl
      omega
  · intro j k x hj hk hjk hx hx2
    unfold inSlice sliceStart sliceWidth at hx hx2
    rcases hc with hc | hc
    · omega
    · rw [hc] at hx hx2
      push_cast at hx hx2
      rw [hdiv] at hx hx2
      have hj01 : j = 0 ∨ j = 1 := by omega
      have hk01 : k = 0 ∨ k = 1 := by omega
      rcases hj01 with h0 | h1 <;> rcases hk01 with k0 | k1
      · omega
      · subst h0; subst k1
        simp only [Nat.cast_zero, mul_zero, Nat.cast_one, mul_one] at hx hx2
        omega
      · subst h1; subst k0
        simp only [Nat.cast_zero, mul_zero, Nat.cast_one, mul_one] at hx hx2
        omega
      · omega
  · intro x hx0 hx
    rcases hc with hc | hc
    · rw [hc] at hx
      simp only [Nat.cast_one, Int.tdiv_one, one_mul] at hx
      refine ⟨0, by omega, ?_, fun k hk _ => by omega⟩
      unfold inSlice sliceStart sliceWidth
      rw [hc]
      simp only [Nat.cast_one, Int.tdiv_one, Nat.cast_zero, mul_zero, zero_add]
      exact ⟨hx0, hx⟩
    · rw [hc] at hx
      push_cast at hx
      rw [hdiv] at hx
      by_cases hlow : x < sheet.width / 2
      · refine ⟨0, by omega, ?_, ?_⟩
        · unfold inSlice sliceStart sliceWidth
          rw [hc]
          push_cast
          rw [hdiv]
          simp only [Nat.cast_zero, mul_zero, zero_add]
          exact ⟨hx0, hlow⟩
        · intro k hk hin
          unfold inSlice sliceStart sliceWidth at hin
          rw [hc] at hin
          push_cast at hin
          rw [hdiv] at hin
          have hk01 : k = 0 ∨ k = 1 := by omega
          rcases hk01 with k0 | k1
          · exact k0
          · subst k1
            simp only [Nat.cast_one, mul_one] at hin
            omega
      · refine ⟨1, by omega, ?_, ?_⟩
        · unfold inSlice sliceStart sliceWidth
          rw [hc]
          push_cast
          rw [hdiv]
          simp only [Nat.cast_one, mul_one]
          omega
        · intro k hk hin
          unfold inSlice sliceStart sliceWidth at hin
          rw [hc] at hin
          push_cast at hin
          rw [hdiv] at hin
          have hk01 : k = 0 ∨ k = 1 := by omega
          rcases hk01 with k0 | k1
          · subst k0
            simp only [Nat.cast_zero, mul_zero, zero_add] at hin
            omega
          · exact k1
  · intro x hx j hj hin
    unfold inSlice sliceStart sliceWidth at hin
    rcases hc with hc | hc
    · rw [hc] at hx hin
      have hj0 : j = 0 := by omega
      subst hj0
      simp only [Nat.cast_one, Int.tdiv_one, one_mul, Nat.cast_zero, mul_zero, zero_add] at hx hin
      omega
    · rw [hc] at hx hin
      push_cast at hx hin
      rw [hdiv] at hx hin
      have hj01 : j = 0 ∨ j = 1 := by omega
      rcases hj01 with h0 | h1
      · subst h0
        simp only [Nat.cast_zero, mul_zero, zero_add] at hin
        omega
      · subst h1
        simp only [Nat.cast_one, mul_one] at hin
        omega
  · rcases hc with hc | hc
    · rw [hc]
      simp
    · rw [hc]
      push_cast
      rw [hdiv]
      by_cases hodd : sheet.width % 2 = 1
      · rw [if_pos ⟨trivial, hodd⟩]
        omega
      · rw [if_neg (fun h => hodd h.2)]
        omega

/-- C22 at two output pages and a sheet of 100 columns: the pages are 50 columns wide
and column 70 lies in slice 1 only. -/
theorem C22_output_slices_witness :
    (0 : Int) ≤ sampleSheet.width ∧ twoOutputsGlobals.outputCount = 2 ∧
    (outputPage (sampleEnv [] 0) twoOutputsGlobals sampleSheet 1).width = 50 ∧
    ∃ j : Nat, j < twoOutputsGlobals.outputCount ∧ inSlice twoOutputsGlobals sampleSheet j 70 ∧
      ∀ k : Nat, k < twoOutputsGlobals.outputCount →
        inSlice twoOutputsGlobals sampleSheet k 70 → k = j :=
  ⟨by decide, rfl, by decide,
    (C22_output_slices (sampleEnv [] 0) twoOutputsGlobals sampleSheet (by decide)
      (Or.inr rfl)).2.2.1 70 (by decide) (by decide)⟩

/-- C22 as stated fails for an odd width: with two output pages and a sheet of 101
columns the pages are 50 columns wide, slice 0 begins at column 0 and slice 1 at
column 50, and column 100 of the sheet lies in neither. -/
theorem C22_last_column_of_an_odd_sheet_is_dropped :
    oddSheet.width = 101 ∧ twoOutputsGlobals.outputCount = 2 ∧
    (outputPage (sampleEnv [] 0) twoOutputsGlobals oddSheet 0).width = 50 ∧
    (outputPage (sampleEnv [] 0) twoOutputsGlobals oddSheet 1).width = 50 ∧
    sliceStart twoOutputsGlobals oddSheet 0 = 0 ∧
    sliceStart twoOutputsGlobals oddSheet 1 = 50 ∧
    ¬ inSlice twoOutputsGlobals oddSheet 0 100 ∧
    ¬ inSlice twoOutputsGlobals oddSheet 1 100 := by
  decide

/-! ### The size of the sheet during the stages -/

/-- A pass of the deskew loop leaves the size of the sheet as it is. -/
theorem deskewMask_size [Zero Angle] [Neg Angle] [DecidableEq Angle]
    (env : Env Angle) (g : Globals) (sheet : Image) (m : Rect) :
    (deskewMask env g sheet m).size = sheet.size := by
  unfold deskewMask
  by_cases h : env.detectRotation g sheet m ≠ 0
  · rw [if_pos h]
    rfl
  · rw [if_neg h]

theorem deskewLoop_size [Zero Angle] [Neg Angle] [DecidableEq Angle]
    (env : Env Angle) (g : Globals) (masks : List Rect) :
    ∀ sheet : Image, (deskewLoop env g sheet masks).size = sheet.size := by
  induction masks with
  | nil => intro sheet; rfl
  | cons m rest ih =>
    intro sheet
    simp only [deskewLoop]
    rw [ih, deskewMask_size]

theorem centerEach_size (env : Env Angle) (nr : Int) (masks : List Rect) :
    ∀ (i : Nat) (p : Proc), (centerEach env nr i masks p).sheet.size = p.sheet.size := by
  induction masks with
  | nil => intro i p; rfl
  | cons m rest ih =>
    intro i p
    simp only [centerEach]
    rw [ih]
    rfl

theorem alignEach_size (env : Env Angle) (nr : Int) (pairs : List (Rect × Rect)) :
    ∀ (i : Nat) (p : Proc), (alignEach env nr i pairs p).sheet.size = p.sheet.size := by
  induction pairs with
  | nil => intro i p; rfl
  | cons m rest ih =>
    intro i p
    obtain ⟨am, om⟩ := m
    simp only [alignEach]
    rw [ih]
    split <;> rfl

theorem stageDetectMasks_sheet (env : Env Angle) (nr : Int) (p : Proc) :
    (stageDetectMasks env nr p).sheet = p.sheet := by
  unfold stageDetectMasks
  split <;> rfl

/-- The stages from the pre-wipe to the deskewing leave the size of the sheet as it
is. -/
theorem stagesToDeskew_size [Zero Angle] [Neg Angle] [DecidableEq Angle]
    (env : Env Angle) (nr : Int) (p : Proc) :
    (stagesToDeskew env nr p).sheet.size = p.sheet.size := by
  have h1 : ∀ q : Proc, (stagePreWipe env nr q).sheet.size = q.sheet.size := fun q => by
    unfold stagePreWipe; split <;> rfl
  have h2 : ∀ q : Proc, (stagePreBorder env nr q).sheet.size = q.sheet.size := fun q => by
    unfold stagePreBorder; split <;> rfl
  have h3 : ∀ q : Proc, (stageBlackfilter env nr q).sheet.size = q.sheet.size := fun q => by
    unfold stageBlackfilter; split <;> rfl
  have h4 : ∀ q : Proc, (stageNoisefilter env nr q).sheet.size = q.sheet.size := fun q => by
    unfold stageNoisefilter; split <;> rfl
  have h5 : ∀ q : Proc, (stageBlurfilter env nr q).sheet.size = q.sheet.size := fun q => by
    unfold stageBlurfilter; split <;> rfl
  have h6 : ∀ q : Proc, (stageApplyMasks env nr q).sheet.size = q.sheet.size := fun q => by
    unfold stageApplyMasks; split <;> rfl
  have h7 : ∀ q : Proc, (stageGrayfilter env nr q).sheet.size = q.sheet.size := fun q => by
    unfold stageGrayfilter; split <;> rfl
  have h8 : ∀ q : Proc, (stageDeskew env nr q).sheet.size = q.sheet.size := fun q => by
    unfold stageDeskew
    split
    · simp only [deskewEach_sheet, deskewLoop_size, stageDetectMasks_sheet]
    · rfl
  simp only [stagesToDeskew, stagesToGrayfilter, stagesToMaskScan, h8, h7, h6,
    stageDetectMasks_sheet, h5, h4, h3, h2, h1]

/-- The stages from the pre-wipe to the post-shift leave the size of the sheet as it
is. -/
theorem stagesToPostShift_size [Zero Angle] [Neg Angle] [DecidableEq Angle]
    (env : Env Angle) (nr : Int) (p : Proc) :
    (stagesToPostShift env nr p).sheet.size = p.sheet.size := by
  have h1 : ∀ q : Proc, (stageCenter env nr q).sheet.size = q.sheet.size := fun q => by
    unfold stageCenter
    split
    · simp only [centerEach_size, stageDetectMasks_sheet]
    · rfl
  have h2 : ∀ q : Proc, (stageWipe env nr q).sheet.size = q.sheet.size := fun q => by
    unfold stageWipe; split <;> rfl
  have h3 : ∀ q : Proc, (stageBorder env nr q).sheet.size = q.sheet.size := fun q => by
    unfold stageBorder; split <;> rfl
  have h4 : ∀ q : Proc, (stageBorderScan env nr q).sheet.size = q.sheet.size := fun q => by
    unfold stageBorderScan
    split
    · simp only [alignEach_size]
      rfl
    · rfl
  have h5 : ∀ q : Proc, (stagePostWipe env nr q).sheet.size = q.sheet.size := fun q => by
    unfold stagePostWipe; split <;> rfl
  have h6 : ∀ q : Proc, (stagePostBorder env nr q).sheet.size = q.sheet.size := fun q => by
    unfold stagePostBorder; split <;> rfl
  have h7 : ∀ q : Proc, (stagePostMirror env nr q).sheet.size = q.sheet.size := fun q => by
    unfold stagePostMirror; split <;> rfl
  have h8 : ∀ q : Proc, (stagePostShift env nr q).sheet.size = q.sheet.size := fun q => by
    unfold stagePostShift; split <;> rfl
  simp only [stagesToPostShift, h8, h7, h6, h5, h4, h3, h2, h1, stagesToDeskew_size]

/-- The globals that the stages up to the post-shift leave, apart from the mask list. -/
theorem stagesToPostShift_cfg [Zero Angle] [Neg Angle] [DecidableEq Angle]
    (env : Env Angle) (nr : Int) (p : Proc) : (stagesToPostShift env nr p).cfg = p.cfg := by
  simp only [stagesToPostShift, stagePostShift_cfg, stagePostMirror_cfg, stagePostBorder_cfg,
    stagePostWipe_cfg, stageBorderScan_cfg, stageBorder_cfg, stageWipe_cfg, stageCenter_cfg,
    stagesToDeskew_cfg]

/-- The stages before the stretch block leave the size of the sheet and the globals
as they are. -/
theorem preStages_size (env : Env Angle) (nr : Int) (p : Proc) :
    (stagePreMask env nr (stagePreShift env nr (stagePreMirror env nr p))).sheet.size =
      p.sheet.size ∧
    (stagePreMask env nr (stagePreShift env nr (stagePreMirror env nr p))).g = p.g := by
  have h1 : ∀ q : Proc, (stagePreMirror env nr q).sheet.size = q.sheet.size ∧
      (stagePreMirror env nr q).g = q.g := fun q => by
    unfold stagePreMirror; split <;> exact ⟨rfl, rfl⟩
  have h2 : ∀ q : Proc, (stagePreShift env nr q).sheet.size = q.sheet.size ∧
      (stagePreShift env nr q).g = q.g := fun q => by
    unfold stagePreShift; split <;> exact ⟨rfl, rfl⟩
  have h3 : ∀ q : Proc, (stagePreMask env nr q).sheet.size = q.sheet.size ∧
      (stagePreMask env nr q).g = q.g := fun q => by
    unfold stagePreMask; split <;> exact ⟨rfl, rfl⟩
  exact ⟨by rw [(h3 _).1, (h2 _).1, (h1 _).1], by rw [(h3 _).2, (h2 _).2, (h1 _).2]⟩

theorem stageStretch_size (env : Env Angle) (nr : Int) (q : Proc) :
    (stageStretch env nr q).sheet.size = stretchedSize env.zoom q.g.stretchSize q.sheet.size :=
  rfl

theorem stageSize_size (env : Env Angle) (nr : Int) (q : Proc) :
    (stageSize env nr q).sheet.size = resizedSize q.g.size q.sheet.size := by
  unfold stageSize resizedSize
  by_cases h : q.g.size.width ≠ -1 ∨ q.g.size.height ≠ -1
  · rw [if_pos h, if_pos h]
    rfl
  · rw [if_neg h, if_neg h]

theorem stagePostRotate_size (env : Env Angle) (nr : Int) (q : Proc) :
    (stagePostRotate env nr q).sheet.size = rotatedSize q.g.postRotate q.sheet.size := by
  unfold stagePostRotate rotatedSize
  by_cases h : q.g.postRotate ≠ 0
  · rw [if_pos h, if_pos h]
    rfl
  · rw [if_neg h, if_neg h]

theorem stagePostStretch_size (env : Env Angle) (nr : Int) (q : Proc) :
    (stagePostStretch env nr q).sheet.size =
      stretchedSize env.postZoom q.g.postStretchSize q.sheet.size :=
  rfl

theorem stagePostSize_size (env : Env Angle) (nr : Int) (q : Proc) :
    (stagePostSize env nr q).sheet.size = resizedSize q.g.postSize q.sheet.size := by
  unfold stagePostSize resizedSize
  by_cases h : q.g.postSize.width ≠ -1 ∨ q.g.postSize.height ≠ -1
  · rw [if_pos h, if_pos h]
    rfl
  · rw [if_neg h, if_neg h]

/-- C23 as the code has it. The pre-mirror, the pre-shift and the pre-mask keep the
width and the height of the sheet, and so do all stages from the layout
configuration to the post-shift. The stretch block gives the sheet the stretch
size (its own width or height where none is given) times the zoom factor, the
size block the given size, the post-rotate block exchanges width and height, and
post-stretch and post-size do as stretch and size do, with the sizes and the
zoom factor of the post-options. The size at the output split is the size at
the allocation taken through these five blocks, in this order, with the options
as they are at the start of the processing (`finalSize`). With none of the four
sizes set, no post-rotation and zoom factors that leave the width and the height
of the sheet as they are, that is the size the sheet was allocated with. -/
theorem C23_size_changes_only_by_resampling [Zero Angle] [Neg Angle] [DecidableEq Angle]
    (env : Env Angle) (nr : Int) (p : Proc) :
    (stagePreMask env nr (stagePreShift env nr (stagePreMirror env nr p))).sheet.size =
      p.sheet.size ∧
    (∀ q : Proc, (stagesToPostShift env nr (stageLayout q)).sheet.size = q.sheet.size) ∧
    (∀ q : Proc, (stageStretch env nr q).sheet.size =
      (env.zoom (if q.g.stretchSize.width ≠ -1 then q.g.stretchSize.width else q.sheet.width),
       env.zoom (if q.g.stretchSize.height ≠ -1 then q.g.stretchSize.height
         else q.sheet.height))) ∧
    (∀ q : Proc, (stageSize env nr q).sheet.size =
      if q.g.size.width ≠ -1 ∨ q.g.size.height ≠ -1 then
        (if q.g.size.width ≠ -1 then q.g.size.width else q.sheet.width,
         if q.g.size.height ≠ -1 then q.g.size.height else q.sheet.height)
      else q.sheet.size) ∧
    (∀ q : Proc, (stagePostRotate env nr q).sheet.size =
      if q.g.postRotate ≠ 0 then (q.sheet.height, q.sheet.width) else q.sheet.size) ∧
    (∀ q : Proc, (stagePostStretch env nr q).sheet.size =
      (env.postZoom (if q.g.postStretchSize.width ≠ -1 then q.g.postStretchSize.width
         else q.sheet.width),
       env.postZoom (if q.g.postStretchSize.height ≠ -1 then q.g.postStretchSize.height
         else q.sheet.height))) ∧
    (∀ q : Proc, (stagePostSize env nr q).sheet.size =
      if q.g.postSize.width ≠ -1 ∨ q.g.postSize.height ≠ -1 then
        (if q.g.postSize.width ≠ -1 then q.g.postSize.width else q.sheet.width,
         if q.g.postSize.height ≠ -1 then q.g.postSize.height else q.sheet.height)
      else q.sheet.size) ∧
    (processStages env nr p).sheet.size = finalSize env p.g p.sheet.size ∧
    (p.g.stretchSize = ⟨-1, -1⟩ → p.g.size = ⟨-1, -1⟩ → p.g.postRotate = 0 →
      p.g.postStretchSize = ⟨-1, -1⟩ → p.g.postSize = ⟨-1, -1⟩ →
      env.zoom p.sheet.width = p.sheet.width → env.zoom p.sheet.height = p.sheet.height →
      env.postZoom p.sheet.width = p.sheet.width →
      env.postZoom p.sheet.height = p.sheet.height →
      (processStages env nr p).sheet.size = p.sheet.size) := by
  have hmid : ∀ q : Proc, (stagesToPostShift env nr (stageLayout q)).sheet.size = q.sheet.size :=
    fun q => by rw [stagesToPostShift_size]; rfl
  have hchain : processStages env nr p =
      stagePostSize env nr (stagePostStretch env nr (stagePostRotate env nr
        (stagesToPostShift env nr (stageLayout (stageSize env nr (stageStretch env nr
          (stagePreMask env nr (stagePreShift env nr (stagePreMirror env nr p))))))))) := rfl
  obtain ⟨a, ha⟩ : ∃ a, a = stagePreMask env nr (stagePreShift env nr (stagePreMirror env nr p)) :=
    ⟨_, rfl⟩
  have hasz : a.sheet.size = p.sheet.size := by rw [ha]; exact (preStages_size env nr p).1
  have hag : a.g = p.g := by rw [ha]; exact (preStages_size env nr p).2
  obtain ⟨b, hb⟩ : ∃ b, b = stageSize env nr (stageStretch env nr a) := ⟨_, rfl⟩
  have hbg : b.g = p.g := by
    rw [hb, ← hag]
    unfold stageSize
    split <;> rfl
  have hbsz : b.sheet.size =
      resizedSize p.g.size (stretchedSize env.zoom p.g.stretchSize p.sheet.size) := by
    rw [hb, stageSize_size, stageStretch_size, hasz]
    show resizedSize a.g.size (stretchedSize env.zoom a.g.stretchSize p.sheet.size) = _
    rw [hag]
  obtain ⟨c, hc⟩ : ∃ c, c = stagesToPostShift env nr (stageLayout b) := ⟨_, rfl⟩
  have hcsz : c.sheet.size = b.sheet.size := by rw [hc, hmid]
  have hcst : c.g.static = p.g.static := by
    rw [hc, static_of_withoutMask (stagesToPostShift_cfg env nr (stageLayout b))]
    show (layoutConfig b.g b.sheet).static = _
    rw [layoutConfig_static, hbg]
  have hcrot : c.g.postRotate = p.g.postRotate := by
    have h := congrArg Globals.postRotate hcst
    simpa only [Globals.static] using h
  have hcps : c.g.postStretchSize = p.g.postStretchSize := by
    have h := congrArg Globals.postStretchSize hcst
    simpa only [Globals.static] using h
  have hcpz : c.g.postSize = p.g.postSize := by
    have h := congrArg Globals.postSize hcst
    simpa only [Globals.static] using h
  have hfinal : (processStages env nr p).sheet.size = finalSize env p.g p.sheet.size := by
    rw [hchain, ← ha, ← hb, ← hc, stagePostSize_size, stagePostStretch_size,
      stagePostRotate_size, hcsz, hbsz]
    have e1 : (stagePostStretch env nr (stagePostRotate env nr c)).g.postSize = p.g.postSize := by
      rw [show (stagePostStretch env nr (stagePostRotate env nr c)).g =
        (stagePostRotate env nr c).g from rfl]
      have e : (stagePostRotate env nr c).g = c.g := by
        unfold stagePostRotate
        split <;> rfl
      rw [e, hcpz]
    have e2 : (stagePostRotate env nr c).g.postStretchSize = p.g.postStretchSize := by
      have e : (stagePostRotate env nr c).g = c.g := by
        unfold stagePostRotate
        split <;> rfl
      rw [e, hcps]
    rw [e1, e2, hcrot]
    rfl
  refine ⟨(preStages_size env nr p).1, hmid, fun q => stageStretch_size env nr q,
    fun q => stageSize_size env nr q, fun q => stagePostRotate_size env nr q,
    fun q => stagePostStretch_size env nr q, fun q => stagePostSize_size env nr q, hfinal, ?_⟩
  intro hstretch hsize hrot hpstretch hpsize hzw hzh hpw hph
  rw [hfinal]
  simp only [finalSize, resizedSize, stretchedSize, rotatedSize, hstretch, hsize, hrot,
    hpstretch, hpsize, ne_eq, not_true_eq_false, or_self, if_false, Image.size, hzw, hzh, hpw,
    hph]

/-- C23 at a sheet of 100 x 80 pixels. With `--stretch 60,40 --size 50,30
--post-rotate 90` the stretch block leaves 60 x 40, the size block 50 x 30 and
the post-rotation 30 x 50, which is the size at the output split; with a
pre-shift and a post-shift and nothing else the size stays 100 x 80. -/
theorem C23_size_changes_only_by_resampling_witness :
    (sampleProc resampleGlobals).sheet.size = (100, 80) ∧
    finalSize (sampleEnv [] 0) resampleGlobals (100, 80) = (30, 50) ∧
    (processStages (sampleEnv [] 0) 1 (sampleProc resampleGlobals)).sheet.size = (30, 50) ∧
    shiftGlobals.stretchSize = ⟨-1, -1⟩ ∧ shiftGlobals.postRotate = 0 ∧
    (processStages (sampleEnv [] 0) 1 (sampleProc shiftGlobals)).sheet.size = (100, 80) :=
  ⟨rfl, by decide,
    ((C23_size_changes_only_by_resampling (sampleEnv [] 0) 1
      (sampleProc resampleGlobals)).2.2.2.2.2.2.2.1).trans (by decide),
    rfl, rfl,
    (C23_size_changes_only_by_resampling (sampleEnv [] 0) 1 (sampleProc shiftGlobals)).2.2.2.2.2.2.2.2
      rfl rfl rfl rfl rfl rfl rfl rfl rfl⟩

set_option maxRecDepth 100000 in
/-- C23 as stated fails: for a sheet that is allocated with 100 x 80 pixels, `--size
50,60` leaves a sheet of 50 x 60 (and the locals `w` and `h` are 50 and 60), and
`--post-rotate 90` leaves a sheet of 80 x 100. -/
theorem C23_size_and_post_rotate_change_the_sheet :
    (sampleProc sizeGlobals).sheet.size = (100, 80) ∧
    (processStages (sampleEnv [] 0) 1 (sampleProc sizeGlobals)).sheet.size = (50, 60) ∧
    (stageSize (sampleEnv [] 0) 1 (sampleProc sizeGlobals)).w = 50 ∧
    (stageSize (sampleEnv [] 0) 1 (sampleProc sizeGlobals)).h = 60 ∧
    (sampleProc postRotateGlobals).sheet.size = (100, 80) ∧
    (processStages (sampleEnv [] 0) 1 (sampleProc postRotateGlobals)).sheet.size = (80, 100) := by
  decide

/-! ### Name resolution and the files it tests -/

theorem resolves_refl (st : RunState) : Resolves st st [] :=
  ⟨rfl, rfl, by simp, by simp⟩

theorem resolves_trans {st st1 st2 : RunState} {L1 L2 : List Event}
    (h1 : Resolves st st1 L1) (h2 : Resolves st1 st2 L2) : Resolves st st2 (L1 ++ L2) := by
  obtain ⟨a1, a2, a3, a4⟩ := h1
  obtain ⟨b1, b2, b3, b4⟩ := h2
  refine ⟨b1.trans a1, b2.trans a2, by rw [b3, a3, List.append_assoc], ?_⟩
  intro e he
  rcases List.mem_append.mp he with h | h
  · exact a4 e h
  · exact b4 e h

/-- A change of the counters, of `optind` or of the globals resolves nothing. -/
theorem resolves_of_eq {st st1 s : RunState} {L : List Event} (h : Resolves st st1 L)
    (hw : s.written = st1.written) (hs : s.sheet = st1.sheet) (hl : s.log = st1.log) :
    Resolves st s L :=
  ⟨hw.trans h.1, hs.trans h.2.1, hl.trans h.2.2.1, h.2.2.2⟩

theorem mem_outputNames_append_left {l1 l2 : List Event} {n : String}
    (h : n ∈ outputNames l1) : n ∈ outputNames (l1 ++ l2) := by
  rw [outputNames_append]
  exact List.mem_append_left _ h

theorem ext_refl (st : RunState) : Ext st st := ⟨⟨[], by simp⟩, fun h => h⟩

theorem ext_trans {st st1 st2 : RunState} (h1 : Ext st st1) (h2 : Ext st1 st2) :
    Ext st st2 := by
  obtain ⟨⟨L1, a1⟩, a2⟩ := h1
  obtain ⟨⟨L2, b1⟩, b2⟩ := h2
  exact ⟨⟨L1 ++ L2, by rw [b1, a1, List.append_assoc]⟩, fun h => b2 (a2 h)⟩

theorem ext_of_resolves {st s : RunState} {L : List Event} (h : Resolves st s L) :
    Ext st s := by
  obtain ⟨a1, -, a3, -⟩ := h
  refine ⟨⟨L, a3⟩, ?_⟩
  intro hw n hn
  have hn1 : n ∈ st.writtenNames := by
    unfold RunState.writtenNames at hn ⊢
    rw [a1] at hn
    exact hn
  rw [a3]
  exact mem_outputNames_append_left (hw n hn1)

/-- The test of an input name, lines 1099-1109: where control goes on the file
exists; "unable to open file" names the file that was tested. -/
theorem checkInputFile_found (env : Env Angle) (nr : Int) (name : Option String)
    (st : RunState) :
    match checkInputFile env nr name st with
    | Step.ok name1 s => name1 = name ∧ s = st ∧
        ∀ n, name = some n → stat env st.written n = true
    | Step.sheetEnd s => s = st.setEndSheet (nr - 1) ∧
        ∃ n, name = some n ∧ stat env st.written n = false
    | Step.fatal e s => s = st ∧
        ∃ n, name = some n ∧ e = Fatal.unableToOpen n ∧ stat env st.written n = false
    | Step.undefined => False := by
  cases name with
  | none => simp [checkInputFile]
  | some n =>
    by_cases h1 : stat env st.written n = true <;> by_cases h2 : st.g.options.endSheet = -1 <;>
      simp [checkInputFile, h1, h2]

/-- The resolution of one input slot: it logs the slot and nothing else, where
control goes on the name that was resolved is the name of a file, and "unable to
open file" names the name that was resolved. -/
theorem resolveInputSlot_resolves (env : Env Angle) (argv : List String) (nr : Int)
    (iw : Bool) (i : Nat) (st : RunState) :
    match resolveInputSlot env argv nr iw i st with
    | Step.ok _ s => s.g = st.g ∧ ∃ L, Resolves st s L ∧ outputNames L = [] ∧
        ∀ n ∈ inputNames L, stat env st.written n = true
    | Step.sheetEnd s => ∃ L, Resolves st s L ∧ outputNames L = []
    | Step.fatal e s => s.g = st.g ∧ ∃ L, Resolves st s L ∧ outputNames L = [] ∧
        ∀ n ∈ inputNames L, e = Fatal.unableToOpen n
    | Step.undefined => True := by
  have key : ∀ (name : Option String) (st0 : RunState), st0.g = st.g →
      Resolves st st0 [Event.inputSlot nr i name] →
      match checkInputFile env nr name st0 with
      | Step.ok _ s => s.g = st.g ∧ ∃ L, Resolves st s L ∧ outputNames L = [] ∧
          ∀ n ∈ inputNames L, stat env st.written n = true
      | Step.sheetEnd s => ∃ L, Resolves st s L ∧ outputNames L = []
      | Step.fatal e s => s.g = st.g ∧ ∃ L, Resolves st s L ∧ outputNames L = [] ∧
          ∀ n ∈ inputNames L, e = Fatal.unableToOpen n
      | Step.undefined => True := by
    intro name st0 hg hr
    have := checkInputFile_found env nr name st0
    revert this
    cases checkInputFile env nr name st0 with
    | ok name1 st1 =>
      rintro ⟨-, rfl, hs⟩
      refine ⟨hg, _, hr, by simp [outputNames], ?_⟩
      intro n hn
      cases name with
      | none => simp [inputNames] at hn
      | some m =>
        simp only [inputNames, List.filterMap_cons, List.filterMap_nil,
          List.mem_singleton] at hn
        rw [hn, ← hr.1]
        exact hs m rfl
    | sheetEnd st1 =>
      rintro ⟨rfl, -⟩
      exact ⟨_, resolves_of_eq hr rfl rfl rfl, by simp [outputNames]⟩
    | fatal e st1 =>
      rintro ⟨rfl, m, rfl, rfl, -⟩
      refine ⟨hg, _, hr, by simp [outputNames], ?_⟩
      intro n hn
      simp only [inputNames, List.filterMap_cons, List.filterMap_nil,
        List.mem_singleton] at hn
      rw [hn]
    | undefined => intro h; exact h.elim
  have one : ∀ (e : Event) (s : RunState), s.written = st.written → s.sheet = st.sheet →
      s.log = st.log → e.isSlot = true → Resolves st (s.emit e) [e] := by
    intro e s h1 h2 h3 h4
    refine ⟨h1, h2, by simp [RunState.emit, h3], ?_⟩
    intro e1 he1
    rw [List.mem_singleton.mp he1]
    exact h4
  by_cases hr : isInMultiIndex st.inputNr st.g.options.replaceBlank = true
  · simp only [resolveInputSlot, hr, if_true]
    exact key none _ rfl (one _ _ rfl rfl rfl rfl)
  by_cases hi : isInMultiIndex st.inputNr st.g.options.insertBlank = true
  · simp only [resolveInputSlot, hr, hi, if_true, if_false]
    exact key none _ rfl (one _ _ rfl rfl rfl rfl)
  by_cases hw : iw = true
  · cases ha : argv[st.optind]? with
    | none => simp [resolveInputSlot, hr, hi, hw, ha]
    | some pattern =>
      simp only [resolveInputSlot, hr, hi, hw, ha, if_true, if_false]
      exact key (some (env.sprintf pattern st.inputNr))
        (st.nextInput.emit (Event.inputSlot nr i (some (env.sprintf pattern st.inputNr))))
        rfl (one _ _ rfl rfl rfl rfl)
  by_cases hl : st.optind ≥ argv.length
  · by_cases he : st.g.options.endSheet = -1
    · simp only [resolveInputSlot, hr, hi, hw, hl, he, if_true, if_false]
      exact ⟨[], resolves_of_eq (resolves_refl st) rfl rfl rfl, rfl⟩
    · simp only [resolveInputSlot, hr, hi, hw, hl, he, if_true, if_false]
      exact ⟨rfl, [], resolves_refl st, rfl, by simp [inputNames]⟩
  · cases ha : argv[st.optind]? with
    | none => exact absurd (List.getElem?_eq_none_iff.mp ha) hl
    | some name =>
      simp only [resolveInputSlot, hr, hi, hw, hl, ha, if_true, if_false]
      exact key (some name) (st.nextArg.emit (Event.inputSlot nr i (some name))) rfl
        (one _ _ rfl rfl rfl rfl)

/-- The resolution of the input slots of a sheet: it logs input slots and nothing
else; where all slots are resolved every name resolved is the name of a file,
and where it fails with "unable to open file" the file named is the only name
resolved that is not the name of a file. -/
theorem resolveInputs_resolves (env : Env Angle) (argv : List String) (nr : Int) (iw : Bool)
    (k : Nat) :
    ∀ (i : Nat) (names : List (Option String)) (st : RunState),
      match resolveInputs env argv nr iw k i names st with
      | Step.ok _ s => s.g = st.g ∧ ∃ L, Resolves st s L ∧ outputNames L = [] ∧
          ∀ n ∈ inputNames L, stat env st.written n = true
      | Step.sheetEnd s => ∃ L, Resolves st s L ∧ outputNames L = []
      | Step.fatal e s => s.g = st.g ∧ ∃ L, Resolves st s L ∧ outputNames L = [] ∧
          ∀ n ∈ inputNames L, stat env st.written n = false → e = Fatal.unableToOpen n
      | Step.undefined => True := by
  induction k with
  | zero =>
    intro i names st
    exact ⟨rfl, [], resolves_refl st, rfl, by simp [inputNames]⟩
  | succ k ih =>
    intro i names st
    have h := resolveInputSlot_resolves env argv nr iw i st
    simp only [resolveInputs]
    revert h
    cases resolveInputSlot env argv nr iw i st with
    | ok name st1 =>
      rintro ⟨hg, L1, hr1, ho1, hi1⟩
      have h2 := ih (i + 1) (names ++ [name]) st1
      revert h2
      simp only []
      cases resolveInputs env argv nr iw k (i + 1) (names ++ [name]) st1 with
      | ok names2 st2 =>
        rintro ⟨hg2, L2, hr2, ho2, hi2⟩
        refine ⟨hg2.trans hg, L1 ++ L2, resolves_trans hr1 hr2,
          by rw [outputNames_append, ho1, ho2]; rfl, ?_⟩
        intro n hn
        rw [inputNames_append] at hn
        rcases List.mem_append.mp hn with h3 | h3
        · exact hi1 n h3
        · rw [← hr1.1]; exact hi2 n h3
      | sheetEnd st2 =>
        rintro ⟨L2, hr2, ho2⟩
        exact ⟨L1 ++ L2, resolves_trans hr1 hr2, by rw [outputNames_append, ho1, ho2]; rfl⟩
      | fatal e st2 =>
        rintro ⟨hg2, L2, hr2, ho2, hi2⟩
        refine ⟨hg2.trans hg, L1 ++ L2, resolves_trans hr1 hr2,
          by rw [outputNames_append, ho1, ho2]; rfl, ?_⟩
        intro n hn hmiss
        rw [inputNames_append] at hn
        rcases List.mem_append.mp hn with h3 | h3
        · rw [hi1 n h3] at hmiss
          cases hmiss
        · exact hi2 n h3 (by rw [hr1.1]; exact hmiss)
      | undefined => intro _; trivial
    | sheetEnd st1 => intro h; exact h
    | fatal e st1 =>
      rintro ⟨hg, L, hr, ho, hi⟩
      exact ⟨hg, L, hr, ho, fun n hn _ => hi n hn⟩
    | undefined => intro h; exact h

/-- The test of an output name, lines 1132-1137. -/
theorem checkOutputFile_found (env : Env Angle) (name : String) (st : RunState) :
    match checkOutputFile env name st with
    | Step.ok name1 s => name1 = name ∧ s = st ∧
        (st.g.overwrite = false → stat env st.written name = false)
    | Step.sheetEnd _ => False
    | Step.fatal e s => s = st ∧ e = Fatal.outputPresent name ∧ st.g.overwrite = false ∧
        stat env st.written name = true
    | Step.undefined => False := by
  by_cases hov : st.g.overwrite = true <;> by_cases hf : stat env st.written name = true <;>
    simp [checkOutputFile, hov, hf]

/-- The resolution of one output slot: it logs the slot and nothing else; where
control goes on and overwriting is not permitted the name is not the name of a
file, and "already present" names the name that was resolved. -/
theorem resolveOutputSlot_resolves (env : Env Angle) (argv : List String) (nr : Int)
    (ow : Bool) (i : Nat) (st : RunState) :
    match resolveOutputSlot env argv nr ow i st with
    | Step.ok name s => s.g = st.g ∧ Resolves st s [Event.outputSlot nr i name] ∧
        (st.g.overwrite = false → stat env st.written name = false)
    | Step.sheetEnd _ => False
    | Step.fatal e s => s.g = st.g ∧ ∃ L, Resolves st s L ∧ inputNames L = [] ∧
        ∀ n ∈ outputNames L, e = Fatal.outputPresent n
    | Step.undefined => True := by
  have key : ∀ (name : String) (st0 : RunState), st0.g = st.g →
      Resolves st st0 [Event.outputSlot nr i name] →
      match checkOutputFile env name st0 with
      | Step.ok name1 s => s.g = st.g ∧ Resolves st s [Event.outputSlot nr i name1] ∧
          (st.g.overwrite = false → stat env st.written name1 = false)
      | Step.sheetEnd _ => False
      | Step.fatal e s => s.g = st.g ∧ ∃ L, Resolves st s L ∧ inputNames L = [] ∧
          ∀ n ∈ outputNames L, e = Fatal.outputPresent n
      | Step.undefined => True := by
    intro name st0 hg hr
    have := checkOutputFile_found env name st0
    revert this
    cases checkOutputFile env name st0 with
    | ok name1 st1 =>
      rintro ⟨rfl, rfl, hs⟩
      refine ⟨hg, hr, ?_⟩
      intro hov
      rw [← hr.1]
      exact hs (by rw [hg]; exact hov)
    | sheetEnd st1 => intro h; exact h
    | fatal e st1 =>
      rintro ⟨rfl, rfl, -, -⟩
      refine ⟨hg, _, hr, by simp [inputNames], ?_⟩
      intro n hn
      simp only [outputNames, List.filterMap_cons, List.filterMap_nil,
        List.mem_singleton] at hn
      rw [hn]
    | undefined => intro h; exact h.elim
  have one : ∀ (e : Event) (s : RunState), s.written = st.written → s.sheet = st.sheet →
      s.log = st.log → e.isSlot = true → Resolves st (s.emit e) [e] := by
    intro e s h1 h2 h3 h4
    refine ⟨h1, h2, by simp [RunState.emit, h3], ?_⟩
    intro e1 he1
    rw [List.mem_singleton.mp he1]
    exact h4
  by_cases hw : ow = true
  · cases ha : argv[st.optind]? with
    | none => simp [resolveOutputSlot, hw, ha]
    | some pattern =>
      simp only [resolveOutputSlot, hw, ha, if_true]
      exact key _ _ rfl (one _ _ rfl rfl rfl rfl)
  by_cases hl : st.optind ≥ argv.length
  · simp only [resolveOutputSlot, hw, hl, if_true, if_false, Bool.false_eq_true]
    exact ⟨by trivial, [], resolves_refl st, rfl, by simp [outputNames]⟩
  · cases ha : argv[st.optind]? with
    | none => exact absurd (List.getElem?_eq_none_iff.mp ha) hl
    | some name =>
      simp only [resolveOutputSlot, hw, hl, ha, if_true, if_false, Bool.false_eq_true]
      exact key _ _ rfl (one _ _ rfl rfl rfl rfl)

/-- The resolution of the output slots of a sheet: it logs output slots and nothing
else; the names it returns are the names it logged; where all slots are
resolved and overwriting is not permitted no name resolved is the name of a
file, and where it fails with "already present" the file named is the only name
resolved that is the name of a file. -/
theorem resolveOutputs_resolves (env : Env Angle) (argv : List String) (nr : Int) (ow : Bool)
    (k : Nat) :
    ∀ (i : Nat) (names : List String) (st : RunState),
      match resolveOutputs env argv nr ow k i names st with
      | Step.ok outs s => s.g = st.g ∧ ∃ L, Resolves st s L ∧ inputNames L = [] ∧
          outs = names ++ outputNames L ∧
          (st.g.overwrite = false → ∀ n ∈ outputNames L, stat env st.written n = false)
      | Step.sheetEnd _ => False
      | Step.fatal e s => s.g = st.g ∧ ∃ L, Resolves st s L ∧ inputNames L = [] ∧
          (st.g.overwrite = false → ∀ n ∈ outputNames L, stat env st.written n = true →
            e = Fatal.outputPresent n)
      | Step.undefined => True := by
  induction k with
  | zero =>
    intro i names st
    exact ⟨rfl, [], resolves_refl st, rfl, by simp [outputNames], by simp [outputNames]⟩
  | succ k ih =>
    intro i names st
    have h := resolveOutputSlot_resolves env argv nr ow i st
    simp only [resolveOutputs]
    revert h
    cases resolveOutputSlot env argv nr ow i st with
    | ok name st1 =>
      rintro ⟨hg, hr1, hs1⟩
      have h2 := ih (i + 1) (names ++ [name]) st1
      revert h2
      simp only []
      cases resolveOutputs env argv nr ow k (i + 1) (names ++ [name]) st1 with
      | ok names2 st2 =>
        rintro ⟨hg2, L2, hr2, hi2, ho2, hs2⟩
        refine ⟨hg2.trans hg, _, resolves_trans hr1 hr2,
          by rw [inputNames_append, hi2]; simp [inputNames], ?_, ?_⟩
        · rw [ho2, outputNames_append]
          simp [outputNames]
        · intro hov n hn
          rw [outputNames_append] at hn
          rcases List.mem_append.mp hn with h3 | h3
          · simp only [outputNames, List.filterMap_cons, List.filterMap_nil,
              List.mem_singleton] at h3
            rw [h3]
            exact hs1 hov
          · rw [← hr1.1]
            exact hs2 (by rw [hg]; exact hov) n h3
      | sheetEnd st2 => intro h2; exact h2
      | fatal e st2 =>
        rintro ⟨hg2, L2, hr2, hi2, hs2⟩
        refine ⟨hg2.trans hg, _, resolves_trans hr1 hr2,
          by rw [inputNames_append, hi2]; simp [inputNames], ?_⟩
        intro hov n hn hpres
        rw [outputNames_append] at hn
        rcases List.mem_append.mp hn with h3 | h3
        · simp only [outputNames, List.filterMap_cons, List.filterMap_nil,
            List.mem_singleton] at h3
          rw [h3, hs1 hov] at hpres
          cases hpres
        · exact hs2 (by rw [hg]; exact hov) n h3 (by rw [hr1.1]; exact hpres)
      | undefined => intro _; trivial
    | sheetEnd st1 => intro h; exact h
    | fatal e st1 =>
      rintro ⟨hg, L, hr, hi, hs⟩
      exact ⟨hg, L, hr, hi, fun _ n hn _ => hs n hn⟩
    | undefined => intro h; exact h

/-! ### A pass for a sheet that is not selected -/

theorem sheetEnd_goes_on (argv : List String) (iw ow : Bool) (P : RunState → Prop)
    (st : RunState) (h1 : P st) (h2 : P st.rewindArgs) :
    match sheetEnd argv iw ow st with
    | Iter.next s => P s
    | Iter.stop s => P s
    | Iter.fatal _ _ => False
    | Iter.undefined => False := by
  unfold sheetEnd
  by_cases c1 : st.optind ≥ argv.length ∧ (!iw) = true
  · rw [if_pos c1]
    exact h1
  · rw [if_neg c1]
    by_cases c2 : iw = true ∧ ow = true
    · rw [if_pos c2]
      exact h2
    · rw [if_neg c2]
      exact h1

theorem passGoesOn_of_eq {env : Env Angle} {nr : Int} {st s s1 : RunState}
    (h : PassGoesOn env nr st s) (hg : s1.g = s.g) (hw : s1.written = s.written)
    (hs : s1.sheet = s.sheet) (hl : s1.log = s.log) : PassGoesOn env nr st s1 := by
  obtain ⟨L, hr, h1, h2⟩ := h
  refine ⟨L, resolves_of_eq hr hw hs hl, ?_, h2⟩
  intro n hn hm
  rw [hg]
  exact h1 n hn hm

/-- A pass of the sheet loop for a sheet that is not selected (excluded, or not in
the set of `--sheet`) resolves names and does nothing else: nothing is loaded,
no buffer is allocated, no stage runs and nothing is saved. Its name tests are
those of a selected sheet: a pass that goes on has found every input name it
resolved, unless it fixed the end sheet, and no output name it resolved if
overwriting is not permitted; a missing input with an end sheet set is "unable to
open file" and an output that is present is "already present". -/
theorem unselected_pass_resolves [Zero Angle] [Neg Angle] [DecidableEq Angle]
    (env : Env Angle) (argv : List String) (nr : Int) (st : RunState)
    (hsel : sheetSelected st.g nr = false) :
    match sheetIteration env argv nr st with
    | Iter.next s => PassGoesOn env nr st s
    | Iter.stop s => PassGoesOn env nr st s
    | Iter.fatal e s => PassFails env st e s
    | Iter.undefined => True := by
  have outs : ∀ (iw : Bool) (names : List (Option String)) (st2 : RunState) (L1 : List Event),
      st2.g = st.g → Resolves st st2 L1 → outputNames L1 = [] →
      (∀ n ∈ inputNames L1, stat env st.written n = true) →
      match outputsAndProcess env argv nr iw names st2 with
      | Iter.next s => PassGoesOn env nr st s
      | Iter.stop s => PassGoesOn env nr st s
      | Iter.fatal e s => PassFails env st e s
      | Iter.undefined => True := by
    intro iw names st2 L1 hg hr1 ho1 hi1
    have noMiss : ∀ (L2 : List Event), inputNames L2 = [] →
        ∀ n ∈ inputNames (L1 ++ L2), stat env st.written n = false → False := by
      intro L2 hi2 n hn hm
      rw [inputNames_append, hi2, List.append_nil] at hn
      rw [hi1 n hn] at hm
      cases hm
    by_cases hlen : st2.optind ≥ argv.length
    · simp only [outputsAndProcess, hlen, if_true]
      refine ⟨L1, hr1, ?_, ?_⟩
      · intro n hn hm
        exact (noMiss [] rfl n (by simpa using hn) hm).elim
      · intro _ n hn
        rw [ho1] at hn
        cases hn
    cases ha : argv[st2.optind]? with
    | none => simp only [outputsAndProcess, hlen, ha, if_false]
    | some arg =>
      have h1 := resolveOutputs_resolves env argv nr (st2.g.multisheets && hasPlaceholder arg)
        st2.g.outputCount 0 [] st2
      simp only [outputsAndProcess, hlen, ha, if_false]
      revert h1
      cases resolveOutputs env argv nr (st2.g.multisheets && hasPlaceholder arg)
        st2.g.outputCount 0 [] st2 with
      | ok outputFileNames st3 =>
        rintro ⟨hg3, L2, hr2, hi2, -, hs2⟩
        simp only []
        have hg4 : (if (st2.g.multisheets && hasPlaceholder arg) = true then st3.nextArg
            else st3).g = st.g := by
          split
          · exact hg3.trans hg
          · exact hg3.trans hg
        have hns : ¬ ((isInMultiIndex nr (if (st2.g.multisheets && hasPlaceholder arg) = true
            then st3.nextArg else st3).g.options.sheetMultiIndex &&
            !isInMultiIndex nr (if (st2.g.multisheets && hasPlaceholder arg) = true
            then st3.nextArg else st3).g.options.excludeMultiIndex) = true) := by
          rw [hg4]
          unfold sheetSelected at hsel
          rw [hsel]
          simp
        rw [if_neg hns]
        have hgo : PassGoesOn env nr st st3 := by
          refine ⟨L1 ++ L2, resolves_trans hr1 hr2, ?_, ?_⟩
          · intro n hn hm
            exact (noMiss L2 hi2 n hn hm).elim
          · intro hov n hn
            rw [outputNames_append, ho1, List.nil_append] at hn
            rw [← hr1.1]
            exact hs2 (by rw [hg]; exact hov) n hn
        have := sheetEnd_goes_on argv iw (st2.g.multisheets && hasPlaceholder arg)
          (PassGoesOn env nr st)
          (if (st2.g.multisheets && hasPlaceholder arg) = true then st3.nextArg else st3)
          (by
            split
            · exact passGoesOn_of_eq hgo rfl rfl rfl rfl
            · exact hgo)
          (by
            split
            · exact passGoesOn_of_eq hgo rfl rfl rfl rfl
            · exact passGoesOn_of_eq hgo rfl rfl rfl rfl)
        revert this
        cases sheetEnd argv iw (st2.g.multisheets && hasPlaceholder arg)
          (if (st2.g.multisheets && hasPlaceholder arg) = true then st3.nextArg else st3) with
        | next s => intro h; exact h
        | stop s => intro h; exact h
        | fatal e s => intro h; exact h.elim
        | undefined => intro h; exact h.elim
      | sheetEnd st3 => intro h; exact h.elim
      | fatal e st3 =>
        rintro ⟨hg3, L2, hr2, hi2, hs2⟩
        refine ⟨L1 ++ L2, resolves_trans hr1 hr2, ?_, ?_⟩
        · intro n hn hm
          exact (noMiss L2 hi2 n hn hm).elim
        · intro hov n hn hp
          rw [outputNames_append, ho1, List.nil_append] at hn
          exact hs2 (by rw [hg]; exact hov) n hn (by rw [hr1.1]; exact hp)
      | undefined => intro _; trivial
  have body : ∀ iw : Bool,
      match sheetBody env argv nr iw st with
      | Iter.next s => PassGoesOn env nr st s
      | Iter.stop s => PassGoesOn env nr st s
      | Iter.fatal e s => PassFails env st e s
      | Iter.undefined => True := by
    intro iw
    have h1 := resolveInputs_resolves env argv nr iw st.g.inputCount 0 [] st
    have hc := resolveInputs_cases env argv nr iw st.g.inputCount 0 [] st
    simp only [sheetBody]
    revert h1 hc
    cases resolveInputs env argv nr iw st.g.inputCount 0 [] st with
    | ok ins st1 =>
      rintro ⟨hg1, L1, hr1, ho1, hi1⟩ -
      simp only []
      refine outs iw ins _ L1 ?_ ?_ ho1 hi1
      · split
        · exact hg1
        · exact hg1
      · split
        · exact resolves_of_eq hr1 rfl rfl rfl
        · exact hr1
    | sheetEnd st1 =>
      rintro ⟨L1, hr1, ho1⟩ ⟨he1, he2, -⟩
      have hgo : PassGoesOn env nr st st1 := by
        refine ⟨L1, hr1, fun _ _ _ => ⟨he1, he2⟩, ?_⟩
        intro _ n hn
        rw [ho1] at hn
        cases hn
      have := sheetEnd_goes_on argv iw false (PassGoesOn env nr st) st1 hgo
        (passGoesOn_of_eq hgo rfl rfl rfl rfl)
      revert this
      simp only []
      cases sheetEnd argv iw false st1 with
      | next s => intro h; exact h
      | stop s => intro h; exact h
      | fatal e s => intro h; exact h.elim
      | undefined => intro h; exact h.elim
    | fatal e st1 =>
      rintro ⟨-, L1, hr1, ho1, hi1⟩ he
      refine ⟨L1, hr1, fun n hn hm => ⟨he, hi1 n hn hm⟩, ?_⟩
      intro _ n hn
      rw [ho1] at hn
      cases hn
    | undefined => intro _ _; trivial
  unfold sheetIteration
  by_cases hm : st.g.multisheets = true
  · rw [if_pos hm]
    cases ha : argv[st.optind]? with
    | none => trivial
    | some arg => exact body (hasPlaceholder arg)
  · rw [if_neg hm]
    exact body false

/-- A pass that fixes the end sheet at a sheet other than sheet 0 is the last pass of
the run: the loop returns 0 in the state the pass ends in. -/
theorem pass_with_end_sheet_is_last [Zero Angle] [Neg Angle] [DecidableEq Angle]
    (env : Env Angle) (argv : List String) (nr : Int) (st s : RunState) (hnr : nr ≠ 0)
    (he : st.g.options.endSheet = -1) (hs : s.g.options.endSheet = nr - 1)
    (hit : sheetIteration env argv nr st = Iter.next s ∨
      sheetIteration env argv nr st = Iter.stop s) :
    ∀ fuel, sheetLoop env argv (fuel + 2) nr st = (Exit.returned 0, s) := by
  intro fuel
  rcases hit with h | h
  · rw [sheetLoop_next env argv (fuel + 1) nr st s (Or.inl he) h]
    apply sheetLoop_done
    rw [hs]
    intro hc
    rcases hc with h4 | h4 <;> omega
  · simp only [sheetLoop, he, true_or, if_true, h]

/-! ### The log and the files along a run -/

theorem grows_refl (st : RunState) : Grows st st := ⟨[], by simp, by simp⟩

theorem grows_trans {st st1 st2 : RunState} (h1 : Grows st st1) (h2 : Grows st1 st2) :
    Grows st st2 := by
  obtain ⟨L1, a1, a2⟩ := h1
  obtain ⟨L2, b1, b2⟩ := h2
  refine ⟨L1 ++ L2, by rw [b1, a1, List.append_assoc], ?_⟩
  intro e he
  rcases List.mem_append.mp he with h | h
  · exact a2 e h
  · exact b2 e h

theorem grows_of_work {nr : Int} {st st1 : RunState} (h : SheetWork nr st st1) :
    Grows st st1 := by
  obtain ⟨-, -, -, -, L, a5, a6⟩ := h
  exact ⟨L, a5, fun e he => (a6 e he).2.2⟩

theorem grows_emit (st : RunState) (e : Event) (h : e.isSlot = false) :
    Grows st (st.emit e) :=
  ⟨[e], rfl, by
    intro e1 he1
    rw [List.mem_singleton.mp he1]
    exact h⟩

theorem sameResolution_refl (a : RunState) : SameResolution a a :=
  ⟨rfl, rfl, rfl, rfl, rfl, rfl⟩

theorem sameResolution_symm {a b : RunState} (h : SameResolution a b) : SameResolution b a :=
  ⟨h.inputNr.symm, h.outputNr.symm, h.optind.symm, h.globals.symm, h.inputs.symm,
    h.outputs.symm⟩

theorem sameResolution_trans {a b c : RunState} (h1 : SameResolution a b)
    (h2 : SameResolution b c) : SameResolution a c :=
  ⟨h1.inputNr.trans h2.inputNr, h1.outputNr.trans h2.outputNr, h1.optind.trans h2.optind,
    h1.globals.trans h2.globals, h1.inputs.trans h2.inputs, h1.outputs.trans h2.outputs⟩

theorem sameResolution_of_work {nr : Int} {st st1 : RunState} (h : SheetWork nr st st1) :
    SameResolution st st1 := by
  obtain ⟨a1, a2, a3, a4, L, a5, a6⟩ := h
  refine ⟨a1.symm, a2.symm, a3.symm, by rw [a4], ?_, ?_⟩
  · rw [a5, inputSlots_append, inputSlots_of_not_slot L (fun e he => (a6 e he).2.2),
      List.append_nil]
  · rw [a5, outputSlots_append, outputSlots_of_not_slot L (fun e he => (a6 e he).2.2),
      List.append_nil]

/-- The stages and the writing of the output are work on the sheet: they leave the
counters, `optind` and the static globals as they are and log no name
resolution. -/
theorem writeOutput_work [Zero Angle] [Neg Angle] [DecidableEq Angle]
    (env : Env Angle) (nr : Int) (outs : List String) (st : RunState) (sheet : Image) :
    SheetWork nr st (writeOutput env nr outs
      (processStages env nr { g := st.g, sheet := sheet, w := st.w, h := st.h, log := st.log })
      st) := by
  obtain ⟨stages, hstages⟩ := processStages_log env nr
    { g := st.g, sheet := sheet, w := st.w, h := st.h, log := st.log }
  have hstatic := processStages_static env nr
    { g := st.g, sheet := sheet, w := st.w, h := st.h, log := st.log }
  have hlog := writeOutput_log env nr outs (processStages env nr
    { g := st.g, sheet := sheet, w := st.w, h := st.h, log := st.log }) st
  have hf := writeOutput_fields env nr outs (processStages env nr
    { g := st.g, sheet := sheet, w := st.w, h := st.h, log := st.log }) st
  refine ⟨hf.2.1, hf.2.2.1, hf.2.2.2, by rw [hf.1, hstatic],
    stages.map (Event.stage nr) ++
      gate (processStages env nr
        { g := st.g, sheet := sheet, w := st.w, h := st.h, log := st.log }).cfg.writeoutput
        (savedEvents nr 0 outs), ?_, ?_⟩
  · rw [hlog, hstages, List.append_assoc]
  · intro e he
    rcases List.mem_append.mp he with h1 | h1
    · obtain ⟨s0, _, hs0⟩ := List.mem_map.mp h1
      rw [← hs0]
      exact ⟨rfl, rfl, rfl⟩
    · unfold gate at h1
      split at h1
      · exact savedEvents_sheet nr outs 0 e h1
      · cases h1

/-- The processing of a sheet ends in one of two ways: it is done, with the
counters, `optind`, the static globals and the resolved names as they were, or
it fails with "sheet size unknown". In both the log has grown by events that are
not name resolutions. -/
theorem processSheet_cases [Zero Angle] [Neg Angle] [DecidableEq Angle]
    (env : Env Angle) (nr : Int) (names : List (Option String)) (outs : List String)
    (st : RunState) :
    (∃ st1, processSheet env nr names outs st = Step.ok () st1 ∧ SameResolution st st1 ∧
      Grows st st1) ∨
    ∃ st1, processSheet env nr names outs st = Step.fatal Fatal.sheetSizeUnknown st1 ∧
      Grows st st1 := by
  obtain ⟨st1, h1, w1, -⟩ := loadInputs_ok env nr names 0 (st.emit (Event.beginSheet nr))
  have w0 : SameResolution st (st.emit (Event.beginSheet nr)) :=
    ⟨rfl, rfl, rfl, rfl, by simp [RunState.emit, inputSlots_append, inputSlots],
      by simp [RunState.emit, outputSlots_append, outputSlots]⟩
  have r1 : SameResolution st st1 := sameResolution_trans w0 (sameResolution_of_work w1)
  have g1 : Grows st st1 := grows_trans (grows_emit st (Event.beginSheet nr) rfl) (grows_of_work w1)
  cases hs : st1.sheet with
  | some sheet =>
    left
    refine ⟨_, ?_, sameResolution_trans r1 (sameResolution_trans ?_
      (sameResolution_of_work (writeOutput_work env nr outs
        { st1 with previousWidth := st1.w, previousHeight := st1.h } sheet))),
      grows_trans g1 (grows_trans ?_ (grows_of_work (writeOutput_work env nr outs
        { st1 with previousWidth := st1.w, previousHeight := st1.h } sheet)))⟩
    · simp only [processSheet, h1, ensureSheet, hs]
    · exact ⟨rfl, rfl, rfl, rfl, rfl, rfl⟩
    · exact ⟨[], by simp, by simp⟩
  | none =>
    by_cases hu : st1.previousWidth = -1 ∨ st1.previousHeight = -1
    · right
      refine ⟨{ st1 with w := st1.previousWidth, h := st1.previousHeight }, ?_,
        grows_trans g1 ⟨[], by simp, by simp⟩⟩
      simp only [processSheet, h1, ensureSheet, hs, hu, if_true]
    · left
      refine ⟨_, ?_, sameResolution_trans r1 (sameResolution_trans ?_
        (sameResolution_of_work (writeOutput_work env nr outs
          { ({ st1 with w := st1.previousWidth, h := st1.previousHeight } : RunState).emit
              (Event.sheetAlloc nr st1.previousWidth st1.previousHeight) with
            sheet := some (initImage env st1.previousWidth st1.previousHeight true),
            previousWidth := st1.previousWidth, previousHeight := st1.previousHeight }
          (initImage env st1.previousWidth st1.previousHeight true)))),
        grows_trans g1 (grows_trans ?_ (grows_of_work (writeOutput_work env nr outs
          { ({ st1 with w := st1.previousWidth, h := st1.previousHeight } : RunState).emit
              (Event.sheetAlloc nr st1.previousWidth st1.previousHeight) with
            sheet := some (initImage env st1.previousWidth st1.previousHeight true),
            previousWidth := st1.previousWidth, previousHeight := st1.previousHeight }
          (initImage env st1.previousWidth st1.previousHeight true))))⟩
      · simp only [processSheet, h1, ensureSheet, hs, hu, if_false]
      · exact ⟨rfl, rfl, rfl, rfl, by simp [RunState.emit, inputSlots_append, inputSlots],
          by simp [RunState.emit, outputSlots_append, outputSlots]⟩
      · exact ⟨[Event.sheetAlloc nr st1.previousWidth st1.previousHeight], rfl, by
          intro e he
          rw [List.mem_singleton.mp he]
          rfl⟩

/-- The processing of a sheet whose output names were resolved before: the log
grows, and every file written has a name that was resolved as an output name. -/
theorem processSheet_ext [Zero Angle] [Neg Angle] [DecidableEq Angle]
    (env : Env Angle) (nr : Int) (names : List (Option String)) (outs : List String)
    (st : RunState) (houts : ∀ n ∈ outs, n ∈ outputNames st.log) :
    (processSheet env nr names outs st).All (Ext st) := by
  have hw := processSheet_written env nr names outs st
  rcases processSheet_cases env nr names outs st with ⟨s, h, -, L, hl, -⟩ | ⟨s, h, L, hl, -⟩
  · rw [h] at hw ⊢
    refine ⟨⟨L, hl⟩, ?_⟩
    intro hwr n hn
    rw [hl]
    apply mem_outputNames_append_left
    rcases hw n hn with h1 | h1
    · exact houts n h1
    · exact hwr n h1
  · rw [h] at hw ⊢
    refine ⟨⟨L, hl⟩, ?_⟩
    intro hwr n hn
    rw [hl]
    apply mem_outputNames_append_left
    apply hwr
    unfold RunState.writtenNames at hn ⊢
    rw [← hw]
    exact hn

theorem resolveInputs_ext (env : Env Angle) (argv : List String) (nr : Int) (iw : Bool)
    (k i : Nat) (names : List (Option String)) (st : RunState) :
    (resolveInputs env argv nr iw k i names st).All (Ext st) := by
  have h := resolveInputs_resolves env argv nr iw k i names st
  revert h
  cases resolveInputs env argv nr iw k i names st with
  | ok a s => rintro ⟨-, L, hr, -⟩; exact ext_of_resolves hr
  | sheetEnd s => rintro ⟨L, hr, -⟩; exact ext_of_resolves hr
  | fatal e s => rintro ⟨-, L, hr, -⟩; exact ext_of_resolves hr
  | undefined => intro _; trivial

theorem resolveOutputs_ext (env : Env Angle) (argv : List String) (nr : Int) (ow : Bool)
    (k i : Nat) (names : List String) (st : RunState) :
    (resolveOutputs env argv nr ow k i names st).All (Ext st) := by
  have h := resolveOutputs_resolves env argv nr ow k i names st
  revert h
  cases resolveOutputs env argv nr ow k i names st with
  | ok a s => rintro ⟨-, L, hr, -⟩; exact ext_of_resolves hr
  | sheetEnd s => intro h; exact h.elim
  | fatal e s => rintro ⟨-, L, hr, -⟩; exact ext_of_resolves hr
  | undefined => intro _; trivial

theorem ext_of_eq {st s s1 : RunState} (h : Ext st s) (hw : s1.written = s.written)
    (hl : s1.log = s.log) : Ext st s1 := by
  obtain ⟨⟨L, a1⟩, a2⟩ := h
  refine ⟨⟨L, hl.trans a1⟩, ?_⟩
  intro h1 n hn
  rw [hl]
  apply a2 h1
  unfold RunState.writtenNames at hn ⊢
  rw [← hw]
  exact hn

theorem sheetEnd_ext (argv : List String) (iw ow : Bool) (st0 st : RunState)
    (h : Ext st0 st) : (sheetEnd argv iw ow st).All (Ext st0) := by
  have := sheetEnd_goes_on argv iw ow (Ext st0) st h (ext_of_eq h rfl rfl)
  revert this
  cases sheetEnd argv iw ow st with
  | next s => intro h; exact h
  | stop s => intro h; exact h
  | fatal e s => intro h; exact h.elim
  | undefined => intro h; exact h.elim

theorem outputsAndProcess_ext [Zero Angle] [Neg Angle] [DecidableEq Angle]
    (env : Env Angle) (argv : List String) (nr : Int) (iw : Bool)
    (names : List (Option String)) (st0 st : RunState) (h0 : Ext st0 st) :
    (outputsAndProcess env argv nr iw names st).All (Ext st0) := by
  by_cases hlen : st.optind ≥ argv.length
  · simp only [outputsAndProcess, hlen, if_true]
    exact h0
  cases ha : argv[st.optind]? with
  | none => simp only [outputsAndProcess, hlen, ha, if_false]; trivial
  | some arg =>
    have h1 := resolveOutputs_resolves env argv nr (st.g.multisheets && hasPlaceholder arg)
      st.g.outputCount 0 [] st
    simp only [outputsAndProcess, hlen, ha, if_false]
    revert h1
    cases resolveOutputs env argv nr (st.g.multisheets && hasPlaceholder arg)
      st.g.outputCount 0 [] st with
    | ok outs st3 =>
      rintro ⟨-, L2, hr2, -, ho2, -⟩
      simp only []
      obtain ⟨st4, hst4⟩ : ∃ st4, st4 =
        (if (st.g.multisheets && hasPlaceholder arg) = true then st3.nextArg else st3) :=
        ⟨_, rfl⟩
      rw [← hst4]
      have hw4 : st4.written = st3.written := by rw [hst4]; split <;> rfl
      have hl4 : st4.log = st3.log := by rw [hst4]; split <;> rfl
      have e4 : Ext st0 st4 := ext_of_eq (ext_trans h0 (ext_of_resolves hr2)) hw4 hl4
      have houts : ∀ n ∈ outs, n ∈ outputNames st4.log := by
        intro n hn
        rw [hl4, hr2.2.2.1, outputNames_append]
        rw [ho2, List.nil_append] at hn
        exact List.mem_append_right _ hn
      by_cases hsel : (isInMultiIndex nr st4.g.options.sheetMultiIndex &&
          !isInMultiIndex nr st4.g.options.excludeMultiIndex) = true
      · rw [if_pos hsel]
        have hp := processSheet_ext env nr names outs st4 houts
        rcases processSheet_cases env nr names outs st4 with ⟨s, h, -, -⟩ | ⟨s, h, -⟩
        · rw [h] at hp ⊢
          exact sheetEnd_ext argv iw _ st0 s (ext_trans e4 hp)
        · rw [h] at hp ⊢
          exact ext_trans e4 hp
      · rw [if_neg hsel]
        exact sheetEnd_ext argv iw _ st0 st4 e4
    | sheetEnd st3 => intro h; exact h.elim
    | fatal e st3 =>
      rintro ⟨-, L2, hr2, -⟩
      exact ext_trans h0 (ext_of_resolves hr2)
    | undefined => intro _; trivial

/-- One pass of the sheet loop: the log grows, and every file written has a name that
was resolved as an output name. -/
theorem sheetIteration_ext [Zero Angle] [Neg Angle] [DecidableEq Angle]
    (env : Env Angle) (argv : List String) (nr : Int) (st : RunState) :
    (sheetIteration env argv nr st).All (Ext st) := by
  have body : ∀ iw : Bool, (sheetBody env argv nr iw st).All (Ext st) := by
    intro iw
    have h1 := resolveInputs_resolves env argv nr iw st.g.inputCount 0 [] st
    simp only [sheetBody]
    revert h1
    cases resolveInputs env argv nr iw st.g.inputCount 0 [] st with
    | ok ins st1 =>
      rintro ⟨-, L1, hr1, -⟩
      simp only []
      refine outputsAndProcess_ext env argv nr iw ins st _ ?_
      split
      · exact ext_of_eq (ext_of_resolves hr1) rfl rfl
      · exact ext_of_resolves hr1
    | sheetEnd st1 =>
      rintro ⟨L1, hr1, -⟩
      exact sheetEnd_ext argv iw false st st1 (ext_of_resolves hr1)
    | fatal e st1 =>
      rintro ⟨-, L1, hr1, -⟩
      exact ext_of_resolves hr1
    | undefined => intro _; trivial
  unfold sheetIteration
  by_cases hm : st.g.multisheets = true
  · rw [if_pos hm]
    cases ha : argv[st.optind]? with
    | none => trivial
    | some arg => exact body (hasPlaceholder arg)
  · rw [if_neg hm]
    exact body false

/-- The sheet loop: the log grows, and every file written has a name that was
resolved as an output name. -/
theorem sheetLoop_ext [Zero Angle] [Neg Angle] [DecidableEq Angle]
    (env : Env Angle) (argv : List String) :
    ∀ (fuel : Nat) (nr : Int) (st : RunState), Ext st (sheetLoop env argv fuel nr st).2 := by
  intro fuel
  induction fuel with
  | zero => intro nr st; exact ext_refl st
  | succ fuel ih =>
    intro nr st
    simp only [sheetLoop]
    by_cases hc : st.g.options.endSheet = -1 ∨ nr ≤ st.g.options.endSheet
    · rw [if_pos hc]
      have h := sheetIteration_ext env argv nr st
      revert h
      cases sheetIteration env argv nr st with
      | next s => intro h; exact ext_trans h (ih (nr + 1) s)
      | stop s => intro h; exact h
      | fatal e s => intro h; exact h
      | undefined => intro _; exact ext_refl st
    · rw [if_neg hc]
      exact ext_refl st

/-! ### Runs that differ in the exclude set -/

theorem noFeedback_of_append {l L : List Event} (h : NoFeedback (l ++ L)) : NoFeedback l := by
  obtain ⟨h1, h2⟩ := h
  rw [outputNames_append] at h1
  refine ⟨(List.nodup_append.mp h1).1, ?_⟩
  intro n hn hout
  refine h2 n ?_ (mem_outputNames_append_left hout)
  rw [inputNames_append]
  exact List.mem_append_left _ hn

theorem feedback_of_ext {st s : RunState} (h : ¬ NoFeedback st.log) (he : Ext st s) :
    ¬ NoFeedback s.log := by
  obtain ⟨⟨L, hl⟩, -⟩ := he
  intro hn
  rw [hl] at hn
  exact h (noFeedback_of_append hn)

theorem stepBad_of_ext {α : Type} {st : RunState} (h : ¬ NoFeedback st.log) (x : Step α)
    (hx : x.All (Ext st)) : x.Bad :=
  stepAll_mono (fun _ he => feedback_of_ext h he) x hx

theorem iterBad_of_ext {st : RunState} (h : ¬ NoFeedback st.log) (x : Iter)
    (hx : x.All (Ext st)) : x.Bad :=
  Or.inr (iterAll_mono (fun _ he => feedback_of_ext h he) x hx)

/-- Two lists of written files give the same answer for a name that is in neither. -/
theorem stat_eq_or_written (env : Env Angle) (wa wb : List (String × Image)) (n : String) :
    stat env wa n = stat env wb n ∨ n ∈ wa.map Prod.fst ∨ n ∈ wb.map Prod.fst := by
  by_cases ha : n ∈ wa.map Prod.fst
  · exact Or.inr (Or.inl ha)
  by_cases hb : n ∈ wb.map Prod.fst
  · exact Or.inr (Or.inr hb)
  left
  unfold stat
  have e1 : (wa.map Prod.fst).contains n = false := by simpa using ha
  have e2 : (wb.map Prod.fst).contains n = false := by simpa using hb
  rw [e1, e2]

/-- An input name that the run has written before is a name resolved both as an
input name and as an output name. -/
theorem input_clash {a s : RunState} (hwa : WrittenResolved a) (nr : Int) (i : Nat)
    (n : String) (hw : s.written = a.written)
    (hl : s.log = a.log ++ [Event.inputSlot nr i (some n)]) (hn : n ∈ s.writtenNames) :
    ¬ NoFeedback s.log := by
  intro hnf
  have h1 : n ∈ outputNames s.log := by
    rw [hl]
    apply mem_outputNames_append_left
    apply hwa
    unfold RunState.writtenNames at hn ⊢
    rw [← hw]
    exact hn
  have h2 : n ∈ inputNames s.log := by
    rw [hl, inputNames_append]
    apply List.mem_append_right
    simp [inputNames]
  exact hnf.2 n h2 h1

/-- An output name that the run has written before is a name resolved twice as an
output name. -/
theorem output_clash {a s : RunState} (hwa : WrittenResolved a) (nr : Int) (i : Nat)
    (n : String) (hw : s.written = a.written)
    (hl : s.log = a.log ++ [Event.outputSlot nr i n]) (hn : n ∈ s.writtenNames) :
    ¬ NoFeedback s.log := by
  intro hnf
  have h1 : n ∈ outputNames a.log := by
    apply hwa
    unfold RunState.writtenNames at hn ⊢
    rw [← hw]
    exact hn
  have h2 := hnf.1
  rw [hl, outputNames_append] at h2
  have h3 := (List.nodup_append.mp h2).2.2
  exact h3 h1 (by simp [outputNames])

/-- What name resolution reads of the globals is the same in two states that agree. -/
theorem sameResolution_reads {a b : RunState} (h : SameResolution a b) :
    a.g.options.endSheet = b.g.options.endSheet ∧
    a.g.options.insertBlank = b.g.options.insertBlank ∧
    a.g.options.replaceBlank = b.g.options.replaceBlank ∧
    a.g.options.sheetMultiIndex = b.g.options.sheetMultiIndex ∧
    a.g.inputCount = b.g.inputCount ∧ a.g.outputCount = b.g.outputCount ∧
    a.g.multisheets = b.g.multisheets ∧ a.g.overwrite = b.g.overwrite := by
  have hg := h.globals
  refine ⟨?_, ?_, ?_, ?_, ?_, ?_, ?_, ?_⟩
  · have e := congrArg (fun g => g.options.endSheet) hg
    simpa only [Globals.static, Globals.withExclude] using e
  · have e := congrArg (fun g => g.options.insertBlank) hg
    simpa only [Globals.static, Globals.withExclude] using e
  · have e := congrArg (fun g => g.options.replaceBlank) hg
    simpa only [Globals.static, Globals.withExclude] using e
  · have e := congrArg (fun g => g.options.sheetMultiIndex) hg
    simpa only [Globals.static, Globals.withExclude] using e
  · have e := congrArg Globals.inputCount hg
    simpa only [Globals.static, Globals.withExclude] using e
  · have e := congrArg Globals.outputCount hg
    simpa only [Globals.static, Globals.withExclude] using e
  · have e := congrArg Globals.multisheets hg
    simpa only [Globals.static, Globals.withExclude] using e
  · have e := congrArg Globals.overwrite hg
    simpa only [Globals.static, Globals.withExclude] using e

theorem sameResolution_emit {a b : RunState} (h : SameResolution a b) (e : Event) :
    SameResolution (a.emit e) (b.emit e) :=
  ⟨h.inputNr, h.outputNr, h.optind, h.globals,
    by simp only [RunState.emit, inputSlots_append, h.inputs],
    by simp only [RunState.emit, outputSlots_append, h.outputs]⟩

theorem sameResolution_nextInput {a b : RunState} (h : SameResolution a b) :
    SameResolution a.nextInput b.nextInput :=
  ⟨by simp only [RunState.nextInput, h.inputNr], h.outputNr, h.optind, h.globals, h.inputs,
    h.outputs⟩

theorem sameResolution_nextOutput {a b : RunState} (h : SameResolution a b) :
    SameResolution a.nextOutput b.nextOutput :=
  ⟨h.inputNr, by simp only [RunState.nextOutput, h.outputNr], h.optind, h.globals, h.inputs,
    h.outputs⟩

theorem sameResolution_nextArg {a b : RunState} (h : SameResolution a b) :
    SameResolution a.nextArg b.nextArg :=
  ⟨h.inputNr, h.outputNr, by simp only [RunState.nextArg, h.optind], h.globals, h.inputs,
    h.outputs⟩

theorem sameResolution_rewindArgs {a b : RunState} (h : SameResolution a b) :
    SameResolution a.rewindArgs b.rewindArgs :=
  ⟨h.inputNr, h.outputNr, by simp only [RunState.rewindArgs, h.optind], h.globals, h.inputs,
    h.outputs⟩

theorem sameResolution_setEndSheet {a b : RunState} (h : SameResolution a b) (n : Int) :
    SameResolution (a.setEndSheet n) (b.setEndSheet n) := by
  refine ⟨h.inputNr, h.outputNr, h.optind, ?_, h.inputs, h.outputs⟩
  have e := congrArg
    (fun g : Globals => { g with options := { g.options with endSheet := n } }) h.globals
  simpa only [Globals.static, Globals.withExclude, RunState.setEndSheet] using e

/-- The test of an input name leaves the log as it is. -/
theorem checkInputFile_log (env : Env Angle) (nr : Int) (name : Option String)
    (st : RunState) : (checkInputFile env nr name st).All fun s => s.log = st.log := by
  have := checkInputFile_found env nr name st
  revert this
  cases checkInputFile env nr name st with
  | ok name1 s => rintro ⟨-, rfl, -⟩; rfl
  | sheetEnd s => rintro ⟨rfl, -⟩; rfl
  | fatal e s => rintro ⟨rfl, -⟩; rfl
  | undefined => intro h; exact h.elim

/-- The test of an input name in two states that agree: the same end, unless the
name is one that one of the runs has written. -/
theorem checkInputFile_rel (env : Env Angle) (nr : Int) (name : Option String)
    {a b : RunState} (h : SameResolution a b)
    (hca : ∀ n, name = some n → n ∈ a.writtenNames → ¬ NoFeedback a.log)
    (hcb : ∀ n, name = some n → n ∈ b.writtenNames → ¬ NoFeedback b.log) :
    StepRel (checkInputFile env nr name a) (checkInputFile env nr name b) ∨
      (checkInputFile env nr name a).Bad ∨ (checkInputFile env nr name b).Bad := by
  have he := (sameResolution_reads h).1
  cases name with
  | none => exact Or.inl ⟨rfl, h⟩
  | some n =>
    rcases stat_eq_or_written env a.written b.written n with heq | hwa | hwb
    · left
      by_cases hf : stat env b.written n = true
      · simp only [checkInputFile, heq, hf, Bool.not_true, Bool.false_eq_true, if_false]
        exact ⟨rfl, h⟩
      · by_cases hb : b.g.options.endSheet = -1
        · simp only [checkInputFile, heq, hf, he, hb, Bool.not_false, if_true]
          exact sameResolution_setEndSheet h (nr - 1)
        · simp only [checkInputFile, heq, hf, he, hb, Bool.not_false, if_true, if_false]
          exact ⟨rfl, h⟩
    · right; left
      exact stepAll_mono (fun s hs => by rw [hs]; exact hca n rfl hwa) _
        (checkInputFile_log env nr (some n) a)
    · right; right
      exact stepAll_mono (fun s hs => by rw [hs]; exact hcb n rfl hwb) _
        (checkInputFile_log env nr (some n) b)

theorem resolveInputSlot_ext (env : Env Angle) (argv : List String) (nr : Int) (iw : Bool)
    (i : Nat) (st : RunState) : (resolveInputSlot env argv nr iw i st).All (Ext st) := by
  have h := resolveInputSlot_resolves env argv nr iw i st
  revert h
  cases resolveInputSlot env argv nr iw i st with
  | ok a s => rintro ⟨-, L, hr, -⟩; exact ext_of_resolves hr
  | sheetEnd s => rintro ⟨L, hr, -⟩; exact ext_of_resolves hr
  | fatal e s => rintro ⟨-, L, hr, -⟩; exact ext_of_resolves hr
  | undefined => intro _; trivial

theorem resolveOutputSlot_ext (env : Env Angle) (argv : List String) (nr : Int) (ow : Bool)
    (i : Nat) (st : RunState) : (resolveOutputSlot env argv nr ow i st).All (Ext st) := by
  have h := resolveOutputSlot_resolves env argv nr ow i st
  revert h
  cases resolveOutputSlot env argv nr ow i st with
  | ok a s => rintro ⟨-, hr, -⟩; exact ext_of_resolves hr
  | sheetEnd s => intro h; exact h.elim
  | fatal e s => rintro ⟨-, L, hr, -⟩; exact ext_of_resolves hr
  | undefined => intro _; trivial

/-- The resolution of one input slot in two states that agree: the same end, unless
the name resolved is one that one of the runs has written. -/
theorem resolveInputSlot_rel (env : Env Angle) (argv : List String) (nr : Int) (iw : Bool)
    (i : Nat) {a b : RunState} (h : SameResolution a b) (hwa : WrittenResolved a)
    (hwb : WrittenResolved b) :
    StepRel (resolveInputSlot env argv nr iw i a) (resolveInputSlot env argv nr iw i b) ∨
      (resolveInputSlot env argv nr iw i a).Bad ∨ (resolveInputSlot env argv nr iw i b).Bad := by
  obtain ⟨he, hins, hrepl, -, -, -, -, -⟩ := sameResolution_reads h
  have hn := h.inputNr
  have ho := h.optind
  have blank : ∀ (a1 b1 : RunState), SameResolution a1 b1 →
      StepRel (checkInputFile env nr none a1) (checkInputFile env nr none b1) ∨
        (checkInputFile env nr none a1).Bad ∨ (checkInputFile env nr none b1).Bad :=
    fun a1 b1 h1 => checkInputFile_rel env nr none h1 (fun n hn => by cases hn)
      (fun n hn => by cases hn)
  by_cases hr : isInMultiIndex b.inputNr b.g.options.replaceBlank = true
  · simp only [resolveInputSlot, hn, hrepl, hr, if_true]
    exact blank _ _ (sameResolution_emit (sameResolution_nextInput h) _)
  by_cases hi : isInMultiIndex b.inputNr b.g.options.insertBlank = true
  · simp only [resolveInputSlot, hn, hrepl, hins, hr, hi, if_true, if_false, Bool.false_eq_true]
    exact blank _ _ (sameResolution_emit h _)
  by_cases hw : iw = true
  · cases ha : argv[b.optind]? with
    | none =>
      simp only [resolveInputSlot, hn, hrepl, hins, hr, hi, hw, ho, ha, if_true, if_false,
        Bool.false_eq_true]
      exact Or.inl trivial
    | some pattern =>
      simp only [resolveInputSlot, hn, hrepl, hins, hr, hi, hw, ho, ha, if_true, if_false,
        Bool.false_eq_true]
      refine checkInputFile_rel env nr _
        (sameResolution_emit (sameResolution_nextInput h) _) ?_ ?_
      · intro n hn1 hmem
        cases hn1
        exact input_clash hwa nr i _ rfl rfl hmem
      · intro n hn1 hmem
        cases hn1
        exact input_clash hwb nr i _ rfl rfl hmem
  by_cases hl : b.optind ≥ argv.length
  · by_cases hb : b.g.options.endSheet = -1
    · simp only [resolveInputSlot, hn, hrepl, hins, hr, hi, hw, ho, hl, he, hb, if_true,
        if_false, Bool.false_eq_true]
      exact Or.inl (sameResolution_setEndSheet h (nr - 1))
    · simp only [resolveInputSlot, hn, hrepl, hins, hr, hi, hw, ho, hl, he, hb, if_true,
        if_false, Bool.false_eq_true]
      exact Or.inl ⟨rfl, h⟩
  · cases ha : argv[b.optind]? with
    | none =>
      simp only [resolveInputSlot, hn, hrepl, hins, hr, hi, hw, ho, hl, ha, if_false, if_true,
        Bool.false_eq_true]
      exact Or.inl trivial
    | some name =>
      simp only [resolveInputSlot, hn, hrepl, hins, hr, hi, hw, ho, hl, ha, if_false, if_true,
        Bool.false_eq_true]
      refine checkInputFile_rel env nr _
        (sameResolution_emit (sameResolution_nextArg h) _) ?_ ?_
      · intro n hn1 hmem
        cases hn1
        exact input_clash hwa nr i _ rfl rfl hmem
      · intro n hn1 hmem
        cases hn1
        exact input_clash hwb nr i _ rfl rfl hmem

/-- The resolution of the input slots of a sheet in two states that agree: the same
end, unless a name resolved is one that one of the runs has written. -/
theorem resolveInputs_rel (env : Env Angle) (argv : List String) (nr : Int) (iw : Bool)
    (k : Nat) :
    ∀ (i : Nat) (names : List (Option String)) (a b : RunState), SameResolution a b →
      WrittenResolved a → WrittenResolved b →
      StepRel (resolveInputs env argv nr iw k i names a)
        (resolveInputs env argv nr iw k i names b) ∨
      (resolveInputs env argv nr iw k i names a).Bad ∨
      (resolveInputs env argv nr iw k i names b).Bad := by
  induction k with
  | zero => intro i names a b h _ _; exact Or.inl ⟨rfl, h⟩
  | succ k ih =>
    intro i names a b h hwa hwb
    have h1 := resolveInputSlot_rel env argv nr iw i h hwa hwb
    have ea := resolveInputSlot_ext env argv nr iw i a
    have eb := resolveInputSlot_ext env argv nr iw i b
    have bad : ∀ (st : RunState), (resolveInputSlot env argv nr iw i st).Bad →
        (resolveInputs env argv nr iw (k + 1) i names st).Bad := by
      intro st hb
      simp only [resolveInputs]
      revert hb
      cases resolveInputSlot env argv nr iw i st with
      | ok n1 s1 =>
        intro hb
        exact stepBad_of_ext hb _ (resolveInputs_ext env argv nr iw k (i + 1) _ s1)
      | sheetEnd s1 => intro hb; exact hb
      | fatal e s1 => intro hb; exact hb
      | undefined => intro hb; exact hb
    rcases h1 with h1 | h1 | h1
    · revert ea eb h1
      simp only [resolveInputs]
      cases resolveInputSlot env argv nr iw i a with
      | ok n1 a1 =>
        cases resolveInputSlot env argv nr iw i b with
        | ok n2 b1 =>
          rintro ea eb ⟨rfl, h2⟩
          exact ih (i + 1) (names ++ [n1]) a1 b1 h2 (ea.2 hwa) (eb.2 hwb)
        | sheetEnd b1 => intro _ _ h2; exact h2.elim
        | fatal e b1 => intro _ _ h2; exact h2.elim
        | undefined => intro _ _ h2; exact h2.elim
      | sheetEnd a1 =>
        cases resolveInputSlot env argv nr iw i b with
        | ok n2 b1 => intro _ _ h2; exact h2.elim
        | sheetEnd b1 => intro _ _ h2; exact Or.inl h2
        | fatal e b1 => intro _ _ h2; exact h2.elim
        | undefined => intro _ _ h2; exact h2.elim
      | fatal e a1 =>
        cases resolveInputSlot env argv nr iw i b with
        | ok n2 b1 => intro _ _ h2; exact h2.elim
        | sheetEnd b1 => intro _ _ h2; exact h2.elim
        | fatal e b1 => intro _ _ h2; exact Or.inl h2
        | undefined => intro _ _ h2; exact h2.elim
      | undefined =>
        cases resolveInputSlot env argv nr iw i b with
        | ok n2 b1 => intro _ _ h2; exact h2.elim
        | sheetEnd b1 => intro _ _ h2; exact h2.elim
        | fatal e b1 => intro _ _ h2; exact h2.elim
        | undefined => intro _ _ h2; exact Or.inl h2
    · exact Or.inr (Or.inl (bad a h1))
    · exact Or.inr (Or.inr (bad b h1))

/-- The test of an output name leaves the log as it is. -/
theorem checkOutputFile_log (env : Env Angle) (name : String) (st : RunState) :
    (checkOutputFile env name st).All fun s => s.log = st.log := by
  have := checkOutputFile_found env name st
  revert this
  cases checkOutputFile env name st with
  | ok name1 s => rintro ⟨-, rfl, -⟩; rfl
  | sheetEnd s => intro h; exact h.elim
  | fatal e s => rintro ⟨rfl, -⟩; rfl
  | undefined => intro h; exact h.elim

/-- The test of an output name in two states that agree: the same end, unless the
name is one that one of the runs has written. -/
theorem checkOutputFile_rel (env : Env Angle) (name : String) {a b : RunState}
    (h : SameResolution a b)
    (hca : name ∈ a.writtenNames → ¬ NoFeedback a.log)
    (hcb : name ∈ b.writtenNames → ¬ NoFeedback b.log) :
    StepRel (checkOutputFile env name a) (checkOutputFile env name b) ∨
      (checkOutputFile env name a).Bad ∨ (checkOutputFile env name b).Bad := by
  have ho := (sameResolution_reads h).2.2.2.2.2.2.2
  rcases stat_eq_or_written env a.written b.written name with heq | hwa | hwb
  · left
    by_cases hov : b.g.overwrite = true
    · simp only [checkOutputFile, ho, hov, Bool.not_true, Bool.false_eq_true, if_false]
      exact ⟨rfl, h⟩
    · by_cases hf : stat env b.written name = true
      · simp only [checkOutputFile, ho, hov, heq, hf, Bool.not_false, if_true]
        exact ⟨rfl, h⟩
      · simp only [checkOutputFile, ho, hov, heq, hf, Bool.not_false, if_true, if_false]
        exact ⟨rfl, h⟩
  · right; left
    exact stepAll_mono (fun s hs => by rw [hs]; exact hca hwa) _
      (checkOutputFile_log env name a)
  · right; right
    exact stepAll_mono (fun s hs => by rw [hs]; exact hcb hwb) _
      (checkOutputFile_log env name b)

/-- The resolution of one output slot in two states that agree: the same end, unless
the name resolved is one that one of the runs has written. -/
theorem resolveOutputSlot_rel (env : Env Angle) (argv : List String) (nr : Int) (ow : Bool)
    (i : Nat) {a b : RunState} (h : SameResolution a b) (hwa : WrittenResolved a)
    (hwb : WrittenResolved b) :
    StepRel (resolveOutputSlot env argv nr ow i a) (resolveOutputSlot env argv nr ow i b) ∨
      (resolveOutputSlot env argv nr ow i a).Bad ∨
      (resolveOutputSlot env argv nr ow i b).Bad := by
  have hn := h.outputNr
  have ho := h.optind
  by_cases hw : ow = true
  · cases ha : argv[b.optind]? with
    | none =>
      simp only [resolveOutputSlot, hn, hw, ho, ha, if_true, if_false, Bool.false_eq_true]
      exact Or.inl trivial
    | some pattern =>
      simp only [resolveOutputSlot, hn, hw, ho, ha, if_true, if_false, Bool.false_eq_true]
      exact checkOutputFile_rel env _ (sameResolution_emit (sameResolution_nextOutput h) _)
        (fun hmem => output_clash hwa nr i _ rfl rfl hmem)
        (fun hmem => output_clash hwb nr i _ rfl rfl hmem)
  by_cases hl : b.optind ≥ argv.length
  · simp only [resolveOutputSlot, hw, ho, hl, if_true, if_false, Bool.false_eq_true]
    exact Or.inl ⟨rfl, h⟩
  · cases ha : argv[b.optind]? with
    | none =>
      simp only [resolveOutputSlot, hw, ho, hl, ha, if_false, if_true, Bool.false_eq_true]
      exact Or.inl trivial
    | some name =>
      simp only [resolveOutputSlot, hw, ho, hl, ha, if_false, if_true, Bool.false_eq_true]
      exact checkOutputFile_rel env _ (sameResolution_emit (sameResolution_nextArg h) _)
        (fun hmem => output_clash hwa nr i _ rfl rfl hmem)
        (fun hmem => output_clash hwb nr i _ rfl rfl hmem)

/-- The resolution of the output slots of a sheet in two states that agree: the same
end, unless a name resolved is one that one of the runs has written. -/
theorem resolveOutputs_rel (env : Env Angle) (argv : List String) (nr : Int) (ow : Bool)
    (k : Nat) :
    ∀ (i : Nat) (names : List String) (a b : RunState), SameResolution a b →
      WrittenResolved a → WrittenResolved b →
      StepRel (resolveOutputs env argv nr ow k i names a)
        (resolveOutputs env argv nr ow k i names b) ∨
      (resolveOutputs env argv nr ow k i names a).Bad ∨
      (resolveOutputs env argv nr ow k i names b).Bad := by
  induction k with
  | zero => intro i names a b h _ _; exact Or.inl ⟨rfl, h⟩
  | succ k ih =>
    intro i names a b h hwa hwb
    have h1 := resolveOutputSlot_rel env argv nr ow i h hwa hwb
    have ea := resolveOutputSlot_ext env argv nr ow i a
    have eb := resolveOutputSlot_ext env argv nr ow i b
    have bad : ∀ (st : RunState), (resolveOutputSlot env argv nr ow i st).Bad →
        (resolveOutputs env argv nr ow (k + 1) i names st).Bad := by
      intro st hb
      simp only [resolveOutputs]
      revert hb
      cases resolveOutputSlot env argv nr ow i st with
      | ok n1 s1 =>
        intro hb
        exact stepBad_of_ext hb _ (resolveOutputs_ext env argv nr ow k (i + 1) _ s1)
      | sheetEnd s1 => intro hb; exact hb
      | fatal e s1 => intro hb; exact hb
      | undefined => intro hb; exact hb
    rcases h1 with h1 | h1 | h1
    · revert ea eb h1
      simp only [resolveOutputs]
      cases resolveOutputSlot env argv nr ow i a with
      | ok n1 a1 =>
        cases resolveOutputSlot env argv nr ow i b with
        | ok n2 b1 =>
          rintro ea eb ⟨rfl, h2⟩
          exact ih (i + 1) (names ++ [n1]) a1 b1 h2 (ea.2 hwa) (eb.2 hwb)
        | sheetEnd b1 => intro _ _ h2; exact h2.elim
        | fatal e b1 => intro _ _ h2; exact h2.elim
        | undefined => intro _ _ h2; exact h2.elim
      | sheetEnd a1 =>
        cases resolveOutputSlot env argv nr ow i b with
        | ok n2 b1 => intro _ _ h2; exact h2.elim
        | sheetEnd b1 => intro _ _ h2; exact Or.inl h2
        | fatal e b1 => intro _ _ h2; exact h2.elim
        | undefined => intro _ _ h2; exact h2.elim
      | fatal e a1 =>
        cases resolveOutputSlot env argv nr ow i b with
        | ok n2 b1 => intro _ _ h2; exact h2.elim
        | sheetEnd b1 => intro _ _ h2; exact h2.elim
        | fatal e b1 => intro _ _ h2; exact Or.inl h2
        | undefined => intro _ _ h2; exact h2.elim
      | undefined =>
        cases resolveOutputSlot env argv nr ow i b with
        | ok n2 b1 => intro _ _ h2; exact h2.elim
        | sheetEnd b1 => intro _ _ h2; exact h2.elim
        | fatal e b1 => intro _ _ h2; exact h2.elim
        | undefined => intro _ _ h2; exact Or.inl h2
    · exact Or.inr (Or.inl (bad a h1))
    · exact Or.inr (Or.inr (bad b h1))

theorem sheetEnd_rel (argv : List String) (iw ow : Bool) {a b : RunState}
    (h : SameResolution a b) : IterRel (sheetEnd argv iw ow a) (sheetEnd argv iw ow b) := by
  have ho := h.optind
  unfold sheetEnd
  rw [ho]
  by_cases h1 : b.optind ≥ argv.length ∧ (!iw) = true
  · rw [if_pos h1, if_pos h1]
    exact h
  · rw [if_neg h1, if_neg h1]
    by_cases h2 : iw = true ∧ ow = true
    · rw [if_pos h2, if_pos h2]
      exact sameResolution_rewindArgs h
    · rw [if_neg h2, if_neg h2]
      exact h

/-- The part of a pass behind the name resolution, lines 1146-2029: either the
processing fails with "sheet size unknown", or the pass ends as `sheet_end` does
in a state with the counters, `optind` and the resolved names as they were. -/
theorem selected_sheet_cases [Zero Angle] [Neg Angle] [DecidableEq Angle]
    (env : Env Angle) (argv : List String) (nr : Int) (iw ow : Bool)
    (names : List (Option String)) (outs : List String) (st : RunState)
    (houts : ∀ n ∈ outs, n ∈ outputNames st.log) :
    (∃ s, (if isInMultiIndex nr st.g.options.sheetMultiIndex &&
            !isInMultiIndex nr st.g.options.excludeMultiIndex then
          match processSheet env nr names outs st with
          | Step.ok _ st3 => sheetEnd argv iw ow st3
          | Step.sheetEnd st3 => sheetEnd argv iw ow st3
          | Step.fatal e st3 => Iter.fatal e st3
          | Step.undefined => Iter.undefined
        else sheetEnd argv iw ow st) = Iter.fatal Fatal.sheetSizeUnknown s) ∨
    ∃ st3, SameResolution st st3 ∧ Ext st st3 ∧
      (if isInMultiIndex nr st.g.options.sheetMultiIndex &&
            !isInMultiIndex nr st.g.options.excludeMultiIndex then
          match processSheet env nr names outs st with
          | Step.ok _ st3 => sheetEnd argv iw ow st3
          | Step.sheetEnd st3 => sheetEnd argv iw ow st3
          | Step.fatal e st3 => Iter.fatal e st3
          | Step.undefined => Iter.undefined
        else sheetEnd argv iw ow st) = sheetEnd argv iw ow st3 := by
  by_cases hsel : (isInMultiIndex nr st.g.options.sheetMultiIndex &&
      !isInMultiIndex nr st.g.options.excludeMultiIndex) = true
  · rw [if_pos hsel]
    have hp := processSheet_ext env nr names outs st houts
    rcases processSheet_cases env nr names outs st with ⟨st1, h1, r1, -⟩ | ⟨st1, h1, -⟩
    · right
      rw [h1] at hp
      exact ⟨st1, r1, hp, by rw [h1]⟩
    · left
      exact ⟨st1, by rw [h1]⟩
  · rw [if_neg hsel]
    right
    exact ⟨st, sameResolution_refl st, ext_refl st, rfl⟩

theorem sheetEnd_feedback (argv : List String) (iw ow : Bool) (st : RunState)
    (h : ¬ NoFeedback st.log) : (sheetEnd argv iw ow st).Bad :=
  iterBad_of_ext h _ (sheetEnd_ext argv iw ow st st (ext_refl st))

/-- Lines 1114-2029 when the resolution of the output names ends in one of the ways
that the comparison leaves aside: so does the pass. -/
theorem outputsAndProcess_feedback [Zero Angle] [Neg Angle] [DecidableEq Angle]
    (env : Env Angle) (argv : List String) (nr : Int) (iw : Bool)
    (names : List (Option String)) (st : RunState) (arg : String)
    (hlen : ¬ st.optind ≥ argv.length) (ha : argv[st.optind]? = some arg)
    (hb : (resolveOutputs env argv nr (st.g.multisheets && hasPlaceholder arg)
      st.g.outputCount 0 [] st).Bad) :
    (outputsAndProcess env argv nr iw names st).Bad := by
  have h1 := resolveOutputs_resolves env argv nr (st.g.multisheets && hasPlaceholder arg)
    st.g.outputCount 0 [] st
  simp only [outputsAndProcess, hlen, ha, if_false]
  revert h1 hb
  cases resolveOutputs env argv nr (st.g.multisheets && hasPlaceholder arg)
    st.g.outputCount 0 [] st with
  | ok outs st3 =>
    rintro hb ⟨-, L2, hr2, -, ho2, -⟩
    simp only []
    obtain ⟨st4, hst4⟩ : ∃ st4, st4 =
      (if (st.g.multisheets && hasPlaceholder arg) = true then st3.nextArg else st3) :=
      ⟨_, rfl⟩
    rw [← hst4]
    have hl4 : st4.log = st3.log := by rw [hst4]; split <;> rfl
    have hb4 : ¬ NoFeedback st4.log := by rw [hl4]; exact hb
    have houts : ∀ n ∈ outs, n ∈ outputNames st4.log := by
      intro n hn
      rw [hl4, hr2.2.2.1, outputNames_append]
      rw [ho2, List.nil_append] at hn
      exact List.mem_append_right _ hn
    rcases selected_sheet_cases env argv nr iw (st.g.multisheets && hasPlaceholder arg)
      names outs st4 houts with ⟨s, hs⟩ | ⟨s3, -, e3, hs⟩
    · exact Or.inl ⟨s, hs⟩
    · exact (congrArg Iter.Bad hs).mpr (sheetEnd_feedback argv iw _ s3 (feedback_of_ext hb4 e3))
  | sheetEnd st3 => intro _ h; exact h.elim
  | fatal e st3 => intro hb _; exact Or.inr hb
  | undefined => intro _ _; exact Or.inr trivial

/-- Lines 1114-2029 in two states that agree in what name resolution reads: the two
passes end in the same way, unless one of them ends in a way that the comparison
leaves aside. -/
theorem outputsAndProcess_rel [Zero Angle] [Neg Angle] [DecidableEq Angle]
    (env : Env Angle) (argv : List String) (nr : Int) (iw : Bool)
    (names : List (Option String)) {a b : RunState} (h : SameResolution a b)
    (hwa : WrittenResolved a) (hwb : WrittenResolved b) :
    IterRel (outputsAndProcess env argv nr iw names a)
        (outputsAndProcess env argv nr iw names b) ∨
      (outputsAndProcess env argv nr iw names a).Bad ∨
      (outputsAndProcess env argv nr iw names b).Bad := by
  obtain ⟨-, -, -, -, -, hoc, hms, -⟩ := sameResolution_reads h
  have ho := h.optind
  by_cases hl : b.optind ≥ argv.length
  · left
    simp only [outputsAndProcess, ho, hl, if_true]
    exact ⟨rfl, h⟩
  cases ha : argv[b.optind]? with
  | none =>
    left
    simp only [outputsAndProcess, ho, hl, ha, if_false]
    trivial
  | some arg =>
    have h1 := resolveOutputs_rel env argv nr (b.g.multisheets && hasPlaceholder arg)
      b.g.outputCount 0 [] a b h hwa hwb
    rcases h1 with h1 | h1 | h1
    · have ra := resolveOutputs_resolves env argv nr (b.g.multisheets && hasPlaceholder arg)
        b.g.outputCount 0 [] a
      have rb := resolveOutputs_resolves env argv nr (b.g.multisheets && hasPlaceholder arg)
        b.g.outputCount 0 [] b
      simp only [outputsAndProcess, ho, hl, ha, if_false, hoc, hms]
      revert ra rb h1
      cases resolveOutputs env argv nr (b.g.multisheets && hasPlaceholder arg)
        b.g.outputCount 0 [] a with
      | ok outs a1 =>
        cases resolveOutputs env argv nr (b.g.multisheets && hasPlaceholder arg)
          b.g.outputCount 0 [] b with
        | ok outs2 b1 =>
          rintro ⟨rfl, h2⟩ ⟨-, La, hra, -, hoa, -⟩ ⟨-, Lb, hrb, -, hob, -⟩
          simp only []
          obtain ⟨a4, ha4⟩ : ∃ a4, a4 =
            (if (b.g.multisheets && hasPlaceholder arg) = true then a1.nextArg else a1) :=
            ⟨_, rfl⟩
          obtain ⟨b4, hb4⟩ : ∃ b4, b4 =
            (if (b.g.multisheets && hasPlaceholder arg) = true then b1.nextArg else b1) :=
            ⟨_, rfl⟩
          rw [← ha4, ← hb4]
          have h3 : SameResolution a4 b4 := by
            rw [ha4, hb4]
            split
            · exact sameResolution_nextArg h2
            · exact h2
          have hla : a4.log = a1.log := by rw [ha4]; split <;> rfl
          have hlb : b4.log = b1.log := by rw [hb4]; split <;> rfl
          have houta : ∀ n ∈ outs, n ∈ outputNames a4.log := by
            intro n hn
            rw [hla, hra.2.2.1, outputNames_append]
            rw [hoa, List.nil_append] at hn
            exact List.mem_append_right _ hn
          have houtb : ∀ n ∈ outs, n ∈ outputNames b4.log := by
            intro n hn
            rw [hlb, hrb.2.2.1, outputNames_append]
            rw [hob, List.nil_append] at hn
            exact List.mem_append_right _ hn
          rcases selected_sheet_cases env argv nr iw (b.g.multisheets && hasPlaceholder arg)
            names outs a4 houta with ⟨s, hs⟩ | ⟨a3, ra, -, ea⟩
          · exact Or.inr (Or.inl (Or.inl ⟨s, hs⟩))
          rcases selected_sheet_cases env argv nr iw (b.g.multisheets && hasPlaceholder arg)
            names outs b4 houtb with ⟨s, hs⟩ | ⟨b3, rb, -, eb⟩
          · exact Or.inr (Or.inr (Or.inl ⟨s, hs⟩))
          left
          exact (congrArg₂ IterRel ea eb).mpr (sheetEnd_rel argv iw _
            (sameResolution_trans (sameResolution_symm ra) (sameResolution_trans h3 rb)))
        | sheetEnd b1 => intro h2; exact h2.elim
        | fatal e b1 => intro h2; exact h2.elim
        | undefined => intro h2; exact h2.elim
      | sheetEnd a1 => intro _ ra; exact ra.elim
      | fatal e a1 =>
        cases resolveOutputs env argv nr (b.g.multisheets && hasPlaceholder arg)
          b.g.outputCount 0 [] b with
        | ok n2 b1 => intro h2; exact h2.elim
        | sheetEnd b1 => intro h2; exact h2.elim
        | fatal e b1 => intro h2 _ _; exact Or.inl h2
        | undefined => intro h2; exact h2.elim
      | undefined =>
        cases resolveOutputs env argv nr (b.g.multisheets && hasPlaceholder arg)
          b.g.outputCount 0 [] b with
        | ok n2 b1 => intro h2; exact h2.elim
        | sheetEnd b1 => intro h2; exact h2.elim
        | fatal e b1 => intro h2; exact h2.elim
        | undefined => intro h2 _ _; exact Or.inl h2
    · right; left
      refine outputsAndProcess_feedback env argv nr iw names a arg (by rw [ho]; exact hl)
        (by rw [ho]; exact ha) ?_
      rw [hms, hoc]
      exact h1
    · right; right
      exact outputsAndProcess_feedback env argv nr iw names b arg hl ha h1

/-- The body of the loop when the resolution of the input names ends in one of the
ways that the comparison leaves aside: so does the pass. -/
theorem sheetBody_feedback [Zero Angle] [Neg Angle] [DecidableEq Angle]
    (env : Env Angle) (argv : List String) (nr : Int) (iw : Bool) (st : RunState)
    (hb : (resolveInputs env argv nr iw st.g.inputCount 0 [] st).Bad) :
    (sheetBody env argv nr iw st).Bad := by
  simp only [sheetBody]
  revert hb
  cases resolveInputs env argv nr iw st.g.inputCount 0 [] st with
  | ok ins st1 =>
    intro hb
    simp only []
    refine iterBad_of_ext ?_ _ (outputsAndProcess_ext env argv nr iw ins _ _ (ext_refl _))
    split
    · exact hb
    · exact hb
  | sheetEnd st1 => intro hb; exact sheetEnd_feedback argv iw false st1 hb
  | fatal e st1 => intro hb; exact Or.inr hb
  | undefined => intro _; exact Or.inr trivial

/-- One pass of the sheet loop in two states that agree in what name resolution
reads: the two passes end in the same way, unless one of them ends in a way that
the comparison leaves aside. -/
theorem sheetIteration_rel [Zero Angle] [Neg Angle] [DecidableEq Angle]
    (env : Env Angle) (argv : List String) (nr : Int) {a b : RunState}
    (h : SameResolution a b) (hwa : WrittenResolved a) (hwb : WrittenResolved b) :
    IterRel (sheetIteration env argv nr a) (sheetIteration env argv nr b) ∨
      (sheetIteration env argv nr a).Bad ∨ (sheetIteration env argv nr b).Bad := by
  obtain ⟨-, -, -, -, hic, -, hms, -⟩ := sameResolution_reads h
  have ho := h.optind
  have body : ∀ iw : Bool,
      IterRel (sheetBody env argv nr iw a) (sheetBody env argv nr iw b) ∨
      (sheetBody env argv nr iw a).Bad ∨ (sheetBody env argv nr iw b).Bad := by
    intro iw
    have h1 := resolveInputs_rel env argv nr iw b.g.inputCount 0 [] a b h hwa hwb
    rcases h1 with h1 | h1 | h1
    · have ea := resolveInputs_ext env argv nr iw b.g.inputCount 0 [] a
      have eb := resolveInputs_ext env argv nr iw b.g.inputCount 0 [] b
      simp only [sheetBody, hic]
      revert ea eb h1
      cases resolveInputs env argv nr iw b.g.inputCount 0 [] a with
      | ok ins a1 =>
        cases resolveInputs env argv nr iw b.g.inputCount 0 [] b with
        | ok ins2 b1 =>
          rintro ⟨rfl, h2⟩ ea eb
          simp only []
          have h3 : SameResolution (if iw = true then a1.nextArg else a1)
              (if iw = true then b1.nextArg else b1) := by
            split
            · exact sameResolution_nextArg h2
            · exact h2
          refine outputsAndProcess_rel env argv nr iw ins h3 ?_ ?_
          · split
            · exact ea.2 hwa
            · exact ea.2 hwa
          · split
            · exact eb.2 hwb
            · exact eb.2 hwb
        | sheetEnd b1 => intro h2; exact h2.elim
        | fatal e b1 => intro h2; exact h2.elim
        | undefined => intro h2; exact h2.elim
      | sheetEnd a1 =>
        cases resolveInputs env argv nr iw b.g.inputCount 0 [] b with
        | ok n2 b1 => intro h2; exact h2.elim
        | sheetEnd b1 => intro h2 _ _; exact Or.inl (sheetEnd_rel argv iw false h2)
        | fatal e b1 => intro h2; exact h2.elim
        | undefined => intro h2; exact h2.elim
      | fatal e a1 =>
        cases resolveInputs env argv nr iw b.g.inputCount 0 [] b with
        | ok n2 b1 => intro h2; exact h2.elim
        | sheetEnd b1 => intro h2; exact h2.elim
        | fatal e b1 => intro h2 _ _; exact Or.inl h2
        | undefined => intro h2; exact h2.elim
      | undefined =>
        cases resolveInputs env argv nr iw b.g.inputCount 0 [] b with
        | ok n2 b1 => intro h2; exact h2.elim
        | sheetEnd b1 => intro h2; exact h2.elim
        | fatal e b1 => intro h2; exact h2.elim
        | undefined => intro h2 _ _; exact Or.inl h2
    · right; left
      refine sheetBody_feedback env argv nr iw a ?_
      rw [hic]
      exact h1
    · right; right
      exact sheetBody_feedback env argv nr iw b h1
  unfold sheetIteration
  rw [hms, ho]
  by_cases hm : b.g.multisheets = true
  · rw [if_pos hm, if_pos hm]
    cases ha : argv[b.optind]? with
    | none => exact Or.inl trivial
    | some arg => exact body (hasPlaceholder arg)
  · rw [if_neg hm, if_neg hm]
    exact body false

/-- The sheet loop after a pass that ended in one of the ways that the comparison
leaves aside: so does the run. -/
theorem sheetLoop_feedback [Zero Angle] [Neg Angle] [DecidableEq Angle]
    (env : Env Angle) (argv : List String) (fuel : Nat) (nr : Int) (st : RunState)
    (hc : st.g.options.endSheet = -1 ∨ nr ≤ st.g.options.endSheet)
    (hb : (sheetIteration env argv nr st).Bad) :
    RunBad (sheetLoop env argv (fuel + 1) nr st) := by
  simp only [sheetLoop, if_pos hc]
  rcases hb with ⟨s, hs⟩ | hb
  · rw [hs]
    exact Or.inr (Or.inl rfl)
  · revert hb
    cases sheetIteration env argv nr st with
    | next s =>
      intro hb
      exact Or.inr (Or.inr (feedback_of_ext hb (sheetLoop_ext env argv fuel (nr + 1) s)))
    | stop s => intro hb; exact Or.inr (Or.inr hb)
    | fatal e s => intro hb; exact Or.inr (Or.inr hb)
    | undefined => intro _; exact Or.inl rfl

/-- The sheet loop from two states that agree in what name resolution reads: the two
runs end in the same way and in states that agree again, unless one of them ends
in a way that the comparison leaves aside. -/
theorem sheetLoop_rel [Zero Angle] [Neg Angle] [DecidableEq Angle]
    (env : Env Angle) (argv : List String) :
    ∀ (fuel : Nat) (nr : Int) (a b : RunState), SameResolution a b →
      WrittenResolved a → WrittenResolved b →
      ((sheetLoop env argv fuel nr a).1 = (sheetLoop env argv fuel nr b).1 ∧
        SameResolution (sheetLoop env argv fuel nr a).2 (sheetLoop env argv fuel nr b).2) ∨
      RunBad (sheetLoop env argv fuel nr a) ∨ RunBad (sheetLoop env argv fuel nr b) := by
  intro fuel
  induction fuel with
  | zero => intro nr a b h _ _; exact Or.inl ⟨rfl, h⟩
  | succ fuel ih =>
    intro nr a b h hwa hwb
    have he := (sameResolution_reads h).1
    by_cases hc : b.g.options.endSheet = -1 ∨ nr ≤ b.g.options.endSheet
    · rcases sheetIteration_rel env argv nr h hwa hwb with h1 | h1 | h1
      · have ea := sheetIteration_ext env argv nr a
        have eb := sheetIteration_ext env argv nr b
        simp only [sheetLoop, he]
        rw [if_pos hc, if_pos hc]
        revert ea eb h1
        cases sheetIteration env argv nr a with
        | next a1 =>
          cases sheetIteration env argv nr b with
          | next b1 => intro h1 ea eb; exact ih (nr + 1) a1 b1 h1 (ea.2 hwa) (eb.2 hwb)
          | stop b1 => intro h1; exact h1.elim
          | fatal e b1 => intro h1; exact h1.elim
          | undefined => intro h1; exact h1.elim
        | stop a1 =>
          cases sheetIteration env argv nr b with
          | next b1 => intro h1; exact h1.elim
          | stop b1 => intro h1 _ _; exact Or.inl ⟨rfl, h1⟩
          | fatal e b1 => intro h1; exact h1.elim
          | undefined => intro h1; exact h1.elim
        | fatal e a1 =>
          cases sheetIteration env argv nr b with
          | next b1 => intro h1; exact h1.elim
          | stop b1 => intro h1; exact h1.elim
          | fatal f b1 => intro h1 _ _; exact Or.inl ⟨by rw [h1.1], h1.2⟩
          | undefined => intro h1; exact h1.elim
        | undefined =>
          cases sheetIteration env argv nr b with
          | next b1 => intro h1; exact h1.elim
          | stop b1 => intro h1; exact h1.elim
          | fatal e b1 => intro h1; exact h1.elim
          | undefined => intro _ _ _; exact Or.inl ⟨rfl, h⟩
      · exact Or.inr (Or.inl (sheetLoop_feedback env argv fuel nr a (by rw [he]; exact hc) h1))
      · exact Or.inr (Or.inr (sheetLoop_feedback env argv fuel nr b hc h1))
    · simp only [sheetLoop, he]
      rw [if_neg hc, if_neg hc]
      exact Or.inl ⟨rfl, h⟩

theorem initialOptions_withExclude (g : Globals) (ex : MultiIndex) :
    initialOptions (g.withExclude ex) = { initialOptions g with excludeMultiIndex := ex } := by
  unfold initialOptions singleSheetEnd defaultStartOutput defaultStartInput Globals.withExclude
  split <;> split <;> split <;> rfl

/-- The states in which two runs start that differ in the exclude set only. -/
theorem initialState_withExclude (g : Globals) (ex1 ex2 : MultiIndex) :
    SameResolution (initialState (g.withExclude ex1)) (initialState (g.withExclude ex2)) ∧
    (initialState (g.withExclude ex1)).g.options.startSheet =
      (initialState (g.withExclude ex2)).g.options.startSheet := by
  unfold initialState
  rw [initialOptions_withExclude, initialOptions_withExclude]
  exact ⟨⟨rfl, rfl, rfl, rfl, rfl, rfl⟩, rfl⟩

theorem initialState_writtenResolved (g : Globals) : WrittenResolved (initialState g) := by
  intro n hn
  cases hn

end Theorems

end Unpaper
